import Mathlib

/-!
# Robust model estimation: RANSAC and LMedS (`cvmodelest.cpp`)

A shallow embedding of `CvModelEstimator2` and `cvRANSACUpdateNumIters`.

Conventions of the embedding:

* a finite `double` is an element of a linearly ordered field `R` with a floor function, a
  `double` that may be infinite or a NaN is an element of `Dbl R`.  The operations of
  `findInliers`, `checkSubset` and of the median and the threshold of `runLMeDS` round their
  results as the argument `rd : Rounding R` says: `Rounding.ieee` is IEEE 754 arithmetic
  (binary64 for `double`, binary32 for `float`, round to nearest, ties to even),
  `Rounding.exact` is arithmetic without rounding.  The formula of `cvRANSACUpdateNumIters`
  and the trial count of `runLMeDS` are evaluated exactly.  The libm functions `log` and
  `sqrt` are arguments of the functions that call them (the theorems instantiate them with
  `Real.log` and `Real.sqrt`);
* a `float` error value is a finite binary32 bit pattern (`CFloat`), so that the `int` view
  used by `icvSortDistances` can be told apart from the numeric value;
* an `int` is an element of `ℤ`; loop counters that start at `0` are natural numbers;
* a `CvMat` holding points, mask bytes or errors is the list of its elements; the model
  matrix is an element of an arbitrary type `M`;
* `CV_ERROR` and a failed `CV_ASSERT` end the call with a `Fault`;
* loops that need not terminate take a fuel argument and yield `Fault.outOfFuel`
  (or `none`) when it is used up;
* the random generator is the stream `rng : ℕ → ℕ` of the values `cvRandInt` will return.
-/

namespace ModelEst

/-- Ways in which a call ends without returning a value: the two OpenCV status codes raised in
this file (`CV_StsOutOfRange` by `CV_ERROR`, `CV_StsInternal` by `CV_ASSERT`) and fuel
exhaustion of the embedding. -/
inductive Fault where
  | stsOutOfRange
  | stsInternal
  | outOfFuel
deriving DecidableEq

/-! ## Numeric constants and `cvRANSACUpdateNumIters` -/

section Numeric

variable {R : Type} [LinearOrderedField R] [FloorRing R]

/-- The constant `DBL_MIN`, the least positive normal double `2^-1022`. -/
def DBL_MIN : R := 1 / 2 ^ 1022

/-- The constant `DBL_MAX`, the largest finite double `(2 - 2^-52) * 2^1023`. -/
def DBL_MAX : R := (2 ^ 53 - 1) * 2 ^ 971

/-- The constant `FLT_EPSILON`, `2^-23`. -/
def FLT_EPSILON : R := 1 / 2 ^ 23

/-- Modelled from the spec: `cvRound` is declared in the core headers, which are not part of
this file; it is the `round` of the iteration-budget formula, rounding to the nearest integer
with ties going to the even neighbour. -/
def cvRound (x : R) : ℤ :=
  let f := ⌊x⌋
  let r := x - f
  if r < 1 / 2 then f
  else if 1 / 2 < r then f + 1
  else if f % 2 = 0 then f else f + 1

/-- The argument of `log` in `num = log(num)`: `MAX(1. - p, DBL_MIN)` after `p` was clamped
to `[0, 1]`. -/
def numArg (p : R) : R := max (1 - min (max p 0) 1) DBL_MIN

/-- The argument of `log` in `denom = log(denom)`: `1. - pow(1. - ep, model_points)` after
`ep` was clamped to `[0, 1]`. -/
def denomArg (ep : R) (model_points : ℤ) : R := 1 - (1 - min (max ep 0) 1) ^ model_points

/-- The function `cvRANSACUpdateNumIters(p, ep, model_points, max_iters)`. -/
def cvRANSACUpdateNumIters (log : R → R) (p ep : R) (model_points max_iters : ℤ) :
    Except Fault ℤ :=
  if model_points ≤ 0 then .error .stsOutOfRange
  else
    let num := numArg p
    let denom := denomArg ep model_points
    if denom < DBL_MIN then .ok 0
    else
      let num := log num
      let denom := log denom
      .ok (if denom ≥ 0 ∨ -num ≥ max_iters * (-denom) then max_iters else cvRound (num / denom))

end Numeric

/-! ## `float` values and their `int` view -/

/-- A finite `float`: sign bit `neg` and the remaining 31 bits `mag` (biased exponent in the
upper 8 bits, fraction in the lower 23), the exponent field being below 255. -/
structure CFloat where
  neg : Bool
  mag : ℕ
  finite : mag < 2139095040
deriving DecidableEq

namespace CFloat

/-- The bits read as a 32-bit two's-complement `int` (the `data.i` view of `data.fl`). -/
def toInt (x : CFloat) : ℤ := if x.neg then (x.mag : ℤ) - 2147483648 else x.mag

/-- The absolute value of the number, times `2^149`. -/
def scaled (x : CFloat) : ℕ :=
  if x.mag / 8388608 = 0 then x.mag % 8388608
  else (8388608 + x.mag % 8388608) * 2 ^ (x.mag / 8388608 - 1)

/-- The number the bits stand for. -/
def toRat (x : CFloat) : ℚ :=
  if x.neg then -((x.scaled : ℚ) / 2 ^ 149) else (x.scaled : ℚ) / 2 ^ 149

/-- The value `+0.0f`. -/
def zero : CFloat := ⟨false, 0, by decide⟩

end CFloat

instance : Inhabited CFloat := ⟨CFloat.zero⟩

/-! ## `double` values and rounding -/

/-- A value of type `double` as the arithmetic of the program can produce it: a finite number,
`+inf` or `-inf` (`inf false`, `inf true`), or a NaN.  The two zeros are not told apart; no
operation of this file depends on the sign of a zero (the only divisor that can be zero is the
non-negative integer `count - modelPoints`). -/
inductive Dbl (R : Type) where
  | fin (x : R)
  | inf (neg : Bool)
  | nan
deriving DecidableEq

namespace Dbl

variable {R : Type} [LinearOrderedField R]

/-- The unary minus. -/
def neg : Dbl R → Dbl R
  | fin x => fin (-x)
  | inf s => inf (!s)
  | nan => nan

/-- The function `fabs`. -/
def abs : Dbl R → Dbl R
  | fin x => fin |x|
  | inf _ => inf false
  | nan => nan

/-- The sum `a + b`, `rnd` rounding the exact sum of two finite numbers. -/
def add (rnd : R → Dbl R) : Dbl R → Dbl R → Dbl R
  | fin a, fin b => rnd (a + b)
  | fin _, inf s => inf s
  | inf s, fin _ => inf s
  | inf s, inf s' => if s = s' then inf s else nan
  | _, _ => nan

/-- The difference `a - b`, `rnd` rounding the exact difference of two finite numbers. -/
def sub (rnd : R → Dbl R) : Dbl R → Dbl R → Dbl R
  | fin a, fin b => rnd (a - b)
  | fin _, inf s => inf (!s)
  | inf s, fin _ => inf s
  | inf s, inf s' => if s = s' then nan else inf s
  | _, _ => nan

/-- The product `a * b`, `rnd` rounding the exact product of two finite numbers. -/
def mul (rnd : R → Dbl R) : Dbl R → Dbl R → Dbl R
  | fin a, fin b => rnd (a * b)
  | fin a, inf s => if a = 0 then nan else inf (xor s (decide (a < 0)))
  | inf s, fin b => if b = 0 then nan else inf (xor s (decide (b < 0)))
  | inf s, inf s' => inf (xor s s')
  | _, _ => nan

/-- The quotient `a / b`, `rnd` rounding the exact quotient of two finite numbers; a zero
divisor counts as `+0`. -/
def div (rnd : R → Dbl R) : Dbl R → Dbl R → Dbl R
  | fin a, fin b =>
    if b = 0 then (if a = 0 then nan else inf (decide (a < 0))) else rnd (a / b)
  | fin _, inf _ => fin 0
  | inf s, fin b => inf (xor s (decide (b < 0)))
  | _, _ => nan

/-- The function `sqrt`, `sqrt_fin` being the exact root of a finite number that is not
negative and `rnd` rounding it. -/
def sqrt (rnd : R → Dbl R) (sqrt_fin : R → R) : Dbl R → Dbl R
  | fin x => if x < 0 then nan else rnd (sqrt_fin x)
  | inf s => if s then nan else inf false
  | nan => nan

/-- The comparison `a < b`; it is false when an operand is a NaN. -/
def lt : Dbl R → Dbl R → Bool
  | fin a, fin b => decide (a < b)
  | fin _, inf s => !s
  | inf s, fin _ => s
  | inf s, inf s' => s && !s'
  | _, _ => false

/-- The comparison `a <= b`; it is false when an operand is a NaN. -/
def le : Dbl R → Dbl R → Bool
  | fin a, fin b => decide (a ≤ b)
  | fin _, inf s => !s
  | inf s, fin _ => s
  | inf s, inf s' => s || !s'
  | _, _ => false

end Dbl

section Rounding

variable {R : Type} [LinearOrderedField R] [FloorRing R]

/-- The integer nearest to `x`, a tie going to the even neighbour (the rounding of IEEE 754
arithmetic in its default mode). -/
def rint (x : R) : ℤ :=
  let f := ⌊x⌋
  let r := x - f
  if r < 1 / 2 then f
  else if 1 / 2 < r then f + 1
  else if f % 2 = 0 then f else f + 1

/-- The result of an arithmetic operation whose exact value is `x`, in the binary format with
`p` bits of precision and the exponent range `emin .. emax`: `x` is rounded to the nearest
multiple of the unit in the last place of its binade (subnormal below `2^emin`), a tie going
to the even multiple, and a result of magnitude `2^(emax+1)` or more is an infinity. -/
def roundBinary (p : ℕ) (emin emax : ℤ) (x : R) : Dbl R :=
  let e := max (Int.log 2 |x|) emin
  let u : R := (2 : R) ^ (e - ((p : ℤ) - 1))
  let r : R := (rint (x / u) : R) * u
  if (2 : R) ^ (emax + 1) ≤ |r| then Dbl.inf (decide (x < 0)) else Dbl.fin r

/-- How the results of the operations on `double` and on `float` values are rounded: `dbl x`
is the `double` that an operation with the exact value `x` yields, `flt x` the `float`
(converted to `double`, which is exact).  Rounding a number never yields a NaN. -/
structure Rounding (R : Type) where
  dbl : R → Dbl R
  flt : R → Dbl R
  dbl_ne_nan : ∀ x, dbl x ≠ Dbl.nan
  flt_ne_nan : ∀ x, flt x ≠ Dbl.nan

/-- IEEE 754 arithmetic: binary64 for `double`, binary32 for `float`, round to nearest, ties
to even. -/
def Rounding.ieee : Rounding R where
  dbl := roundBinary 53 (-1022) 1023
  flt := roundBinary 24 (-126) 127
  dbl_ne_nan := fun x => by
    unfold roundBinary
    simp only
    split_ifs <;> exact fun h => Dbl.noConfusion h
  flt_ne_nan := fun x => by
    unfold roundBinary
    simp only
    split_ifs <;> exact fun h => Dbl.noConfusion h

end Rounding

/-- Exact arithmetic: no operation rounds or overflows. -/
def Rounding.exact {R : Type} : Rounding R where
  dbl := Dbl.fin
  flt := Dbl.fin
  dbl_ne_nan := fun _ h => Dbl.noConfusion h
  flt_ne_nan := fun _ h => Dbl.noConfusion h

/-- The floats `1.0f, 2.0f, 3.0f, 4.0f, 5.0f` (bit patterns `0x3F800000`, `0x40000000`,
`0x40400000`, `0x40800000`, `0x40A00000`). -/
def exampleErrors5 : List CFloat :=
  [⟨false, 1065353216, by decide⟩, ⟨false, 1073741824, by decide⟩,
   ⟨false, 1077936128, by decide⟩, ⟨false, 1082130432, by decide⟩,
   ⟨false, 1084227584, by decide⟩]

/-- The floats `1.0f, 2.0f, 3.0f, 4.0f`. -/
def exampleErrors4 : List CFloat :=
  [⟨false, 1065353216, by decide⟩, ⟨false, 1073741824, by decide⟩,
   ⟨false, 1077936128, by decide⟩, ⟨false, 1082130432, by decide⟩]

/-- The float `1.0f` and its successor `1 + 2^-23` (bit patterns `0x3F800000`,
`0x3F800001`). -/
def closeErrors : List CFloat :=
  [⟨false, 1065353216, by decide⟩, ⟨false, 1065353217, by decide⟩]

/-! ## Loops -/

/-- The loop `for( ; k < n; k++ ) if( stop k ) break;` run for at most `gap` rounds; the
value is the final `k`. -/
def forBreakAux (stop : ℕ → Bool) : ℕ → ℕ → ℕ
  | 0, k => k
  | gap + 1, k => if stop k then k else forBreakAux stop gap (k + 1)

/-- The loop `for( k = 0; k < n; k++ ) if( stop k ) break;`; the value is the final `k`,
which is below `n` exactly when the loop was left through `break`. -/
def forBreak (stop : ℕ → Bool) (n : ℕ) : ℕ := forBreakAux stop n 0

/-- Modelled from the spec: `icvSortDistances` is generated by the macro `CV_IMPLEMENT_QSORT`
with element type `int` and comparison `CV_LT`, which is not part of this file; it sorts the
first `total` elements of the array in ascending order of their `int` values. -/
def icvSortDistances (arr : List CFloat) (total : ℕ) : List CFloat :=
  (arr.take total).insertionSort (fun a b => a.toInt ≤ b.toInt) ++ arr.drop total

/-- The median of the specification: the middle element of the ascending-sorted error
values for an odd number of them, the average of the two central elements for an even
number. -/
def specMedian {R : Type} [LinearOrderedField R] (errors : List R) : R :=
  let sorted := errors.insertionSort (fun a b => a ≤ b)
  if errors.length % 2 = 1 then sorted.getD (errors.length / 2) 0
  else (sorted.getD (errors.length / 2 - 1) 0 + sorted.getD (errors.length / 2) 0) / 2

/-! ## The estimator -/

/-- The type `CvPoint2D64f`. -/
structure CvPoint2D64f (R : Type) where
  x : R
  y : R

/-- The part of a `CvModelEstimator2` object that the engine uses: the fields `modelPoints`
and `checkPartialSubsets` and the virtual functions.  `runKernel` yields the number of models
and the contents of the `models` buffer, row block by row block; the fields `modelSize` and
`maxBasicSolutions`, which only size that buffer, are left out.  `computeReprojError` yields
the contents it leaves in the error buffer, one finite `float` for each correspondence. -/
structure Kernel (P M : Type) where
  modelPoints : ℤ
  checkPartialSubsets : Bool
  runKernel : List P → List P → ℤ × (ℕ → M)
  computeReprojError : List P → List P → M → List CFloat
  computeReprojError_length :
    ∀ m1 m2 model, (computeReprojError m1 m2 model).length = m1.length
  checkSubset : List P → ℤ → Bool

/-- An estimator used in examples: points and models are natural numbers, a sample has four
points, the fit yields one model (the sum of the sample), every subset is accepted, and the
error of the correspondence with source point `p` is `0.0f` for `p < 3` and `1000.0f`
(bit pattern `0x447A0000`) otherwise, whatever the model. -/
def exampleKernel : Kernel ℕ ℕ where
  modelPoints := 4
  checkPartialSubsets := true
  runKernel := fun ms1 _ => (1, fun _ => ms1.sum)
  computeReprojError := fun m1 _ _ =>
    m1.map (fun p => if p < 3 then CFloat.zero else ⟨false, 1148846080, by decide⟩)
  computeReprojError_length := fun m1 _ _ => List.length_map _ _
  checkSubset := fun _ _ => true

/-- The estimator `exampleKernel` with `checkPartialSubsets` switched off. -/
def exampleKernelWhole : Kernel ℕ ℕ := { exampleKernel with checkPartialSubsets := false }

/-- An estimator used in examples: one model point, `checkPartialSubsets` switched off, and a
degeneracy test that rejects every subset. -/
def rejectingKernel : Kernel ℕ ℕ where
  modelPoints := 1
  checkPartialSubsets := false
  runKernel := fun _ _ => (0, fun _ => 0)
  computeReprojError := fun m1 _ _ => m1.map (fun _ => CFloat.zero)
  computeReprojError_length := fun _ _ _ => List.length_map _ _
  checkSubset := fun _ _ => false

/-- An estimator used in examples: points and models are natural numbers, a sample has two
points, every subset is accepted, and the fit yields the four models `0, 1, 2, 3`.  At a
source point `p < 5` the error of model `i` is `0.0f` if `p` is below `3, 4, 4, 2`
respectively and `3.0f` otherwise; at a source point `p >= 5` it is `2.0f` for the model `0`,
`3.0f` for the model `3`, and for the models `1` and `2` it is `1.0f` if `p < 9` and
`65536.0f` otherwise.  (Bit patterns `0x3F800000`, `0x40000000`, `0x40400000`, `0x47800000`
for `1.0f`, `2.0f`, `3.0f`, `65536.0f`.) -/
def rankedKernel : Kernel ℕ ℕ where
  modelPoints := 2
  checkPartialSubsets := true
  runKernel := fun _ _ => (4, fun i => i)
  computeReprojError := fun m1 _ model =>
    m1.map (fun p =>
      if p < 5 then
        (if p < [3, 4, 4, 2].getD model 0 then CFloat.zero else ⟨false, 1077936128, by decide⟩)
      else if model = 0 then ⟨false, 1073741824, by decide⟩
      else if model = 3 then ⟨false, 1077936128, by decide⟩
      else if p < 9 then ⟨false, 1065353216, by decide⟩
      else ⟨false, 1199570944, by decide⟩)
  computeReprojError_length := fun m1 _ _ => List.length_map _ _
  checkSubset := fun _ _ => true

/-- What a run records about itself, in the order of the calls. -/
inductive Event (P M R : Type) where
  /-- a call of `getSubset`: its result and the number of random draws it made -/
  | subset (found : Bool) (draws : ℕ)
  /-- a call of `runKernel`: its two arguments and its result -/
  | kernel (ms1 ms2 : List P) (nmodels : ℤ)
  /-- a candidate scored by `runRANSAC`: its inlier count, whether it became the best model,
  and the value of `niters` afterwards -/
  | scored (model : M) (goodCount : ℤ) (adopted : Bool) (niters : ℤ)
  /-- a candidate scored by `runLMeDS`: its median, and whether it became the best model -/
  | median (model : M) (med : Dbl R) (adopted : Bool)

/-- Whether the event is a call of `runKernel`. -/
def Event.isKernel {P M R : Type} : Event P M R → Bool
  | .kernel _ _ _ => true
  | _ => false

/-- Whether the event is a call of `getSubset`. -/
def Event.isSubset {P M R : Type} : Event P M R → Bool
  | .subset _ _ => true
  | _ => false

/-- Whether the event is the scoring of a candidate by `runRANSAC`. -/
def Event.isScored {P M R : Type} : Event P M R → Bool
  | .scored _ _ _ _ => true
  | _ => false

/-- Whether the event is the scoring of a candidate by `runLMeDS`. -/
def Event.isMedian {P M R : Type} : Event P M R → Bool
  | .median _ _ _ => true
  | _ => false

/-- The number of calls of `runKernel` recorded in a trace. -/
def kernelCalls {P M R : Type} (trace : List (Event P M R)) : ℕ :=
  trace.countP Event.isKernel

/-- The number of calls of `getSubset` recorded in a trace. -/
def subsetCalls {P M R : Type} (trace : List (Event P M R)) : ℕ :=
  trace.countP Event.isSubset

/-- The values of `niters` recorded by the scorings of `runRANSAC` in a trace, in the order of
the scorings. -/
def budgets {P M R : Type} (trace : List (Event P M R)) : List ℤ :=
  trace.filterMap (fun e => match e with
    | .scored _ _ _ n => some n
    | _ => none)

/-- Every candidate that a trace of `runRANSAC` records as adopted has more inliers than each
candidate scored before it. -/
def StrictAdoptions {P M R : Type} (trace : List (Event P M R)) : Prop :=
  ∀ pre post m g n, trace = pre ++ Event.scored m g true n :: post →
    ∀ m' g' a' n', Event.scored m' g' a' n' ∈ pre → g' < g

/-- What a run leaves behind: the returned flag, the caller's `model` and `mask`, the record of
the calls and the number of random values consumed. -/
structure RunResult (P M R : Type) where
  result : Bool
  model : M
  mask : List ℕ
  trace : List (Event P M R)
  pos : ℕ

namespace CvModelEstimator2

section Default

variable {R : Type} [LinearOrderedField R]

/-- The default `CvModelEstimator2::checkSubset( m, count )` for `CV_64FC2` points, whose
coordinates are finite doubles.  Every difference, product and sum is a `double` operation;
the constant `FLT_EPSILON` is converted to `double` without rounding. -/
def checkSubset (rd : Rounding R) (m : List (CvPoint2D64f R)) (count : ℤ) : Bool :=
  let i := count - 1
  let ptr := fun n : ℕ => m.getD n ⟨0, 0⟩
  let j := forBreak (fun j =>
    let dx1 := rd.dbl ((ptr j).x - (ptr i.toNat).x)
    let dy1 := rd.dbl ((ptr j).y - (ptr i.toNat).y)
    let k := forBreak (fun k =>
      let dx2 := rd.dbl ((ptr k).x - (ptr i.toNat).x)
      let dy2 := rd.dbl ((ptr k).y - (ptr i.toNat).y)
      Dbl.lt (Dbl.abs (Dbl.sub rd.dbl (Dbl.mul rd.dbl dx2 dy1) (Dbl.mul rd.dbl dy2 dx1)))
        (Dbl.mul rd.dbl (Dbl.fin FLT_EPSILON)
          (Dbl.add rd.dbl (Dbl.add rd.dbl (Dbl.add rd.dbl (Dbl.abs dx1) (Dbl.abs dy1))
            (Dbl.abs dx2)) (Dbl.abs dy2)))) j
    decide (k < j)) i.toNat
  decide ((j : ℤ) = i)

end Default

section Engine

variable {P M R : Type} [LinearOrderedField R] [FloorRing R]

/-- The loop of `findInliers`: `goodCount += mask[i] = err[i] <= threshold`, the `float`
`err[i]` being converted to `double` for the comparison. -/
def findInliersLoop (threshold : Dbl R) : List CFloat → ℤ → ℤ × List ℕ
  | [], goodCount => (goodCount, [])
  | e :: rest, goodCount =>
    let b : ℕ := if Dbl.le (Dbl.fin ((e.toRat : ℚ) : R)) threshold then 1 else 0
    let r := findInliersLoop threshold rest (goodCount + b)
    (r.1, b :: r.2)

/-- The function `findInliers( m1, m2, model, _err, _mask, threshold )`: the value is
`goodCount`, the new contents of `_err` and the new contents of `_mask`.  The statement
`threshold *= threshold` is a `double` multiplication. -/
def findInliers (rd : Rounding R) (k : Kernel P M) (m1 m2 : List P) (model : M)
    (mask : List ℕ) (threshold : Dbl R) : ℤ × List CFloat × List ℕ :=
  let err := k.computeReprojError m1 m2 model
  let count := err.length
  let threshold := Dbl.mul rd.dbl threshold threshold
  let r := findInliersLoop threshold err 0
  (r.1, err, r.2 ++ mask.drop count)

/-- The local variables of `getSubset`, the random values consumed so far (`pos`) and the
`count` arguments of the calls of `checkSubset` made so far (`checks`). -/
structure SubsetState (P : Type) where
  i : ℕ
  iters : ℤ
  idx : List ℕ
  ms1 : List P
  ms2 : List P
  pos : ℕ
  checks : List ℤ

/-- The test `!checkSubset( ms1, count ) || !checkSubset( ms2, count )` negated, with the
`count` arguments of the calls made: the second call is made only if the first succeeds. -/
def checkBoth (k : Kernel P M) (ms1 ms2 : List P) (count : ℤ) : Bool × List ℤ :=
  if !k.checkSubset ms1 count then (false, [count])
  else (k.checkSubset ms2 count, [count, count])

/-- The body of the inner `for` loop of `getSubset` together with its increment `iters++`:
one random draw, then either `continue` (the index is already in the sample, or the prefix is
rejected) or the acceptance of slot `i`. -/
def getSubsetStep [Inhabited P] (k : Kernel P M) (rng : ℕ → ℕ) (m1 m2 : List P)
    (s : SubsetState P) : SubsetState P :=
  let idx_i := rng s.pos % 4294967296 % m1.length
  let idx := s.idx.set s.i idx_i
  let j := forBreak (fun j => idx_i == idx.getD j 0) s.i
  if j < s.i then
    { s with idx := idx, pos := s.pos + 1, iters := s.iters + 1 }
  else
    let ms1 := s.ms1.set s.i (m1.getD idx_i default)
    let ms2 := s.ms2.set s.i (m2.getD idx_i default)
    let c := if k.checkPartialSubsets then checkBoth k ms1 ms2 (s.i + 1) else (true, [])
    if !c.1 then
      { s with idx := idx, pos := s.pos + 1, ms1 := ms1, ms2 := ms2,
               checks := s.checks ++ c.2, iters := s.iters + 1 }
    else
      { s with idx := idx, pos := s.pos + 1, ms1 := ms1, ms2 := ms2,
               checks := s.checks ++ c.2, i := s.i + 1, iters := 0 + 1 }

/-- The inner `for` loop of `getSubset`, from the state `s` on:
`for( ; i < modelPoints && iters < maxAttempts; iters++ )`. -/
def getSubsetInner [Inhabited P] (k : Kernel P M) (rng : ℕ → ℕ) (m1 m2 : List P)
    (maxAttempts : ℤ) : ℕ → SubsetState P → Option (SubsetState P)
  | 0, _ => none
  | fuel + 1, s =>
    if (s.i : ℤ) < k.modelPoints ∧ s.iters < maxAttempts then
      getSubsetInner k rng m1 m2 maxAttempts fuel (getSubsetStep k rng m1 m2 s)
    else some s

/-- The outer `for(;;)` loop of `getSubset`: the inner loop restarts at `i = 0`, `iters`
keeps its value. -/
def getSubsetOuter [Inhabited P] (k : Kernel P M) (rng : ℕ → ℕ) (m1 m2 : List P)
    (maxAttempts : ℤ) : ℕ → SubsetState P → Option (SubsetState P)
  | 0, _ => none
  | fuel + 1, s =>
    match getSubsetInner k rng m1 m2 maxAttempts fuel { s with i := 0 } with
    | none => none
    | some s1 =>
      if !k.checkPartialSubsets && decide ((s1.i : ℤ) = k.modelPoints) then
        let c := checkBoth k s1.ms1 s1.ms2 (s1.i + 1)
        if !c.1 then
          getSubsetOuter k rng m1 m2 maxAttempts fuel { s1 with checks := s1.checks ++ c.2 }
        else some { s1 with checks := s1.checks ++ c.2 }
      else some s1

/-- The function `getSubset( m1, m2, ms1, ms2, maxAttempts )`, the generator standing at
`pos`: the returned flag and the final state.  The value is `none` when the fuel runs out. -/
def getSubset [Inhabited P] (k : Kernel P M) (fuel : ℕ) (rng : ℕ → ℕ) (pos : ℕ)
    (m1 m2 ms1 ms2 : List P) (maxAttempts : ℤ) : Option (Bool × SubsetState P) :=
  match getSubsetOuter k rng m1 m2 maxAttempts fuel
      ⟨0, 0, List.replicate k.modelPoints.toNat 0, ms1, ms2, pos, []⟩ with
  | none => none
  | some s => some (decide ((s.i : ℤ) = k.modelPoints), s)

/-- The invariant of the inner loop of `getSubset` when `checkPartialSubsets` is on: every
prefix of the accepted slots passes the degeneracy test on both sides. -/
def PrefixInv (k : Kernel P M) (s : SubsetState P) : Prop :=
  ∀ c : ℕ, 1 ≤ c → c ≤ s.i →
    k.checkSubset s.ms1 c = true ∧ k.checkSubset s.ms2 c = true

/-- The invariant of the inner loop of `getSubset` that counts the random draws of a call
started at `pos0`: `iters` lies between `0` and `maxAttempts`, `i` is at most `modelPoints`,
`iters` is at most `1` once all slots are accepted, and the number of draws is at most
`i * (maxAttempts - 1) + iters`. -/
def DrawInv (k : Kernel P M) (maxAttempts : ℤ) (pos0 : ℕ) (s : SubsetState P) : Prop :=
  0 ≤ s.iters ∧ s.iters ≤ maxAttempts ∧ (s.i : ℤ) ≤ k.modelPoints ∧
  ((s.i : ℤ) = k.modelPoints → s.iters ≤ 1) ∧
  (s.pos : ℤ) - pos0 ≤ s.i * (maxAttempts - 1) + s.iters

/-- The invariant of the loops of `getSubset`: the buffers `idx`, `ms1` and `ms2` have
`modelPoints` slots, and each slot `a` below `i` holds an index `idx[a]` below the number of
correspondences that differs from the indices of the earlier slots, and the pair of points at
that index. -/
def SubsetInv [Inhabited P] (k : Kernel P M) (m1 m2 : List P) (s : SubsetState P) : Prop :=
  s.idx.length = k.modelPoints.toNat ∧ s.ms1.length = k.modelPoints.toNat ∧
  s.ms2.length = k.modelPoints.toNat ∧
  ∀ a, a < s.i →
    s.idx.getD a 0 < m1.length ∧
    s.ms1.getD a default = m1.getD (s.idx.getD a 0) default ∧
    s.ms2.getD a default = m2.getD (s.idx.getD a 0) default ∧
    ∀ b, b < a → s.idx.getD b 0 ≠ s.idx.getD a 0

/-- The variables of `runRANSAC` that change during the run.  `maskBuf` and `tmpBuf` are the
contents of the caller's mask (`mask0`) and of the matrix allocated for `tmask`; `swapped`
holds when `mask` points to the allocated matrix and `tmask` to the caller's. -/
structure RansacState (P M R : Type) where
  niters : ℤ
  maxGoodCount : ℤ
  model : M
  maskBuf : List ℕ
  tmpBuf : List ℕ
  swapped : Bool
  ms1 : List P
  ms2 : List P
  pos : ℕ
  trace : List (Event P M R)

/-- The invariant of the loops of `runRANSAC`, for a call with the outputs `model0` and
`mask0`: `maxGoodCount` is not negative, and as long as it is zero the caller's model and mask
are as they were at the call and `mask` still points to the caller's matrix. -/
def RansacInv (model0 : M) (mask0 : List ℕ) (s : RansacState P M R) : Prop :=
  0 ≤ s.maxGoodCount ∧
  (s.maxGoodCount = 0 → s.model = model0 ∧ s.maskBuf = mask0 ∧ s.swapped = false)

/-- The contents of the matrix that `tmask` points to. -/
def RansacState.tmask (s : RansacState P M R) : List ℕ :=
  if s.swapped then s.maskBuf else s.tmpBuf

/-- The state after `buf` was stored in the matrix that `tmask` points to. -/
def RansacState.writeTmask (s : RansacState P M R) (buf : List ℕ) : RansacState P M R :=
  if s.swapped then { s with maskBuf := buf } else { s with tmpBuf := buf }

/-- The contents of the matrix that `mask` points to. -/
def RansacState.bestMask (s : RansacState P M R) : List ℕ :=
  if s.swapped then s.tmpBuf else s.maskBuf

/-- The invariant of the loops of `runRANSAC` on the best candidate, for `N` correspondences:
both mask matrices have `N` elements; `maxGoodCount` lies between `0` and `N` and bounds,
together with `modelPoints - 1`, the inlier count of every candidate scored so far; and once
`maxGoodCount` is positive it is at least `modelPoints`, the matrix `mask` points to holds the
inlier flags of `model` (for the rounded square of the threshold), `maxGoodCount` is the
number of ones among them, and the trace
consists of candidates with fewer inliers, the adoption of `model`, and candidates that were
not adopted.  When `maxGoodCount` has reached `N`, `niters` is `0` and nothing but scorings
follow the adoption. -/
def BestInv (rd : Rounding R) (k : Kernel P M) (m1 m2 : List P) (reprojThreshold : R)
    (s : RansacState P M R) : Prop :=
  s.bestMask.length = m1.length ∧ s.tmask.length = m1.length ∧
  0 ≤ s.maxGoodCount ∧ s.maxGoodCount ≤ m1.length ∧
  (∀ m g a n, Event.scored m g a n ∈ s.trace → g ≤ max s.maxGoodCount (k.modelPoints - 1)) ∧
  StrictAdoptions s.trace ∧
  (0 < s.maxGoodCount →
    k.modelPoints ≤ s.maxGoodCount ∧
    s.bestMask = (k.computeReprojError m1 m2 s.model).map
      (fun e => if Dbl.le (Dbl.fin ((e.toRat : ℚ) : R))
        (rd.dbl (reprojThreshold * reprojThreshold)) then 1 else 0) ∧
    s.maxGoodCount = (s.bestMask.count 1 : ℕ) ∧
    ∃ pre post n, s.trace = pre ++ Event.scored s.model s.maxGoodCount true n :: post ∧
      (∀ m g a n', Event.scored m g a n' ∈ pre → g < s.maxGoodCount) ∧
      (∀ m g a n', Event.scored m g a n' ∈ post → a = false) ∧
      (s.maxGoodCount = m1.length →
        n = 0 ∧ s.niters = 0 ∧ ∀ e ∈ post, e.isScored = true))

/-- The invariant of the loops of `runRANSAC` on the iteration budget, for a call with
`maxIters = cap`: `niters` and `maxGoodCount` are not negative, the values of `niters`
recorded so far never increase, starting from `cap`, and the present `niters` is at most each
of them. -/
def BudgetInv (cap : ℤ) (s : RansacState P M R) : Prop :=
  0 ≤ s.niters ∧ 0 ≤ s.maxGoodCount ∧
  (cap :: budgets s.trace).Pairwise (fun a b => b ≤ a) ∧
  ∀ b ∈ cap :: budgets s.trace, s.niters ≤ b

/-- One round of the loop over the models in `runRANSAC`. -/
def ransacScore (rd : Rounding R) (k : Kernel P M) (log : R → R) (m1 m2 : List P)
    (reprojThreshold confidence : R) (s : RansacState P M R) (model_i : M) :
    Except Fault (RansacState P M R) :=
  let count : ℤ := m1.length
  let r := findInliers rd k m1 m2 model_i s.tmask (Dbl.fin reprojThreshold)
  let goodCount := r.1
  let s1 := s.writeTmask r.2.2
  if goodCount > max s.maxGoodCount (k.modelPoints - 1) then
    match cvRANSACUpdateNumIters log confidence (((count - goodCount : ℤ) : R) / (count : R))
        k.modelPoints s.niters with
    | .error e => .error e
    | .ok n =>
      .ok { s1 with swapped := !s.swapped, model := model_i, maxGoodCount := goodCount,
                    niters := n, trace := s.trace ++ [.scored model_i goodCount true n] }
  else .ok { s1 with trace := s.trace ++ [.scored model_i goodCount false s.niters] }

/-- The loop `for( i = 0; i < nmodels; i++ )` of `runRANSAC`, with `todo` rounds left. -/
def ransacModels (rd : Rounding R) (k : Kernel P M) (log : R → R) (m1 m2 : List P)
    (reprojThreshold confidence : R) (models : ℕ → M) :
    ℕ → ℕ → RansacState P M R → Except Fault (RansacState P M R)
  | 0, _, s => .ok s
  | todo + 1, i, s =>
    match ransacScore rd k log m1 m2 reprojThreshold confidence s (models i) with
    | .error e => .error e
    | .ok s1 => ransacModels rd k log m1 m2 reprojThreshold confidence models todo (i + 1) s1

/-- The part of a trial of `runRANSAC` that follows the sampling. -/
def ransacTrial (rd : Rounding R) (k : Kernel P M) (log : R → R) (m1 m2 : List P)
    (reprojThreshold confidence : R) (s : RansacState P M R) :
    Except Fault (RansacState P M R) :=
  let r := k.runKernel s.ms1 s.ms2
  let s1 := { s with trace := s.trace ++ [.kernel s.ms1 s.ms2 r.1] }
  if r.1 ≤ 0 then .ok s1
  else ransacModels rd k log m1 m2 reprojThreshold confidence r.2 r.1.toNat 0 s1

/-- The loop `for( iter = 0; iter < niters; iter++ )` of `runRANSAC` from `iter` on: the final
state, and whether the loop was left through `EXIT`. -/
def ransacLoop [Inhabited P] (rd : Rounding R) (k : Kernel P M) (log : R → R) (rng : ℕ → ℕ)
    (m1 m2 : List P) (reprojThreshold confidence : R) :
    ℕ → ℤ → RansacState P M R → Except Fault (RansacState P M R × Bool)
  | 0, _, _ => .error .outOfFuel
  | fuel + 1, iter, s =>
    if iter < s.niters then
      if (m1.length : ℤ) > k.modelPoints then
        match getSubset k fuel rng s.pos m1 m2 s.ms1 s.ms2 300 with
        | none => .error .outOfFuel
        | some (found, g) =>
          let s1 := { s with ms1 := g.ms1, ms2 := g.ms2, pos := g.pos,
                             trace := s.trace ++ [.subset found (g.pos - s.pos)] }
          if !found then
            if iter = 0 then .ok (s1, true) else .ok (s1, false)
          else
            match ransacTrial rd k log m1 m2 reprojThreshold confidence s1 with
            | .error e => .error e
            | .ok s2 =>
              ransacLoop rd k log rng m1 m2 reprojThreshold confidence fuel (iter + 1) s2
      else
        match ransacTrial rd k log m1 m2 reprojThreshold confidence s with
        | .error e => .error e
        | .ok s2 => ransacLoop rd k log rng m1 m2 reprojThreshold confidence fuel (iter + 1) s2
    else .ok (s, false)

/-- The state that the loop of `runRANSAC` has reached, from `iter` on, when the fuel is used
up; it is the final state when the loop ends before.  (A trial is one step: the state is that
before the trial in which the fuel runs out or an error is raised.) -/
def ransacReached [Inhabited P] (rd : Rounding R) (k : Kernel P M) (log : R → R)
    (rng : ℕ → ℕ) (m1 m2 : List P) (reprojThreshold confidence : R) :
    ℕ → ℤ → RansacState P M R → RansacState P M R
  | 0, _, s => s
  | fuel + 1, iter, s =>
    if iter < s.niters then
      if (m1.length : ℤ) > k.modelPoints then
        match getSubset k fuel rng s.pos m1 m2 s.ms1 s.ms2 300 with
        | none => s
        | some (found, g) =>
          let s1 := { s with ms1 := g.ms1, ms2 := g.ms2, pos := g.pos,
                             trace := s.trace ++ [.subset found (g.pos - s.pos)] }
          if !found then s1
          else
            match ransacTrial rd k log m1 m2 reprojThreshold confidence s1 with
            | .error _ => s1
            | .ok s2 =>
              ransacReached rd k log rng m1 m2 reprojThreshold confidence fuel (iter + 1) s2
      else
        match ransacTrial rd k log m1 m2 reprojThreshold confidence s with
        | .error _ => s
        | .ok s2 =>
          ransacReached rd k log rng m1 m2 reprojThreshold confidence fuel (iter + 1) s2
    else s

/-- The state of `runRANSAC` when it enters its loop: for `count > modelPoints` the matrices
`ms1` and `ms2` are allocated, otherwise `niters = 1` and `ms1`, `ms2` are `m1`, `m2`
themselves.  The matrices allocated for `tmask`, `ms1` and `ms2` start zero-filled. -/
def ransacInit [Inhabited P] (k : Kernel P M) (m1 m2 : List P) (model : M) (mask : List ℕ)
    (maxIters : ℤ) : RansacState P M R :=
  if (m1.length : ℤ) > k.modelPoints then
    ⟨maxIters, 0, model, mask, List.replicate m1.length 0, false,
      List.replicate k.modelPoints.toNat default,
      List.replicate k.modelPoints.toNat default, 0, []⟩
  else ⟨1, 0, model, mask, List.replicate m1.length 0, false, m1, m2, 0, []⟩

/-- The end of `runRANSAC`: after `EXIT` the result is false; otherwise, if
`maxGoodCount > 0`, the best mask is copied to the caller's matrix unless it is there already,
and the result is true. -/
def ransacFinish (s : RansacState P M R) (exited : Bool) : RunResult P M R :=
  if exited then ⟨false, s.model, s.maskBuf, s.trace, s.pos⟩
  else if s.maxGoodCount > 0 then
    ⟨true, s.model, if s.swapped then s.tmpBuf else s.maskBuf, s.trace, s.pos⟩
  else ⟨false, s.model, s.maskBuf, s.trace, s.pos⟩

/-- The function `runRANSAC( m1, m2, model, mask, reprojThreshold, confidence, maxIters )`. -/
def runRANSAC [Inhabited P] (rd : Rounding R) (k : Kernel P M) (log : R → R) (fuel : ℕ)
    (rng : ℕ → ℕ) (m1 m2 : List P) (model : M) (mask : List ℕ)
    (reprojThreshold confidence : R) (maxIters : ℤ) : Except Fault (RunResult P M R) :=
  if ¬(m1.length = m2.length ∧ m1.length = mask.length) then .error .stsInternal
  else if (m1.length : ℤ) < k.modelPoints then .ok ⟨false, model, mask, [], 0⟩
  else
    match ransacLoop rd k log rng m1 m2 reprojThreshold confidence fuel 0
        (ransacInit k m1 m2 model mask maxIters) with
    | .error e => .error e
    | .ok r => .ok (ransacFinish r.1 r.2)

/-- The median read off the sorted buffer in `runLMeDS`:
`count % 2 != 0 ? fl[count/2] : (fl[count/2-1] + fl[count/2])*0.5`.  The sum of the two
`float` elements is a `float` operation, its product with the `double` constant `0.5` a
`double` operation; the conversion of a `float` to `double` is exact. -/
def lmedsMedian (rd : Rounding R) (err : List CFloat) (count : ℕ) : Dbl R :=
  if count % 2 ≠ 0 then Dbl.fin (((err.getD (count / 2) default).toRat : ℚ) : R)
  else Dbl.mul rd.dbl
    (Dbl.add rd.flt (Dbl.fin (((err.getD (count / 2 - 1) default).toRat : ℚ) : R))
      (Dbl.fin (((err.getD (count / 2) default).toRat : ℚ) : R)))
    (Dbl.fin 0.5)

/-- The variables of `runLMeDS` that change during the run. -/
structure LmedsState (P M R : Type) where
  minMedian : Dbl R
  model : M
  ms1 : List P
  ms2 : List P
  pos : ℕ
  trace : List (Event P M R)

/-- The invariant of the loops of `runLMeDS`, for a call with the output `model0`: either
`minMedian` still is `DBL_MAX` and the caller's model is as it was at the call, or
`minMedian` is below `DBL_MAX` and the caller's model is a candidate that was adopted with
that median. -/
def LmedsInv (model0 : M) (s : LmedsState P M R) : Prop :=
  (s.minMedian = Dbl.fin DBL_MAX ∧ s.model = model0) ∨
  (Dbl.lt s.minMedian (Dbl.fin DBL_MAX) = true ∧
    Event.median s.model s.minMedian true ∈ s.trace)

/-- The invariant of the loops of `runLMeDS` on the best candidate: `minMedian` is not a NaN
and at most `DBL_MAX`; it is at most the median of every candidate scored so far, none of
which is a NaN; a candidate was adopted exactly when its median was below the `minMedian` of
that moment, which was at most `DBL_MAX`; and once `minMedian` is below `DBL_MAX` it is the
median of the errors of `model`, and the trace consists of candidates with a larger median,
the adoption of `model`, and candidates that were not adopted. -/
def MedianInv (rd : Rounding R) (k : Kernel P M) (m1 m2 : List P) (s : LmedsState P M R) :
    Prop :=
  s.minMedian ≠ Dbl.nan ∧ Dbl.le s.minMedian (Dbl.fin DBL_MAX) = true ∧
  (∀ m med a, Event.median m med a ∈ s.trace →
    med ≠ Dbl.nan ∧ Dbl.le s.minMedian med = true ∧
    (a = true → Dbl.lt med (Dbl.fin DBL_MAX) = true) ∧
    (Dbl.lt med (Dbl.fin DBL_MAX) = true → Dbl.lt s.minMedian (Dbl.fin DBL_MAX) = true)) ∧
  (Dbl.lt s.minMedian (Dbl.fin DBL_MAX) = true →
    s.minMedian = lmedsMedian rd
      (icvSortDistances (k.computeReprojError m1 m2 s.model) m1.length) m1.length ∧
    ∃ pre post, s.trace = pre ++ Event.median s.model s.minMedian true :: post ∧
      (∀ m med a, Event.median m med a ∈ pre → Dbl.lt s.minMedian med = true) ∧
      (∀ m med a, Event.median m med a ∈ post → a = false))

/-- One round of the loop over the models in `runLMeDS`. -/
def lmedsScore (rd : Rounding R) (k : Kernel P M) (m1 m2 : List P) (s : LmedsState P M R)
    (model_i : M) : LmedsState P M R :=
  let err := k.computeReprojError m1 m2 model_i
  let err := icvSortDistances err m1.length
  let median : Dbl R := lmedsMedian rd err m1.length
  if Dbl.lt median s.minMedian then
    { s with minMedian := median, model := model_i,
             trace := s.trace ++ [.median model_i median true] }
  else { s with trace := s.trace ++ [.median model_i median false] }

/-- The loop `for( i = 0; i < nmodels; i++ )` of `runLMeDS`, with `todo` rounds left. -/
def lmedsModels (rd : Rounding R) (k : Kernel P M) (m1 m2 : List P) (models : ℕ → M) :
    ℕ → ℕ → LmedsState P M R → LmedsState P M R
  | 0, _, s => s
  | todo + 1, i, s =>
    lmedsModels rd k m1 m2 models todo (i + 1) (lmedsScore rd k m1 m2 s (models i))

/-- The part of a trial of `runLMeDS` that follows the sampling. -/
def lmedsTrial (rd : Rounding R) (k : Kernel P M) (m1 m2 : List P) (s : LmedsState P M R) :
    LmedsState P M R :=
  let r := k.runKernel s.ms1 s.ms2
  let s1 := { s with trace := s.trace ++ [.kernel s.ms1 s.ms2 r.1] }
  if r.1 ≤ 0 then s1 else lmedsModels rd k m1 m2 r.2 r.1.toNat 0 s1

/-- The loop `for( iter = 0; iter < niters; iter++ )` of `runLMeDS` from `iter` on: the final
state, and whether the loop was left through `EXIT`. -/
def lmedsLoop [Inhabited P] (rd : Rounding R) (k : Kernel P M) (rng : ℕ → ℕ) (m1 m2 : List P)
    (niters : ℤ) : ℕ → ℤ → LmedsState P M R → Except Fault (LmedsState P M R × Bool)
  | 0, _, _ => .error .outOfFuel
  | fuel + 1, iter, s =>
    if iter < niters then
      if (m1.length : ℤ) > k.modelPoints then
        match getSubset k fuel rng s.pos m1 m2 s.ms1 s.ms2 300 with
        | none => .error .outOfFuel
        | some (found, g) =>
          let s1 := { s with ms1 := g.ms1, ms2 := g.ms2, pos := g.pos,
                             trace := s.trace ++ [.subset found (g.pos - s.pos)] }
          if !found then
            if iter = 0 then .ok (s1, true) else .ok (s1, false)
          else lmedsLoop rd k rng m1 m2 niters fuel (iter + 1) (lmedsTrial rd k m1 m2 s1)
      else lmedsLoop rd k rng m1 m2 niters fuel (iter + 1) (lmedsTrial rd k m1 m2 s)
    else .ok (s, false)

/-- The number of trials of `runLMeDS`:
`MIN( MAX( cvRound(log(1-confidence)/log(1-pow(1-outlierRatio,modelPoints))), 3 ), maxIters )`
with `outlierRatio = 0.45`. -/
def lmedsNiters (log : R → R) (confidence : R) (modelPoints maxIters : ℤ) : ℤ :=
  min (max (cvRound (log (1 - confidence) / log (1 - (1 - 0.45) ^ modelPoints))) 3) maxIters

/-- The threshold `sigma` of `runLMeDS`:
`sigma = 2.5*1.4826*(1 + 5./(count - modelPoints))*sqrt(minMedian)` followed by
`sigma = MAX( sigma, FLT_EPSILON*100 )`.  The literal `1.4826` is the `double` nearest to it,
`2.5`, `1`, `5.` and the `float` product `FLT_EPSILON*100` (`25 * 2^-21`) are exact.  For
`count == modelPoints` the quotient is `+inf`, and its product with a zero root is a NaN.
The macro `MAX(a,b)` of the core headers is `((a) < (b) ? (b) : (a))`: a NaN `sigma` stays. -/
def lmedsSigma (rd : Rounding R) (sqrt : R → R) (count modelPoints : ℤ) (minMedian : Dbl R) :
    Dbl R :=
  let sigma := Dbl.mul rd.dbl
    (Dbl.mul rd.dbl (Dbl.mul rd.dbl (Dbl.fin 2.5) (rd.dbl 1.4826))
      (Dbl.add rd.dbl (Dbl.fin 1)
        (Dbl.div rd.dbl (Dbl.fin 5) (Dbl.fin ((count - modelPoints : ℤ) : R)))))
    (Dbl.sqrt rd.dbl sqrt minMedian)
  if Dbl.lt sigma (Dbl.fin (FLT_EPSILON * 100)) then Dbl.fin (FLT_EPSILON * 100) else sigma

/-- The state of `runLMeDS` when it enters its loop. -/
def lmedsInit [Inhabited P] (k : Kernel P M) (m1 m2 : List P) (model : M) :
    LmedsState P M R :=
  if (m1.length : ℤ) > k.modelPoints then
    ⟨Dbl.fin DBL_MAX, model, List.replicate k.modelPoints.toNat default,
      List.replicate k.modelPoints.toNat default, 0, []⟩
  else ⟨Dbl.fin DBL_MAX, model, m1, m2, 0, []⟩

/-- The end of `runLMeDS`: after `EXIT` the result is false; otherwise, if
`minMedian < DBL_MAX`, the inliers of the model for the threshold `sigma` are written to the
caller's mask and the result tells whether there are at least `modelPoints` of them. -/
def lmedsFinish (rd : Rounding R) (k : Kernel P M) (sqrt : R → R) (m1 m2 : List P)
    (mask : List ℕ) (s : LmedsState P M R) (exited : Bool) : RunResult P M R :=
  if exited then ⟨false, s.model, mask, s.trace, s.pos⟩
  else if Dbl.lt s.minMedian (Dbl.fin DBL_MAX) then
    let sigma := lmedsSigma rd sqrt m1.length k.modelPoints s.minMedian
    let r := findInliers rd k m1 m2 s.model mask sigma
    ⟨decide (r.1 ≥ k.modelPoints), s.model, r.2.2, s.trace, s.pos⟩
  else ⟨false, s.model, mask, s.trace, s.pos⟩

/-- The function `runLMeDS( m1, m2, model, mask, confidence, maxIters )`.  The value
`niters = 1` that the source assigns when `count == modelPoints` is overwritten, before the
loop starts, by the assignment modelled by `lmedsNiters`; the model is written to the caller's
matrix as soon as a candidate is adopted. -/
def runLMeDS [Inhabited P] (rd : Rounding R) (k : Kernel P M) (log sqrt : R → R) (fuel : ℕ)
    (rng : ℕ → ℕ) (m1 m2 : List P) (model : M) (mask : List ℕ) (confidence : R)
    (maxIters : ℤ) : Except Fault (RunResult P M R) :=
  if ¬(m1.length = m2.length ∧ m1.length = mask.length) then .error .stsInternal
  else if (m1.length : ℤ) < k.modelPoints then .ok ⟨false, model, mask, [], 0⟩
  else
    match lmedsLoop rd k rng m1 m2 (lmedsNiters log confidence k.modelPoints maxIters) fuel 0
        (lmedsInit k m1 m2 model) with
    | .error e => .error e
    | .ok r => .ok (lmedsFinish rd k sqrt m1 m2 mask r.1 r.2)

end Engine

end CvModelEstimator2

instance {R : Type} [Zero R] : Inhabited (CvPoint2D64f R) := ⟨⟨0, 0⟩⟩

/-- An estimator used in examples: points in the rational plane, three model points, and the
default degeneracy test `CvModelEstimator2::checkSubset` in IEEE 754 arithmetic, applied to
the prefixes. -/
def planarKernel : Kernel (CvPoint2D64f ℚ) ℕ where
  modelPoints := 3
  checkPartialSubsets := true
  runKernel := fun _ _ => (0, fun _ => 0)
  computeReprojError := fun m1 _ _ => m1.map (fun _ => CFloat.zero)
  computeReprojError_length := fun _ _ _ => List.length_map _ _
  checkSubset := CvModelEstimator2.checkSubset Rounding.ieee

/-! ## Lemmas on the iteration budget -/

section NumericLemmas
variable {R : Type} [LinearOrderedField R] [FloorRing R]

omit [FloorRing R] in
theorem DBL_MIN_pos : (0 : R) < DBL_MIN := by
  unfold DBL_MIN; positivity

theorem cvRound_ge_floor (x : R) : ⌊x⌋ ≤ cvRound x := by
  unfold cvRound
  simp only
  split_ifs <;> omega

theorem cvRound_le_floor_succ (x : R) : cvRound x ≤ ⌊x⌋ + 1 := by
  unfold cvRound
  simp only
  split_ifs <;> omega

theorem cvRound_nonneg {x : R} (hx : 0 ≤ x) : 0 ≤ cvRound x :=
  le_trans (Int.floor_nonneg.mpr hx) (cvRound_ge_floor x)

theorem cvRound_le_of_le {x : R} {n : ℤ} (hx : x ≤ n) : cvRound x ≤ n := by
  have hf : ⌊x⌋ ≤ n := by
    have := Int.floor_mono hx
    simpa using this
  rcases lt_or_eq_of_le hf with h | h
  · exact le_trans (cvRound_le_floor_succ x) (by omega)
  · have hxe : x = n := le_antisymm hx (by rw [← h]; exact Int.floor_le x)
    unfold cvRound
    simp only
    have : x - (⌊x⌋ : R) < 1 / 2 := by rw [h, hxe]; simp
    rw [if_pos this]; omega

theorem cvRound_mono {x y : R} (h : x ≤ y) : cvRound x ≤ cvRound y := by
  have hf : ⌊x⌋ ≤ ⌊y⌋ := Int.floor_mono h
  rcases lt_or_eq_of_le hf with hlt | heq
  · exact le_trans (cvRound_le_floor_succ x) (le_trans (by omega) (cvRound_ge_floor y))
  · have hr : x - (⌊x⌋ : R) ≤ y - (⌊y⌋ : R) := by rw [heq]; linarith
    unfold cvRound
    simp only
    rw [← heq]
    rw [← heq] at hr
    split_ifs <;> first | omega | (exfalso; linarith) 

end NumericLemmas



section NumItersLemmas
variable {R : Type} [LinearOrderedField R] [FloorRing R]

omit [FloorRing R] in
theorem clamp01_mem (x : R) : 0 ≤ min (max x 0) 1 ∧ min (max x 0) 1 ≤ 1 :=
  ⟨le_min (le_max_right _ _) zero_le_one, min_le_right _ _⟩

omit [FloorRing R] in
theorem clamp01_mono {x y : R} (h : x ≤ y) : min (max x 0) 1 ≤ min (max y 0) 1 :=
  min_le_min (max_le_max h le_rfl) le_rfl

omit [FloorRing R] in
theorem DBL_MIN_le_one : (DBL_MIN : R) ≤ 1 := by
  unfold DBL_MIN
  rw [div_le_one (by positivity)]
  exact one_le_pow₀ (by norm_num)

omit [FloorRing R] in
theorem numArg_mem (p : R) : DBL_MIN ≤ numArg p ∧ numArg p ≤ 1 := by
  unfold numArg
  refine ⟨le_max_right _ _, max_le ?_ DBL_MIN_le_one⟩
  have := (clamp01_mem p).1
  linarith

omit [FloorRing R] in
theorem denomArg_le_one (ep : R) (m : ℤ) : denomArg ep m ≤ 1 := by
  unfold denomArg
  have h := clamp01_mem ep
  have : 0 ≤ (1 - min (max ep 0) 1) ^ m := zpow_nonneg (by linarith) m
  linarith

omit [FloorRing R] in
theorem denomArg_mono {ep1 ep2 : R} (h : ep1 ≤ ep2) {m : ℤ} (hm : 1 ≤ m) :
    denomArg ep1 m ≤ denomArg ep2 m := by
  unfold denomArg
  have h1 := clamp01_mem ep1
  have h2 := clamp01_mem ep2
  have hc := clamp01_mono h
  lift m to ℕ using (by omega)
  rw [zpow_natCast, zpow_natCast]
  have : (1 - min (max ep2 0) 1) ^ m ≤ (1 - min (max ep1 0) 1) ^ m :=
    pow_le_pow_left₀ (by linarith) (by linarith) m
  linarith

theorem cvRANSACUpdateNumIters_eq (log : R → R) (p ep : R) {m : ℤ} (cap : ℤ) (hm : 1 ≤ m) :
    cvRANSACUpdateNumIters log p ep m cap =
      .ok (if denomArg ep m < DBL_MIN then 0
           else if log (denomArg ep m) ≥ 0 ∨ -log (numArg p) ≥ cap * (-log (denomArg ep m))
             then cap else cvRound (log (numArg p) / log (denomArg ep m))) := by
  unfold cvRANSACUpdateNumIters
  rw [if_neg (by omega)]
  simp only
  split_ifs <;> rfl

end NumItersLemmas

theorem log_numArg_nonpos (p : ℝ) : Real.log (numArg p) ≤ 0 :=
  Real.log_nonpos (le_trans DBL_MIN_pos.le (numArg_mem p).1) (numArg_mem p).2

/-- The value computed by `cvRANSACUpdateNumIters` lies in `[0, cap]` -/
theorem numIters_value_bounds (p ep : ℝ) (m : ℤ) {cap : ℤ} (hcap : 0 ≤ cap) :
    let r := (if denomArg ep m < (DBL_MIN : ℝ) then 0
           else if Real.log (denomArg ep m) ≥ 0 ∨
               -Real.log (numArg p) ≥ cap * (-Real.log (denomArg ep m))
             then cap else cvRound (Real.log (numArg p) / Real.log (denomArg ep m)))
    0 ≤ r ∧ r ≤ cap := by
  intro r
  simp only [r]
  split_ifs with h1 h2
  · exact ⟨le_rfl, hcap⟩
  · exact ⟨hcap, le_rfl⟩
  · push_neg at h2
    obtain ⟨hd, hn⟩ := h2
    have hnum := log_numArg_nonpos p
    constructor
    · exact cvRound_nonneg (div_nonneg_of_nonpos hnum hd.le)
    · apply cvRound_le_of_le
      rw [div_le_iff_of_neg hd]
      linarith



theorem numIters_value_mono (p : ℝ) {ep1 ep2 : ℝ} {m cap : ℤ} (hm : 1 ≤ m) (hcap : 0 ≤ cap)
    (h : ep1 ≤ ep2) :
    (if denomArg ep1 m < (DBL_MIN : ℝ) then 0
     else if Real.log (denomArg ep1 m) ≥ 0 ∨
         -Real.log (numArg p) ≥ cap * (-Real.log (denomArg ep1 m))
       then cap else cvRound (Real.log (numArg p) / Real.log (denomArg ep1 m))) ≤
    (if denomArg ep2 m < (DBL_MIN : ℝ) then 0
     else if Real.log (denomArg ep2 m) ≥ 0 ∨
         -Real.log (numArg p) ≥ cap * (-Real.log (denomArg ep2 m))
       then cap else cvRound (Real.log (numArg p) / Real.log (denomArg ep2 m))) := by
  have hb1 := numIters_value_bounds p ep1 m hcap
  have hb2 := numIters_value_bounds p ep2 m hcap
  simp only at hb1 hb2
  have hd := denomArg_mono h hm
  by_cases h1 : denomArg ep1 m < (DBL_MIN : ℝ)
  · rw [if_pos h1]; exact hb2.1
  · have h2 : ¬ denomArg ep2 m < (DBL_MIN : ℝ) := by
      push_neg at h1 ⊢
      exact le_trans h1 hd
    have hpos1 : 0 < denomArg ep1 m := lt_of_lt_of_le DBL_MIN_pos (not_lt.mp h1)
    have hlog : Real.log (denomArg ep1 m) ≤ Real.log (denomArg ep2 m) :=
      Real.log_le_log hpos1 hd
    by_cases c2 : Real.log (denomArg ep2 m) ≥ 0 ∨
        -Real.log (numArg p) ≥ cap * (-Real.log (denomArg ep2 m))
    · rw [if_neg h2, if_pos c2]; exact hb1.2
    · rw [if_neg h1, if_neg h2, if_neg c2]
      push_neg at c2
      obtain ⟨hd2, hn2⟩ := c2
      have hd1 : Real.log (denomArg ep1 m) < 0 := lt_of_le_of_lt hlog hd2
      have hcapR : (0 : ℝ) ≤ cap := by exact_mod_cast hcap
      have c1 : ¬ (Real.log (denomArg ep1 m) ≥ 0 ∨
          -Real.log (numArg p) ≥ cap * (-Real.log (denomArg ep1 m))) := by
        push_neg
        refine ⟨hd1, lt_of_lt_of_le hn2 ?_⟩
        exact mul_le_mul_of_nonneg_left (by linarith) hcapR
      rw [if_neg c1]
      apply cvRound_mono
      have hnum := log_numArg_nonpos p
      rw [← neg_div_neg_eq (Real.log (numArg p)) (Real.log (denomArg ep1 m)),
        ← neg_div_neg_eq (Real.log (numArg p)) (Real.log (denomArg ep2 m))]
      exact div_le_div_of_nonneg_left (by linarith) (by linarith) (by linarith)
/-- For a positive number of model points and a cap that is not negative the budget update
returns a value between zero and the cap. -/
theorem cvRANSACUpdateNumIters_range_aux (p ep : ℝ) (model_points max_iters : ℤ)
    (hm : 1 ≤ model_points) (hcap : 0 ≤ max_iters) :
    ∃ r : ℤ, cvRANSACUpdateNumIters Real.log p ep model_points max_iters = .ok r ∧
      0 ≤ r ∧ r ≤ max_iters :=
  ⟨_, cvRANSACUpdateNumIters_eq Real.log p ep max_iters hm,
    numIters_value_bounds p ep model_points hcap⟩

/-! ## Claims on the iteration budget -/

/-- C3, as stated, fails: with `p = 1/2`, `model_points = 1` and `max_iters = 2` the outlier
ratio `1/2` gives `1` and the larger outlier ratio `3/4` gives `2`. -/
theorem cvRANSACUpdateNumIters_not_antitone :
    (1 / 2 : ℝ) ≤ 3 / 4 ∧
    cvRANSACUpdateNumIters Real.log (1 / 2 : ℝ) (1 / 2) 1 2 = .ok 1 ∧
    cvRANSACUpdateNumIters Real.log (1 / 2 : ℝ) (3 / 4) 1 2 = .ok 2 ∧
    ¬((2 : ℤ) ≤ 1) := by
  have hmin : ¬ (1 / 2 : ℝ) < DBL_MIN := by
    unfold DBL_MIN
    rw [not_lt]
    apply one_div_le_one_div_of_le (by norm_num)
    calc (2 : ℝ) = 2 ^ 1 := by norm_num
      _ ≤ 2 ^ 1022 := pow_le_pow_right₀ (by norm_num) (by norm_num)
  have hmin2 : ¬ (3 / 4 : ℝ) < DBL_MIN := fun h => hmin (lt_trans (by norm_num) h)
  have hnum : numArg (1 / 2 : ℝ) = 1 / 2 := by
    unfold numArg
    rw [show min (max (1 / 2 : ℝ) 0) 1 = 1 / 2 by norm_num]
    rw [show (1 : ℝ) - 1 / 2 = 1 / 2 by norm_num]
    exact max_eq_left (not_lt.mp hmin)
  have hd1 : denomArg (1 / 2 : ℝ) 1 = 1 / 2 := by
    unfold denomArg
    rw [show min (max (1 / 2 : ℝ) 0) 1 = 1 / 2 by norm_num]
    norm_num
  have hd2 : denomArg (3 / 4 : ℝ) 1 = 3 / 4 := by
    unfold denomArg
    rw [show min (max (3 / 4 : ℝ) 0) 1 = 3 / 4 by norm_num]
    norm_num
  have hl2 : Real.log (1 / 2 : ℝ) < 0 := Real.log_neg (by norm_num) (by norm_num)
  have hl34 : Real.log (3 / 4 : ℝ) < 0 := Real.log_neg (by norm_num) (by norm_num)
  have hcmp : Real.log (1 / 2 : ℝ) ≤ 2 * Real.log (3 / 4 : ℝ) := by
    have h : (2 : ℝ) * Real.log (3 / 4) = Real.log ((3 / 4) ^ 2) := by
      rw [Real.log_pow]; norm_num
    rw [h]
    exact Real.log_le_log (by norm_num) (by norm_num)
  refine ⟨by norm_num, ?_, ?_, by decide⟩
  · rw [cvRANSACUpdateNumIters_eq Real.log _ _ 2 le_rfl, hnum, hd1, if_neg hmin]
    have hc : ¬ (Real.log (1 / 2 : ℝ) ≥ 0 ∨
        -Real.log (1 / 2 : ℝ) ≥ ((2 : ℤ) : ℝ) * (-Real.log (1 / 2 : ℝ))) := by
      push_neg
      refine ⟨hl2, ?_⟩
      push_cast
      linarith
    rw [if_neg hc, div_self (ne_of_lt hl2)]
    have : cvRound (1 : ℝ) = 1 := by
      unfold cvRound
      simp
    rw [this]
  · rw [cvRANSACUpdateNumIters_eq Real.log _ _ 2 le_rfl, hnum, hd2, if_neg hmin2]
    have hc : (Real.log (3 / 4 : ℝ) ≥ 0 ∨
        -Real.log (1 / 2 : ℝ) ≥ ((2 : ℤ) : ℝ) * (-Real.log (3 / 4 : ℝ))) := by
      right
      push_cast
      linarith
    rw [if_pos hc]

/-- C3, amended: `cvRANSACUpdateNumIters` is monotonically non-decreasing in the outlier
ratio: for `model_points >= 1`, `max_iters >= 0` and `ep1 <= ep2` both calls return, and the
value for `ep1` is at most the value for `ep2`. -/
theorem cvRANSACUpdateNumIters_monotone (p ep1 ep2 : ℝ) (model_points max_iters : ℤ)
    (hm : 1 ≤ model_points) (hcap : 0 ≤ max_iters) (hep : ep1 ≤ ep2) :
    ∃ r1 r2 : ℤ,
      cvRANSACUpdateNumIters Real.log p ep1 model_points max_iters = .ok r1 ∧
      cvRANSACUpdateNumIters Real.log p ep2 model_points max_iters = .ok r2 ∧
      r1 ≤ r2 :=
  ⟨_, _, cvRANSACUpdateNumIters_eq Real.log p ep1 max_iters hm,
    cvRANSACUpdateNumIters_eq Real.log p ep2 max_iters hm,
    numIters_value_mono p hm hcap hep⟩

/-- Witness for C3 (amended), at the outlier ratios `1/2` and `3/4`. -/
theorem cvRANSACUpdateNumIters_monotone_witness :
    ∃ r1 r2 : ℤ,
      cvRANSACUpdateNumIters Real.log (1 / 2 : ℝ) (1 / 2) 1 2 = .ok r1 ∧
      cvRANSACUpdateNumIters Real.log (1 / 2 : ℝ) (3 / 4) 1 2 = .ok r2 ∧
      r1 ≤ r2 :=
  cvRANSACUpdateNumIters_monotone (1 / 2) (1 / 2) (3 / 4) 1 2 (by decide) (by decide)
    (by norm_num)

/-- C4: for `model_points >= 1` and `max_iters >= 0`, whatever `p` and `ep` are,
`cvRANSACUpdateNumIters` returns a value `r` with `0 <= r <= max_iters`; the argument of the
first `log` is positive, the argument of the second `log` is positive whenever that `log` is
reached, and the divisor of `num/denom` is non-zero whenever the division is reached. -/
theorem cvRANSACUpdateNumIters_range (p ep : ℝ) (model_points max_iters : ℤ)
    (hm : 1 ≤ model_points) (hcap : 0 ≤ max_iters) :
    (∃ r : ℤ, cvRANSACUpdateNumIters Real.log p ep model_points max_iters = .ok r ∧
      0 ≤ r ∧ r ≤ max_iters) ∧
    0 < numArg p ∧
    (¬ denomArg ep model_points < DBL_MIN → 0 < denomArg ep model_points) ∧
    (¬ denomArg ep model_points < DBL_MIN →
      ¬ (Real.log (denomArg ep model_points) ≥ 0 ∨
          -Real.log (numArg p) ≥ max_iters * (-Real.log (denomArg ep model_points))) →
      Real.log (denomArg ep model_points) ≠ 0) := by
  refine ⟨⟨_, cvRANSACUpdateNumIters_eq Real.log p ep max_iters hm,
    numIters_value_bounds p ep model_points hcap⟩, ?_, ?_, ?_⟩
  · exact lt_of_lt_of_le DBL_MIN_pos (numArg_mem p).1
  · intro h
    exact lt_of_lt_of_le DBL_MIN_pos (not_lt.mp h)
  · intro _ h
    push_neg at h
    exact ne_of_lt h.1

/-- Witness for C4, at confidence `0.99`, outlier ratio `1/2`, four model points and a cap
of `100`. -/
theorem cvRANSACUpdateNumIters_range_witness :
    ∃ r : ℤ, cvRANSACUpdateNumIters Real.log (0.99 : ℝ) (1 / 2) 4 100 = .ok r ∧
      0 ≤ r ∧ r ≤ 100 :=
  (cvRANSACUpdateNumIters_range (0.99 : ℝ) (1 / 2) 4 100 (by decide) (by decide)).1

/-! ## Lemmas on rounding -/

section RoundingLemmas

variable {R : Type} [LinearOrderedField R] [FloorRing R]

theorem rint_eq_cvRound (x : R) : rint x = cvRound x := rfl

theorem rint_intCast (z : ℤ) : rint ((z : ℤ) : R) = z := by
  unfold rint
  simp

theorem rint_mono {x y : R} (h : x ≤ y) : rint x ≤ rint y := cvRound_mono h

omit [FloorRing R] in
theorem two_zpow_pos (e : ℤ) : (0 : R) < (2 : R) ^ e := zpow_pos (by norm_num) e

/-- The exponent of the binade of a positive number. -/
theorem log_two_eq {x : R} {e : ℤ} (h1 : (2 : R) ^ e ≤ x) (h2 : x < (2 : R) ^ (e + 1)) :
    Int.log 2 x = e := by
  have hx : 0 < x := lt_of_lt_of_le (two_zpow_pos e) h1
  have hc : ((2 : ℕ) : R) = 2 := by norm_num
  apply le_antisymm
  · have h := (@Int.lt_zpow_iff_log_lt R _ _ 2 (by norm_num) (e + 1) x hx).mp
      (by rw [hc]; exact h2)
    omega
  · exact (@Int.zpow_le_iff_le_log R _ _ 2 (by norm_num) e x hx).mp (by rw [hc]; exact h1)

theorem log_two_lt {x : R} {e : ℤ} (hx : 0 < x) (h2 : x < (2 : R) ^ e) : Int.log 2 x < e := by
  have hc : ((2 : ℕ) : R) = 2 := by norm_num
  exact (@Int.lt_zpow_iff_log_lt R _ _ 2 (by norm_num) e x hx).mp (by rw [hc]; exact h2)

theorem log_two_le {x : R} {e : ℤ} (hx : 0 < x) (h2 : x ≤ (2 : R) ^ e) : Int.log 2 x ≤ e := by
  have hc : ((2 : ℕ) : R) = 2 := by norm_num
  have h := @Int.log_mono_right R _ _ 2 x ((2 : R) ^ e) hx h2
  have hz := @Int.log_zpow R _ _ 2 (by norm_num) e
  rw [hc] at hz
  rw [hz] at h
  exact h

theorem roundBinary_zero (p : ℕ) (emin emax : ℤ) :
    roundBinary p emin emax (0 : R) = Dbl.fin 0 := by
  unfold roundBinary
  simp only [abs_zero, zero_div, Int.log_zero_right]
  have h0 : rint (0 : R) = 0 := by
    have := @rint_intCast R _ _ 0
    simpa using this
  rw [h0]
  simp only [Int.cast_zero, zero_mul, abs_zero]
  rw [if_neg (not_le.mpr (two_zpow_pos _))]

/-- A number `n * 2^k` with `|n| < 2^p` and `k` not below the least exponent of the format
is a number of the format: the operation that yields it does not round. -/
theorem roundBinary_exact (p : ℕ) (emin emax : ℤ) (n k : ℤ) (hn : |n| < 2 ^ p)
    (hk : emin - ((p : ℤ) - 1) ≤ k) (hx : |(n : R) * (2 : R) ^ k| < (2 : R) ^ (emax + 1)) :
    roundBinary p emin emax ((n : R) * (2 : R) ^ k) = Dbl.fin ((n : R) * (2 : R) ^ k) := by
  by_cases hn0 : n = 0
  · subst hn0
    simp only [Int.cast_zero, zero_mul]
    exact roundBinary_zero p emin emax
  · have hxpos : 0 < |(n : R) * (2 : R) ^ k| := by
      rw [abs_pos]
      exact mul_ne_zero (Int.cast_ne_zero.mpr hn0) (two_zpow_pos k).ne'
    have hlt : |(n : R) * (2 : R) ^ k| < (2 : R) ^ ((p : ℤ) + k) := by
      have h2k : |(2 : R) ^ k| = (2 : R) ^ k := abs_of_pos (two_zpow_pos k)
      rw [abs_mul, h2k, zpow_add₀ (by norm_num : (2 : R) ≠ 0)]
      apply mul_lt_mul_of_pos_right _ (two_zpow_pos k)
      rw [zpow_natCast]
      have : ((|n| : ℤ) : R) < ((2 ^ p : ℤ) : R) := Int.cast_lt.mpr hn
      rw [Int.cast_abs] at this
      simpa using this
    have hlog := log_two_lt hxpos hlt
    unfold roundBinary
    simp only
    generalize hE : max (Int.log 2 |(n : R) * (2 : R) ^ k|) emin = e
    have he : e - ((p : ℤ) - 1) ≤ k := by
      rw [← hE]
      rcases max_cases (Int.log 2 |(n : R) * (2 : R) ^ k|) emin with ⟨h, -⟩ | ⟨h, -⟩ <;>
        rw [h] <;> omega
    have hj : (2 : R) ^ k =
        (2 : R) ^ (k - (e - ((p : ℤ) - 1))).toNat * (2 : R) ^ (e - ((p : ℤ) - 1)) := by
      rw [← zpow_natCast, ← zpow_add₀ (by norm_num : (2 : R) ≠ 0)]
      congr 1
      omega
    have hdiv : (n : R) * (2 : R) ^ k / (2 : R) ^ (e - ((p : ℤ) - 1)) =
        ((n * 2 ^ (k - (e - ((p : ℤ) - 1))).toNat : ℤ) : R) := by
      rw [div_eq_iff (two_zpow_pos _).ne']
      push_cast
      exact (congrArg (fun t => (n : R) * t) hj).trans (mul_assoc _ _ _).symm
    rw [hdiv, rint_intCast]
    have hr : ((n * 2 ^ (k - (e - ((p : ℤ) - 1))).toNat : ℤ) : R) *
        (2 : R) ^ (e - ((p : ℤ) - 1)) = (n : R) * (2 : R) ^ k := by
      push_cast
      exact ((congrArg (fun t => (n : R) * t) hj).trans (mul_assoc _ _ _).symm).symm
    rw [hr, if_neg (not_le.mpr hx)]

/-- An operation whose exact value is at most `2^m` in magnitude, `2^m` being a finite number
of the format, yields a finite number of magnitude at most `2^m`, not negative when the exact
value is not negative. -/
theorem roundBinary_bounded (p : ℕ) (emin emax : ℤ) (hp : 1 ≤ p) (x : R) (m : ℤ)
    (hm1 : emin ≤ m) (hm2 : m ≤ emax) (hx : |x| ≤ (2 : R) ^ m) :
    ∃ r, roundBinary p emin emax x = Dbl.fin r ∧ |r| ≤ (2 : R) ^ m ∧ (0 ≤ x → 0 ≤ r) := by
  by_cases hx0 : x = 0
  · refine ⟨0, ?_, ?_, fun _ => le_refl _⟩
    · rw [hx0]
      exact roundBinary_zero p emin emax
    · rw [abs_zero]
      exact (two_zpow_pos m).le
  unfold roundBinary
  simp only
  generalize hE : max (Int.log 2 |x|) emin = e
  have he : e ≤ m := by
    rw [← hE]
    exact max_le (log_two_le (abs_pos.mpr hx0) hx) hm1
  have hu : (0 : R) < (2 : R) ^ (e - ((p : ℤ) - 1)) := two_zpow_pos _
  have hB : (2 : R) ^ m =
      (((2 : ℤ) ^ (m - (e - ((p : ℤ) - 1))).toNat : ℤ) : R) * (2 : R) ^ (e - ((p : ℤ) - 1)) := by
    push_cast
    rw [← zpow_natCast, ← zpow_add₀ (by norm_num : (2 : R) ≠ 0)]
    congr 1
    omega
  have hle := abs_le.mp hx
  have hup : x / (2 : R) ^ (e - ((p : ℤ) - 1)) ≤
      (((2 : ℤ) ^ (m - (e - ((p : ℤ) - 1))).toNat : ℤ) : R) := by
    rw [div_le_iff₀ hu, ← hB]
    exact hle.2
  have hlo : ((-(2 : ℤ) ^ (m - (e - ((p : ℤ) - 1))).toNat : ℤ) : R) ≤
      x / (2 : R) ^ (e - ((p : ℤ) - 1)) := by
    rw [le_div_iff₀ hu, Int.cast_neg, neg_mul, ← hB]
    exact hle.1
  have h1 := rint_mono hup
  have h2 := rint_mono hlo
  rw [rint_intCast] at h1 h2
  have habs : |((rint (x / (2 : R) ^ (e - ((p : ℤ) - 1))) : ℤ) : R) *
      (2 : R) ^ (e - ((p : ℤ) - 1))| ≤ (2 : R) ^ m := by
    rw [abs_mul, abs_of_pos hu, hB]
    apply mul_le_mul_of_nonneg_right _ hu.le
    rw [← Int.cast_abs]
    exact Int.cast_le.mpr (abs_le.mpr ⟨h2, h1⟩)
  have hfin : ¬ (2 : R) ^ (emax + 1) ≤ |((rint (x / (2 : R) ^ (e - ((p : ℤ) - 1))) : ℤ) : R) *
      (2 : R) ^ (e - ((p : ℤ) - 1))| := by
    rw [not_le]
    apply lt_of_le_of_lt habs
    exact zpow_lt_zpow_right₀ (by norm_num) (by omega)
  rw [if_neg hfin]
  refine ⟨_, rfl, habs, fun h0 => ?_⟩
  apply mul_nonneg _ hu.le
  have h3 : ((0 : ℤ) : R) ≤ x / (2 : R) ^ (e - ((p : ℤ) - 1)) := by
    rw [Int.cast_zero]
    exact div_nonneg h0 hu.le
  have h4 := rint_mono h3
  rw [rint_intCast] at h4
  exact Int.cast_nonneg.mpr h4

/-- The value of an operation whose exact value lies in the binade of exponent `e`. -/
theorem roundBinary_eq (p : ℕ) (emin emax : ℤ) (x : R) (e : ℤ) (he : emin ≤ e)
    (h1 : (2 : R) ^ e ≤ |x|) (h2 : |x| < (2 : R) ^ (e + 1)) :
    roundBinary p emin emax x =
      if (2 : R) ^ (emax + 1) ≤
          |((rint (x / (2 : R) ^ (e - ((p : ℤ) - 1))) : ℤ) : R) * (2 : R) ^ (e - ((p : ℤ) - 1))|
      then Dbl.inf (decide (x < 0))
      else Dbl.fin (((rint (x / (2 : R) ^ (e - ((p : ℤ) - 1))) : ℤ) : R) *
        (2 : R) ^ (e - ((p : ℤ) - 1))) := by
  unfold roundBinary
  simp only
  rw [log_two_eq h1 h2, max_eq_left he]

end RoundingLemmas

/-! ## Lemmas on the order of `double` values -/

section DblOrder

variable {R : Type} [LinearOrderedField R]

theorem dbl_lt_irrefl (a : Dbl R) : Dbl.lt a a = false := by
  rcases a with a | (_ | _) | _ <;> simp [Dbl.lt]

theorem dbl_le_refl {a : Dbl R} (h : a ≠ Dbl.nan) : Dbl.le a a = true := by
  rcases a with a | (_ | _) | _ <;> simp_all [Dbl.le]

theorem dbl_le_of_lt {a b : Dbl R} (h : Dbl.lt a b = true) : Dbl.le a b = true := by
  rcases a with a | (_ | _) | _ <;> rcases b with b | (_ | _) | _ <;>
    simp_all [Dbl.lt, Dbl.le]
  exact le_of_lt h

theorem dbl_lt_of_lt_of_le {a b c : Dbl R} (h1 : Dbl.lt a b = true)
    (h2 : Dbl.le b c = true) : Dbl.lt a c = true := by
  rcases a with a | (_ | _) | _ <;> rcases b with b | (_ | _) | _ <;>
    rcases c with c | (_ | _) | _ <;> simp_all [Dbl.lt, Dbl.le]
  exact lt_of_lt_of_le h1 h2

theorem dbl_lt_of_le_of_lt {a b c : Dbl R} (h1 : Dbl.le a b = true)
    (h2 : Dbl.lt b c = true) : Dbl.lt a c = true := by
  rcases a with a | (_ | _) | _ <;> rcases b with b | (_ | _) | _ <;>
    rcases c with c | (_ | _) | _ <;> simp_all [Dbl.lt, Dbl.le]
  exact lt_of_le_of_lt h1 h2

theorem dbl_le_trans {a b c : Dbl R} (h1 : Dbl.le a b = true) (h2 : Dbl.le b c = true) :
    Dbl.le a c = true := by
  rcases a with a | (_ | _) | _ <;> rcases b with b | (_ | _) | _ <;>
    rcases c with c | (_ | _) | _ <;> simp_all [Dbl.lt, Dbl.le]
  exact h1.trans h2

theorem dbl_le_of_not_lt {a b : Dbl R} (ha : a ≠ Dbl.nan) (hb : b ≠ Dbl.nan)
    (h : Dbl.lt a b = false) : Dbl.le b a = true := by
  rcases a with a | (_ | _) | _ <;> rcases b with b | (_ | _) | _ <;>
    simp_all [Dbl.lt, Dbl.le]

theorem dbl_not_lt_of_le {a b : Dbl R} (h : Dbl.le a b = true) : Dbl.lt b a = false := by
  rcases a with a | (_ | _) | _ <;> rcases b with b | (_ | _) | _ <;>
    simp_all [Dbl.lt, Dbl.le]

theorem dbl_ne_nan_of_lt_left {a b : Dbl R} (h : Dbl.lt a b = true) : a ≠ Dbl.nan := by
  rcases a with a | (_ | _) | _ <;> simp_all [Dbl.lt]

theorem dbl_ne_nan_of_lt_right {a b : Dbl R} (h : Dbl.lt a b = true) : b ≠ Dbl.nan := by
  rcases a with a | (_ | _) | _ <;> rcases b with b | (_ | _) | _ <;> simp_all [Dbl.lt]

theorem dbl_ne_nan_of_le_right {a b : Dbl R} (h : Dbl.le a b = true) : b ≠ Dbl.nan := by
  rcases a with a | (_ | _) | _ <;> rcases b with b | (_ | _) | _ <;> simp_all [Dbl.le]

theorem dbl_le_nan (a : Dbl R) : Dbl.le a Dbl.nan = false := by
  rcases a with a | (_ | _) | _ <;> simp [Dbl.le]

end DblOrder

/-! ## Bounds and exact cases of IEEE 754 rounding -/

section IeeeLemmas

variable {R : Type} [LinearOrderedField R] [FloorRing R]

/-- An operation whose exact value is at least `2^m`, `2^m` being a normal number of the
format, yields `+inf` or a finite number that is at least `2^m`. -/
theorem roundBinary_ge (p : ℕ) (emin emax : ℤ) (hp : 1 ≤ p) (x : R) (m : ℤ)
    (hm : emin ≤ m) (hx : (2 : R) ^ m ≤ x) :
    roundBinary p emin emax x = Dbl.inf false ∨
      ∃ r, roundBinary p emin emax x = Dbl.fin r ∧ (2 : R) ^ m ≤ r := by
  have hx0 : 0 < x := lt_of_lt_of_le (two_zpow_pos m) hx
  have hc : ((2 : ℕ) : R) = 2 := by norm_num
  have hmL : m ≤ Int.log 2 x :=
    (@Int.zpow_le_iff_le_log R _ _ 2 (by norm_num) m x hx0).mp (by rw [hc]; exact hx)
  have hL : (2 : R) ^ (Int.log 2 x) ≤ x := by
    have h := @Int.zpow_log_le_self R _ _ 2 x (by norm_num) hx0
    rw [hc] at h
    exact h
  unfold roundBinary
  simp only
  rw [abs_of_pos hx0, max_eq_left (by omega)]
  have hu : (0 : R) < (2 : R) ^ (Int.log 2 x - ((p : ℤ) - 1)) := two_zpow_pos _
  have hsplit : (2 : R) ^ (Int.log 2 x) =
      (((2 : ℤ) ^ (p - 1) : ℤ) : R) * (2 : R) ^ (Int.log 2 x - ((p : ℤ) - 1)) := by
    push_cast
    rw [← zpow_natCast, ← zpow_add₀ (by norm_num : (2 : R) ≠ 0)]
    congr 1
    omega
  have hlo : (((2 : ℤ) ^ (p - 1) : ℤ) : R) ≤ x / (2 : R) ^ (Int.log 2 x - ((p : ℤ) - 1)) := by
    rw [le_div_iff₀ hu, ← hsplit]
    exact hL
  have h1 := rint_mono hlo
  rw [rint_intCast] at h1
  have hr : (2 : R) ^ m ≤
      ((rint (x / (2 : R) ^ (Int.log 2 x - ((p : ℤ) - 1))) : ℤ) : R) *
        (2 : R) ^ (Int.log 2 x - ((p : ℤ) - 1)) := by
    calc (2 : R) ^ m ≤ (2 : R) ^ (Int.log 2 x) := zpow_le_zpow_right₀ (by norm_num) hmL
      _ = (((2 : ℤ) ^ (p - 1) : ℤ) : R) * (2 : R) ^ (Int.log 2 x - ((p : ℤ) - 1)) := hsplit
      _ ≤ _ := mul_le_mul_of_nonneg_right (Int.cast_le.mpr h1) hu.le
  split_ifs with hov
  · left
    rw [decide_eq_false (not_lt.mpr hx0.le)]
  · right
    exact ⟨_, rfl, hr⟩

/-- An operation whose exact value lies between `2^a` and `2^b`, both normal numbers of the
format, yields a finite number between `2^a` and `2^b`. -/
theorem roundBinary_between (p : ℕ) (emin emax : ℤ) (hp : 1 ≤ p) (x : R) (a b : ℤ)
    (ha : emin ≤ a) (hb : b ≤ emax) (h1 : (2 : R) ^ a ≤ x) (h2 : x ≤ (2 : R) ^ b) :
    ∃ r, roundBinary p emin emax x = Dbl.fin r ∧ (2 : R) ^ a ≤ r ∧ r ≤ (2 : R) ^ b := by
  have hx0 : 0 < x := lt_of_lt_of_le (two_zpow_pos a) h1
  have hab : a ≤ b := by
    by_contra hlt
    have : (2 : R) ^ b < (2 : R) ^ a := zpow_lt_zpow_right₀ (by norm_num) (by omega)
    linarith
  obtain ⟨r, hr, hrb, -⟩ := roundBinary_bounded p emin emax hp x b (by omega) hb
    (by rw [abs_of_pos hx0]; exact h2)
  refine ⟨r, hr, ?_, (le_abs_self r).trans hrb⟩
  rcases roundBinary_ge p emin emax hp x a ha h1 with h | ⟨r', hr', hge⟩
  · rw [hr] at h
    cases h
  · rw [hr] at hr'
    cases hr'
    exact hge

theorem ieee_dbl_exact (n k : ℤ) (hn : |n| < 2 ^ 53) (hk : -1074 ≤ k)
    (hx : |(n : R) * (2 : R) ^ k| < (2 : R) ^ ((1023 : ℤ) + 1)) :
    (Rounding.ieee : Rounding R).dbl ((n : R) * (2 : R) ^ k) =
      Dbl.fin ((n : R) * (2 : R) ^ k) :=
  roundBinary_exact 53 (-1022) 1023 n k hn (by push_cast; omega) hx

theorem ieee_flt_exact (n k : ℤ) (hn : |n| < 2 ^ 24) (hk : -149 ≤ k)
    (hx : |(n : R) * (2 : R) ^ k| < (2 : R) ^ ((127 : ℤ) + 1)) :
    (Rounding.ieee : Rounding R).flt ((n : R) * (2 : R) ^ k) =
      Dbl.fin ((n : R) * (2 : R) ^ k) :=
  roundBinary_exact 24 (-126) 127 n k hn (by push_cast; omega) hx

omit [FloorRing R] in
theorem abs_intCast_lt_zpow (n : ℤ) (a : ℕ) (b : ℤ) (hn : |n| < 2 ^ a) (hab : (a : ℤ) ≤ b) :
    |(n : R)| < (2 : R) ^ b := by
  have h : ((|n| : ℤ) : R) < (((2 : ℤ) ^ a : ℤ) : R) := Int.cast_lt.mpr hn
  rw [Int.cast_abs] at h
  refine lt_of_lt_of_le h ?_
  push_cast
  rw [← zpow_natCast]
  exact zpow_le_zpow_right₀ (by norm_num) hab

/-- An integer below `2^53` in magnitude is a `double`. -/
theorem ieee_dbl_int (n : ℤ) (hn : |n| < 2 ^ 53) :
    (Rounding.ieee : Rounding R).dbl (n : R) = Dbl.fin (n : R) := by
  have h := @ieee_dbl_exact R _ _ n 0 hn (by norm_num)
    (by rw [zpow_zero, mul_one]; exact abs_intCast_lt_zpow n 53 _ hn (by norm_num))
  rw [zpow_zero, mul_one] at h
  exact h

/-- An integer below `2^24` in magnitude is a `float`. -/
theorem ieee_flt_int (n : ℤ) (hn : |n| < 2 ^ 24) :
    (Rounding.ieee : Rounding R).flt (n : R) = Dbl.fin (n : R) := by
  have h := @ieee_flt_exact R _ _ n 0 hn (by norm_num)
    (by rw [zpow_zero, mul_one]; exact abs_intCast_lt_zpow n 24 _ hn (by norm_num))
  rw [zpow_zero, mul_one] at h
  exact h

theorem ieee_dbl_between (x : R) (a b : ℤ) (ha : -1022 ≤ a) (hb : b ≤ 1023)
    (h1 : (2 : R) ^ a ≤ x) (h2 : x ≤ (2 : R) ^ b) :
    ∃ r, (Rounding.ieee : Rounding R).dbl x = Dbl.fin r ∧ (2 : R) ^ a ≤ r ∧ r ≤ (2 : R) ^ b :=
  roundBinary_between 53 (-1022) 1023 (by norm_num) x a b ha hb h1 h2

theorem ieee_dbl_bounded (x : R) (b : ℤ) (hb1 : -1022 ≤ b) (hb : b ≤ 1023)
    (h0 : 0 ≤ x) (h2 : x ≤ (2 : R) ^ b) :
    ∃ r, (Rounding.ieee : Rounding R).dbl x = Dbl.fin r ∧ 0 ≤ r ∧ r ≤ (2 : R) ^ b := by
  obtain ⟨r, hr, hrb, hr0⟩ := roundBinary_bounded 53 (-1022) 1023 (by norm_num) x b hb1 hb
    (by rw [abs_of_nonneg h0]; exact h2)
  exact ⟨r, hr, hr0 h0, (le_abs_self r).trans hrb⟩

end IeeeLemmas

/-! ## Lemmas on `float` values, sorting and the median -/

theorem CFloat.scaled_mono {x y : CFloat} (h : x.mag ≤ y.mag) : x.scaled ≤ y.scaled := by
  unfold CFloat.scaled
  have hma : x.mag % 8388608 < 8388608 := Nat.mod_lt _ (by norm_num)
  have he : x.mag / 8388608 ≤ y.mag / 8388608 := Nat.div_le_div_right h
  have hm : x.mag / 8388608 = y.mag / 8388608 → x.mag % 8388608 ≤ y.mag % 8388608 := by
    omega
  by_cases hx : x.mag / 8388608 = 0
  · rw [if_pos hx]
    by_cases hy : y.mag / 8388608 = 0
    · rw [if_pos hy]
      exact hm (hx.trans hy.symm)
    · rw [if_neg hy]
      have h1 : 1 ≤ 2 ^ (y.mag / 8388608 - 1) := Nat.one_le_two_pow
      calc x.mag % 8388608 ≤ (8388608 + y.mag % 8388608) * 1 := by omega
        _ ≤ (8388608 + y.mag % 8388608) * 2 ^ (y.mag / 8388608 - 1) :=
          Nat.mul_le_mul_left _ h1
  · have hy : ¬ y.mag / 8388608 = 0 := by omega
    rw [if_neg hx, if_neg hy]
    rcases Nat.lt_or_ge (x.mag / 8388608) (y.mag / 8388608) with hlt | hge
    · have hpow : 2 ^ (x.mag / 8388608 - 1) * 2 ≤ 2 ^ (y.mag / 8388608 - 1) := by
        rw [← pow_succ]
        exact Nat.pow_le_pow_right (by norm_num) (by omega)
      calc (8388608 + x.mag % 8388608) * 2 ^ (x.mag / 8388608 - 1)
          ≤ (8388608 * 2) * 2 ^ (x.mag / 8388608 - 1) :=
            Nat.mul_le_mul_right _ (by omega)
        _ = 8388608 * (2 ^ (x.mag / 8388608 - 1) * 2) := by ring
        _ ≤ 8388608 * 2 ^ (y.mag / 8388608 - 1) := Nat.mul_le_mul_left _ hpow
        _ ≤ (8388608 + y.mag % 8388608) * 2 ^ (y.mag / 8388608 - 1) :=
            Nat.mul_le_mul_right _ (by omega)
    · have heq : x.mag / 8388608 = y.mag / 8388608 := le_antisymm he hge
      rw [heq]
      exact Nat.mul_le_mul_right _ (by have := hm heq; omega)

theorem CFloat.toRat_nonneg_of_not_neg {x : CFloat} (h : x.neg = false) : 0 ≤ x.toRat := by
  unfold CFloat.toRat
  rw [h]
  simp only [Bool.false_eq_true, if_false]
  positivity

/-- On values that are not negative, the order of the `int` views is the order of the
numbers. -/
theorem CFloat.toRat_le_of_toInt_le {x y : CFloat} (hx : 0 ≤ x.toRat) (hy : 0 ≤ y.toRat)
    (h : x.toInt ≤ y.toInt) : x.toRat ≤ y.toRat := by
  have hxf := x.finite
  have hyf := y.finite
  cases hxn : x.neg
  · cases hyn : y.neg
    · have hm : x.mag ≤ y.mag := by
        unfold CFloat.toInt at h
        rw [hxn, hyn] at h
        simpa using h
      unfold CFloat.toRat
      rw [hxn, hyn]
      simp only [Bool.false_eq_true, if_false]
      have := CFloat.scaled_mono hm
      have hq : (x.scaled : ℚ) ≤ (y.scaled : ℚ) := by exact_mod_cast this
      exact div_le_div_of_nonneg_right hq (by positivity)
    · exfalso
      unfold CFloat.toInt at h
      rw [hxn, hyn] at h
      simp only [Bool.false_eq_true, if_false, if_true] at h
      omega
  · have hx0 : x.toRat = 0 := by
      apply le_antisymm _ hx
      unfold CFloat.toRat
      rw [hxn]
      simp only [if_true]
      rw [neg_nonpos]
      positivity
    rw [hx0]
    exact hy

section MedianLemmas

variable {R : Type} [LinearOrderedField R]

theorem getD_map_of_lt {α β : Type} (f : α → β) (l : List α) (i : ℕ) (d : α) (d' : β)
    (h : i < l.length) : (l.map f).getD i d' = f (l.getD i d) := by
  rw [List.getD_eq_getElem _ _ (by simpa using h), List.getD_eq_getElem _ _ h]
  simp

theorem icvSortDistances_length (err : List CFloat) :
    icvSortDistances err err.length = err.insertionSort (fun a b => a.toInt ≤ b.toInt) := by
  unfold icvSortDistances
  simp

theorem icvSortDistances_perm (err : List CFloat) :
    (icvSortDistances err err.length).Perm err := by
  rw [icvSortDistances_length]
  exact List.perm_insertionSort _ _

/-- Sorting non-negative errors through their `int` view sorts their values. -/
theorem map_icvSortDistances (err : List CFloat) (hnn : ∀ e ∈ err, 0 ≤ e.toRat) :
    (icvSortDistances err err.length).map (fun e => ((e.toRat : ℚ) : R)) =
      (err.map (fun e => ((e.toRat : ℚ) : R))).insertionSort (fun a b => a ≤ b) := by
  haveI : IsTotal CFloat (fun a b => a.toInt ≤ b.toInt) := ⟨fun a b => le_total _ _⟩
  haveI : IsTrans CFloat (fun a b => a.toInt ≤ b.toInt) := ⟨fun _ _ _ h1 h2 => le_trans h1 h2⟩
  have hperm := icvSortDistances_perm err
  have hs : (icvSortDistances err err.length).Sorted (fun a b => a.toInt ≤ b.toInt) := by
    rw [icvSortDistances_length]
    exact List.sorted_insertionSort _ _
  have hs2 : (icvSortDistances err err.length).Pairwise
      (fun a b => ((a.toRat : ℚ) : R) ≤ ((b.toRat : ℚ) : R)) := by
    refine List.Pairwise.imp_of_mem ?_ hs
    intro a b ha hb hab
    have := CFloat.toRat_le_of_toInt_le (hnn a (hperm.subset ha)) (hnn b (hperm.subset hb)) hab
    exact_mod_cast this
  have hs3 : ((icvSortDistances err err.length).map (fun e => ((e.toRat : ℚ) : R))).Sorted
      (fun a b => a ≤ b) := by
    unfold List.Sorted
    rw [List.pairwise_map]
    exact hs2
  refine List.eq_of_perm_of_sorted ?_ hs3 (List.sorted_insertionSort _ _)
  exact (hperm.map _).trans (List.perm_insertionSort _ _).symm

end MedianLemmas

/-! ## Claim on the median -/

/-- C7, amended: for `N >= 1` non-negative errors, the median that `runLMeDS` reads off the
buffer sorted by `icvSortDistances` through its `int` view is, for odd `N`, the middle element
of the ascending-sorted values, which is the median of the specification; for even `N` it is
the `double` product with `0.5` of the `float` sum of the two central elements `lo`, `hi`,
whose exact average is the median of the specification; and in IEEE 754 arithmetic it is that
average whenever the sum `lo + hi` is a `float`, that is `n * 2^k` with `|n| < 2^24`. -/
theorem lmedsMedian_spec {R : Type} [LinearOrderedField R] [FloorRing R] (rd : Rounding R)
    (err : List CFloat) (hN : 1 ≤ err.length) (hnn : ∀ e ∈ err, 0 ≤ e.toRat) :
    (err.length % 2 = 1 →
      CvModelEstimator2.lmedsMedian rd (icvSortDistances err err.length) err.length =
        Dbl.fin (specMedian (err.map (fun e => ((e.toRat : ℚ) : R))))) ∧
    (err.length % 2 = 0 →
      CvModelEstimator2.lmedsMedian rd (icvSortDistances err err.length) err.length =
        Dbl.mul rd.dbl
          (rd.flt (((err.map (fun e => ((e.toRat : ℚ) : R))).insertionSort
              (fun a b => a ≤ b)).getD (err.length / 2 - 1) 0 +
            ((err.map (fun e => ((e.toRat : ℚ) : R))).insertionSort
              (fun a b => a ≤ b)).getD (err.length / 2) 0))
          (Dbl.fin 0.5) ∧
      specMedian (err.map (fun e => ((e.toRat : ℚ) : R))) =
        (((err.map (fun e => ((e.toRat : ℚ) : R))).insertionSort
              (fun a b => a ≤ b)).getD (err.length / 2 - 1) 0 +
            ((err.map (fun e => ((e.toRat : ℚ) : R))).insertionSort
              (fun a b => a ≤ b)).getD (err.length / 2) 0) / 2) ∧
    (err.length % 2 = 0 → ∀ n k : ℤ,
      ((err.map (fun e => ((e.toRat : ℚ) : R))).insertionSort
          (fun a b => a ≤ b)).getD (err.length / 2 - 1) 0 +
        ((err.map (fun e => ((e.toRat : ℚ) : R))).insertionSort
          (fun a b => a ≤ b)).getD (err.length / 2) 0 = (n : R) * (2 : R) ^ k →
      |n| < 2 ^ 24 → -149 ≤ k → |(n : R) * (2 : R) ^ k| < (2 : R) ^ ((127 : ℤ) + 1) →
      CvModelEstimator2.lmedsMedian Rounding.ieee (icvSortDistances err err.length)
          err.length =
        Dbl.fin (specMedian (err.map (fun e => ((e.toRat : ℚ) : R))))) := by
  have hmap := @map_icvSortDistances R _ err hnn
  have hlen : (icvSortDistances err err.length).length = err.length :=
    (icvSortDistances_perm err).length_eq
  have h1 : err.length / 2 < (icvSortDistances err err.length).length := by omega
  have h2 : err.length / 2 - 1 < (icvSortDistances err err.length).length := by omega
  have hodd : err.length % 2 = 1 →
      ∀ rd' : Rounding R,
      CvModelEstimator2.lmedsMedian rd' (icvSortDistances err err.length) err.length =
        Dbl.fin (specMedian (err.map (fun e => ((e.toRat : ℚ) : R)))) := by
    intro ho rd'
    unfold CvModelEstimator2.lmedsMedian specMedian
    simp only [List.length_map]
    rw [← hmap, getD_map_of_lt _ _ _ default 0 h1, if_pos (by omega), if_pos ho]
  have heven : err.length % 2 = 0 →
      ∀ rd' : Rounding R,
      CvModelEstimator2.lmedsMedian rd' (icvSortDistances err err.length) err.length =
        Dbl.mul rd'.dbl
          (rd'.flt (((err.map (fun e => ((e.toRat : ℚ) : R))).insertionSort
              (fun a b => a ≤ b)).getD (err.length / 2 - 1) 0 +
            ((err.map (fun e => ((e.toRat : ℚ) : R))).insertionSort
              (fun a b => a ≤ b)).getD (err.length / 2) 0))
          (Dbl.fin 0.5) := by
    intro he rd'
    unfold CvModelEstimator2.lmedsMedian
    rw [← hmap, getD_map_of_lt _ _ _ default 0 h1, getD_map_of_lt _ _ _ default 0 h2,
      if_neg (by omega)]
    rfl
  have hspec : err.length % 2 = 0 →
      specMedian (err.map (fun e => ((e.toRat : ℚ) : R))) =
        (((err.map (fun e => ((e.toRat : ℚ) : R))).insertionSort
              (fun a b => a ≤ b)).getD (err.length / 2 - 1) 0 +
            ((err.map (fun e => ((e.toRat : ℚ) : R))).insertionSort
              (fun a b => a ≤ b)).getD (err.length / 2) 0) / 2 := by
    intro he
    unfold specMedian
    simp only [List.length_map]
    rw [if_neg (by omega)]
  refine ⟨fun ho => hodd ho rd, fun he => ⟨heven he rd, hspec he⟩, ?_⟩
  intro he n k hsum hn hk hlt
  rw [heven he Rounding.ieee, hspec he, hsum, ieee_flt_exact n k hn hk hlt]
  have hhalf : (n : R) * (2 : R) ^ k * 0.5 = (n : R) * (2 : R) ^ (k - 1) := by
    rw [zpow_sub₀ (by norm_num : (2 : R) ≠ 0), zpow_one]
    norm_num
    ring
  show (Rounding.ieee : Rounding R).dbl ((n : R) * (2 : R) ^ k * 0.5) = _
  rw [hhalf, ieee_dbl_exact n (k - 1) (lt_trans hn (by norm_num)) (by omega)]
  · congr 1
    rw [← hhalf]
    norm_num
    ring
  · rw [← hhalf, abs_mul]
    have h05 : |(0.5 : R)| = 0.5 := abs_of_pos (by norm_num)
    rw [h05]
    have hpos : (0 : R) ≤ |(n : R) * (2 : R) ^ k| := abs_nonneg _
    have hstep : (2 : R) ^ ((127 : ℤ) + 1) ≤ (2 : R) ^ ((1023 : ℤ) + 1) :=
      zpow_le_zpow_right₀ (by norm_num) (by norm_num)
    have h05' : (0.5 : R) = 1 / 2 := by norm_num
    rw [h05']
    exact lt_of_le_of_lt (by linarith) (lt_of_lt_of_le hlt hstep)

theorem exampleErrors5_values :
    exampleErrors5.map (fun e => e.toRat) = [1, 2, 3, 4, 5] := by
  simp only [exampleErrors5, List.map, CFloat.toRat, CFloat.scaled]
  norm_num

theorem exampleErrors4_values :
    exampleErrors4.map (fun e => e.toRat) = [1, 2, 3, 4] := by
  simp only [exampleErrors4, List.map, CFloat.toRat, CFloat.scaled]
  norm_num

theorem exampleErrors5_nonneg : ∀ e ∈ exampleErrors5, 0 ≤ e.toRat := by
  intro e he
  simp only [exampleErrors5, List.mem_cons, List.mem_singleton, List.not_mem_nil,
    or_false] at he
  rcases he with h | h | h | h | h <;> subst h <;>
    exact CFloat.toRat_nonneg_of_not_neg rfl

theorem exampleErrors4_nonneg : ∀ e ∈ exampleErrors4, 0 ≤ e.toRat := by
  intro e he
  simp only [exampleErrors4, List.mem_cons, List.mem_singleton, List.not_mem_nil,
    or_false] at he
  rcases he with h | h | h | h <;> subst h <;>
    exact CFloat.toRat_nonneg_of_not_neg rfl

/-- Witness for C7 (amended): the examples of the specification in IEEE 754 arithmetic, errors
`[1,2,3,4,5]` with median `3` and errors `[1,2,3,4]`, whose central sum `2 + 3` is a `float`,
with median `2.5`. -/
theorem lmedsMedian_spec_witness :
    CvModelEstimator2.lmedsMedian (Rounding.ieee : Rounding ℚ)
      (icvSortDistances exampleErrors5 5) 5 = Dbl.fin 3 ∧
    CvModelEstimator2.lmedsMedian (Rounding.ieee : Rounding ℚ)
      (icvSortDistances exampleErrors4 4) 4 = Dbl.fin (5 / 2) := by
  have h5 : specMedian (exampleErrors5.map (fun e => ((e.toRat : ℚ) : ℚ))) = 3 := by
    have h := exampleErrors5_values
    rw [h]
    simp [specMedian, List.insertionSort, List.orderedInsert]
  have h4 : specMedian (exampleErrors4.map (fun e => ((e.toRat : ℚ) : ℚ))) = 5 / 2 := by
    have h := exampleErrors4_values
    rw [h]
    simp [specMedian, List.insertionSort, List.orderedInsert]
    norm_num
  constructor
  · rw [← h5]
    exact (lmedsMedian_spec Rounding.ieee exampleErrors5 (by decide)
      exampleErrors5_nonneg).1 (by decide)
  · rw [← h4]
    refine (lmedsMedian_spec Rounding.ieee exampleErrors4 (by decide)
      exampleErrors4_nonneg).2.2 (by decide) 5 0 ?_ (by norm_num) (by norm_num) ?_
    · have h := exampleErrors4_values
      have hl : exampleErrors4.length = 4 := rfl
      simp only [Rat.cast_id]
      rw [h, hl]
      simp [List.insertionSort, List.orderedInsert]
      norm_num
    · rw [zpow_zero, mul_one]
      exact abs_intCast_lt_zpow 5 24 _ (by norm_num) (by norm_num)

theorem closeErrors_values :
    closeErrors.map (fun e => e.toRat) = [1, 8388609 / 8388608] := by
  simp only [closeErrors, List.map, CFloat.toRat, CFloat.scaled]
  norm_num

/-- In `float` arithmetic the sum of `1` and `1 + 2^-23` is `2`: the exact sum
`2 + 2^-23` lies halfway between the floats `2` and `2 + 2^-22` and goes to the even one. -/
theorem ieee_flt_close_sum :
    (Rounding.ieee : Rounding ℚ).flt (1 + 8388609 / 8388608) = Dbl.fin 2 := by
  show roundBinary 24 (-126) 127 ((1 : ℚ) + 8388609 / 8388608) = Dbl.fin 2
  have hr : rint ((1 + 8388609 / 8388608 : ℚ) / (2 : ℚ) ^ ((1 : ℤ) - (((24 : ℕ) : ℤ) - 1))) =
      8388608 := by
    have hx : (1 + 8388609 / 8388608 : ℚ) / (2 : ℚ) ^ ((1 : ℤ) - (((24 : ℕ) : ℤ) - 1)) =
        16777217 / 2 := by
      norm_num [zpow_neg]
    rw [hx]
    have hf : ⌊(16777217 / 2 : ℚ)⌋ = 8388608 := by
      rw [Int.floor_eq_iff]
      norm_num
    unfold rint
    simp only [hf]
    norm_num
  rw [roundBinary_eq 24 (-126) 127 _ 1 (by norm_num) (by norm_num [abs_of_pos])
    (by norm_num [abs_of_pos]), hr]
  norm_num [zpow_neg]

/-- C7, as stated, fails: for the two non-negative errors `1.0f` and `1 + 2^-23` the median
that `runLMeDS` computes in IEEE 754 arithmetic is `1`, while the average of the two values is
`1 + 2^-24`. -/
theorem lmedsMedian_rounds_sum :
    (∀ e ∈ closeErrors, 0 ≤ e.toRat) ∧
    CvModelEstimator2.lmedsMedian (Rounding.ieee : Rounding ℚ)
      (icvSortDistances closeErrors 2) 2 = Dbl.fin 1 ∧
    specMedian (closeErrors.map (fun e => ((e.toRat : ℚ) : ℚ))) = 16777217 / 16777216 ∧
    (1 : ℚ) ≠ 16777217 / 16777216 := by
  have hnn : ∀ e ∈ closeErrors, 0 ≤ e.toRat := by
    intro e he
    simp only [closeErrors, List.mem_cons, List.mem_singleton, List.not_mem_nil,
      or_false] at he
    rcases he with h | h <;> subst h <;> exact CFloat.toRat_nonneg_of_not_neg rfl
  have hv := closeErrors_values
  have hs : specMedian (closeErrors.map (fun e => ((e.toRat : ℚ) : ℚ))) =
      16777217 / 16777216 := by
    rw [hv]
    simp [specMedian, List.insertionSort, List.orderedInsert]
    norm_num
  refine ⟨hnn, ?_, hs, by norm_num⟩
  have hsorted : icvSortDistances closeErrors 2 = closeErrors := by decide
  have h0 : (((closeErrors.getD 0 default).toRat : ℚ) : ℚ) = 1 := by
    have h := congrArg (fun l => l.getD 0 0) hv
    simpa [closeErrors] using h
  have h1 : (((closeErrors.getD 1 default).toRat : ℚ) : ℚ) = 8388609 / 8388608 := by
    have h := congrArg (fun l => l.getD 1 0) hv
    simpa [closeErrors] using h
  rw [hsorted]
  unfold CvModelEstimator2.lmedsMedian
  rw [if_neg (by decide)]
  have hidx : (2 / 2 - 1 = 0) ∧ (2 / 2 = 1) := ⟨rfl, rfl⟩
  rw [hidx.1, hidx.2, h0, h1]
  show Dbl.mul (Rounding.ieee : Rounding ℚ).dbl
    ((Rounding.ieee : Rounding ℚ).flt (1 + 8388609 / 8388608)) (Dbl.fin 0.5) = Dbl.fin 1
  rw [ieee_flt_close_sum]
  show (Rounding.ieee : Rounding ℚ).dbl (2 * 0.5) = Dbl.fin 1
  have h1' : (2 : ℚ) * 0.5 = ((1 : ℤ) : ℚ) := by norm_num
  rw [h1', ieee_dbl_int 1 (by norm_num)]
  norm_num
/-! ## Lemmas on loops with `break` -/

theorem forBreakAux_le (stop : ℕ → Bool) (gap k : ℕ) : forBreakAux stop gap k ≤ k + gap := by
  induction gap generalizing k with
  | zero => simp [forBreakAux]
  | succ g ih =>
    unfold forBreakAux
    split_ifs
    · omega
    · have := ih (k + 1)
      omega

theorem forBreakAux_ge (stop : ℕ → Bool) (gap k : ℕ) : k ≤ forBreakAux stop gap k := by
  induction gap generalizing k with
  | zero => simp [forBreakAux]
  | succ g ih =>
    unfold forBreakAux
    split_ifs
    · omega
    · have := ih (k + 1)
      omega

theorem forBreakAux_lt_of_stop (stop : ℕ → Bool) (gap k t : ℕ) (hk : k ≤ t) (ht : t < k + gap)
    (hs : stop t = true) : forBreakAux stop gap k < k + gap := by
  induction gap generalizing k with
  | zero => omega
  | succ g ih =>
    unfold forBreakAux
    split_ifs with h
    · omega
    · have hne : k ≠ t := fun e => h (e ▸ hs)
      have := ih (k + 1) (by omega) (by omega)
      omega

theorem forBreakAux_eq_of_no_stop (stop : ℕ → Bool) (gap k : ℕ)
    (h : ∀ t, k ≤ t → t < k + gap → stop t = false) : forBreakAux stop gap k = k + gap := by
  induction gap generalizing k with
  | zero => simp [forBreakAux]
  | succ g ih =>
    unfold forBreakAux
    rw [if_neg (by rw [h k le_rfl (by omega)]; simp)]
    rw [ih (k + 1) (fun t h1 h2 => h t (by omega) (by omega))]
    omega

theorem forBreakAux_stop (stop : ℕ → Bool) (gap k : ℕ) (h : forBreakAux stop gap k < k + gap) :
    stop (forBreakAux stop gap k) = true := by
  induction gap generalizing k with
  | zero => simp [forBreakAux] at h
  | succ g ih =>
    unfold forBreakAux at h ⊢
    split_ifs with hs
    · exact hs
    · rw [if_neg hs] at h
      exact ih (k + 1) (by omega)

theorem forBreakAux_no_stop_before (stop : ℕ → Bool) (gap k t : ℕ) (hk : k ≤ t)
    (ht : t < forBreakAux stop gap k) : stop t = false := by
  induction gap generalizing k with
  | zero => simp [forBreakAux] at ht; omega
  | succ g ih =>
    unfold forBreakAux at ht
    split_ifs at ht with hs
    · omega
    · rcases Nat.eq_or_lt_of_le hk with e | hlt
      · subst e; simpa using hs
      · exact ih (k + 1) hlt ht

theorem forBreak_le (stop : ℕ → Bool) (n : ℕ) : forBreak stop n ≤ n := by
  have := forBreakAux_le stop n 0
  unfold forBreak
  omega

theorem forBreak_lt_of_stop (stop : ℕ → Bool) (n t : ℕ) (ht : t < n) (hs : stop t = true) :
    forBreak stop n < n := by
  have := forBreakAux_lt_of_stop stop n 0 t (Nat.zero_le _) (by omega) hs
  unfold forBreak
  omega

theorem forBreak_eq_of_no_stop (stop : ℕ → Bool) (n : ℕ) (h : ∀ t, t < n → stop t = false) :
    forBreak stop n = n := by
  have := forBreakAux_eq_of_no_stop stop n 0 (fun t _ h2 => h t (by omega))
  unfold forBreak
  omega

theorem forBreak_stop (stop : ℕ → Bool) (n : ℕ) (h : forBreak stop n < n) :
    stop (forBreak stop n) = true :=
  forBreakAux_stop stop n 0 (by unfold forBreak at h; omega)

theorem forBreak_no_stop_before (stop : ℕ → Bool) (n t : ℕ) (ht : t < forBreak stop n) :
    stop t = false :=
  forBreakAux_no_stop_before stop n 0 t (Nat.zero_le _) ht

theorem forBreakAux_congr (f g : ℕ → Bool) (gap k : ℕ)
    (h : ∀ t, k ≤ t → t < k + gap → f t = g t) : forBreakAux f gap k = forBreakAux g gap k := by
  induction gap generalizing k with
  | zero => rfl
  | succ gap ih =>
    unfold forBreakAux
    rw [h k le_rfl (by omega), ih (k + 1) (fun t h1 h2 => h t (by omega) (by omega))]

theorem forBreak_congr (f g : ℕ → Bool) (n : ℕ) (h : ∀ t, t < n → f t = g t) :
    forBreak f n = forBreak g n :=
  forBreakAux_congr f g n 0 (fun t _ h2 => h t (by omega))

/-! ## Claim on the default degeneracy test -/

section CheckSubsetLemmas

variable {R : Type} [LinearOrderedField R]

/-- In arithmetic without rounding the test compares the cross product of the difference
vectors with `FLT_EPSILON` times the sum of their coordinates' magnitudes. -/
theorem checkSubset_exact_eq (m : List (CvPoint2D64f R)) (count : ℤ) :
    CvModelEstimator2.checkSubset Rounding.exact m count =
      decide (((forBreak (fun j =>
        decide (forBreak (fun k =>
          decide (|((m.getD k ⟨0, 0⟩).x - (m.getD (count - 1).toNat ⟨0, 0⟩).x) *
                ((m.getD j ⟨0, 0⟩).y - (m.getD (count - 1).toNat ⟨0, 0⟩).y) -
              ((m.getD k ⟨0, 0⟩).y - (m.getD (count - 1).toNat ⟨0, 0⟩).y) *
                ((m.getD j ⟨0, 0⟩).x - (m.getD (count - 1).toNat ⟨0, 0⟩).x)| <
            FLT_EPSILON * (|(m.getD j ⟨0, 0⟩).x - (m.getD (count - 1).toNat ⟨0, 0⟩).x| +
              |(m.getD j ⟨0, 0⟩).y - (m.getD (count - 1).toNat ⟨0, 0⟩).y| +
              |(m.getD k ⟨0, 0⟩).x - (m.getD (count - 1).toNat ⟨0, 0⟩).x| +
              |(m.getD k ⟨0, 0⟩).y - (m.getD (count - 1).toNat ⟨0, 0⟩).y|))) j < j))
        (count - 1).toNat : ℕ) : ℤ) = count - 1) := rfl

/-- In arithmetic without rounding, `checkSubset( m, count )` returns false whenever the
newest point `m[count-1]` is exactly collinear with two earlier points of the sample, the
three points not being all equal. -/
theorem checkSubset_exact_rejects (m : List (CvPoint2D64f R)) (count : ℤ) (j k : ℕ)
    (hkj : k < j) (hji : (j : ℤ) < count - 1)
    (hcross : ((m.getD k ⟨0, 0⟩).x - (m.getD (count - 1).toNat ⟨0, 0⟩).x) *
        ((m.getD j ⟨0, 0⟩).y - (m.getD (count - 1).toNat ⟨0, 0⟩).y) -
      ((m.getD k ⟨0, 0⟩).y - (m.getD (count - 1).toNat ⟨0, 0⟩).y) *
        ((m.getD j ⟨0, 0⟩).x - (m.getD (count - 1).toNat ⟨0, 0⟩).x) = 0)
    (hne : ¬((m.getD k ⟨0, 0⟩).x = (m.getD (count - 1).toNat ⟨0, 0⟩).x ∧
             (m.getD k ⟨0, 0⟩).y = (m.getD (count - 1).toNat ⟨0, 0⟩).y ∧
             (m.getD j ⟨0, 0⟩).x = (m.getD (count - 1).toNat ⟨0, 0⟩).x ∧
             (m.getD j ⟨0, 0⟩).y = (m.getD (count - 1).toNat ⟨0, 0⟩).y)) :
    CvModelEstimator2.checkSubset Rounding.exact m count = false := by
  rw [checkSubset_exact_eq, decide_eq_false_iff_not]
  intro hj
  have hjn : j < (count - 1).toNat := by omega
  have hlt := forBreak_lt_of_stop (fun j =>
    decide (forBreak (fun k =>
      decide (|((m.getD k ⟨0, 0⟩).x - (m.getD (count - 1).toNat ⟨0, 0⟩).x) *
            ((m.getD j ⟨0, 0⟩).y - (m.getD (count - 1).toNat ⟨0, 0⟩).y) -
          ((m.getD k ⟨0, 0⟩).y - (m.getD (count - 1).toNat ⟨0, 0⟩).y) *
            ((m.getD j ⟨0, 0⟩).x - (m.getD (count - 1).toNat ⟨0, 0⟩).x)| <
        FLT_EPSILON * (|(m.getD j ⟨0, 0⟩).x - (m.getD (count - 1).toNat ⟨0, 0⟩).x| +
          |(m.getD j ⟨0, 0⟩).y - (m.getD (count - 1).toNat ⟨0, 0⟩).y| +
          |(m.getD k ⟨0, 0⟩).x - (m.getD (count - 1).toNat ⟨0, 0⟩).x| +
          |(m.getD k ⟨0, 0⟩).y - (m.getD (count - 1).toNat ⟨0, 0⟩).y|))) j < j))
    (count - 1).toNat j hjn (by
      rw [decide_eq_true_iff]
      apply forBreak_lt_of_stop _ j k hkj
      rw [decide_eq_true_iff, hcross, abs_zero]
      apply mul_pos (by unfold FLT_EPSILON; positivity)
      by_contra hsum
      apply hne
      have h1 := abs_nonneg ((m.getD j ⟨0, 0⟩).x - (m.getD (count - 1).toNat ⟨0, 0⟩).x)
      have h2 := abs_nonneg ((m.getD j ⟨0, 0⟩).y - (m.getD (count - 1).toNat ⟨0, 0⟩).y)
      have h3 := abs_nonneg ((m.getD k ⟨0, 0⟩).x - (m.getD (count - 1).toNat ⟨0, 0⟩).x)
      have h4 := abs_nonneg ((m.getD k ⟨0, 0⟩).y - (m.getD (count - 1).toNat ⟨0, 0⟩).y)
      have e1 : |(m.getD j ⟨0, 0⟩).x - (m.getD (count - 1).toNat ⟨0, 0⟩).x| = 0 := by
        linarith
      have e2 : |(m.getD j ⟨0, 0⟩).y - (m.getD (count - 1).toNat ⟨0, 0⟩).y| = 0 := by
        linarith
      have e3 : |(m.getD k ⟨0, 0⟩).x - (m.getD (count - 1).toNat ⟨0, 0⟩).x| = 0 := by
        linarith
      have e4 : |(m.getD k ⟨0, 0⟩).y - (m.getD (count - 1).toNat ⟨0, 0⟩).y| = 0 := by
        linarith
      rw [abs_eq_zero, sub_eq_zero] at e1 e2 e3 e4
      exact ⟨e3, e4, e1, e2⟩)
  omega

variable [FloorRing R]

/-- A multiple `n * 2^k` of a power of two with `|n| < 2^53` and `-1074 <= k <= 970` is a
`double`. -/
theorem ieee_dbl_of_grid (x : R) (n k : ℤ) (hx : x = (n : R) * (2 : R) ^ k)
    (hn : |n| < 2 ^ 53) (hk1 : -1074 ≤ k) (hk2 : k ≤ 970) :
    (Rounding.ieee : Rounding R).dbl x = Dbl.fin x := by
  rw [hx]
  apply ieee_dbl_exact n k hn hk1
  have h2k : |(2 : R) ^ k| = (2 : R) ^ k := abs_of_pos (two_zpow_pos k)
  rw [abs_mul, h2k]
  have h1 : |(n : R)| < (2 : R) ^ (53 : ℤ) := abs_intCast_lt_zpow n 53 53 hn le_rfl
  have h2 : (2 : R) ^ (53 : ℤ) * (2 : R) ^ k ≤ (2 : R) ^ ((1023 : ℤ) + 1) := by
    rw [← zpow_add₀ (by norm_num : (2 : R) ≠ 0)]
    exact zpow_le_zpow_right₀ (by norm_num) (by omega)
  exact lt_of_lt_of_le (mul_lt_mul_of_pos_right h1 (two_zpow_pos k)) h2

/-- On difference vectors whose coordinates are multiples `n * 2^s` of a common power of two
with `|n| <= 2^25`, the comparison of `checkSubset` is exact in IEEE 754 arithmetic. -/
theorem crossTest_ieee_grid (s : ℤ) (hs1 : -500 ≤ s) (hs2 : s ≤ 480) (a1 b1 a2 b2 : ℤ)
    (h1 : |a1| ≤ 2 ^ 25) (h2 : |b1| ≤ 2 ^ 25) (h3 : |a2| ≤ 2 ^ 25) (h4 : |b2| ≤ 2 ^ 25)
    (X1 Y1 X2 Y2 : R) (e1 : X1 = (a1 : R) * (2 : R) ^ s) (e2 : Y1 = (b1 : R) * (2 : R) ^ s)
    (e3 : X2 = (a2 : R) * (2 : R) ^ s) (e4 : Y2 = (b2 : R) * (2 : R) ^ s) :
    Dbl.lt
      (Dbl.abs (Dbl.sub (Rounding.ieee : Rounding R).dbl
        (Dbl.mul (Rounding.ieee : Rounding R).dbl ((Rounding.ieee : Rounding R).dbl X2)
          ((Rounding.ieee : Rounding R).dbl Y1))
        (Dbl.mul (Rounding.ieee : Rounding R).dbl ((Rounding.ieee : Rounding R).dbl Y2)
          ((Rounding.ieee : Rounding R).dbl X1))))
      (Dbl.mul (Rounding.ieee : Rounding R).dbl (Dbl.fin FLT_EPSILON)
        (Dbl.add (Rounding.ieee : Rounding R).dbl
          (Dbl.add (Rounding.ieee : Rounding R).dbl
            (Dbl.add (Rounding.ieee : Rounding R).dbl
              (Dbl.abs ((Rounding.ieee : Rounding R).dbl X1))
              (Dbl.abs ((Rounding.ieee : Rounding R).dbl Y1)))
            (Dbl.abs ((Rounding.ieee : Rounding R).dbl X2)))
          (Dbl.abs ((Rounding.ieee : Rounding R).dbl Y2)))) =
    decide (|X2 * Y1 - Y2 * X1| < FLT_EPSILON * (|X1| + |Y1| + |X2| + |Y2|)) := by
  have hz : (2 : R) ^ (2 * s) = (2 : R) ^ s * (2 : R) ^ s := by
    rw [two_mul, zpow_add₀ (by norm_num : (2 : R) ≠ 0)]
  have hp : (0 : R) < (2 : R) ^ s := two_zpow_pos s
  have n1 := abs_nonneg a1
  have n2 := abs_nonneg b1
  have n3 := abs_nonneg a2
  have n4 := abs_nonneg b2
  have hab : ∀ a b : ℤ, |a| ≤ 2 ^ 25 → |b| ≤ 2 ^ 25 → |a * b| ≤ 2 ^ 50 := by
    intro a b ha hb
    rw [abs_mul]
    calc |a| * |b| ≤ 2 ^ 25 * 2 ^ 25 := mul_le_mul ha hb (abs_nonneg _) (by norm_num)
      _ = 2 ^ 50 := by norm_num
  have habs : ∀ a : ℤ, |(a : R) * (2 : R) ^ s| = ((|a| : ℤ) : R) * (2 : R) ^ s := by
    intro a
    rw [abs_mul, abs_of_pos hp, Int.cast_abs]
  have d1 := ieee_dbl_of_grid X1 a1 s e1 (lt_of_le_of_lt h1 (by norm_num)) (by omega)
    (by omega)
  have d2 := ieee_dbl_of_grid Y1 b1 s e2 (lt_of_le_of_lt h2 (by norm_num)) (by omega)
    (by omega)
  have d3 := ieee_dbl_of_grid X2 a2 s e3 (lt_of_le_of_lt h3 (by norm_num)) (by omega)
    (by omega)
  have d4 := ieee_dbl_of_grid Y2 b2 s e4 (lt_of_le_of_lt h4 (by norm_num)) (by omega)
    (by omega)
  have p1 := ieee_dbl_of_grid (X2 * Y1) (a2 * b1) (2 * s)
    (by rw [e3, e2, hz]; push_cast; ring)
    (lt_of_le_of_lt (hab a2 b1 h3 h2) (by norm_num)) (by omega) (by omega)
  have p2 := ieee_dbl_of_grid (Y2 * X1) (b2 * a1) (2 * s)
    (by rw [e4, e1, hz]; push_cast; ring)
    (lt_of_le_of_lt (hab b2 a1 h4 h1) (by norm_num)) (by omega) (by omega)
  have p3 := ieee_dbl_of_grid (X2 * Y1 - Y2 * X1) (a2 * b1 - b2 * a1) (2 * s)
    (by rw [e3, e2, e4, e1, hz]; push_cast; ring)
    (lt_of_le_of_lt ((abs_sub _ _).trans (add_le_add (hab a2 b1 h3 h2) (hab b2 a1 h4 h1)))
      (by norm_num)) (by omega) (by omega)
  have q1 := ieee_dbl_of_grid (|X1| + |Y1|) (|a1| + |b1|) s
    (by rw [e1, e2, habs, habs]; push_cast; ring)
    (by rw [abs_of_nonneg (by omega)]; omega) (by omega) (by omega)
  have q2 := ieee_dbl_of_grid (|X1| + |Y1| + |X2|) (|a1| + |b1| + |a2|) s
    (by rw [e1, e2, e3, habs, habs, habs]; push_cast; ring)
    (by rw [abs_of_nonneg (by omega)]; omega) (by omega) (by omega)
  have q3 := ieee_dbl_of_grid (|X1| + |Y1| + |X2| + |Y2|) (|a1| + |b1| + |a2| + |b2|) s
    (by rw [e1, e2, e3, e4, habs, habs, habs, habs]; push_cast; ring)
    (by rw [abs_of_nonneg (by omega)]; omega) (by omega) (by omega)
  have q4 := ieee_dbl_of_grid (FLT_EPSILON * (|X1| + |Y1| + |X2| + |Y2|))
    (|a1| + |b1| + |a2| + |b2|) (s - 23)
    (by
      rw [e1, e2, e3, e4, habs, habs, habs, habs, zpow_sub₀ (by norm_num : (2 : R) ≠ 0)]
      unfold FLT_EPSILON
      push_cast
      have h23 : (2 : R) ^ (23 : ℤ) = 2 ^ 23 := by norm_cast
      rw [h23]
      ring)
    (by rw [abs_of_nonneg (by omega)]; omega) (by omega) (by omega)
  rw [d1, d2, d3, d4]
  simp only [Dbl.mul, Dbl.abs, Dbl.add, Dbl.sub]
  rw [p1, p2]
  simp only [Dbl.sub]
  rw [p3, q1]
  simp only [Dbl.abs, Dbl.add]
  rw [q2]
  simp only [Dbl.add]
  rw [q3]
  simp only [Dbl.mul]
  rw [q4]
  rfl

/-- On a sample whose first `count` points have coordinates `n * 2^s` with `|n| <= 2^24`, the
test in IEEE 754 arithmetic is the test in arithmetic without rounding. -/
theorem checkSubset_ieee_grid (m : List (CvPoint2D64f R)) (count : ℤ) (s : ℤ)
    (hs1 : -500 ≤ s) (hs2 : s ≤ 480)
    (hgrid : ∀ i : ℕ, (i : ℤ) < count → ∃ nx ny : ℤ, |nx| ≤ 2 ^ 24 ∧ |ny| ≤ 2 ^ 24 ∧
      (m.getD i ⟨0, 0⟩).x = (nx : R) * (2 : R) ^ s ∧
      (m.getD i ⟨0, 0⟩).y = (ny : R) * (2 : R) ^ s) :
    CvModelEstimator2.checkSubset Rounding.ieee m count =
      CvModelEstimator2.checkSubset Rounding.exact m count := by
  rw [checkSubset_exact_eq]
  unfold CvModelEstimator2.checkSubset
  simp only
  by_cases hc : 0 < count - 1
  swap
  · have h0 : (count - 1).toNat = 0 := by omega
    rw [h0]
    rfl
  congr 3
  apply forBreak_congr
  intro j hj
  congr 2
  apply forBreak_congr
  intro k hk
  obtain ⟨xi, yi, hxi, hyi, exi, eyi⟩ := hgrid (count - 1).toNat (by omega)
  obtain ⟨xj, yj, hxj, hyj, exj, eyj⟩ := hgrid j (by omega)
  obtain ⟨xk, yk, hxk, hyk, exk, eyk⟩ := hgrid k (by omega)
  have hd : ∀ a b : ℤ, |a| ≤ 2 ^ 24 → |b| ≤ 2 ^ 24 → |a - b| ≤ 2 ^ 25 := by
    intro a b ha hb
    have := abs_sub a b
    omega
  exact crossTest_ieee_grid s hs1 hs2 (xj - xi) (yj - yi) (xk - xi) (yk - yi)
    (hd _ _ hxj hxi) (hd _ _ hyj hyi) (hd _ _ hxk hxi) (hd _ _ hyk hyi) _ _ _ _
    (by rw [exj, exi]; push_cast; ring) (by rw [eyj, eyi]; push_cast; ring)
    (by rw [exk, exi]; push_cast; ring) (by rw [eyk, eyi]; push_cast; ring)

end CheckSubsetLemmas

/-- C8, as stated, fails: in the sample `(0,0), (1,0), (2,0), (0,1)` the first three points are
exactly collinear (cross product `0`), yet `checkSubset( m, 4 )` returns true. -/
theorem checkSubset_accepts_collinear_triple :
    ((1 : ℝ) - 0) * (0 - 0) - (0 - 0) * (2 - 0) = 0 ∧
    CvModelEstimator2.checkSubset Rounding.ieee
      [(⟨0, 0⟩ : CvPoint2D64f ℝ), ⟨1, 0⟩, ⟨2, 0⟩, ⟨0, 1⟩] 4 = true := by
  refine ⟨by norm_num, ?_⟩
  rw [checkSubset_ieee_grid _ 4 0 (by norm_num) (by norm_num)]
  · rw [checkSubset_exact_eq]
    simp [forBreak, forBreakAux, FLT_EPSILON]
    norm_num
  · intro i hi
    have hi4 : i < 4 := by omega
    interval_cases i
    · exact ⟨0, 0, by norm_num, by norm_num, by simp, by simp⟩
    · exact ⟨1, 0, by norm_num, by norm_num, by simp, by simp⟩
    · exact ⟨2, 0, by norm_num, by norm_num, by simp, by simp⟩
    · exact ⟨0, 1, by norm_num, by norm_num, by simp, by simp⟩

/-- Three identical points pass the test of the newest point: the cross product `0` is
compared by a strict `<` with the bound `FLT_EPSILON * 0`. -/
theorem checkSubset_accepts_identical_points :
    CvModelEstimator2.checkSubset Rounding.ieee
      [(⟨1, 1⟩ : CvPoint2D64f ℝ), ⟨1, 1⟩, ⟨1, 1⟩] 3 = true := by
  rw [checkSubset_ieee_grid _ 3 0 (by norm_num) (by norm_num)]
  · rw [checkSubset_exact_eq]
    simp [forBreak, forBreakAux, FLT_EPSILON]
  · intro i hi
    have hi3 : i < 3 := by omega
    interval_cases i <;> exact ⟨1, 1, by norm_num, by norm_num, by simp, by simp⟩

/-- A `double` product that overflows: `(-2^601) * (-2^600)` is `+inf`. -/
theorem ieee_dbl_overflow :
    (Rounding.ieee : Rounding ℝ).dbl ((-(2 : ℝ) ^ (601 : ℤ)) * (-(2 : ℝ) ^ (600 : ℤ))) =
      Dbl.inf false := by
  have hx : (-(2 : ℝ) ^ (601 : ℤ)) * (-(2 : ℝ) ^ (600 : ℤ)) = (2 : ℝ) ^ (1201 : ℤ) := by
    rw [neg_mul_neg, ← zpow_add₀ (by norm_num : (2 : ℝ) ≠ 0)]
    rfl
  rw [hx]
  show roundBinary 53 (-1022) 1023 ((2 : ℝ) ^ (1201 : ℤ)) = Dbl.inf false
  have habs : |(2 : ℝ) ^ (1201 : ℤ)| = (2 : ℝ) ^ (1201 : ℤ) := abs_of_pos (two_zpow_pos _)
  have hq : (2 : ℝ) ^ (1201 : ℤ) / (2 : ℝ) ^ ((1201 : ℤ) - (((53 : ℕ) : ℤ) - 1)) =
      (((2 ^ 52 : ℤ) : ℤ) : ℝ) := by
    rw [← zpow_sub₀ (by norm_num : (2 : ℝ) ≠ 0)]
    have he : (1201 : ℤ) - ((1201 : ℤ) - (((53 : ℕ) : ℤ) - 1)) = ((52 : ℕ) : ℤ) := by
      norm_num
    rw [he, zpow_natCast]
    norm_num
  rw [roundBinary_eq 53 (-1022) 1023 _ 1201 (by norm_num) (by rw [habs])
    (by rw [habs]; exact zpow_lt_zpow_right₀ (by norm_num) (by norm_num)), hq, rint_intCast]
  have hprod : (((2 ^ 52 : ℤ) : ℤ) : ℝ) * (2 : ℝ) ^ ((1201 : ℤ) - (((53 : ℕ) : ℤ) - 1)) =
      (2 : ℝ) ^ (1201 : ℤ) := by
    have h52 : (((2 ^ 52 : ℤ) : ℤ) : ℝ) = (2 : ℝ) ^ ((52 : ℕ) : ℤ) := by
      rw [zpow_natCast]
      norm_num
    rw [h52, ← zpow_add₀ (by norm_num : (2 : ℝ) ≠ 0)]
    norm_num
  rw [hprod, habs, if_pos (zpow_le_zpow_right₀ (by norm_num) (by norm_num))]
  have hneg : ¬ ((2 : ℝ) ^ (1201 : ℤ) < 0) := not_lt.mpr (two_zpow_pos _).le
  simp [hneg]

/-- The collinear sample `(0,0), (2^600,2^600), (2^601,2^601)` is accepted in IEEE 754
arithmetic: both products of the cross product overflow to `+inf`, their difference is a NaN,
and the comparison with a NaN is false. -/
theorem checkSubset_accepts_collinear_overflow :
    ((0 : ℝ) - 2 ^ (601 : ℤ)) * (2 ^ (600 : ℤ) - 2 ^ (601 : ℤ)) -
      (0 - 2 ^ (601 : ℤ)) * (2 ^ (600 : ℤ) - 2 ^ (601 : ℤ)) = 0 ∧
    CvModelEstimator2.checkSubset Rounding.exact
      [(⟨0, 0⟩ : CvPoint2D64f ℝ), ⟨2 ^ (600 : ℤ), 2 ^ (600 : ℤ)⟩,
        ⟨2 ^ (601 : ℤ), 2 ^ (601 : ℤ)⟩] 3 = false ∧
    CvModelEstimator2.checkSubset Rounding.ieee
      [(⟨0, 0⟩ : CvPoint2D64f ℝ), ⟨2 ^ (600 : ℤ), 2 ^ (600 : ℤ)⟩,
        ⟨2 ^ (601 : ℤ), 2 ^ (601 : ℤ)⟩] 3 = true := by
  have hexp : ∀ k : ℤ, 0 ≤ k → k ≤ 1000 →
      (Rounding.ieee : Rounding ℝ).dbl (-(2 : ℝ) ^ k) = Dbl.fin (-(2 : ℝ) ^ k) := by
    intro k h0 h1
    have h := @ieee_dbl_exact ℝ _ _ (-1) k (by norm_num) (by omega)
      (by
        rw [Int.cast_neg, Int.cast_one, neg_one_mul, abs_neg, abs_of_pos (two_zpow_pos _)]
        exact zpow_lt_zpow_right₀ (by norm_num) (by omega))
    rw [Int.cast_neg, Int.cast_one, neg_one_mul] at h
    exact h
  have hd1 : (0 : ℝ) - 2 ^ (601 : ℤ) = -(2 : ℝ) ^ (601 : ℤ) := zero_sub _
  have hd2 : (2 : ℝ) ^ (600 : ℤ) - 2 ^ (601 : ℤ) = -(2 : ℝ) ^ (600 : ℤ) := by
    have h : (2 : ℝ) ^ (601 : ℤ) = (2 : ℝ) ^ (600 : ℤ) * 2 := by
      rw [← zpow_add_one₀ (by norm_num : (2 : ℝ) ≠ 0)]
      rfl
    rw [h]
    ring
  refine ⟨by ring, ?_, ?_⟩
  · apply checkSubset_exact_rejects _ 3 1 0 (by decide) (by decide)
    · show ((0 : ℝ) - 2 ^ (601 : ℤ)) * (2 ^ (600 : ℤ) - 2 ^ (601 : ℤ)) -
        (0 - 2 ^ (601 : ℤ)) * (2 ^ (600 : ℤ) - 2 ^ (601 : ℤ)) = 0
      ring
    · show ¬ ((0 : ℝ) = 2 ^ (601 : ℤ) ∧ _ ∧ _ ∧ _)
      intro h
      exact absurd h.1 (two_zpow_pos _).ne
  · unfold CvModelEstimator2.checkSubset
    have hi : ((3 : ℤ) - 1).toNat = 2 := rfl
    simp only [hi, forBreak, forBreakAux, List.getD_cons_zero, List.getD_cons_succ, hd1, hd2,
      hexp 601 (by norm_num) (by norm_num), hexp 600 (by norm_num) (by norm_num)]
    have hmul : Dbl.mul (Rounding.ieee : Rounding ℝ).dbl (Dbl.fin (-(2 : ℝ) ^ (601 : ℤ)))
        (Dbl.fin (-(2 : ℝ) ^ (600 : ℤ))) = Dbl.inf false := ieee_dbl_overflow
    have hnan : Dbl.lt (Dbl.abs (Dbl.sub (Rounding.ieee : Rounding ℝ).dbl (Dbl.inf false)
        (Dbl.inf false)))
        (Dbl.mul (Rounding.ieee : Rounding ℝ).dbl (Dbl.fin FLT_EPSILON)
          (Dbl.add (Rounding.ieee : Rounding ℝ).dbl
            (Dbl.add (Rounding.ieee : Rounding ℝ).dbl
              (Dbl.add (Rounding.ieee : Rounding ℝ).dbl (Dbl.fin (-(2 : ℝ) ^ (600 : ℤ))).abs
                (Dbl.fin (-(2 : ℝ) ^ (600 : ℤ))).abs)
              (Dbl.fin (-(2 : ℝ) ^ (601 : ℤ))).abs)
            (Dbl.fin (-(2 : ℝ) ^ (601 : ℤ))).abs)) = false := rfl
    rw [hmul, hnan]
    decide

/-- C8, amended: `checkSubset( m, count )` returns false whenever the newest point
`m[count-1]` is exactly collinear with two earlier points `m[k]`, `m[j]`, `k < j < count-1`,
of the sample, the three points not being all equal, and the operations of the test do not
round: in arithmetic without rounding, and in IEEE 754 arithmetic when the coordinates of the
`count` points are multiples `n * 2^s` of a common power of two with `|n| <= 2^24` and
`-500 <= s <= 480`.  (Triples without the newest point are not examined by the call.) -/
theorem checkSubset_rejects_collinear_with_newest {R : Type} [LinearOrderedField R]
    [FloorRing R] (m : List (CvPoint2D64f R)) (count : ℤ) (j k : ℕ)
    (hcount : count ≤ m.length) (hkj : k < j) (hji : (j : ℤ) < count - 1)
    (hcross : ((m.getD k ⟨0, 0⟩).x - (m.getD (count - 1).toNat ⟨0, 0⟩).x) *
        ((m.getD j ⟨0, 0⟩).y - (m.getD (count - 1).toNat ⟨0, 0⟩).y) -
      ((m.getD k ⟨0, 0⟩).y - (m.getD (count - 1).toNat ⟨0, 0⟩).y) *
        ((m.getD j ⟨0, 0⟩).x - (m.getD (count - 1).toNat ⟨0, 0⟩).x) = 0)
    (hne : ¬((m.getD k ⟨0, 0⟩).x = (m.getD (count - 1).toNat ⟨0, 0⟩).x ∧
             (m.getD k ⟨0, 0⟩).y = (m.getD (count - 1).toNat ⟨0, 0⟩).y ∧
             (m.getD j ⟨0, 0⟩).x = (m.getD (count - 1).toNat ⟨0, 0⟩).x ∧
             (m.getD j ⟨0, 0⟩).y = (m.getD (count - 1).toNat ⟨0, 0⟩).y)) :
    CvModelEstimator2.checkSubset Rounding.exact m count = false ∧
    (∀ s : ℤ, -500 ≤ s → s ≤ 480 →
      (∀ i : ℕ, (i : ℤ) < count → ∃ nx ny : ℤ, |nx| ≤ 2 ^ 24 ∧ |ny| ≤ 2 ^ 24 ∧
        (m.getD i ⟨0, 0⟩).x = (nx : R) * (2 : R) ^ s ∧
        (m.getD i ⟨0, 0⟩).y = (ny : R) * (2 : R) ^ s) →
      CvModelEstimator2.checkSubset Rounding.ieee m count = false) := by
  have _ := hcount
  have hex := checkSubset_exact_rejects m count j k hkj hji hcross hne
  refine ⟨hex, fun s hs1 hs2 hgrid => ?_⟩
  rw [checkSubset_ieee_grid m count s hs1 hs2 hgrid]
  exact hex

/-- Witness for C8 (amended): the sample `(0,0), (1,0), (2,0)`, whose newest point lies on the
line through the two earlier ones, is rejected in IEEE 754 arithmetic. -/
theorem checkSubset_rejects_collinear_with_newest_witness :
    CvModelEstimator2.checkSubset Rounding.ieee
      [(⟨0, 0⟩ : CvPoint2D64f ℝ), ⟨1, 0⟩, ⟨2, 0⟩] 3 = false :=
  (checkSubset_rejects_collinear_with_newest
    [(⟨0, 0⟩ : CvPoint2D64f ℝ), ⟨1, 0⟩, ⟨2, 0⟩] 3 1 0 (by simp) (by decide) (by decide)
    (by simp) (by simp)).2 0 (by norm_num) (by norm_num) (fun i hi => by
      have hi3 : i < 3 := by omega
      interval_cases i
      · exact ⟨0, 0, by norm_num, by norm_num, by simp, by simp⟩
      · exact ⟨1, 0, by norm_num, by norm_num, by simp, by simp⟩
      · exact ⟨2, 0, by norm_num, by norm_num, by simp, by simp⟩)

/-! ## Claim on the inlier scoring primitive -/

section InlierLemmas

variable {P M R : Type} [LinearOrderedField R] [FloorRing R]

omit [FloorRing R] in
theorem findInliersLoop_mask (threshold : Dbl R) (err : List CFloat) (goodCount : ℤ) :
    (CvModelEstimator2.findInliersLoop threshold err goodCount).2 =
      err.map (fun e => if Dbl.le (Dbl.fin ((e.toRat : ℚ) : R)) threshold then 1 else 0) := by
  induction err generalizing goodCount with
  | nil => rfl
  | cons e rest ih =>
    unfold CvModelEstimator2.findInliersLoop
    simp only [List.map_cons]
    rw [ih]

omit [FloorRing R] in
theorem findInliersLoop_count (threshold : Dbl R) (err : List CFloat) (goodCount : ℤ) :
    (CvModelEstimator2.findInliersLoop threshold err goodCount).1 =
      goodCount +
        ((err.map (fun e =>
          if Dbl.le (Dbl.fin ((e.toRat : ℚ) : R)) threshold then 1 else 0)).count 1 : ℕ) := by
  induction err generalizing goodCount with
  | nil => simp [CvModelEstimator2.findInliersLoop]
  | cons e rest ih =>
    unfold CvModelEstimator2.findInliersLoop
    simp only [List.map_cons]
    rw [ih]
    by_cases h : Dbl.le (Dbl.fin ((e.toRat : ℚ) : R)) threshold = true
    · simp only [if_pos h, List.count_cons_self]
      push_cast
      ring
    · simp only [if_neg h]
      rw [List.count_cons_of_ne (by decide)]
      push_cast
      ring

omit [FloorRing R] in
theorem findInliers_mask (rd : Rounding R) (k : Kernel P M) (m1 m2 : List P) (model : M)
    (mask : List ℕ) (t : Dbl R) :
    (CvModelEstimator2.findInliers rd k m1 m2 model mask t).2.2 =
      (k.computeReprojError m1 m2 model).map
          (fun e => if Dbl.le (Dbl.fin ((e.toRat : ℚ) : R)) (Dbl.mul rd.dbl t t)
            then 1 else 0) ++
        mask.drop m1.length := by
  unfold CvModelEstimator2.findInliers
  simp only
  rw [findInliersLoop_mask, k.computeReprojError_length]

omit [FloorRing R] in
theorem findInliers_count (rd : Rounding R) (k : Kernel P M) (m1 m2 : List P) (model : M)
    (mask : List ℕ) (t : Dbl R) :
    (CvModelEstimator2.findInliers rd k m1 m2 model mask t).1 =
      (((k.computeReprojError m1 m2 model).map
          (fun e => if Dbl.le (Dbl.fin ((e.toRat : ℚ) : R)) (Dbl.mul rd.dbl t t)
            then 1 else 0)).count 1 : ℕ) := by
  unfold CvModelEstimator2.findInliers
  simp only
  rw [findInliersLoop_count]
  simp

omit [FloorRing R] in
theorem findInliers_count_nonneg (rd : Rounding R) (k : Kernel P M) (m1 m2 : List P)
    (model : M) (mask : List ℕ) (t : Dbl R) :
    0 ≤ (CvModelEstimator2.findInliers rd k m1 m2 model mask t).1 := by
  rw [findInliers_count]
  exact Int.natCast_nonneg _

omit [FloorRing R] in
theorem findInliers_count_le (rd : Rounding R) (k : Kernel P M) (m1 m2 : List P) (model : M)
    (mask : List ℕ) (t : Dbl R) :
    (CvModelEstimator2.findInliers rd k m1 m2 model mask t).1 ≤ m1.length := by
  rw [findInliers_count]
  have h := List.count_le_length 1 ((k.computeReprojError m1 m2 model).map
          (fun e => if Dbl.le (Dbl.fin ((e.toRat : ℚ) : R)) (Dbl.mul rd.dbl t t)
            then (1 : ℕ) else 0))
  rw [List.length_map, k.computeReprojError_length] at h
  exact_mod_cast h

omit [FloorRing R] in
/-- The result of `findInliers` for a finite threshold `t` whose `double` square is the finite
number `sq`. -/
theorem findInliers_of_sq (rd : Rounding R) (k : Kernel P M) (m1 m2 : List P) (model : M)
    (mask : List ℕ) (t sq : R) (h : rd.dbl (t * t) = Dbl.fin sq) :
    CvModelEstimator2.findInliers rd k m1 m2 model mask (Dbl.fin t) =
      (((((k.computeReprojError m1 m2 model).map
          (fun e => if ((e.toRat : ℚ) : R) ≤ sq then (1 : ℕ) else 0)).count 1 : ℕ) : ℤ),
        k.computeReprojError m1 m2 model,
        (k.computeReprojError m1 m2 model).map
          (fun e => if ((e.toRat : ℚ) : R) ≤ sq then (1 : ℕ) else 0) ++
            mask.drop m1.length) := by
  have hm := findInliers_mask rd k m1 m2 model mask (Dbl.fin t)
  have hc := findInliers_count rd k m1 m2 model mask (Dbl.fin t)
  have hthr : Dbl.mul rd.dbl (Dbl.fin t) (Dbl.fin t) = Dbl.fin sq := h
  rw [hthr] at hm hc
  have hfun : (fun e : CFloat => if Dbl.le (Dbl.fin ((e.toRat : ℚ) : R)) (Dbl.fin sq) = true
      then (1 : ℕ) else 0) = (fun e => if ((e.toRat : ℚ) : R) ≤ sq then 1 else 0) := by
    funext e
    simp [Dbl.le]
  rw [hfun] at hm hc
  have he : (CvModelEstimator2.findInliers rd k m1 m2 model mask (Dbl.fin t)).2.1 =
      k.computeReprojError m1 m2 model := rfl
  rw [← hm, ← hc, ← he]

/-- The `double` square of a small integer is exact. -/
theorem ieee_dbl_sq_int (t : ℤ) (ht : |t| < 2 ^ 26) :
    (Rounding.ieee : Rounding R).dbl ((t : R) * (t : R)) = Dbl.fin ((t : R) * (t : R)) := by
  have h := @ieee_dbl_int R _ _ (t * t) (by
    rw [abs_mul]
    calc |t| * |t| ≤ 2 ^ 26 * 2 ^ 26 := mul_le_mul ht.le ht.le (abs_nonneg _) (by norm_num)
      _ < 2 ^ 53 := by norm_num)
  push_cast at h
  exact h

end InlierLemmas

/-- C10, amended: `findInliers( m1, m2, model, err, mask, t )` leaves in `err` the kernel's
errors of the model, one for each of the `N` correspondences; for every `i < N` it sets
`mask[i] = 1` when `err[i]` is at most the `double` product `t*t` that
`threshold *= threshold` computes and `mask[i] = 0` otherwise; its result is the number of
indices `i < N` with `mask[i] = 1`, a number between `0` and `N`; and when `t` is finite and
the product is the finite number `sq` (the square of `t` if the product does not round),
`mask[i] = 1` exactly when the value of `err[i]` is at most `sq`. -/
theorem findInliers_spec {P M R : Type} [LinearOrderedField R] (rd : Rounding R)
    (k : Kernel P M) (m1 m2 : List P) (model : M) (mask : List ℕ) (t : Dbl R) :
    (CvModelEstimator2.findInliers rd k m1 m2 model mask t).2.1 =
        k.computeReprojError m1 m2 model ∧
    (CvModelEstimator2.findInliers rd k m1 m2 model mask t).2.1.length = m1.length ∧
    (∀ i, i < m1.length →
      ((CvModelEstimator2.findInliers rd k m1 m2 model mask t).2.2.getD i 0 = 1 ↔
        Dbl.le (Dbl.fin ((((k.computeReprojError m1 m2 model).getD i default).toRat : ℚ) : R))
          (Dbl.mul rd.dbl t t) = true) ∧
      ((CvModelEstimator2.findInliers rd k m1 m2 model mask t).2.2.getD i 0 = 0 ↔
        ¬ Dbl.le (Dbl.fin ((((k.computeReprojError m1 m2 model).getD i default).toRat : ℚ) : R))
          (Dbl.mul rd.dbl t t) = true)) ∧
    (CvModelEstimator2.findInliers rd k m1 m2 model mask t).1 =
      ((((CvModelEstimator2.findInliers rd k m1 m2 model mask t).2.2.take m1.length).count 1 : ℕ)
        : ℤ) ∧
    0 ≤ (CvModelEstimator2.findInliers rd k m1 m2 model mask t).1 ∧
    (CvModelEstimator2.findInliers rd k m1 m2 model mask t).1 ≤ m1.length ∧
    (∀ t0 sq : R, t = Dbl.fin t0 → rd.dbl (t0 * t0) = Dbl.fin sq → ∀ i, i < m1.length →
      ((CvModelEstimator2.findInliers rd k m1 m2 model mask t).2.2.getD i 0 = 1 ↔
        ((((k.computeReprojError m1 m2 model).getD i default).toRat : ℚ) : R) ≤ sq)) := by
  have hlen := k.computeReprojError_length m1 m2 model
  have hflag : ∀ i, i < m1.length →
      ((CvModelEstimator2.findInliers rd k m1 m2 model mask t).2.2.getD i 0 = 1 ↔
        Dbl.le (Dbl.fin ((((k.computeReprojError m1 m2 model).getD i default).toRat : ℚ) : R))
          (Dbl.mul rd.dbl t t) = true) ∧
      ((CvModelEstimator2.findInliers rd k m1 m2 model mask t).2.2.getD i 0 = 0 ↔
        ¬ Dbl.le (Dbl.fin ((((k.computeReprojError m1 m2 model).getD i default).toRat : ℚ) : R))
          (Dbl.mul rd.dbl t t) = true) := by
    intro i hi
    rw [findInliers_mask]
    have hi2 : i < ((k.computeReprojError m1 m2 model).map
        (fun e => if Dbl.le (Dbl.fin ((e.toRat : ℚ) : R)) (Dbl.mul rd.dbl t t)
          then (1 : ℕ) else 0)).length := by
      rw [List.length_map, hlen]; exact hi
    rw [List.getD_append _ _ _ _ hi2,
      getD_map_of_lt _ _ _ default 0 (by rw [hlen]; exact hi)]
    by_cases h : Dbl.le
        (Dbl.fin ((((k.computeReprojError m1 m2 model).getD i default).toRat : ℚ) : R))
        (Dbl.mul rd.dbl t t) = true
    · simp [h]
    · simp [h]
  refine ⟨rfl, hlen, hflag, ?_, findInliers_count_nonneg rd k m1 m2 model mask t,
    findInliers_count_le rd k m1 m2 model mask t, ?_⟩
  · rw [findInliers_count, findInliers_mask]
    have hl : ((k.computeReprojError m1 m2 model).map
        (fun e => if Dbl.le (Dbl.fin ((e.toRat : ℚ) : R)) (Dbl.mul rd.dbl t t)
          then (1 : ℕ) else 0)).length = m1.length := by
      rw [List.length_map, hlen]
    rw [List.take_append_of_le_length (by rw [hl]), ← hl, List.take_length]
  · intro t0 sq ht hsq i hi
    rw [(hflag i hi).1, ht]
    show Dbl.le _ (rd.dbl (t0 * t0)) = true ↔ _
    rw [hsq]
    simp [Dbl.le]

/-- The `double` nearest to the root of `1000` and its square: the exact square is below
`1000`, the `double` product is `1000`. -/
theorem ieee_dbl_sq_threshold :
    (8901020307485223 / 281474976710656 : ℝ) * (8901020307485223 / 281474976710656) < 1000 ∧
    (Rounding.ieee : Rounding ℝ).dbl
      ((8901020307485223 / 281474976710656) * (8901020307485223 / 281474976710656)) =
      Dbl.fin 1000 := by
  refine ⟨by norm_num, ?_⟩
  show roundBinary 53 (-1022) 1023
    ((8901020307485223 / 281474976710656 : ℝ) * (8901020307485223 / 281474976710656)) =
    Dbl.fin 1000
  have hr : rint (((8901020307485223 / 281474976710656 : ℝ) *
      (8901020307485223 / 281474976710656)) / (2 : ℝ) ^ ((9 : ℤ) - (((53 : ℕ) : ℤ) - 1))) =
      8796093022208000 := by
    have hx : ((8901020307485223 / 281474976710656 : ℝ) *
        (8901020307485223 / 281474976710656)) / (2 : ℝ) ^ ((9 : ℤ) - (((53 : ℕ) : ℤ) - 1)) =
        79228162514264333802082363359729 / 9007199254740992 := by
      norm_num [zpow_neg]
    rw [hx]
    have hf : ⌊(79228162514264333802082363359729 / 9007199254740992 : ℝ)⌋ =
        8796093022207999 := by
      rw [Int.floor_eq_iff]
      norm_num
    unfold rint
    simp only [hf]
    norm_num
  rw [roundBinary_eq 53 (-1022) 1023 _ 9 (by norm_num) (by norm_num [abs_of_pos])
    (by norm_num [abs_of_pos]), hr]
  norm_num [zpow_neg]

/-- C10, as stated, fails: for the threshold `t = 31.622776601683793` (the `double` nearest to
the root of `1000`) and the errors `0.0f` and `1000.0f`, the error `1000` is above the square
of `t`, yet `findInliers` flags both correspondences and returns `2`: the `double` product
`t*t` is `1000`. -/
theorem findInliers_rounds_square :
    (8901020307485223 / 281474976710656 : ℝ) * (8901020307485223 / 281474976710656) <
      ((((exampleKernel.computeReprojError [0, 3] [0, 3] 0).getD 1 default).toRat : ℚ) : ℝ) ∧
    CvModelEstimator2.findInliers Rounding.ieee exampleKernel [0, 3] [0, 3] 0 [9, 9]
        (Dbl.fin (8901020307485223 / 281474976710656 : ℝ)) =
      (2, exampleKernel.computeReprojError [0, 3] [0, 3] 0, [1, 1]) := by
  have herr : exampleKernel.computeReprojError [0, 3] [0, 3] 0 =
      [CFloat.zero, ⟨false, 1148846080, by decide⟩] := by decide
  have hbig : ((((⟨false, 1148846080, by decide⟩ : CFloat).toRat : ℚ) : ℝ)) = 1000 := by
    simp only [CFloat.toRat, CFloat.scaled]
    norm_num
  have hzero : ((CFloat.zero.toRat : ℚ) : ℝ) = 0 := by
    simp [CFloat.zero, CFloat.toRat, CFloat.scaled]
  constructor
  · rw [herr]
    show _ < ((((⟨false, 1148846080, by decide⟩ : CFloat).toRat : ℚ) : ℝ))
    rw [hbig]
    exact ieee_dbl_sq_threshold.1
  · rw [findInliers_of_sq Rounding.ieee exampleKernel [0, 3] [0, 3] 0 [9, 9] _ 1000
      ieee_dbl_sq_threshold.2, herr]
    simp only [List.map, hbig, hzero]
    norm_num

/-- Witness for C10 (amended): at the threshold `31.622776601683793`, whose `double` square is
`1000`, the correspondence with the error `1000.0f` is flagged exactly when `1000 <= 1000`. -/
theorem findInliers_spec_witness :
    (CvModelEstimator2.findInliers Rounding.ieee exampleKernel [0, 3] [0, 3] 0 [9, 9]
        (Dbl.fin (8901020307485223 / 281474976710656 : ℝ))).2.2.getD 1 0 = 1 ↔
      ((((exampleKernel.computeReprojError [0, 3] [0, 3] 0).getD 1 default).toRat : ℚ) : ℝ) ≤
        1000 :=
  (findInliers_spec Rounding.ieee exampleKernel [0, 3] [0, 3] 0 [9, 9]
    (Dbl.fin (8901020307485223 / 281474976710656 : ℝ))).2.2.2.2.2.2
    (8901020307485223 / 281474976710656) 1000 rfl ieee_dbl_sq_threshold.2 1 (by decide)
/-! ## Claim on the sampled subset -/

section SubsetLemmas

variable {P M : Type} [Inhabited P]

theorem getD_set_self {α : Type} (l : List α) (i : ℕ) (x d : α) (h : i < l.length) :
    (l.set i x).getD i d = x := by
  simp [List.getD_eq_getElem?_getD, List.getElem?_set, h]

theorem getD_set_of_ne {α : Type} (l : List α) (i j : ℕ) (x d : α) (h : i ≠ j) :
    (l.set i x).getD j d = l.getD j d := by
  simp [List.getD_eq_getElem?_getD, List.getElem?_set, h]

theorem subsetInv_retry (k : Kernel P M) (m1 m2 : List P)
    (s s' : CvModelEstimator2.SubsetState P) (v : ℕ) (x y : P)
    (hinv : CvModelEstimator2.SubsetInv k m1 m2 s)
    (hi : s'.i = s.i) (hidx : s'.idx = s.idx.set s.i v)
    (h1 : s'.ms1 = s.ms1 ∨ s'.ms1 = s.ms1.set s.i x)
    (h2 : s'.ms2 = s.ms2 ∨ s'.ms2 = s.ms2.set s.i y) :
    CvModelEstimator2.SubsetInv k m1 m2 s' := by
  obtain ⟨hlidx, hlms1, hlms2, hslots⟩ := hinv
  refine ⟨by rw [hidx]; simpa using hlidx, ?_, ?_, ?_⟩
  · rcases h1 with h | h <;> rw [h] <;> simpa using hlms1
  · rcases h2 with h | h <;> rw [h] <;> simpa using hlms2
  · intro a ha
    rw [hi] at ha
    have h := hslots a ha
    have e1 : s'.ms1.getD a default = s.ms1.getD a default := by
      rcases h1 with h | h <;> rw [h]
      exact getD_set_of_ne _ _ _ _ _ (Nat.ne_of_gt ha)
    have e2 : s'.ms2.getD a default = s.ms2.getD a default := by
      rcases h2 with h | h <;> rw [h]
      exact getD_set_of_ne _ _ _ _ _ (Nat.ne_of_gt ha)
    rw [e1, e2, hidx, getD_set_of_ne _ _ _ _ _ (Nat.ne_of_gt ha)]
    refine ⟨h.1, h.2.1, h.2.2.1, ?_⟩
    intro b hb
    rw [getD_set_of_ne _ _ _ _ _ (Nat.ne_of_gt (lt_trans hb ha))]
    exact h.2.2.2 b hb

theorem subsetInv_accept (k : Kernel P M) (m1 m2 : List P)
    (s s' : CvModelEstimator2.SubsetState P) (v : ℕ)
    (hinv : CvModelEstimator2.SubsetInv k m1 m2 s)
    (hlt : (s.i : ℤ) < k.modelPoints) (hv : v < m1.length)
    (hnew : ∀ b, b < s.i → (s.idx.set s.i v).getD b 0 ≠ v)
    (hi : s'.i = s.i + 1) (hidx : s'.idx = s.idx.set s.i v)
    (h1 : s'.ms1 = s.ms1.set s.i (m1.getD v default))
    (h2 : s'.ms2 = s.ms2.set s.i (m2.getD v default)) :
    CvModelEstimator2.SubsetInv k m1 m2 s' := by
  have hkeep := subsetInv_retry k m1 m2 s
    { s with idx := s.idx.set s.i v, ms1 := s.ms1.set s.i (m1.getD v default),
             ms2 := s.ms2.set s.i (m2.getD v default) } v (m1.getD v default)
    (m2.getD v default) hinv rfl rfl (Or.inr rfl) (Or.inr rfl)
  obtain ⟨hlidx, hlms1, hlms2, hslots⟩ := hinv
  obtain ⟨kidx, kms1, kms2, kslots⟩ := hkeep
  simp only at kidx kms1 kms2 kslots
  have hi2 : s.i < k.modelPoints.toNat := by omega
  refine ⟨by rw [hidx]; exact kidx, by rw [h1]; exact kms1, by rw [h2]; exact kms2, ?_⟩
  intro a ha
  rw [hi] at ha
  rw [hidx, h1, h2]
  rcases Nat.lt_succ_iff_lt_or_eq.mp ha with hlt2 | heq
  · exact kslots a hlt2
  · subst heq
    rw [getD_set_self _ _ _ _ (by omega), getD_set_self _ _ _ _ (by omega),
      getD_set_self _ _ _ _ (by omega)]
    exact ⟨hv, rfl, rfl, hnew⟩

theorem getSubsetStep_inv (k : Kernel P M) (rng : ℕ → ℕ) (m1 m2 : List P)
    (hN : 0 < m1.length) (s : CvModelEstimator2.SubsetState P)
    (hi : (s.i : ℤ) < k.modelPoints)
    (hinv : CvModelEstimator2.SubsetInv k m1 m2 s) :
    CvModelEstimator2.SubsetInv k m1 m2 (CvModelEstimator2.getSubsetStep k rng m1 m2 s) := by
  unfold CvModelEstimator2.getSubsetStep
  simp only
  by_cases hdup : forBreak (fun j => rng s.pos % 4294967296 % m1.length ==
      (s.idx.set s.i (rng s.pos % 4294967296 % m1.length)).getD j 0) s.i < s.i
  · rw [if_pos hdup]
    exact subsetInv_retry k m1 m2 s _ _ default default hinv rfl rfl (Or.inl rfl) (Or.inl rfl)
  · rw [if_neg hdup]
    have hle := forBreak_le (fun j => rng s.pos % 4294967296 % m1.length ==
        (s.idx.set s.i (rng s.pos % 4294967296 % m1.length)).getD j 0) s.i
    have hnew : ∀ b, b < s.i →
        (s.idx.set s.i (rng s.pos % 4294967296 % m1.length)).getD b 0 ≠
          rng s.pos % 4294967296 % m1.length := by
      intro b hb
      have hstop := forBreak_no_stop_before (fun j => rng s.pos % 4294967296 % m1.length ==
          (s.idx.set s.i (rng s.pos % 4294967296 % m1.length)).getD j 0) s.i b (by omega)
      simp only [beq_eq_false_iff_ne, ne_eq] at hstop
      exact fun e => hstop e.symm
    split_ifs <;>
      first
      | exact subsetInv_retry k m1 m2 s _ _ _ _ hinv rfl rfl (Or.inr rfl) (Or.inr rfl)
      | exact subsetInv_accept k m1 m2 s _ _ hinv hi (Nat.mod_lt _ hN) hnew rfl rfl rfl rfl

theorem getSubsetInner_inv (k : Kernel P M) (rng : ℕ → ℕ) (m1 m2 : List P) (maxAttempts : ℤ)
    (hN : 0 < m1.length) (fuel : ℕ) (s s' : CvModelEstimator2.SubsetState P)
    (hinv : CvModelEstimator2.SubsetInv k m1 m2 s)
    (hrun : CvModelEstimator2.getSubsetInner k rng m1 m2 maxAttempts fuel s = some s') :
    CvModelEstimator2.SubsetInv k m1 m2 s' := by
  induction fuel generalizing s with
  | zero => simp [CvModelEstimator2.getSubsetInner] at hrun
  | succ fuel ih =>
    unfold CvModelEstimator2.getSubsetInner at hrun
    split_ifs at hrun with hcond
    · exact ih _ (getSubsetStep_inv k rng m1 m2 hN s hcond.1 hinv) hrun
    · cases hrun
      exact hinv

theorem getSubsetOuter_inv (k : Kernel P M) (rng : ℕ → ℕ) (m1 m2 : List P) (maxAttempts : ℤ)
    (hN : 0 < m1.length) (fuel : ℕ) (s s' : CvModelEstimator2.SubsetState P)
    (hinv : CvModelEstimator2.SubsetInv k m1 m2 { s with i := 0 })
    (hrun : CvModelEstimator2.getSubsetOuter k rng m1 m2 maxAttempts fuel s = some s') :
    CvModelEstimator2.SubsetInv k m1 m2 s' := by
  induction fuel generalizing s with
  | zero => simp [CvModelEstimator2.getSubsetOuter] at hrun
  | succ fuel ih =>
    unfold CvModelEstimator2.getSubsetOuter at hrun
    split at hrun
    · cases hrun
    · rename_i s1 hinner
      have h1 := getSubsetInner_inv k rng m1 m2 maxAttempts hN fuel _ s1 hinv hinner
      simp only at hrun
      split_ifs at hrun with hc hr
      · refine ih _ ?_ hrun
        exact ⟨h1.1, h1.2.1, h1.2.2.1, fun a ha => absurd ha (Nat.not_lt_zero a)⟩
      · cases hrun
        exact h1
      · cases hrun
        exact h1

end SubsetLemmas

/-- C9: let `getSubset` be called with `N > 0` correspondences and buffers `ms1`, `ms2` of
`modelPoints` slots.  Whenever it returns true, the accepted indices `idx[0..modelPoints)` lie
in `[0, N)` and are pairwise distinct, and every slot of `ms1` and `ms2` holds the input pair
at its index. -/
theorem getSubset_sample {P M : Type} [Inhabited P] (k : Kernel P M) (fuel : ℕ)
    (rng : ℕ → ℕ) (pos : ℕ) (m1 m2 ms1 ms2 : List P) (maxAttempts : ℤ)
    (s : CvModelEstimator2.SubsetState P) (hN : 0 < m1.length)
    (hms1 : ms1.length = k.modelPoints.toNat) (hms2 : ms2.length = k.modelPoints.toNat)
    (hrun : CvModelEstimator2.getSubset k fuel rng pos m1 m2 ms1 ms2 maxAttempts =
      some (true, s)) :
    (∀ a : ℕ, (a : ℤ) < k.modelPoints →
      s.idx.getD a 0 < m1.length ∧
      s.ms1.getD a default = m1.getD (s.idx.getD a 0) default ∧
      s.ms2.getD a default = m2.getD (s.idx.getD a 0) default) ∧
    (∀ a b : ℕ, (a : ℤ) < k.modelPoints → b < a → s.idx.getD b 0 ≠ s.idx.getD a 0) := by
  unfold CvModelEstimator2.getSubset at hrun
  split at hrun
  · cases hrun
  · rename_i s1 houter
    simp only [Option.some.injEq, Prod.mk.injEq, decide_eq_true_eq] at hrun
    obtain ⟨hi, rfl⟩ := hrun
    have hinv := getSubsetOuter_inv k rng m1 m2 maxAttempts hN fuel _ s1
      ⟨by simp, hms1, hms2, fun a ha => absurd ha (Nat.not_lt_zero a)⟩ houter
    constructor
    · intro a ha
      have h := hinv.2.2.2 a (by omega)
      exact ⟨h.1, h.2.1, h.2.2.1⟩
    · intro a b ha hb
      exact (hinv.2.2.2 a (by omega)).2.2.2 b hb

/-- Witness for C9: five correspondences, the generator yielding `0, 1, 2, 3`; the sample is
the first four pairs. -/
theorem getSubset_sample_witness :
    (∀ a : ℕ, (a : ℤ) < exampleKernel.modelPoints →
      [0, 1, 2, 3].getD a 0 < [0, 1, 2, 3, 4].length ∧
      [0, 1, 2, 3].getD a default = [0, 1, 2, 3, 4].getD ([0, 1, 2, 3].getD a 0) default ∧
      [10, 11, 12, 13].getD a default =
        [10, 11, 12, 13, 14].getD ([0, 1, 2, 3].getD a 0) default) ∧
    (∀ a b : ℕ, (a : ℤ) < exampleKernel.modelPoints → b < a →
      [0, 1, 2, 3].getD b 0 ≠ [0, 1, 2, 3].getD a 0) :=
  getSubset_sample exampleKernel 20 (fun n => n) 0 [0, 1, 2, 3, 4] [10, 11, 12, 13, 14]
    [0, 0, 0, 0] [0, 0, 0, 0] 300
    ⟨4, 1, [0, 1, 2, 3], [0, 1, 2, 3], [10, 11, 12, 13], 4, [1, 1, 2, 2, 3, 3, 4, 4]⟩
    (by decide) rfl rfl rfl

/-! ## Claims on `runRANSAC` -/

section RansacLemmas

variable {P M R : Type} [LinearOrderedField R] [FloorRing R] {rd : Rounding R}

omit [LinearOrderedField R] [FloorRing R] in
theorem writeTmask_fields (s : CvModelEstimator2.RansacState P M R) (buf : List ℕ) :
    (s.writeTmask buf).niters = s.niters ∧ (s.writeTmask buf).maxGoodCount = s.maxGoodCount ∧
    (s.writeTmask buf).model = s.model ∧ (s.writeTmask buf).swapped = s.swapped ∧
    (s.writeTmask buf).ms1 = s.ms1 ∧ (s.writeTmask buf).ms2 = s.ms2 ∧
    (s.writeTmask buf).pos = s.pos ∧ (s.writeTmask buf).trace = s.trace ∧
    (s.swapped = false → (s.writeTmask buf).maskBuf = s.maskBuf) := by
  unfold CvModelEstimator2.RansacState.writeTmask
  cases hs : s.swapped <;> simp

theorem ransacScore_inv (k : Kernel P M) (log : R → R) (m1 m2 : List P)
    (reprojThreshold confidence : R) (model0 : M) (mask0 : List ℕ)
    (s s' : CvModelEstimator2.RansacState P M R) (model_i : M)
    (hinv : CvModelEstimator2.RansacInv model0 mask0 s)
    (hrun : CvModelEstimator2.ransacScore rd k log m1 m2 reprojThreshold confidence s model_i =
      .ok s') :
    CvModelEstimator2.RansacInv model0 mask0 s' := by
  unfold CvModelEstimator2.ransacScore at hrun
  simp only at hrun
  obtain ⟨hnn, hzero⟩ := hinv
  have hw := writeTmask_fields s
    (CvModelEstimator2.findInliers rd k m1 m2 model_i s.tmask (Dbl.fin reprojThreshold)).2.2
  split_ifs at hrun with hgood
  · split at hrun
    · cases hrun
    · cases hrun
      have hlt : s.maxGoodCount <
          (CvModelEstimator2.findInliers rd k m1 m2 model_i s.tmask (Dbl.fin reprojThreshold)).1 :=
        lt_of_le_of_lt (le_max_left _ _) hgood
      constructor
      · show 0 ≤ (CvModelEstimator2.findInliers rd k m1 m2 model_i s.tmask (Dbl.fin reprojThreshold)).1
        omega
      · intro h0
        exfalso
        have h0' : (CvModelEstimator2.findInliers rd k m1 m2 model_i s.tmask
            (Dbl.fin reprojThreshold)).1 = 0 := h0
        omega
  · cases hrun
    constructor
    · show 0 ≤ (s.writeTmask _).maxGoodCount
      rw [hw.2.1]
      exact hnn
    · intro h0
      have h0' : s.maxGoodCount = 0 := by
        rw [← hw.2.1]
        exact h0
      obtain ⟨hm, hb, hsw⟩ := hzero h0'
      refine ⟨?_, ?_, ?_⟩
      · show (s.writeTmask _).model = model0
        rw [hw.2.2.1, hm]
      · show (s.writeTmask _).maskBuf = mask0
        rw [hw.2.2.2.2.2.2.2.2 hsw, hb]
      · show (s.writeTmask _).swapped = false
        rw [hw.2.2.2.1, hsw]

theorem ransacModels_inv (k : Kernel P M) (log : R → R) (m1 m2 : List P)
    (reprojThreshold confidence : R) (models : ℕ → M) (model0 : M) (mask0 : List ℕ)
    (todo i : ℕ) (s s' : CvModelEstimator2.RansacState P M R)
    (hinv : CvModelEstimator2.RansacInv model0 mask0 s)
    (hrun : CvModelEstimator2.ransacModels rd k log m1 m2 reprojThreshold confidence models
      todo i s = .ok s') :
    CvModelEstimator2.RansacInv model0 mask0 s' := by
  induction todo generalizing i s with
  | zero =>
    unfold CvModelEstimator2.ransacModels at hrun
    cases hrun
    exact hinv
  | succ todo ih =>
    unfold CvModelEstimator2.ransacModels at hrun
    split at hrun
    · cases hrun
    · rename_i s1 hscore
      exact ih _ _ (ransacScore_inv k log m1 m2 reprojThreshold confidence model0 mask0 s s1 _
        hinv hscore) hrun

theorem ransacTrial_inv (k : Kernel P M) (log : R → R) (m1 m2 : List P)
    (reprojThreshold confidence : R) (model0 : M) (mask0 : List ℕ)
    (s s' : CvModelEstimator2.RansacState P M R)
    (hinv : CvModelEstimator2.RansacInv model0 mask0 s)
    (hrun : CvModelEstimator2.ransacTrial rd k log m1 m2 reprojThreshold confidence s = .ok s') :
    CvModelEstimator2.RansacInv model0 mask0 s' := by
  unfold CvModelEstimator2.ransacTrial at hrun
  simp only at hrun
  split_ifs at hrun
  · cases hrun
    exact hinv
  · refine ransacModels_inv k log m1 m2 reprojThreshold confidence _ model0 mask0 _ _ _ s'
      ?_ hrun
    exact hinv

theorem ransacLoop_inv [Inhabited P] (k : Kernel P M) (log : R → R) (rng : ℕ → ℕ)
    (m1 m2 : List P) (reprojThreshold confidence : R) (model0 : M) (mask0 : List ℕ)
    (fuel : ℕ) (iter : ℤ) (s s' : CvModelEstimator2.RansacState P M R) (exited : Bool)
    (hiter : 0 ≤ iter)
    (hinv : CvModelEstimator2.RansacInv model0 mask0 s)
    (hrun : CvModelEstimator2.ransacLoop rd k log rng m1 m2 reprojThreshold confidence fuel iter s
      = .ok (s', exited)) :
    CvModelEstimator2.RansacInv model0 mask0 s' ∧
      (exited = true → iter = 0 ∧ s'.model = s.model ∧ s'.maskBuf = s.maskBuf) := by
  induction fuel generalizing iter s with
  | zero =>
    unfold CvModelEstimator2.ransacLoop at hrun
    cases hrun
  | succ fuel ih =>
    have hnext : ∀ s1 s2 : CvModelEstimator2.RansacState P M R,
        CvModelEstimator2.RansacInv model0 mask0 s1 →
        CvModelEstimator2.ransacTrial rd k log m1 m2 reprojThreshold confidence s1 = .ok s2 →
        CvModelEstimator2.ransacLoop rd k log rng m1 m2 reprojThreshold confidence fuel
          (iter + 1) s2 = .ok (s', exited) →
        CvModelEstimator2.RansacInv model0 mask0 s' ∧
          (exited = true → iter = 0 ∧ s'.model = s.model ∧ s'.maskBuf = s.maskBuf) := by
      intro s1 s2 hinv1 htrial hloop
      have hinv2 := ransacTrial_inv k log m1 m2 reprojThreshold confidence model0 mask0
        s1 s2 hinv1 htrial
      have h := ih (iter + 1) s2 (by omega) hinv2 hloop
      refine ⟨h.1, fun he => ?_⟩
      have := (h.2 he).1
      omega
    unfold CvModelEstimator2.ransacLoop at hrun
    by_cases hlt : iter < s.niters
    · rw [if_pos hlt] at hrun
      by_cases hcount : (m1.length : ℤ) > k.modelPoints
      · rw [if_pos hcount] at hrun
        cases hsub : CvModelEstimator2.getSubset k fuel rng s.pos m1 m2 s.ms1 s.ms2 300 with
        | none =>
          rw [hsub] at hrun
          cases hrun
        | some r =>
          obtain ⟨found, g⟩ := r
          rw [hsub] at hrun
          simp only at hrun
          cases found
          · simp only [Bool.not_false, if_true] at hrun
            by_cases h0 : iter = 0
            · rw [if_pos h0] at hrun
              cases hrun
              exact ⟨hinv, fun _ => ⟨h0, rfl, rfl⟩⟩
            · rw [if_neg h0] at hrun
              cases hrun
              exact ⟨hinv, fun h => by cases h⟩
          · simp only [Bool.not_true, Bool.false_eq_true, if_false] at hrun
            cases htrial : CvModelEstimator2.ransacTrial rd k log m1 m2 reprojThreshold confidence
                { s with ms1 := g.ms1, ms2 := g.ms2, pos := g.pos,
                         trace := s.trace ++ [.subset true (g.pos - s.pos)] } with
            | error e =>
              rw [htrial] at hrun
              cases hrun
            | ok s2 =>
              rw [htrial] at hrun
              refine hnext _ s2 ?_ htrial hrun
              exact hinv
      · rw [if_neg hcount] at hrun
        cases htrial : CvModelEstimator2.ransacTrial rd k log m1 m2 reprojThreshold confidence s with
        | error e =>
          rw [htrial] at hrun
          cases hrun
        | ok s2 =>
          rw [htrial] at hrun
          exact hnext s s2 hinv htrial hrun
    · rw [if_neg hlt] at hrun
      cases hrun
      exact ⟨hinv, fun h => by cases h⟩

end RansacLemmas

/-- C1: if `runRANSAC` returns false, the caller's model and the caller's mask are what they
were before the call (inputs of unequal sizes end the call with an error instead of a
result). -/
theorem runRANSAC_false_frame {P M R : Type} [LinearOrderedField R] [FloorRing R]
    [Inhabited P] (rd : Rounding R) (k : Kernel P M) (log : R → R) (fuel : ℕ) (rng : ℕ → ℕ) (m1 m2 : List P)
    (model : M) (mask : List ℕ) (reprojThreshold confidence : R) (maxIters : ℤ)
    (res : RunResult P M R)
    (hrun : CvModelEstimator2.runRANSAC rd k log fuel rng m1 m2 model mask reprojThreshold
      confidence maxIters = .ok res)
    (hfalse : res.result = false) :
    res.model = model ∧ res.mask = mask := by
  unfold CvModelEstimator2.runRANSAC at hrun
  by_cases hsize : ¬(m1.length = m2.length ∧ m1.length = mask.length)
  · rw [if_pos hsize] at hrun
    cases hrun
  · rw [if_neg hsize] at hrun
    by_cases hshort : (m1.length : ℤ) < k.modelPoints
    · rw [if_pos hshort] at hrun
      cases hrun
      exact ⟨rfl, rfl⟩
    · rw [if_neg hshort] at hrun
      have hinv0 : CvModelEstimator2.RansacInv model mask
          (CvModelEstimator2.ransacInit k m1 m2 model mask maxIters :
            CvModelEstimator2.RansacState P M R) := by
        unfold CvModelEstimator2.ransacInit
        split_ifs <;> exact ⟨le_rfl, fun _ => ⟨rfl, rfl, rfl⟩⟩
      have hm0 : (CvModelEstimator2.ransacInit k m1 m2 model mask maxIters :
            CvModelEstimator2.RansacState P M R).model = model ∧
          (CvModelEstimator2.ransacInit k m1 m2 model mask maxIters :
            CvModelEstimator2.RansacState P M R).maskBuf = mask := by
        unfold CvModelEstimator2.ransacInit
        split_ifs <;> exact ⟨rfl, rfl⟩
      cases hloop : CvModelEstimator2.ransacLoop rd k log rng m1 m2 reprojThreshold confidence
          fuel 0 (CvModelEstimator2.ransacInit k m1 m2 model mask maxIters) with
      | error e =>
        rw [hloop] at hrun
        cases hrun
      | ok r =>
        obtain ⟨s, exited⟩ := r
        rw [hloop] at hrun
        simp only [Except.ok.injEq] at hrun
        have h := ransacLoop_inv k log rng m1 m2 reprojThreshold confidence model mask fuel 0 _
          s exited le_rfl hinv0 hloop
        subst hrun
        unfold CvModelEstimator2.ransacFinish at hfalse ⊢
        by_cases hex : exited = true
        · rw [if_pos hex]
          have h2 := h.2 hex
          exact ⟨by rw [h2.2.1, hm0.1], by rw [h2.2.2, hm0.2]⟩
        · rw [if_neg hex] at hfalse ⊢
          by_cases hgood : s.maxGoodCount > 0
          · rw [if_pos hgood] at hfalse
            cases hfalse
          · rw [if_neg hgood]
            have h0 : s.maxGoodCount = 0 := le_antisymm (not_lt.mp hgood) h.1.1
            obtain ⟨hm, hb, _⟩ := h.1.2 h0
            exact ⟨hm, hb⟩

/-! ## Runs of `runRANSAC` over the reals -/

section RansacSteps

variable {P M R : Type} [LinearOrderedField R] [FloorRing R] [Inhabited P] {rd : Rounding R}

theorem ransacLoop_done (rd : Rounding R) (k : Kernel P M) (log : R → R) (rng : ℕ → ℕ) (m1 m2 : List P)
    (reprojThreshold confidence : R) (fuel : ℕ) (iter : ℤ)
    (s : CvModelEstimator2.RansacState P M R) (h : ¬ iter < s.niters) :
    CvModelEstimator2.ransacLoop rd k log rng m1 m2 reprojThreshold confidence (fuel + 1) iter s =
      .ok (s, false) := by
  unfold CvModelEstimator2.ransacLoop
  rw [if_neg h]

theorem ransacLoop_whole (rd : Rounding R) (k : Kernel P M) (log : R → R) (rng : ℕ → ℕ) (m1 m2 : List P)
    (reprojThreshold confidence : R) (fuel : ℕ) (iter : ℤ)
    (s s2 : CvModelEstimator2.RansacState P M R) (h : iter < s.niters)
    (hcount : ¬ (m1.length : ℤ) > k.modelPoints)
    (htrial : CvModelEstimator2.ransacTrial rd k log m1 m2 reprojThreshold confidence s = .ok s2) :
    CvModelEstimator2.ransacLoop rd k log rng m1 m2 reprojThreshold confidence (fuel + 1) iter s =
      CvModelEstimator2.ransacLoop rd k log rng m1 m2 reprojThreshold confidence fuel (iter + 1)
        s2 := by
  conv_lhs => unfold CvModelEstimator2.ransacLoop
  rw [if_pos h, if_neg hcount, htrial]

theorem ransacLoop_sampled (rd : Rounding R) (k : Kernel P M) (log : R → R) (rng : ℕ → ℕ) (m1 m2 : List P)
    (reprojThreshold confidence : R) (fuel : ℕ) (iter : ℤ)
    (s s2 : CvModelEstimator2.RansacState P M R) (g : CvModelEstimator2.SubsetState P)
    (h : iter < s.niters) (hcount : (m1.length : ℤ) > k.modelPoints)
    (hsub : CvModelEstimator2.getSubset k fuel rng s.pos m1 m2 s.ms1 s.ms2 300 =
      some (true, g))
    (htrial : CvModelEstimator2.ransacTrial rd k log m1 m2 reprojThreshold confidence
      { s with ms1 := g.ms1, ms2 := g.ms2, pos := g.pos,
               trace := s.trace ++ [.subset true (g.pos - s.pos)] } = .ok s2) :
    CvModelEstimator2.ransacLoop rd k log rng m1 m2 reprojThreshold confidence (fuel + 1) iter s =
      CvModelEstimator2.ransacLoop rd k log rng m1 m2 reprojThreshold confidence fuel (iter + 1)
        s2 := by
  conv_lhs => unfold CvModelEstimator2.ransacLoop
  rw [if_pos h, if_pos hcount, hsub]
  simp only [Bool.not_true, Bool.false_eq_true, if_false]
  rw [htrial]

end RansacSteps

section RansacBudget

variable {P M : Type} {rd : Rounding ℝ}

/-- Scoring a candidate returns (the iteration budget is updated only when a candidate with at
least one inlier is adopted, and then `modelPoints` is positive), it does not increase
`niters`, and it records one scoring. -/
theorem ransacScore_ok (k : Kernel P M) (m1 m2 : List P) (reprojThreshold confidence : ℝ)
    (s : CvModelEstimator2.RansacState P M ℝ) (model_i : M)
    (hmp : 1 ≤ k.modelPoints ∨ m1.length = 0)
    (hn : 0 ≤ s.niters) (hg : 0 ≤ s.maxGoodCount) :
    ∃ s', CvModelEstimator2.ransacScore rd k Real.log m1 m2 reprojThreshold confidence s model_i
        = .ok s' ∧
      0 ≤ s'.niters ∧ s'.niters ≤ s.niters ∧ 0 ≤ s'.maxGoodCount ∧
      s'.ms1 = s.ms1 ∧ s'.ms2 = s.ms2 ∧ s'.pos = s.pos ∧
      ∃ g a, s'.trace = s.trace ++ [.scored model_i g a s'.niters] := by
  have hw := writeTmask_fields s
    (CvModelEstimator2.findInliers rd k m1 m2 model_i s.tmask (Dbl.fin reprojThreshold)).2.2
  have hle := findInliers_count_le rd k m1 m2 model_i s.tmask (Dbl.fin reprojThreshold)
  unfold CvModelEstimator2.ransacScore
  simp only
  by_cases hgood : (CvModelEstimator2.findInliers rd k m1 m2 model_i s.tmask (Dbl.fin reprojThreshold)).1 >
      max s.maxGoodCount (k.modelPoints - 1)
  · rw [if_pos hgood]
    have hpos : 0 < (CvModelEstimator2.findInliers rd k m1 m2 model_i s.tmask (Dbl.fin reprojThreshold)).1 :=
      lt_of_le_of_lt (le_trans hg (le_max_left _ _)) hgood
    have hmp1 : 1 ≤ k.modelPoints := by
      rcases hmp with h | h
      · exact h
      · rw [h] at hle
        simp only [Nat.cast_zero] at hle
        omega
    obtain ⟨r, hr, hr0, hrn⟩ := (cvRANSACUpdateNumIters_range_aux confidence
      ((((m1.length : ℤ) - (CvModelEstimator2.findInliers rd k m1 m2 model_i s.tmask
        (Dbl.fin reprojThreshold)).1 : ℤ) : ℝ) / ((m1.length : ℤ) : ℝ)) k.modelPoints s.niters hmp1 hn)
    rw [hr]
    exact ⟨_, rfl, hr0, hrn, hpos.le, hw.2.2.2.2.1, hw.2.2.2.2.2.1, hw.2.2.2.2.2.2.1,
      _, _, rfl⟩
  · rw [if_neg hgood]
    refine ⟨_, rfl, ?_, ?_, ?_, hw.2.2.2.2.1, hw.2.2.2.2.2.1, hw.2.2.2.2.2.2.1,
      (CvModelEstimator2.findInliers rd k m1 m2 model_i s.tmask (Dbl.fin reprojThreshold)).1, false, ?_⟩
    · show 0 ≤ (s.writeTmask _).niters
      rw [hw.1]; exact hn
    · show (s.writeTmask _).niters ≤ s.niters
      rw [hw.1]
    · show 0 ≤ (s.writeTmask _).maxGoodCount
      rw [hw.2.1]; exact hg
    · show s.trace ++ _ = s.trace ++ [.scored model_i _ false (s.writeTmask _).niters]
      rw [hw.1]

theorem ransacModels_ok (k : Kernel P M) (m1 m2 : List P) (reprojThreshold confidence : ℝ)
    (models : ℕ → M) (todo i : ℕ) (s : CvModelEstimator2.RansacState P M ℝ)
    (hmp : 1 ≤ k.modelPoints ∨ m1.length = 0)
    (hn : 0 ≤ s.niters) (hg : 0 ≤ s.maxGoodCount) :
    ∃ s', CvModelEstimator2.ransacModels rd k Real.log m1 m2 reprojThreshold confidence models
        todo i s = .ok s' ∧
      0 ≤ s'.niters ∧ s'.niters ≤ s.niters ∧ 0 ≤ s'.maxGoodCount ∧
      s'.ms1 = s.ms1 ∧ s'.ms2 = s.ms2 ∧ s'.pos = s.pos ∧
      ∃ evs, s'.trace = s.trace ++ evs ∧ ∀ e ∈ evs, e.isScored = true := by
  induction todo generalizing i s with
  | zero =>
    exact ⟨s, rfl, hn, le_rfl, hg, rfl, rfl, rfl, [], by simp, by simp⟩
  | succ todo ih =>
    obtain ⟨s1, h1, hn1, hle1, hg1, hms1, hms2, hpos, g, a, htr⟩ :=
      ransacScore_ok k m1 m2 reprojThreshold confidence s (models i) hmp hn hg
    obtain ⟨s2, h2, hn2, hle2, hg2, hms1', hms2', hpos', evs, htr2, hev⟩ :=
      ih (i + 1) s1 hn1 hg1
    refine ⟨s2, ?_, hn2, le_trans hle2 hle1, hg2, hms1'.trans hms1, hms2'.trans hms2,
      hpos'.trans hpos, Event.scored (models i) g a s1.niters :: evs, ?_, ?_⟩
    · unfold CvModelEstimator2.ransacModels
      rw [h1]
      exact h2
    · rw [htr2, htr]
      simp
    · intro e he
      rcases List.mem_cons.mp he with h | h
      · rw [h]; rfl
      · exact hev e h

theorem ransacTrial_ok (k : Kernel P M) (m1 m2 : List P) (reprojThreshold confidence : ℝ)
    (s : CvModelEstimator2.RansacState P M ℝ)
    (hmp : 1 ≤ k.modelPoints ∨ m1.length = 0)
    (hn : 0 ≤ s.niters) (hg : 0 ≤ s.maxGoodCount) :
    ∃ s', CvModelEstimator2.ransacTrial rd k Real.log m1 m2 reprojThreshold confidence s = .ok s' ∧
      0 ≤ s'.niters ∧ s'.niters ≤ s.niters ∧ 0 ≤ s'.maxGoodCount ∧
      s'.ms1 = s.ms1 ∧ s'.ms2 = s.ms2 ∧ s'.pos = s.pos ∧
      ∃ n evs, s'.trace = s.trace ++ .kernel s.ms1 s.ms2 n :: evs ∧
        ∀ e ∈ evs, e.isScored = true := by
  unfold CvModelEstimator2.ransacTrial
  simp only
  by_cases hz : (k.runKernel s.ms1 s.ms2).1 ≤ 0
  · rw [if_pos hz]
    exact ⟨_, rfl, hn, le_rfl, hg, rfl, rfl, rfl, (k.runKernel s.ms1 s.ms2).1, [], rfl,
      by simp⟩
  · rw [if_neg hz]
    obtain ⟨s2, h2, hn2, hle2, hg2, hms1, hms2, hpos, evs, htr, hev⟩ :=
      ransacModels_ok k m1 m2 reprojThreshold confidence (k.runKernel s.ms1 s.ms2).2
        (k.runKernel s.ms1 s.ms2).1.toNat 0
        { s with trace := s.trace ++ [.kernel s.ms1 s.ms2 (k.runKernel s.ms1 s.ms2).1] }
        hmp hn hg
    refine ⟨s2, h2, hn2, hle2, hg2, hms1, hms2, hpos, (k.runKernel s.ms1 s.ms2).1, evs, ?_,
      hev⟩
    rw [htr]
    simp

end RansacBudget

/-- C5: when the number of correspondences equals `modelPoints`, `runRANSAC` (given fuel for
two rounds of its loop, and whatever `maxIters` is) returns after exactly one trial: its trace
is one call of `runKernel`, on `m1` and `m2` themselves, followed by the scorings of the models
of that call; `getSubset` is not called. -/
theorem runRANSAC_single_trial {P M : Type} [Inhabited P] (rd : Rounding ℝ) (k : Kernel P M) (fuel : ℕ)
    (rng : ℕ → ℕ) (m1 m2 : List P) (model : M) (mask : List ℕ)
    (reprojThreshold confidence : ℝ) (maxIters : ℤ)
    (hsize : m1.length = m2.length ∧ m1.length = mask.length)
    (hN : (m1.length : ℤ) = k.modelPoints) (hfuel : 2 ≤ fuel) :
    ∃ res n evs,
      CvModelEstimator2.runRANSAC rd k Real.log fuel rng m1 m2 model mask reprojThreshold
        confidence maxIters = .ok res ∧
      res.trace = .kernel m1 m2 n :: evs ∧ (∀ e ∈ evs, e.isScored = true) ∧
      kernelCalls res.trace = 1 ∧ subsetCalls res.trace = 0 := by
  obtain ⟨fuel, rfl⟩ : ∃ f, fuel = f + 2 := ⟨fuel - 2, by omega⟩
  have hcount : ¬ (m1.length : ℤ) > k.modelPoints := by omega
  have hinit : (CvModelEstimator2.ransacInit k m1 m2 model mask maxIters :
      CvModelEstimator2.RansacState P M ℝ) =
      ⟨1, 0, model, mask, List.replicate m1.length 0, false, m1, m2, 0, []⟩ := by
    unfold CvModelEstimator2.ransacInit
    rw [if_neg hcount]
  have hmp : 1 ≤ k.modelPoints ∨ m1.length = 0 := by omega
  obtain ⟨s2, h2, hn2, hle2, hg2, -, -, -, n, evs, htr, hev⟩ :=
    ransacTrial_ok k m1 m2 reprojThreshold confidence
      (⟨1, 0, model, mask, List.replicate m1.length 0, false, m1, m2, 0, []⟩ :
        CvModelEstimator2.RansacState P M ℝ) hmp zero_le_one le_rfl
  simp only [List.nil_append] at htr hle2
  have hcalls : ∀ l : List (Event P M ℝ), (∀ e ∈ l, e.isScored = true) →
      List.countP Event.isKernel l = 0 ∧ List.countP Event.isSubset l = 0 := by
    intro l hl
    constructor <;> rw [List.countP_eq_zero] <;> intro e he <;>
      have := hl e he <;> cases e <;> simp_all [Event.isScored, Event.isKernel, Event.isSubset]
  have hres : ∀ r : RunResult P M ℝ, r.trace = s2.trace →
      r.trace = .kernel m1 m2 n :: evs ∧ (∀ e ∈ evs, e.isScored = true) ∧
      kernelCalls r.trace = 1 ∧ subsetCalls r.trace = 0 := by
    intro r hr
    rw [hr, htr]
    refine ⟨rfl, hev, ?_, ?_⟩
    · unfold kernelCalls
      rw [List.countP_cons, (hcalls evs hev).1]
      rfl
    · unfold subsetCalls
      rw [List.countP_cons, (hcalls evs hev).2]
      rfl
  unfold CvModelEstimator2.runRANSAC
  rw [if_neg (not_not.mpr hsize), if_neg (by omega), hinit,
    ransacLoop_whole rd k Real.log rng m1 m2 reprojThreshold confidence (fuel + 1) 0 _ s2
      zero_lt_one hcount h2,
    ransacLoop_done rd k Real.log rng m1 m2 reprojThreshold confidence fuel (0 + 1) s2
      (by omega)]
  refine ⟨_, n, evs, rfl, hres _ ?_⟩
  unfold CvModelEstimator2.ransacFinish
  simp only [Bool.false_eq_true, if_false]
  split_ifs <;> rfl

/-- A run of `runRANSAC` over the reals: five correspondences, four model points, one trial
whose candidate (the model `6`) has the errors `0, 0, 0, 1000, 1000`, hence three inliers for
the threshold `1`; the candidate is not adopted and the run returns false. -/
theorem exampleRun_ransac :
    CvModelEstimator2.runRANSAC Rounding.ieee exampleKernel Real.log 10 (fun n => n)
        [0, 1, 2, 3, 4] [0, 1, 2, 3, 4] 77 [9, 9, 9, 9, 9] (1 : ℝ) (1 / 2) 1 =
      .ok ⟨false, 77, [9, 9, 9, 9, 9],
        [.subset true 4, .kernel [0, 1, 2, 3] [0, 1, 2, 3] 1, .scored 6 3 false 1], 4⟩ := by
  have hinit : (CvModelEstimator2.ransacInit exampleKernel [0, 1, 2, 3, 4] [0, 1, 2, 3, 4] 77
      [9, 9, 9, 9, 9] 1 : CvModelEstimator2.RansacState ℕ ℕ ℝ) =
      ⟨1, 0, 77, [9, 9, 9, 9, 9], [0, 0, 0, 0, 0], false, [0, 0, 0, 0], [0, 0, 0, 0], 0, []⟩ :=
    rfl
  have hsub : CvModelEstimator2.getSubset exampleKernel 9 (fun n => n) 0 [0, 1, 2, 3, 4]
      [0, 1, 2, 3, 4] [0, 0, 0, 0] [0, 0, 0, 0] 300 =
      some (true, ⟨4, 1, [0, 1, 2, 3], [0, 1, 2, 3], [0, 1, 2, 3], 4,
        [1, 1, 2, 2, 3, 3, 4, 4]⟩) := rfl
  have hin : CvModelEstimator2.findInliers Rounding.ieee exampleKernel [0, 1, 2, 3, 4]
      [0, 1, 2, 3, 4] 6 [0, 0, 0, 0, 0] (Dbl.fin (1 : ℝ)) =
      (3, exampleKernel.computeReprojError [0, 1, 2, 3, 4] [0, 1, 2, 3, 4] 6,
        [1, 1, 1, 0, 0]) := by
    have herr : exampleKernel.computeReprojError [0, 1, 2, 3, 4] [0, 1, 2, 3, 4] 6 =
        [CFloat.zero, CFloat.zero, CFloat.zero, ⟨false, 1148846080, by decide⟩,
          ⟨false, 1148846080, by decide⟩] := by decide
    have hbig : ¬ ((((⟨false, 1148846080, by decide⟩ : CFloat).toRat : ℚ) : ℝ) ≤ 1) := by
      simp only [CFloat.toRat, CFloat.scaled]
      norm_num
    have hzero : (((CFloat.zero.toRat : ℚ) : ℝ) ≤ 1) := by
      simp only [CFloat.toRat, CFloat.scaled, CFloat.zero]
      norm_num
    have hsq : (Rounding.ieee : Rounding ℝ).dbl ((1 : ℝ) * 1) = Dbl.fin 1 := by
      have h := @ieee_dbl_sq_int ℝ _ _ 1 (by norm_num)
      simpa using h
    rw [findInliers_of_sq _ _ _ _ _ _ 1 1 hsq, herr]
    simp only [List.map, if_pos hzero, if_neg hbig]
    rfl
  have htrial : CvModelEstimator2.ransacTrial Rounding.ieee exampleKernel Real.log
      [0, 1, 2, 3, 4] [0, 1, 2, 3, 4] (1 : ℝ) (1 / 2)
      (⟨1, 0, 77, [9, 9, 9, 9, 9], [0, 0, 0, 0, 0], false, [0, 1, 2, 3], [0, 1, 2, 3], 4,
        [.subset true 4]⟩ : CvModelEstimator2.RansacState ℕ ℕ ℝ) =
      .ok ⟨1, 0, 77, [9, 9, 9, 9, 9], [1, 1, 1, 0, 0], false, [0, 1, 2, 3], [0, 1, 2, 3], 4,
        [.subset true 4, .kernel [0, 1, 2, 3] [0, 1, 2, 3] 1, .scored 6 3 false 1]⟩ := by
    have hk : exampleKernel.runKernel [0, 1, 2, 3] [0, 1, 2, 3] = (1, fun _ => 6) := rfl
    unfold CvModelEstimator2.ransacTrial
    simp only [hk]
    rw [if_neg (by decide)]
    show CvModelEstimator2.ransacModels Rounding.ieee exampleKernel Real.log [0, 1, 2, 3, 4]
      [0, 1, 2, 3, 4] 1 (1 / 2) (fun _ => 6) 1 0 _ = _
    unfold CvModelEstimator2.ransacModels CvModelEstimator2.ransacModels
      CvModelEstimator2.ransacScore
    simp only [CvModelEstimator2.RansacState.tmask, CvModelEstimator2.RansacState.writeTmask,
      Bool.false_eq_true, if_false, hin]
    rw [if_neg (by decide)]
    rfl
  have hstep := ransacLoop_sampled Rounding.ieee exampleKernel Real.log (fun n => n) [0, 1, 2, 3, 4]
    [0, 1, 2, 3, 4] (1 : ℝ) (1 / 2) 9 0
    (⟨1, 0, 77, [9, 9, 9, 9, 9], [0, 0, 0, 0, 0], false, [0, 0, 0, 0], [0, 0, 0, 0], 0, []⟩ :
      CvModelEstimator2.RansacState ℕ ℕ ℝ) _ _ zero_lt_one (by decide) hsub htrial
  have hdone := ransacLoop_done Rounding.ieee exampleKernel Real.log (fun n => n) [0, 1, 2, 3, 4]
    [0, 1, 2, 3, 4] (1 : ℝ) (1 / 2) 8 (0 + 1)
    (⟨1, 0, 77, [9, 9, 9, 9, 9], [1, 1, 1, 0, 0], false, [0, 1, 2, 3], [0, 1, 2, 3], 4,
      [.subset true 4, .kernel [0, 1, 2, 3] [0, 1, 2, 3] 1, .scored 6 3 false 1]⟩ :
      CvModelEstimator2.RansacState ℕ ℕ ℝ) (by decide)
  unfold CvModelEstimator2.runRANSAC
  rw [if_neg (by decide), if_neg (by decide), hinit, hstep, hdone]
  rfl

/-- Witness for C1: the run `exampleRun_ransac`, which scores a candidate and returns false;
the caller's model `77` and mask `9,9,9,9,9` are unchanged. -/
theorem runRANSAC_false_frame_witness :
    (⟨false, 77, [9, 9, 9, 9, 9],
        [.subset true 4, .kernel [0, 1, 2, 3] [0, 1, 2, 3] 1, .scored 6 3 false 1], 4⟩ :
      RunResult ℕ ℕ ℝ).model = 77 ∧
    (⟨false, 77, [9, 9, 9, 9, 9],
        [.subset true 4, .kernel [0, 1, 2, 3] [0, 1, 2, 3] 1, .scored 6 3 false 1], 4⟩ :
      RunResult ℕ ℕ ℝ).mask = [9, 9, 9, 9, 9] :=
  runRANSAC_false_frame Rounding.ieee exampleKernel Real.log 10 (fun n => n) [0, 1, 2, 3, 4] [0, 1, 2, 3, 4]
    77 [9, 9, 9, 9, 9] (1 : ℝ) (1 / 2) 1 _ exampleRun_ransac rfl

/-- Witness for C5: four correspondences for the four model points of `exampleKernel`. -/
theorem runRANSAC_single_trial_witness :
    ∃ (res : RunResult ℕ ℕ ℝ) (n : ℤ) (evs : List (Event ℕ ℕ ℝ)),
      CvModelEstimator2.runRANSAC Rounding.ieee exampleKernel Real.log 2 (fun n => n)
        [0, 1, 2, 3] [0, 1, 2, 3] 77 [9, 9, 9, 9] (1 : ℝ) (1 / 2) 5 = .ok res ∧
      res.trace = .kernel [0, 1, 2, 3] [0, 1, 2, 3] n :: evs ∧
      (∀ e ∈ evs, e.isScored = true) ∧
      kernelCalls res.trace = 1 ∧ subsetCalls res.trace = 0 :=
  runRANSAC_single_trial Rounding.ieee exampleKernel 2 (fun n => n) [0, 1, 2, 3] [0, 1, 2, 3] 77
    [9, 9, 9, 9] (1 : ℝ) (1 / 2) 5 ⟨rfl, rfl⟩ rfl (by decide)

/-! ## Claims on `runLMeDS` -/

section LmedsLemmas

variable {P M R : Type} [LinearOrderedField R] [FloorRing R] {rd : Rounding R}

omit [FloorRing R] in
theorem lmedsScore_inv (k : Kernel P M) (m1 m2 : List P) (model0 : M)
    (s : CvModelEstimator2.LmedsState P M R) (model_i : M)
    (hinv : CvModelEstimator2.LmedsInv model0 s) :
    CvModelEstimator2.LmedsInv model0 (CvModelEstimator2.lmedsScore rd k m1 m2 s model_i) := by
  have hle : Dbl.le s.minMedian (Dbl.fin DBL_MAX) = true := by
    rcases hinv with h | h
    · rw [h.1]
      simp [Dbl.le]
    · exact dbl_le_of_lt h.1
  unfold CvModelEstimator2.lmedsScore
  simp only
  split_ifs with hlt
  · right
    exact ⟨dbl_lt_of_lt_of_le hlt hle, by simp⟩
  · rcases hinv with h | h
    · left
      exact h
    · right
      exact ⟨h.1, List.mem_append_left _ h.2⟩

omit [FloorRing R] in
theorem lmedsModels_inv (k : Kernel P M) (m1 m2 : List P) (models : ℕ → M) (model0 : M)
    (todo i : ℕ) (s : CvModelEstimator2.LmedsState P M R)
    (hinv : CvModelEstimator2.LmedsInv model0 s) :
    CvModelEstimator2.LmedsInv model0
      (CvModelEstimator2.lmedsModels rd k m1 m2 models todo i s) := by
  induction todo generalizing i s with
  | zero => exact hinv
  | succ todo ih =>
    unfold CvModelEstimator2.lmedsModels
    exact ih _ _ (lmedsScore_inv k m1 m2 model0 s _ hinv)

omit [FloorRing R] in
theorem lmedsTrial_inv (k : Kernel P M) (m1 m2 : List P) (model0 : M)
    (s : CvModelEstimator2.LmedsState P M R)
    (hinv : CvModelEstimator2.LmedsInv model0 s) :
    CvModelEstimator2.LmedsInv model0 (CvModelEstimator2.lmedsTrial rd k m1 m2 s) := by
  have hinv1 : CvModelEstimator2.LmedsInv model0
      { s with trace := s.trace ++ [.kernel s.ms1 s.ms2 (k.runKernel s.ms1 s.ms2).1] } := by
    rcases hinv with h | h
    · left
      exact h
    · right
      exact ⟨h.1, List.mem_append_left _ h.2⟩
  unfold CvModelEstimator2.lmedsTrial
  simp only
  split_ifs
  · exact hinv1
  · exact lmedsModels_inv k m1 m2 _ model0 _ _ _ hinv1

omit [FloorRing R] in
theorem lmedsLoop_inv [Inhabited P] (k : Kernel P M) (rng : ℕ → ℕ) (m1 m2 : List P)
    (niters : ℤ) (model0 : M) (fuel : ℕ) (iter : ℤ)
    (s s' : CvModelEstimator2.LmedsState P M R) (exited : Bool) (hiter : 0 ≤ iter)
    (hinv : CvModelEstimator2.LmedsInv model0 s)
    (hrun : CvModelEstimator2.lmedsLoop rd k rng m1 m2 niters fuel iter s = .ok (s', exited)) :
    CvModelEstimator2.LmedsInv model0 s' ∧ (exited = true → iter = 0 ∧ s'.model = s.model) := by
  induction fuel generalizing iter s with
  | zero =>
    unfold CvModelEstimator2.lmedsLoop at hrun
    cases hrun
  | succ fuel ih =>
    have hnext : ∀ s1 : CvModelEstimator2.LmedsState P M R,
        CvModelEstimator2.LmedsInv model0 s1 →
        CvModelEstimator2.lmedsLoop rd k rng m1 m2 niters fuel (iter + 1)
          (CvModelEstimator2.lmedsTrial rd k m1 m2 s1) = .ok (s', exited) →
        CvModelEstimator2.LmedsInv model0 s' ∧
          (exited = true → iter = 0 ∧ s'.model = s.model) := by
      intro s1 hinv1 hloop
      have h := ih (iter + 1) _ (by omega) (lmedsTrial_inv k m1 m2 model0 s1 hinv1) hloop
      refine ⟨h.1, fun he => ?_⟩
      have := (h.2 he).1
      omega
    unfold CvModelEstimator2.lmedsLoop at hrun
    by_cases hlt : iter < niters
    · rw [if_pos hlt] at hrun
      by_cases hcount : (m1.length : ℤ) > k.modelPoints
      · rw [if_pos hcount] at hrun
        cases hsub : CvModelEstimator2.getSubset k fuel rng s.pos m1 m2 s.ms1 s.ms2 300 with
        | none =>
          rw [hsub] at hrun
          cases hrun
        | some r =>
          obtain ⟨found, g⟩ := r
          rw [hsub] at hrun
          simp only at hrun
          have hinv1 : CvModelEstimator2.LmedsInv model0
              { s with ms1 := g.ms1, ms2 := g.ms2, pos := g.pos,
                       trace := s.trace ++ [.subset found (g.pos - s.pos)] } := by
            rcases hinv with h | h
            · left
              exact h
            · right
              exact ⟨h.1, List.mem_append_left _ h.2⟩
          cases found
          · simp only [Bool.not_false, if_true] at hrun
            by_cases h0 : iter = 0
            · rw [if_pos h0] at hrun
              cases hrun
              exact ⟨hinv1, fun _ => ⟨h0, rfl⟩⟩
            · rw [if_neg h0] at hrun
              cases hrun
              exact ⟨hinv1, fun h => by cases h⟩
          · simp only [Bool.not_true, Bool.false_eq_true, if_false] at hrun
            exact hnext _ hinv1 hrun
      · rw [if_neg hcount] at hrun
        exact hnext s hinv hrun
    · rw [if_neg hlt] at hrun
      cases hrun
      exact ⟨hinv, fun h => by cases h⟩

end LmedsLemmas

/-- C2, amended: if `runLMeDS` returns false, then either the caller's model and mask are what
they were before the call, or a candidate was adopted during the run: the caller's model is
that candidate, its median `med` is below `DBL_MAX`, and the caller's mask holds the inlier
flags of the model for the threshold `sigma` derived from `med` (all of them `0` when `sigma`
is a NaN), fewer than `modelPoints` of them being `1`. -/
theorem runLMeDS_false_outputs {P M R : Type} [LinearOrderedField R] [FloorRing R]
    [Inhabited P] (rd : Rounding R) (k : Kernel P M) (log sqrt : R → R) (fuel : ℕ)
    (rng : ℕ → ℕ) (m1 m2 : List P) (model : M) (mask : List ℕ) (confidence : R)
    (maxIters : ℤ) (res : RunResult P M R)
    (hrun : CvModelEstimator2.runLMeDS rd k log sqrt fuel rng m1 m2 model mask confidence
      maxIters = .ok res)
    (hfalse : res.result = false) :
    (res.model = model ∧ res.mask = mask) ∨
    (∃ med : Dbl R, Event.median res.model med true ∈ res.trace ∧
      Dbl.lt med (Dbl.fin DBL_MAX) = true ∧
      res.mask = (k.computeReprojError m1 m2 res.model).map
        (fun e => if Dbl.le (Dbl.fin ((e.toRat : ℚ) : R))
          (Dbl.mul rd.dbl (CvModelEstimator2.lmedsSigma rd sqrt m1.length k.modelPoints med)
            (CvModelEstimator2.lmedsSigma rd sqrt m1.length k.modelPoints med))
          then 1 else 0) ∧
      ((res.mask.count 1 : ℕ) : ℤ) < k.modelPoints ∧
      (CvModelEstimator2.lmedsSigma rd sqrt m1.length k.modelPoints med = Dbl.nan →
        res.mask = List.replicate m1.length 0)) := by
  unfold CvModelEstimator2.runLMeDS at hrun
  by_cases hsize : ¬(m1.length = m2.length ∧ m1.length = mask.length)
  · rw [if_pos hsize] at hrun
    cases hrun
  · rw [if_neg hsize] at hrun
    have hml : mask.length = m1.length := (not_not.mp hsize).2.symm
    by_cases hshort : (m1.length : ℤ) < k.modelPoints
    · rw [if_pos hshort] at hrun
      cases hrun
      exact Or.inl ⟨rfl, rfl⟩
    · rw [if_neg hshort] at hrun
      have hinv0 : CvModelEstimator2.LmedsInv model
          (CvModelEstimator2.lmedsInit k m1 m2 model : CvModelEstimator2.LmedsState P M R) := by
        unfold CvModelEstimator2.lmedsInit
        split_ifs <;> exact Or.inl ⟨rfl, rfl⟩
      have hm0 : (CvModelEstimator2.lmedsInit k m1 m2 model :
          CvModelEstimator2.LmedsState P M R).model = model := by
        unfold CvModelEstimator2.lmedsInit
        split_ifs <;> rfl
      cases hloop : CvModelEstimator2.lmedsLoop rd k rng m1 m2
          (CvModelEstimator2.lmedsNiters log confidence k.modelPoints maxIters) fuel 0
          (CvModelEstimator2.lmedsInit k m1 m2 model : CvModelEstimator2.LmedsState P M R) with
      | error e =>
        rw [hloop] at hrun
        cases hrun
      | ok r =>
        obtain ⟨s, exited⟩ := r
        rw [hloop] at hrun
        simp only [Except.ok.injEq] at hrun
        have h := lmedsLoop_inv k rng m1 m2 _ model fuel 0 _ s exited le_rfl hinv0 hloop
        subst hrun
        unfold CvModelEstimator2.lmedsFinish at hfalse ⊢
        by_cases hex : exited = true
        · rw [if_pos hex]
          left
          exact ⟨by rw [(h.2 hex).2, hm0], rfl⟩
        · rw [if_neg hex] at hfalse ⊢
          by_cases hmed : Dbl.lt s.minMedian (Dbl.fin DBL_MAX) = true
          · rw [if_pos hmed] at hfalse ⊢
            simp only at hfalse ⊢
            right
            have hmask := findInliers_mask rd k m1 m2 s.model mask
              (CvModelEstimator2.lmedsSigma rd sqrt m1.length k.modelPoints s.minMedian)
            rw [List.drop_of_length_le (by rw [hml]), List.append_nil] at hmask
            have hcount := findInliers_count rd k m1 m2 s.model mask
              (CvModelEstimator2.lmedsSigma rd sqrt m1.length k.modelPoints s.minMedian)
            rcases h.1 with h1 | h1
            · rw [h1.1, dbl_lt_irrefl] at hmed
              cases hmed
            · refine ⟨s.minMedian, h1.2, hmed, hmask, ?_, ?_⟩
              · rw [hmask, ← hcount]
                simpa using hfalse
              · intro hnan
                rw [hmask, hnan]
                have hz : ∀ l : List CFloat,
                    l.map (fun e => if Dbl.le (Dbl.fin ((e.toRat : ℚ) : R))
                      (Dbl.mul rd.dbl Dbl.nan Dbl.nan) = true then 1 else 0) =
                    List.replicate l.length 0 := by
                  intro l
                  induction l with
                  | nil => rfl
                  | cons e l ih =>
                    rw [List.map_cons, ih]
                    rfl
                rw [hz, k.computeReprojError_length]
          · rw [if_neg hmed]
            left
            rcases h.1 with h1 | h1
            · exact ⟨h1.2, rfl⟩
            · exact absurd h1.1 hmed
/-! ## The threshold `sigma` in IEEE 754 arithmetic -/

section SigmaLemmas

variable {R : Type} [LinearOrderedField R] [FloorRing R]

/-- The constant factor `2.5*1.4826` of `sigma` is a finite `double` between `2` and `8`. -/
theorem ieee_sigma_factor :
    ∃ c : R, Dbl.mul (Rounding.ieee : Rounding R).dbl (Dbl.fin 2.5)
        ((Rounding.ieee : Rounding R).dbl 1.4826) = Dbl.fin c ∧ 2 ≤ c ∧ c ≤ 8 := by
  obtain ⟨r0, h0, h0a, h0b⟩ := ieee_dbl_between (1.4826 : R) 0 1 (by norm_num) (by norm_num)
    (by norm_num) (by norm_num)
  rw [zpow_zero] at h0a
  rw [zpow_one] at h0b
  rw [h0]
  obtain ⟨c, hc, hca, hcb⟩ := ieee_dbl_between (2.5 * r0) 1 3 (by norm_num) (by norm_num)
    (by rw [zpow_one]; linarith) (by norm_num; linarith)
  rw [zpow_one] at hca
  refine ⟨c, hc, hca, ?_⟩
  have h8 : (2 : R) ^ (3 : ℤ) = 8 := by norm_num
  rw [h8] at hcb
  exact hcb

/-- The factor `2.5*1.4826*(1 + 5./(count - modelPoints))` of `sigma` for
`count > modelPoints` is a finite `double` between `2` and `128`. -/
theorem ieee_sigma_scale (d : ℤ) (hd : 1 ≤ d) :
    ∃ b : R, Dbl.mul (Rounding.ieee : Rounding R).dbl
        (Dbl.mul (Rounding.ieee : Rounding R).dbl (Dbl.fin 2.5)
          ((Rounding.ieee : Rounding R).dbl 1.4826))
        (Dbl.add (Rounding.ieee : Rounding R).dbl (Dbl.fin 1)
          (Dbl.div (Rounding.ieee : Rounding R).dbl (Dbl.fin 5) (Dbl.fin ((d : ℤ) : R)))) =
      Dbl.fin b ∧ 2 ≤ b ∧ b ≤ 128 := by
  obtain ⟨c, hc, hca, hcb⟩ := @ieee_sigma_factor R _ _
  rw [hc]
  have hd1 : (1 : R) ≤ (d : R) := by exact_mod_cast hd
  have hd0 : (d : R) ≠ 0 := by linarith
  have hq0 : (0 : R) ≤ 5 / (d : R) := div_nonneg (by norm_num) (by linarith)
  have hq5 : (5 : R) / (d : R) ≤ 5 := by
    rw [div_le_iff₀ (by linarith)]
    linarith
  have hdiv : Dbl.div (Rounding.ieee : Rounding R).dbl (Dbl.fin 5) (Dbl.fin ((d : ℤ) : R)) =
      (Rounding.ieee : Rounding R).dbl (5 / (d : R)) := by
    simp only [Dbl.div, if_neg hd0]
  rw [hdiv]
  obtain ⟨q, hq, hqa, hqb⟩ := ieee_dbl_bounded (5 / (d : R)) 3 (by norm_num) (by norm_num)
    hq0 (by norm_num; linarith)
  have h8 : (2 : R) ^ (3 : ℤ) = 8 := by norm_num
  rw [h8] at hqb
  rw [hq]
  obtain ⟨a, ha, haa, hab⟩ := ieee_dbl_between (1 + q) 0 4 (by norm_num) (by norm_num)
    (by rw [zpow_zero]; linarith) (by norm_num; linarith)
  have h16 : (2 : R) ^ (4 : ℤ) = 16 := by norm_num
  rw [zpow_zero] at haa
  rw [h16] at hab
  have hadd : Dbl.add (Rounding.ieee : Rounding R).dbl (Dbl.fin 1) (Dbl.fin q) =
      (Rounding.ieee : Rounding R).dbl (1 + q) := rfl
  rw [hadd, ha]
  obtain ⟨b, hb, hba, hbb⟩ := ieee_dbl_between (c * a) 1 7 (by norm_num) (by norm_num)
    (by rw [zpow_one]; nlinarith) (by norm_num; nlinarith)
  have h128 : (2 : R) ^ (7 : ℤ) = 128 := by norm_num
  rw [zpow_one] at hba
  rw [h128] at hbb
  exact ⟨b, hb, hba, hbb⟩

theorem ieee_dbl_zero : (Rounding.ieee : Rounding R).dbl 0 = Dbl.fin 0 :=
  roundBinary_zero 53 (-1022) 1023

theorem ieee_dbl_one : (Rounding.ieee : Rounding R).dbl 1 = Dbl.fin 1 := by
  have h := @ieee_dbl_int R _ _ 1 (by norm_num)
  simpa using h

/-- For `count > modelPoints` and the median `0`, `sigma` is `FLT_EPSILON*100`. -/
theorem lmedsSigma_ieee_zero (sqrt : R → R) (hsqrt : sqrt 0 = 0) (count modelPoints : ℤ)
    (hd : modelPoints < count) :
    CvModelEstimator2.lmedsSigma Rounding.ieee sqrt count modelPoints (Dbl.fin 0) =
      Dbl.fin (FLT_EPSILON * 100) := by
  obtain ⟨b, hb, hba, hbb⟩ := @ieee_sigma_scale R _ _ (count - modelPoints) (by omega)
  unfold CvModelEstimator2.lmedsSigma
  simp only
  rw [hb]
  have hs : Dbl.sqrt (Rounding.ieee : Rounding R).dbl sqrt (Dbl.fin 0) = Dbl.fin 0 := by
    simp only [Dbl.sqrt, if_neg (lt_irrefl (0 : R)), hsqrt, ieee_dbl_zero]
  rw [hs]
  have hm : Dbl.mul (Rounding.ieee : Rounding R).dbl (Dbl.fin b) (Dbl.fin 0) = Dbl.fin 0 := by
    show (Rounding.ieee : Rounding R).dbl (b * 0) = Dbl.fin 0
    rw [mul_zero, ieee_dbl_zero]
  rw [hm]
  have hlt : Dbl.lt (Dbl.fin (0 : R)) (Dbl.fin (FLT_EPSILON * 100)) = true := by
    simp only [Dbl.lt, decide_eq_true_iff]
    unfold FLT_EPSILON
    norm_num
  rw [if_pos hlt]

/-- For `count == modelPoints` and the median `0`, `sigma` is a NaN: the quotient
`5./(count - modelPoints)` is `+inf`, and its product with the root `0` is a NaN, which `MAX`
keeps. -/
theorem lmedsSigma_ieee_nan (sqrt : R → R) (hsqrt : sqrt 0 = 0) (count : ℤ) :
    CvModelEstimator2.lmedsSigma Rounding.ieee sqrt count count (Dbl.fin 0) = Dbl.nan := by
  obtain ⟨c, hc, hca, hcb⟩ := @ieee_sigma_factor R _ _
  unfold CvModelEstimator2.lmedsSigma
  simp only
  rw [hc]
  have hs : Dbl.sqrt (Rounding.ieee : Rounding R).dbl sqrt (Dbl.fin 0) = Dbl.fin 0 := by
    simp only [Dbl.sqrt, if_neg (lt_irrefl (0 : R)), hsqrt, ieee_dbl_zero]
  rw [hs]
  have hdiv : Dbl.div (Rounding.ieee : Rounding R).dbl (Dbl.fin 5)
      (Dbl.fin (((count - count : ℤ) : ℤ) : R)) = Dbl.inf false := by
    simp [Dbl.div]
  rw [hdiv]
  have hadd : Dbl.add (Rounding.ieee : Rounding R).dbl (Dbl.fin 1) (Dbl.inf false) =
      Dbl.inf false := rfl
  rw [hadd]
  have hmul : Dbl.mul (Rounding.ieee : Rounding R).dbl (Dbl.fin c) (Dbl.inf false) =
      Dbl.inf false := by
    have hc0 : c ≠ 0 := by linarith
    have hcn : ¬ c < 0 := by linarith
    simp [Dbl.mul, hc0, hcn]
  rw [hmul]
  have hnan : Dbl.mul (Rounding.ieee : Rounding R).dbl (Dbl.inf false) (Dbl.fin 0) =
      Dbl.nan := by
    simp [Dbl.mul]
  rw [hnan]
  rfl

/-- For `count > modelPoints` and a median whose root is `1`, `sigma` is a finite `double`
between `2` and `128`. -/
theorem lmedsSigma_ieee_unit (sqrt : R → R) (m : R) (hm0 : 0 ≤ m) (hsqrt : sqrt m = 1)
    (count modelPoints : ℤ) (hd : modelPoints < count) :
    ∃ sg : R, CvModelEstimator2.lmedsSigma Rounding.ieee sqrt count modelPoints (Dbl.fin m) =
      Dbl.fin sg ∧ 2 ≤ sg ∧ sg ≤ 128 := by
  obtain ⟨b, hb, hba, hbb⟩ := @ieee_sigma_scale R _ _ (count - modelPoints) (by omega)
  unfold CvModelEstimator2.lmedsSigma
  simp only
  rw [hb]
  have hs : Dbl.sqrt (Rounding.ieee : Rounding R).dbl sqrt (Dbl.fin m) = Dbl.fin 1 := by
    simp only [Dbl.sqrt, if_neg (not_lt.mpr hm0), hsqrt, ieee_dbl_one]
  rw [hs]
  obtain ⟨sg, hsg, hsa, hsb⟩ := ieee_dbl_between (b * 1) 1 7 (by norm_num) (by norm_num)
    (by rw [zpow_one]; linarith) (by norm_num; linarith)
  have h128 : (2 : R) ^ (7 : ℤ) = 128 := by norm_num
  rw [zpow_one] at hsa
  rw [h128] at hsb
  have hmul : Dbl.mul (Rounding.ieee : Rounding R).dbl (Dbl.fin b) (Dbl.fin 1) = Dbl.fin sg :=
    hsg
  rw [hmul]
  have hlt : Dbl.lt (Dbl.fin sg) (Dbl.fin (FLT_EPSILON * 100)) = false := by
    simp only [Dbl.lt, decide_eq_false_iff_not, not_lt]
    unfold FLT_EPSILON
    norm_num
    linarith
  rw [hlt]
  exact ⟨sg, by simp, hsa, hsb⟩

/-- The `double` square of a finite `sigma` between `2` and `128` is finite and at least
`4`. -/
theorem ieee_dbl_sq_bounds (sg : R) (h1 : 2 ≤ sg) (h2 : sg ≤ 128) :
    ∃ sq : R, (Rounding.ieee : Rounding R).dbl (sg * sg) = Dbl.fin sq ∧ 4 ≤ sq ∧
      sq ≤ 16384 := by
  obtain ⟨sq, hsq, ha, hb⟩ := ieee_dbl_between (sg * sg) 2 14 (by norm_num) (by norm_num)
    (by norm_num; nlinarith) (by norm_num; nlinarith)
  have h4 : (2 : R) ^ (2 : ℤ) = 4 := by norm_num
  have h14 : (2 : R) ^ (14 : ℤ) = 16384 := by norm_num
  rw [h4] at ha
  rw [h14] at hb
  exact ⟨sq, hsq, ha, hb⟩

/-- The square of `FLT_EPSILON*100` is a `double`. -/
theorem ieee_dbl_sq_eps :
    (Rounding.ieee : Rounding R).dbl (FLT_EPSILON * 100 * (FLT_EPSILON * 100)) =
      Dbl.fin (FLT_EPSILON * 100 * (FLT_EPSILON * 100)) := by
  apply ieee_dbl_of_grid _ 625 (-42)
  · unfold FLT_EPSILON
    rw [zpow_neg]
    norm_num
  · norm_num
  · norm_num
  · norm_num

end SigmaLemmas

/-! ## Stepping through the loops -/

section LoopSteps

variable {P M R : Type} [LinearOrderedField R] [FloorRing R] [Inhabited P] {rd : Rounding R}

omit [FloorRing R] in
theorem lmedsLoop_done (rd : Rounding R) (k : Kernel P M) (rng : ℕ → ℕ) (m1 m2 : List P) (niters : ℤ)
    (fuel : ℕ) (iter : ℤ) (s : CvModelEstimator2.LmedsState P M R) (h : ¬ iter < niters) :
    CvModelEstimator2.lmedsLoop rd k rng m1 m2 niters (fuel + 1) iter s = .ok (s, false) := by
  unfold CvModelEstimator2.lmedsLoop
  rw [if_neg h]

omit [FloorRing R] in
theorem lmedsLoop_whole (rd : Rounding R) (k : Kernel P M) (rng : ℕ → ℕ) (m1 m2 : List P) (niters : ℤ)
    (fuel : ℕ) (iter : ℤ) (s : CvModelEstimator2.LmedsState P M R) (h : iter < niters)
    (hcount : ¬ (m1.length : ℤ) > k.modelPoints) :
    CvModelEstimator2.lmedsLoop rd k rng m1 m2 niters (fuel + 1) iter s =
      CvModelEstimator2.lmedsLoop rd k rng m1 m2 niters fuel (iter + 1)
        (CvModelEstimator2.lmedsTrial rd k m1 m2 s) := by
  conv_lhs => unfold CvModelEstimator2.lmedsLoop
  rw [if_pos h, if_neg hcount]

omit [FloorRing R] in
theorem lmedsLoop_sampled (rd : Rounding R) (k : Kernel P M) (rng : ℕ → ℕ) (m1 m2 : List P) (niters : ℤ)
    (fuel : ℕ) (iter : ℤ) (s : CvModelEstimator2.LmedsState P M R)
    (g : CvModelEstimator2.SubsetState P) (h : iter < niters)
    (hcount : (m1.length : ℤ) > k.modelPoints)
    (hsub : CvModelEstimator2.getSubset k fuel rng s.pos m1 m2 s.ms1 s.ms2 300 =
      some (true, g)) :
    CvModelEstimator2.lmedsLoop rd k rng m1 m2 niters (fuel + 1) iter s =
      CvModelEstimator2.lmedsLoop rd k rng m1 m2 niters fuel (iter + 1)
        (CvModelEstimator2.lmedsTrial rd k m1 m2
          { s with ms1 := g.ms1, ms2 := g.ms2, pos := g.pos,
                   trace := s.trace ++ [.subset true (g.pos - s.pos)] }) := by
  conv_lhs => unfold CvModelEstimator2.lmedsLoop
  rw [if_pos h, if_pos hcount, hsub]
  simp

theorem lmedsNiters_of_le_three (log : R → R) (confidence : R) (modelPoints maxIters : ℤ)
    (h : maxIters ≤ 3) :
    CvModelEstimator2.lmedsNiters log confidence modelPoints maxIters = maxIters := by
  unfold CvModelEstimator2.lmedsNiters
  exact min_eq_right (le_trans h (le_max_right _ _))

omit [FloorRing R] [Inhabited P] in
/-- The scoring of a candidate whose median is below `minMedian`. -/
theorem lmedsScore_adopt (rd : Rounding R) (k : Kernel P M) (m1 m2 : List P)
    (s : CvModelEstimator2.LmedsState P M R) (model_i : M) (med : Dbl R)
    (hmed : CvModelEstimator2.lmedsMedian rd
      (icvSortDistances (k.computeReprojError m1 m2 model_i) m1.length) m1.length = med)
    (hlt : Dbl.lt med s.minMedian = true) :
    CvModelEstimator2.lmedsScore rd k m1 m2 s model_i =
      { s with minMedian := med, model := model_i,
               trace := s.trace ++ [.median model_i med true] } := by
  unfold CvModelEstimator2.lmedsScore
  simp only
  rw [hmed, if_pos hlt]

omit [FloorRing R] [Inhabited P] in
/-- The scoring of a candidate whose median is not below `minMedian`. -/
theorem lmedsScore_keep (rd : Rounding R) (k : Kernel P M) (m1 m2 : List P)
    (s : CvModelEstimator2.LmedsState P M R) (model_i : M) (med : Dbl R)
    (hmed : CvModelEstimator2.lmedsMedian rd
      (icvSortDistances (k.computeReprojError m1 m2 model_i) m1.length) m1.length = med)
    (hlt : Dbl.lt med s.minMedian = false) :
    CvModelEstimator2.lmedsScore rd k m1 m2 s model_i =
      { s with trace := s.trace ++ [.median model_i med false] } := by
  unfold CvModelEstimator2.lmedsScore
  simp only
  rw [hmed, hlt]
  rfl

omit [FloorRing R] [Inhabited P] in
/-- The end of `runLMeDS` when a candidate was adopted, `sigma` is finite and its `double`
square is the finite number `sq`. -/
theorem lmedsFinish_fin (rd : Rounding R) (k : Kernel P M) (sqrt : R → R) (m1 m2 : List P)
    (mask : List ℕ) (s : CvModelEstimator2.LmedsState P M R) (sg sq : R)
    (hml : mask.length = m1.length)
    (hlt : Dbl.lt s.minMedian (Dbl.fin DBL_MAX) = true)
    (hsigma : CvModelEstimator2.lmedsSigma rd sqrt m1.length k.modelPoints s.minMedian =
      Dbl.fin sg)
    (hsq : rd.dbl (sg * sg) = Dbl.fin sq) :
    CvModelEstimator2.lmedsFinish rd k sqrt m1 m2 mask s false =
      ⟨decide (((((k.computeReprojError m1 m2 s.model).map
          (fun e => if ((e.toRat : ℚ) : R) ≤ sq then (1 : ℕ) else 0)).count 1 : ℕ) : ℤ) ≥
            k.modelPoints),
        s.model,
        (k.computeReprojError m1 m2 s.model).map
          (fun e => if ((e.toRat : ℚ) : R) ≤ sq then (1 : ℕ) else 0),
        s.trace, s.pos⟩ := by
  unfold CvModelEstimator2.lmedsFinish
  rw [if_neg (by decide), if_pos hlt]
  simp only
  rw [hsigma, findInliers_of_sq rd k m1 m2 s.model mask sg sq hsq,
    List.drop_of_length_le (by rw [hml]), List.append_nil]

omit [FloorRing R] [Inhabited P] in
/-- The end of `runLMeDS` when a candidate was adopted and `sigma` is a NaN: no error is an
inlier. -/
theorem lmedsFinish_nan (rd : Rounding R) (k : Kernel P M) (sqrt : R → R) (m1 m2 : List P)
    (mask : List ℕ) (s : CvModelEstimator2.LmedsState P M R)
    (hml : mask.length = m1.length)
    (hlt : Dbl.lt s.minMedian (Dbl.fin DBL_MAX) = true)
    (hsigma : CvModelEstimator2.lmedsSigma rd sqrt m1.length k.modelPoints s.minMedian =
      Dbl.nan) :
    CvModelEstimator2.lmedsFinish rd k sqrt m1 m2 mask s false =
      ⟨decide ((0 : ℤ) ≥ k.modelPoints), s.model, List.replicate m1.length 0, s.trace,
        s.pos⟩ := by
  have hz : ∀ l : List CFloat,
      l.map (fun e => if Dbl.le (Dbl.fin ((e.toRat : ℚ) : R))
        (Dbl.mul rd.dbl Dbl.nan Dbl.nan) = true then 1 else 0) =
      List.replicate l.length 0 := by
    intro l
    induction l with
    | nil => rfl
    | cons e l ih =>
      rw [List.map_cons, ih]
      rfl
  have hm := findInliers_mask rd k m1 m2 s.model mask Dbl.nan
  have hc := findInliers_count rd k m1 m2 s.model mask Dbl.nan
  rw [hz, k.computeReprojError_length, List.drop_of_length_le (by rw [hml]),
    List.append_nil] at hm
  rw [hz, k.computeReprojError_length] at hc
  have hc0 : (CvModelEstimator2.findInliers rd k m1 m2 s.model mask Dbl.nan).1 = 0 := by
    rw [hc, Nat.cast_eq_zero, List.count_eq_zero]
    intro h1
    exact absurd (List.eq_of_mem_replicate h1) (by decide)
  unfold CvModelEstimator2.lmedsFinish
  rw [if_neg (by decide), if_pos hlt]
  simp only
  rw [hsigma, hm, hc0]

end LoopSteps

theorem DBL_MAX_pos {R : Type} [LinearOrderedField R] : (0 : R) < DBL_MAX := by
  unfold DBL_MAX
  apply mul_pos _ (by positivity)
  have : (1 : R) < 2 ^ 53 := one_lt_pow₀ (by norm_num) (by norm_num)
  linarith

theorem dbl_lt_DBL_MAX_of_le {R : Type} [LinearOrderedField R] (x : R) (h : x ≤ 2 ^ 128) :
    Dbl.lt (Dbl.fin x) (Dbl.fin (DBL_MAX : R)) = true := by
  simp only [Dbl.lt, decide_eq_true_iff]
  refine lt_of_le_of_lt h ?_
  unfold DBL_MAX
  have h1 : (2 : R) ^ 128 = 1 * 2 ^ 128 := by ring
  have h2 : ((2 : R) ^ 53 - 1) * 2 ^ 971 = ((2 : R) ^ 53 - 1) * 2 ^ 843 * 2 ^ 128 := by
    rw [mul_assoc, ← pow_add]
  rw [h1, h2]
  apply mul_lt_mul_of_pos_right _ (by positivity)
  have h3 : (1 : R) ≤ 2 ^ 843 := one_le_pow₀ (by norm_num)
  have h4 : (2 : R) ≤ 2 ^ 53 - 1 := by norm_num
  nlinarith

/-- A run of `runLMeDS` over the reals in IEEE 754 arithmetic: five correspondences, four
model points, one trial whose candidate (the model `6`) has the errors `0, 0, 0, 1000, 1000`.
Its median is `0`, the threshold is `100*FLT_EPSILON`, three inliers are found and the run
returns false. -/
theorem exampleRun_lmeds :
    CvModelEstimator2.runLMeDS Rounding.ieee exampleKernel Real.log Real.sqrt 10 (fun n => n)
        [0, 1, 2, 3, 4] [0, 1, 2, 3, 4] 77 [9, 9, 9, 9, 9] (1 / 2 : ℝ) 1 =
      .ok ⟨false, 6, [1, 1, 1, 0, 0],
        [.subset true 4, .kernel [0, 1, 2, 3] [0, 1, 2, 3] 1, .median 6 (Dbl.fin 0) true],
        4⟩ := by
  have hinit : (CvModelEstimator2.lmedsInit exampleKernel [0, 1, 2, 3, 4] [0, 1, 2, 3, 4] 77 :
      CvModelEstimator2.LmedsState ℕ ℕ ℝ) =
      ⟨Dbl.fin DBL_MAX, 77, [0, 0, 0, 0], [0, 0, 0, 0], 0, []⟩ := rfl
  have hsub : CvModelEstimator2.getSubset exampleKernel 9 (fun n => n) 0 [0, 1, 2, 3, 4]
      [0, 1, 2, 3, 4] [0, 0, 0, 0] [0, 0, 0, 0] 300 =
      some (true, ⟨4, 1, [0, 1, 2, 3], [0, 1, 2, 3], [0, 1, 2, 3], 4,
        [1, 1, 2, 2, 3, 3, 4, 4]⟩) := rfl
  have hsorted : icvSortDistances
      (exampleKernel.computeReprojError [0, 1, 2, 3, 4] [0, 1, 2, 3, 4] 6) 5 =
      [CFloat.zero, CFloat.zero, CFloat.zero, ⟨false, 1148846080, by decide⟩,
        ⟨false, 1148846080, by decide⟩] := by decide
  have hmedian : CvModelEstimator2.lmedsMedian (Rounding.ieee : Rounding ℝ) (icvSortDistances
      (exampleKernel.computeReprojError [0, 1, 2, 3, 4] [0, 1, 2, 3, 4] 6)
        ([0, 1, 2, 3, 4] : List ℕ).length) ([0, 1, 2, 3, 4] : List ℕ).length =
      Dbl.fin 0 := by
    show CvModelEstimator2.lmedsMedian (Rounding.ieee : Rounding ℝ) (icvSortDistances
      (exampleKernel.computeReprojError [0, 1, 2, 3, 4] [0, 1, 2, 3, 4] 6) 5) 5 = Dbl.fin 0
    rw [hsorted]
    simp [CvModelEstimator2.lmedsMedian, CFloat.zero, CFloat.toRat, CFloat.scaled]
  have htrial : CvModelEstimator2.lmedsTrial Rounding.ieee exampleKernel [0, 1, 2, 3, 4]
      [0, 1, 2, 3, 4]
      (⟨Dbl.fin DBL_MAX, 77, [0, 1, 2, 3], [0, 1, 2, 3], 4, [.subset true 4]⟩ :
        CvModelEstimator2.LmedsState ℕ ℕ ℝ) =
      ⟨Dbl.fin 0, 6, [0, 1, 2, 3], [0, 1, 2, 3], 4,
        [.subset true 4, .kernel [0, 1, 2, 3] [0, 1, 2, 3] 1,
          .median 6 (Dbl.fin 0) true]⟩ := by
    have hk : exampleKernel.runKernel [0, 1, 2, 3] [0, 1, 2, 3] = (1, fun _ => 6) := rfl
    unfold CvModelEstimator2.lmedsTrial
    simp only [hk]
    rw [if_neg (by decide)]
    show CvModelEstimator2.lmedsModels Rounding.ieee exampleKernel [0, 1, 2, 3, 4]
      [0, 1, 2, 3, 4] (fun _ => 6) 1 0 _ = _
    unfold CvModelEstimator2.lmedsModels CvModelEstimator2.lmedsModels
    rw [lmedsScore_adopt Rounding.ieee exampleKernel _ _ _ 6 (Dbl.fin 0) hmedian
      (dbl_lt_DBL_MAX_of_le 0 (by positivity))]
    rfl
  unfold CvModelEstimator2.runLMeDS
  rw [if_neg (by decide), if_neg (by decide), lmedsNiters_of_le_three _ _ _ _ (by decide),
    hinit, lmedsLoop_sampled Rounding.ieee exampleKernel _ _ _ 1 9 0 _ _ (by decide)
      (by decide) hsub]
  simp only [Nat.sub_zero, List.nil_append]
  rw [htrial, lmedsLoop_done _ _ _ _ _ _ 8 _ _ (by decide)]
  simp only
  rw [lmedsFinish_fin Rounding.ieee exampleKernel Real.sqrt [0, 1, 2, 3, 4] [0, 1, 2, 3, 4]
    [9, 9, 9, 9, 9] _ (FLT_EPSILON * 100)
    (FLT_EPSILON * 100 * (FLT_EPSILON * 100)) rfl (dbl_lt_DBL_MAX_of_le 0 (by positivity))
    (lmedsSigma_ieee_zero Real.sqrt Real.sqrt_zero _ _ (by decide)) ieee_dbl_sq_eps]
  have herr : exampleKernel.computeReprojError [0, 1, 2, 3, 4] [0, 1, 2, 3, 4] 6 =
      [CFloat.zero, CFloat.zero, CFloat.zero, ⟨false, 1148846080, by decide⟩,
        ⟨false, 1148846080, by decide⟩] := by decide
  have hbig : ¬ ((((⟨false, 1148846080, by decide⟩ : CFloat).toRat : ℚ) : ℝ) ≤
      FLT_EPSILON * 100 * (FLT_EPSILON * 100)) := by
    simp only [CFloat.toRat, CFloat.scaled, FLT_EPSILON]
    norm_num
  have hzero : (((CFloat.zero.toRat : ℚ) : ℝ) ≤
      FLT_EPSILON * 100 * (FLT_EPSILON * 100)) := by
    simp only [CFloat.toRat, CFloat.scaled, CFloat.zero, FLT_EPSILON]
    norm_num
  dsimp only
  rw [herr]
  simp only [List.map, if_pos hzero, if_neg hbig]
  rfl

/-- C2, as stated, fails: in the run `exampleRun_lmeds` a candidate is scored, the final
inlier count `3` is below `modelPoints = 4`, and `runLMeDS` returns false with the caller's
model `77` overwritten by `6` and the caller's mask `9,9,9,9,9` by `1,1,1,0,0`. -/
theorem runLMeDS_false_overwrites :
    CvModelEstimator2.runLMeDS Rounding.ieee exampleKernel Real.log Real.sqrt 10 (fun n => n)
        [0, 1, 2, 3, 4] [0, 1, 2, 3, 4] 77 [9, 9, 9, 9, 9] (1 / 2 : ℝ) 1 =
      .ok ⟨false, 6, [1, 1, 1, 0, 0],
        [.subset true 4, .kernel [0, 1, 2, 3] [0, 1, 2, 3] 1, .median 6 (Dbl.fin 0) true],
        4⟩ ∧
    (6 : ℕ) ≠ 77 ∧ ([1, 1, 1, 0, 0] : List ℕ) ≠ [9, 9, 9, 9, 9] :=
  ⟨exampleRun_lmeds, by decide, by decide⟩

/-- A run of `runLMeDS` over the reals in IEEE 754 arithmetic with as many correspondences as
model points: the errors of the candidate (the model `4`) are all `0`, its median is `0`,
`sigma` is the NaN of `inf * 0`, no error is an inlier of it, and the run returns false with
the caller's model overwritten and the caller's mask zeroed. -/
theorem exampleRun_lmeds_nan :
    CvModelEstimator2.runLMeDS Rounding.ieee exampleKernel Real.log Real.sqrt 10 (fun n => n)
        [0, 1, 2, 1] [0, 1, 2, 1] 77 [9, 9, 9, 9] (1 / 2 : ℝ) 1 =
      .ok ⟨false, 4, [0, 0, 0, 0],
        [.kernel [0, 1, 2, 1] [0, 1, 2, 1] 1, .median 4 (Dbl.fin 0) true], 0⟩ := by
  have hinit : (CvModelEstimator2.lmedsInit exampleKernel [0, 1, 2, 1] [0, 1, 2, 1] 77 :
      CvModelEstimator2.LmedsState ℕ ℕ ℝ) =
      ⟨Dbl.fin DBL_MAX, 77, [0, 1, 2, 1], [0, 1, 2, 1], 0, []⟩ := rfl
  have hsorted : icvSortDistances
      (exampleKernel.computeReprojError [0, 1, 2, 1] [0, 1, 2, 1] 4) 4 =
      [CFloat.zero, CFloat.zero, CFloat.zero, CFloat.zero] := by decide
  have hmedian : CvModelEstimator2.lmedsMedian (Rounding.ieee : Rounding ℝ) (icvSortDistances
      (exampleKernel.computeReprojError [0, 1, 2, 1] [0, 1, 2, 1] 4)
        ([0, 1, 2, 1] : List ℕ).length) ([0, 1, 2, 1] : List ℕ).length =
      Dbl.fin 0 := by
    show CvModelEstimator2.lmedsMedian (Rounding.ieee : Rounding ℝ) (icvSortDistances
      (exampleKernel.computeReprojError [0, 1, 2, 1] [0, 1, 2, 1] 4) 4) 4 = Dbl.fin 0
    rw [hsorted]
    have hz : ((CFloat.zero.toRat : ℚ) : ℝ) = 0 := by
      simp [CFloat.zero, CFloat.toRat, CFloat.scaled]
    simp only [CvModelEstimator2.lmedsMedian, List.getD_cons_succ, List.getD_cons_zero, hz,
      Nat.reduceMod, Nat.reduceDiv, Nat.reduceSub, ne_eq, not_true_eq_false, if_false]
    show Dbl.mul (Rounding.ieee : Rounding ℝ).dbl
      ((Rounding.ieee : Rounding ℝ).flt (0 + 0)) (Dbl.fin 0.5) = Dbl.fin 0
    have hf : (Rounding.ieee : Rounding ℝ).flt (0 + 0) = Dbl.fin 0 := by
      rw [add_zero]
      exact roundBinary_zero 24 (-126) 127
    rw [hf]
    show (Rounding.ieee : Rounding ℝ).dbl (0 * 0.5) = Dbl.fin 0
    rw [zero_mul, ieee_dbl_zero]
  have htrial : CvModelEstimator2.lmedsTrial Rounding.ieee exampleKernel [0, 1, 2, 1]
      [0, 1, 2, 1]
      (⟨Dbl.fin DBL_MAX, 77, [0, 1, 2, 1], [0, 1, 2, 1], 0, []⟩ :
        CvModelEstimator2.LmedsState ℕ ℕ ℝ) =
      ⟨Dbl.fin 0, 4, [0, 1, 2, 1], [0, 1, 2, 1], 0,
        [.kernel [0, 1, 2, 1] [0, 1, 2, 1] 1, .median 4 (Dbl.fin 0) true]⟩ := by
    have hk : exampleKernel.runKernel [0, 1, 2, 1] [0, 1, 2, 1] = (1, fun _ => 4) := rfl
    unfold CvModelEstimator2.lmedsTrial
    simp only [hk]
    rw [if_neg (by decide)]
    show CvModelEstimator2.lmedsModels Rounding.ieee exampleKernel [0, 1, 2, 1]
      [0, 1, 2, 1] (fun _ => 4) 1 0 _ = _
    unfold CvModelEstimator2.lmedsModels CvModelEstimator2.lmedsModels
    rw [lmedsScore_adopt Rounding.ieee exampleKernel _ _ _ 4 (Dbl.fin 0) hmedian
      (dbl_lt_DBL_MAX_of_le 0 (by positivity))]
    rfl
  unfold CvModelEstimator2.runLMeDS
  rw [if_neg (by decide), if_neg (by decide), lmedsNiters_of_le_three _ _ _ _ (by decide),
    hinit, lmedsLoop_whole Rounding.ieee exampleKernel _ _ _ 1 9 0 _ (by decide) (by decide),
    htrial, lmedsLoop_done _ _ _ _ _ _ 8 _ _ (by decide)]
  simp only
  rw [lmedsFinish_nan Rounding.ieee exampleKernel Real.sqrt [0, 1, 2, 1] [0, 1, 2, 1]
    [9, 9, 9, 9] _ rfl
    (dbl_lt_DBL_MAX_of_le 0 (by positivity))
    (lmedsSigma_ieee_nan Real.sqrt Real.sqrt_zero _)]
  rfl

/-- Witness for C2 (amended): the run `exampleRun_lmeds_nan`, which returns false with the
mask zeroed because `sigma` is a NaN. -/
theorem runLMeDS_false_outputs_witness :
    ((4 : ℕ) = 77 ∧ ([0, 0, 0, 0] : List ℕ) = [9, 9, 9, 9]) ∨
    (∃ med : Dbl ℝ,
      Event.median 4 med true ∈
        ([.kernel [0, 1, 2, 1] [0, 1, 2, 1] 1, .median 4 (Dbl.fin 0) true] :
          List (Event ℕ ℕ ℝ)) ∧
      Dbl.lt med (Dbl.fin DBL_MAX) = true ∧
      ([0, 0, 0, 0] : List ℕ) =
        (exampleKernel.computeReprojError [0, 1, 2, 1] [0, 1, 2, 1] 4).map
          (fun e => if Dbl.le (Dbl.fin ((e.toRat : ℚ) : ℝ))
            (Dbl.mul (Rounding.ieee : Rounding ℝ).dbl
              (CvModelEstimator2.lmedsSigma Rounding.ieee Real.sqrt
                (([0, 1, 2, 1] : List ℕ).length : ℤ) exampleKernel.modelPoints med)
              (CvModelEstimator2.lmedsSigma Rounding.ieee Real.sqrt
                (([0, 1, 2, 1] : List ℕ).length : ℤ) exampleKernel.modelPoints med))
            then 1 else 0) ∧
      (((([0, 0, 0, 0] : List ℕ).count 1 : ℕ) : ℤ)) < exampleKernel.modelPoints ∧
      (CvModelEstimator2.lmedsSigma Rounding.ieee Real.sqrt
          (([0, 1, 2, 1] : List ℕ).length : ℤ) exampleKernel.modelPoints med = Dbl.nan →
        ([0, 0, 0, 0] : List ℕ) = List.replicate ([0, 1, 2, 1] : List ℕ).length 0)) :=
  runLMeDS_false_outputs Rounding.ieee exampleKernel Real.log Real.sqrt 10 (fun n => n)
    [0, 1, 2, 1] [0, 1, 2, 1] 77 [9, 9, 9, 9] (1 / 2 : ℝ) 1 _ exampleRun_lmeds_nan rfl
/-! ## The number of trials of `runLMeDS` on a minimal set -/

section LmedsCalls

variable {P M R : Type} [LinearOrderedField R] {rd : Rounding R}

theorem lmedsModels_trace (k : Kernel P M) (m1 m2 : List P) (models : ℕ → M) (todo i : ℕ)
    (s : CvModelEstimator2.LmedsState P M R) :
    (CvModelEstimator2.lmedsModels rd k m1 m2 models todo i s).ms1 = s.ms1 ∧
    (CvModelEstimator2.lmedsModels rd k m1 m2 models todo i s).ms2 = s.ms2 ∧
    (CvModelEstimator2.lmedsModels rd k m1 m2 models todo i s).pos = s.pos ∧
    ∃ evs, (CvModelEstimator2.lmedsModels rd k m1 m2 models todo i s).trace = s.trace ++ evs ∧
      ∀ e ∈ evs, e.isMedian = true := by
  induction todo generalizing i s with
  | zero => exact ⟨rfl, rfl, rfl, [], by simp [CvModelEstimator2.lmedsModels], by simp⟩
  | succ todo ih =>
    unfold CvModelEstimator2.lmedsModels
    obtain ⟨h1, h2, h3, evs, htr, hev⟩ := ih (i + 1)
      (CvModelEstimator2.lmedsScore rd k m1 m2 s (models i))
    have hs : (CvModelEstimator2.lmedsScore rd k m1 m2 s (models i)).ms1 = s.ms1 ∧
        (CvModelEstimator2.lmedsScore rd k m1 m2 s (models i)).ms2 = s.ms2 ∧
        (CvModelEstimator2.lmedsScore rd k m1 m2 s (models i)).pos = s.pos ∧
        ∃ e, (CvModelEstimator2.lmedsScore rd k m1 m2 s (models i)).trace = s.trace ++ [e] ∧
          e.isMedian = true := by
      unfold CvModelEstimator2.lmedsScore
      simp only
      split_ifs
      · exact ⟨rfl, rfl, rfl, _, rfl, rfl⟩
      · exact ⟨rfl, rfl, rfl, _, rfl, rfl⟩
    obtain ⟨g1, g2, g3, e, hte, hme⟩ := hs
    refine ⟨h1.trans g1, h2.trans g2, h3.trans g3, e :: evs, ?_, ?_⟩
    · rw [htr, hte]
      simp
    · intro x hx
      rcases List.mem_cons.mp hx with h | h
      · rw [h]; exact hme
      · exact hev x h

theorem lmedsTrial_calls (k : Kernel P M) (m1 m2 : List P)
    (s : CvModelEstimator2.LmedsState P M R) :
    kernelCalls (CvModelEstimator2.lmedsTrial rd k m1 m2 s).trace = kernelCalls s.trace + 1 ∧
    subsetCalls (CvModelEstimator2.lmedsTrial rd k m1 m2 s).trace = subsetCalls s.trace := by
  have hcalls : ∀ l : List (Event P M R), (∀ e ∈ l, e.isMedian = true) →
      List.countP Event.isKernel l = 0 ∧ List.countP Event.isSubset l = 0 := by
    intro l hl
    constructor <;> rw [List.countP_eq_zero] <;> intro e he <;>
      have := hl e he <;> cases e <;> simp_all [Event.isMedian, Event.isKernel, Event.isSubset]
  unfold CvModelEstimator2.lmedsTrial
  simp only
  split_ifs
  · simp [kernelCalls, subsetCalls, List.countP_append, Event.isKernel, Event.isSubset]
  · obtain ⟨-, -, -, evs, htr, hev⟩ := lmedsModels_trace k m1 m2 (k.runKernel s.ms1 s.ms2).2
      (k.runKernel s.ms1 s.ms2).1.toNat 0
      { s with trace := s.trace ++ [.kernel s.ms1 s.ms2 (k.runKernel s.ms1 s.ms2).1] }
    rw [htr]
    simp [kernelCalls, subsetCalls, List.countP_append, Event.isKernel, Event.isSubset,
      (hcalls evs hev).1, (hcalls evs hev).2]

/-- When there are no more correspondences than model points, the loop of `runLMeDS` runs
`niters - iter` further trials, each with one call of `runKernel` and none of `getSubset`. -/
theorem lmedsLoop_whole_calls [Inhabited P] (k : Kernel P M) (rng : ℕ → ℕ) (m1 m2 : List P)
    (niters : ℤ) (hcount : ¬ (m1.length : ℤ) > k.modelPoints) (fuel : ℕ) (iter : ℤ)
    (s : CvModelEstimator2.LmedsState P M R) (hfuel : (niters - iter).toNat < fuel) :
    ∃ s', CvModelEstimator2.lmedsLoop rd k rng m1 m2 niters fuel iter s = .ok (s', false) ∧
      kernelCalls s'.trace = kernelCalls s.trace + (niters - iter).toNat ∧
      subsetCalls s'.trace = subsetCalls s.trace := by
  induction fuel generalizing iter s with
  | zero => omega
  | succ fuel ih =>
    by_cases hlt : iter < niters
    · rw [lmedsLoop_whole rd k rng m1 m2 niters fuel iter s hlt hcount]
      obtain ⟨s', h1, h2, h3⟩ := ih (iter + 1) (CvModelEstimator2.lmedsTrial rd k m1 m2 s)
        (by omega)
      have hc := @lmedsTrial_calls P M R _ rd k m1 m2 s
      refine ⟨s', h1, ?_, by rw [h3, hc.2]⟩
      rw [h2, hc.1]
      omega
    · rw [lmedsLoop_done rd k rng m1 m2 niters fuel iter s hlt]
      refine ⟨s, rfl, ?_, rfl⟩
      have : (niters - iter).toNat = 0 := by omega
      rw [this]
      rfl

end LmedsCalls

/-- C6 fails on the code: with four correspondences for the four model points of
`exampleKernel` and `maxIters = 3`, `runLMeDS` runs three trials, calling `runKernel` three
times on the same set (the assignment `niters = 1` of the branch `count == modelPoints` is
overwritten before the loop). -/
theorem runLMeDS_minimal_set_three_trials :
    ∃ res : RunResult ℕ ℕ ℝ,
      CvModelEstimator2.runLMeDS Rounding.ieee exampleKernel Real.log Real.sqrt 10 (fun n => n)
        [0, 1, 2, 3] [0, 1, 2, 3] 77 [9, 9, 9, 9] (1 / 2 : ℝ) 3 = .ok res ∧
      kernelCalls res.trace = 3 ∧ subsetCalls res.trace = 0 := by
  have hinit : (CvModelEstimator2.lmedsInit exampleKernel [0, 1, 2, 3] [0, 1, 2, 3] 77 :
      CvModelEstimator2.LmedsState ℕ ℕ ℝ) =
      ⟨Dbl.fin DBL_MAX, 77, [0, 1, 2, 3], [0, 1, 2, 3], 0, []⟩ :=
    rfl
  obtain ⟨s', h1, h2, h3⟩ := @lmedsLoop_whole_calls ℕ ℕ ℝ _ Rounding.ieee _ exampleKernel
    (fun n => n) [0, 1, 2, 3] [0, 1, 2, 3] 3 (by decide) 10 0
    (⟨Dbl.fin DBL_MAX, 77, [0, 1, 2, 3], [0, 1, 2, 3], 0, []⟩ :
      CvModelEstimator2.LmedsState ℕ ℕ ℝ)
    (by decide)
  unfold CvModelEstimator2.runLMeDS
  rw [if_neg (by decide), if_neg (by decide), lmedsNiters_of_le_three _ _ _ _ (by decide),
    hinit, h1]
  refine ⟨_, rfl, ?_, ?_⟩
  · have : (CvModelEstimator2.lmedsFinish Rounding.ieee exampleKernel Real.sqrt [0, 1, 2, 3]
        [0, 1, 2, 3] [9, 9, 9, 9] s' false).trace = s'.trace := by
      unfold CvModelEstimator2.lmedsFinish
      simp only [Bool.false_eq_true, if_false]
      split_ifs <;> rfl
    rw [this, h2]
    rfl
  · have : (CvModelEstimator2.lmedsFinish Rounding.ieee exampleKernel Real.sqrt [0, 1, 2, 3]
        [0, 1, 2, 3] [9, 9, 9, 9] s' false).trace = s'.trace := by
      unfold CvModelEstimator2.lmedsFinish
      simp only [Bool.false_eq_true, if_false]
      split_ifs <;> rfl
    rw [this, h3]
    rfl

/-! ## Claims on the calls of `checkSubset` made by `getSubset` -/

section PrefixLemmas

variable {P M : Type} [Inhabited P]

theorem take_set_of_le {α : Type} (l : List α) (i c : ℕ) (x : α) (h : c ≤ i) :
    (l.set i x).take c = l.take c := by
  apply List.ext_getElem?
  intro n
  rw [List.getElem?_take, List.getElem?_take]
  split_ifs with hn
  · rw [List.getElem?_set]
    rw [if_neg (by omega)]
  · rfl

omit [Inhabited P] in
theorem checkBoth_true (k : Kernel P M) (ms1 ms2 : List P) (c : ℤ)
    (h : (CvModelEstimator2.checkBoth k ms1 ms2 c).1 = true) :
    k.checkSubset ms1 c = true ∧ k.checkSubset ms2 c = true := by
  unfold CvModelEstimator2.checkBoth at h
  cases h1 : k.checkSubset ms1 c
  · rw [h1] at h
    simp at h
  · rw [h1] at h
    simp at h
    exact ⟨rfl, h⟩

theorem getSubsetStep_prefixInv (k : Kernel P M) (rng : ℕ → ℕ) (m1 m2 : List P)
    (s : CvModelEstimator2.SubsetState P) (hmode : k.checkPartialSubsets = true)
    (hloc : ∀ (ms ms' : List P) (c : ℤ), ms.take c.toNat = ms'.take c.toNat →
      k.checkSubset ms c = k.checkSubset ms' c)
    (hinv : CvModelEstimator2.PrefixInv k s) :
    CvModelEstimator2.PrefixInv k (CvModelEstimator2.getSubsetStep k rng m1 m2 s) := by
  have hkeep : ∀ (x y : P) (c : ℕ), 1 ≤ c → c ≤ s.i →
      k.checkSubset (s.ms1.set s.i x) c = true ∧ k.checkSubset (s.ms2.set s.i y) c = true := by
    intro x y c h1 h2
    have h := hinv c h1 h2
    rw [hloc (s.ms1.set s.i x) s.ms1 c (by simpa using take_set_of_le _ _ _ _ h2),
      hloc (s.ms2.set s.i y) s.ms2 c (by simpa using take_set_of_le _ _ _ _ h2)]
    exact h
  unfold CvModelEstimator2.getSubsetStep
  simp only [hmode, if_true]
  split_ifs with hdup hchk
  · exact hinv
  · intro c h1 h2
    exact hkeep _ _ c h1 h2
  · intro c h1 h2
    simp only at h2 ⊢
    rcases Nat.lt_succ_iff_lt_or_eq.mp (Nat.lt_succ_of_le h2) with hlt | heq
    · exact hkeep _ _ c h1 (Nat.lt_succ_iff.mp hlt)
    · subst heq
      have hc : (CvModelEstimator2.checkBoth k
          (s.ms1.set s.i (m1.getD (rng s.pos % 4294967296 % m1.length) default))
          (s.ms2.set s.i (m2.getD (rng s.pos % 4294967296 % m1.length) default))
          (s.i + 1)).1 = true := by
        simpa using hchk
      have := checkBoth_true k _ _ _ hc
      push_cast
      exact this

theorem getSubsetInner_prefixInv (k : Kernel P M) (rng : ℕ → ℕ) (m1 m2 : List P)
    (maxAttempts : ℤ) (hmode : k.checkPartialSubsets = true)
    (hloc : ∀ (ms ms' : List P) (c : ℤ), ms.take c.toNat = ms'.take c.toNat →
      k.checkSubset ms c = k.checkSubset ms' c)
    (fuel : ℕ) (s s' : CvModelEstimator2.SubsetState P)
    (hinv : CvModelEstimator2.PrefixInv k s)
    (hrun : CvModelEstimator2.getSubsetInner k rng m1 m2 maxAttempts fuel s = some s') :
    CvModelEstimator2.PrefixInv k s' := by
  induction fuel generalizing s with
  | zero => simp [CvModelEstimator2.getSubsetInner] at hrun
  | succ fuel ih =>
    unfold CvModelEstimator2.getSubsetInner at hrun
    split_ifs at hrun with hcond
    · exact ih _ (getSubsetStep_prefixInv k rng m1 m2 s hmode hloc hinv) hrun
    · cases hrun
      exact hinv

/-- With `checkPartialSubsets` on, the outer loop of `getSubset` runs the inner loop once. -/
theorem getSubsetOuter_partialMode (k : Kernel P M) (rng : ℕ → ℕ) (m1 m2 : List P)
    (maxAttempts : ℤ) (hmode : k.checkPartialSubsets = true) (fuel : ℕ)
    (s : CvModelEstimator2.SubsetState P) :
    CvModelEstimator2.getSubsetOuter k rng m1 m2 maxAttempts (fuel + 1) s =
      CvModelEstimator2.getSubsetInner k rng m1 m2 maxAttempts fuel { s with i := 0 } := by
  conv_lhs => unfold CvModelEstimator2.getSubsetOuter
  cases h : CvModelEstimator2.getSubsetInner k rng m1 m2 maxAttempts fuel { s with i := 0 } with
  | none => rfl
  | some s1 => simp [hmode]

end PrefixLemmas

section DefaultTestLemmas

variable {R : Type} [LinearOrderedField R]

theorem getD_eq_of_take_eq {α : Type} (l l' : List α) (c n : ℕ) (d : α)
    (h : l.take c = l'.take c) (hn : n < c) : l.getD n d = l'.getD n d := by
  have h1 : (l.take c).getD n d = l.getD n d := by
    simp [List.getD_eq_getElem?_getD, List.getElem?_take, hn]
  have h2 : (l'.take c).getD n d = l'.getD n d := by
    simp [List.getD_eq_getElem?_getD, List.getElem?_take, hn]
  rw [← h1, ← h2, h]

/-- The default degeneracy test reads only the first `count` points of the matrix. -/
theorem checkSubset_take (rd : Rounding R) (m m' : List (CvPoint2D64f R)) (count : ℤ)
    (h : m.take count.toNat = m'.take count.toNat) :
    CvModelEstimator2.checkSubset rd m count = CvModelEstimator2.checkSubset rd m' count := by
  unfold CvModelEstimator2.checkSubset
  simp only
  by_cases hc : count ≤ 0
  · have h0 : (count - 1).toNat = 0 := by omega
    rw [h0]
    rfl
  · have hi : (count - 1).toNat < count.toNat := by omega
    have hget : ∀ n, n ≤ (count - 1).toNat → m.getD n ⟨0, 0⟩ = m'.getD n ⟨0, 0⟩ :=
      fun n hn => getD_eq_of_take_eq m m' count.toNat n _ h (by omega)
    have houter : ∀ (f f' : ℕ → Bool) (n : ℕ), (∀ t, t < n → f t = f' t) →
        decide ((forBreak f n : ℤ) = count - 1) = decide ((forBreak f' n : ℤ) = count - 1) := by
      intro f f' n hf
      rw [forBreak_congr f f' n hf]
    apply houter
    intro j hj
    have hinner : ∀ (f f' : ℕ → Bool), (∀ t, t < j → f t = f' t) →
        decide (forBreak f j < j) = decide (forBreak f' j < j) := by
      intro f f' hf
      rw [forBreak_congr f f' j hf]
    apply hinner
    intro t ht
    have e1 := hget t (by omega)
    have e2 := hget j hj.le
    have e3 := hget (count - 1).toNat le_rfl
    simp only [e1, e2, e3]

end DefaultTestLemmas

section SubsetCongr

variable {P M : Type} [Inhabited P]

/-- Two estimators that differ only in their degeneracy tests, which agree on the matrices
whose points satisfy `S`, sample alike when the correspondences satisfy `S`: one step. -/
theorem getSubsetStep_congr (k k' : Kernel P M) (S : P → Prop)
    (hmode : k.checkPartialSubsets = k'.checkPartialSubsets)
    (hS : ∀ ms c, (∀ p ∈ ms, S p) → k.checkSubset ms c = k'.checkSubset ms c)
    (rng : ℕ → ℕ) (m1 m2 : List P) (hm1 : ∀ p ∈ m1, S p) (hm2 : ∀ p ∈ m2, S p)
    (hdef : S default) (s : CvModelEstimator2.SubsetState P)
    (hs1 : ∀ p ∈ s.ms1, S p) (hs2 : ∀ p ∈ s.ms2, S p) :
    CvModelEstimator2.getSubsetStep k rng m1 m2 s =
      CvModelEstimator2.getSubsetStep k' rng m1 m2 s ∧
    (∀ p ∈ (CvModelEstimator2.getSubsetStep k' rng m1 m2 s).ms1, S p) ∧
    (∀ p ∈ (CvModelEstimator2.getSubsetStep k' rng m1 m2 s).ms2, S p) := by
  have hget : ∀ (m : List P) (n : ℕ), (∀ p ∈ m, S p) → S (m.getD n default) := by
    intro m n hm
    by_cases hn : n < m.length
    · rw [List.getD_eq_getElem _ _ hn]
      exact hm _ (List.getElem_mem hn)
    · rw [List.getD_eq_default _ _ (not_lt.mp hn)]
      exact hdef
  have hset : ∀ (ms : List P) (i : ℕ) (x : P), (∀ p ∈ ms, S p) → S x →
      ∀ p ∈ ms.set i x, S p := by
    intro ms i x hms hx p hp
    rcases List.mem_or_eq_of_mem_set hp with h | h
    · exact hms p h
    · rw [h]
      exact hx
  have g1 := hset s.ms1 s.i _ hs1
    (hget m1 (rng s.pos % 4294967296 % m1.length) hm1)
  have g2 := hset s.ms2 s.i _ hs2
    (hget m2 (rng s.pos % 4294967296 % m1.length) hm2)
  have hcb : CvModelEstimator2.checkBoth k
      (s.ms1.set s.i (m1.getD (rng s.pos % 4294967296 % m1.length) default))
      (s.ms2.set s.i (m2.getD (rng s.pos % 4294967296 % m1.length) default)) (s.i + 1) =
      CvModelEstimator2.checkBoth k'
      (s.ms1.set s.i (m1.getD (rng s.pos % 4294967296 % m1.length) default))
      (s.ms2.set s.i (m2.getD (rng s.pos % 4294967296 % m1.length) default)) (s.i + 1) := by
    unfold CvModelEstimator2.checkBoth
    rw [hS _ _ g1, hS _ _ g2]
  refine ⟨?_, ?_, ?_⟩
  · unfold CvModelEstimator2.getSubsetStep
    simp only
    rw [hmode, hcb]
  · unfold CvModelEstimator2.getSubsetStep
    simp only
    split_ifs <;> first | exact hs1 | exact g1
  · unfold CvModelEstimator2.getSubsetStep
    simp only
    split_ifs <;> first | exact hs2 | exact g2

theorem getSubsetInner_congr (k k' : Kernel P M) (S : P → Prop)
    (hmp : k.modelPoints = k'.modelPoints)
    (hmode : k.checkPartialSubsets = k'.checkPartialSubsets)
    (hS : ∀ ms c, (∀ p ∈ ms, S p) → k.checkSubset ms c = k'.checkSubset ms c)
    (rng : ℕ → ℕ) (m1 m2 : List P) (hm1 : ∀ p ∈ m1, S p) (hm2 : ∀ p ∈ m2, S p)
    (hdef : S default) (maxAttempts : ℤ) (fuel : ℕ) (s : CvModelEstimator2.SubsetState P)
    (hs1 : ∀ p ∈ s.ms1, S p) (hs2 : ∀ p ∈ s.ms2, S p) :
    CvModelEstimator2.getSubsetInner k rng m1 m2 maxAttempts fuel s =
      CvModelEstimator2.getSubsetInner k' rng m1 m2 maxAttempts fuel s ∧
    ∀ s1, CvModelEstimator2.getSubsetInner k' rng m1 m2 maxAttempts fuel s = some s1 →
      (∀ p ∈ s1.ms1, S p) ∧ (∀ p ∈ s1.ms2, S p) := by
  induction fuel generalizing s with
  | zero =>
    unfold CvModelEstimator2.getSubsetInner
    exact ⟨rfl, fun s1 h => by cases h⟩
  | succ fuel ih =>
    obtain ⟨e, g1, g2⟩ := getSubsetStep_congr k k' S hmode hS rng m1 m2 hm1 hm2 hdef s hs1 hs2
    have h := ih (CvModelEstimator2.getSubsetStep k' rng m1 m2 s) g1 g2
    unfold CvModelEstimator2.getSubsetInner
    rw [hmp, e]
    split_ifs with hc
    · exact h
    · exact ⟨rfl, fun s1 h1 => by cases h1; exact ⟨hs1, hs2⟩⟩

theorem getSubsetOuter_congr (k k' : Kernel P M) (S : P → Prop)
    (hmp : k.modelPoints = k'.modelPoints)
    (hmode : k.checkPartialSubsets = k'.checkPartialSubsets)
    (hS : ∀ ms c, (∀ p ∈ ms, S p) → k.checkSubset ms c = k'.checkSubset ms c)
    (rng : ℕ → ℕ) (m1 m2 : List P) (hm1 : ∀ p ∈ m1, S p) (hm2 : ∀ p ∈ m2, S p)
    (hdef : S default) (maxAttempts : ℤ) (fuel : ℕ) (s : CvModelEstimator2.SubsetState P)
    (hs1 : ∀ p ∈ s.ms1, S p) (hs2 : ∀ p ∈ s.ms2, S p) :
    CvModelEstimator2.getSubsetOuter k rng m1 m2 maxAttempts fuel s =
      CvModelEstimator2.getSubsetOuter k' rng m1 m2 maxAttempts fuel s := by
  induction fuel generalizing s with
  | zero =>
    unfold CvModelEstimator2.getSubsetOuter
    rfl
  | succ fuel ih =>
    obtain ⟨e, g⟩ := getSubsetInner_congr k k' S hmp hmode hS rng m1 m2 hm1 hm2 hdef
      maxAttempts fuel { s with i := 0 } hs1 hs2
    unfold CvModelEstimator2.getSubsetOuter
    rw [e]
    cases hin : CvModelEstimator2.getSubsetInner k' rng m1 m2 maxAttempts fuel
        { s with i := 0 } with
    | none => rfl
    | some s1 =>
      obtain ⟨g1, g2⟩ := g s1 hin
      have hcb : CvModelEstimator2.checkBoth k s1.ms1 s1.ms2 (s1.i + 1) =
          CvModelEstimator2.checkBoth k' s1.ms1 s1.ms2 (s1.i + 1) := by
        unfold CvModelEstimator2.checkBoth
        rw [hS _ _ g1, hS _ _ g2]
      simp only
      rw [hmode, hmp, hcb]
      split_ifs
      · exact ih _ g1 g2
      · rfl
      · rfl

theorem getSubset_congr (k k' : Kernel P M) (S : P → Prop)
    (hmp : k.modelPoints = k'.modelPoints)
    (hmode : k.checkPartialSubsets = k'.checkPartialSubsets)
    (hS : ∀ ms c, (∀ p ∈ ms, S p) → k.checkSubset ms c = k'.checkSubset ms c)
    (fuel : ℕ) (rng : ℕ → ℕ) (pos : ℕ) (m1 m2 ms1 ms2 : List P) (hm1 : ∀ p ∈ m1, S p)
    (hm2 : ∀ p ∈ m2, S p) (hdef : S default) (hs1 : ∀ p ∈ ms1, S p) (hs2 : ∀ p ∈ ms2, S p)
    (maxAttempts : ℤ) :
    CvModelEstimator2.getSubset k fuel rng pos m1 m2 ms1 ms2 maxAttempts =
      CvModelEstimator2.getSubset k' fuel rng pos m1 m2 ms1 ms2 maxAttempts := by
  unfold CvModelEstimator2.getSubset
  rw [getSubsetOuter_congr k k' S hmp hmode hS rng m1 m2 hm1 hm2 hdef maxAttempts fuel _
    hs1 hs2, hmp]

end SubsetCongr

/-- C16: let the degeneracy test of the estimator read only the `count` points it is asked
about.  With `checkPartialSubsets` on, whenever `getSubset` returns true, every prefix of the
sample passes the test on both sides: `checkSubset( ms1, c )` and `checkSubset( ms2, c )` hold
on the final contents of `ms1` and `ms2` for every `c` from `1` to `modelPoints`. -/
theorem getSubset_prefixes_valid {P M : Type} [Inhabited P] (k : Kernel P M) (fuel : ℕ)
    (rng : ℕ → ℕ) (pos : ℕ) (m1 m2 ms1 ms2 : List P) (maxAttempts : ℤ)
    (s : CvModelEstimator2.SubsetState P) (hmode : k.checkPartialSubsets = true)
    (hloc : ∀ (ms ms' : List P) (c : ℤ), ms.take c.toNat = ms'.take c.toNat →
      k.checkSubset ms c = k.checkSubset ms' c)
    (hrun : CvModelEstimator2.getSubset k fuel rng pos m1 m2 ms1 ms2 maxAttempts =
      some (true, s)) :
    ∀ c : ℕ, 1 ≤ c → (c : ℤ) ≤ k.modelPoints →
      k.checkSubset s.ms1 c = true ∧ k.checkSubset s.ms2 c = true := by
  unfold CvModelEstimator2.getSubset at hrun
  split at hrun
  · cases hrun
  · rename_i s1 houter
    simp only [Option.some.injEq, Prod.mk.injEq, decide_eq_true_eq] at hrun
    obtain ⟨hi, rfl⟩ := hrun
    cases fuel with
    | zero => simp [CvModelEstimator2.getSubsetOuter] at houter
    | succ fuel =>
      rw [getSubsetOuter_partialMode k rng m1 m2 maxAttempts hmode] at houter
      have hinv := getSubsetInner_prefixInv k rng m1 m2 maxAttempts hmode hloc fuel _ s1
        (fun c h1 h2 => absurd h2 (by simp only; omega)) houter
      intro c h1 h2
      exact hinv c h1 (by omega)

/-- On points with integer coordinates of magnitude at most `2^24` the default degeneracy test
in IEEE 754 arithmetic is the test in arithmetic without rounding. -/
theorem checkSubset_ieee_of_int (ms : List (CvPoint2D64f ℚ)) (c : ℤ)
    (h : ∀ p ∈ ms, ∃ nx ny : ℤ, |nx| ≤ 2 ^ 24 ∧ |ny| ≤ 2 ^ 24 ∧ p.x = nx ∧ p.y = ny) :
    CvModelEstimator2.checkSubset Rounding.ieee ms c =
      CvModelEstimator2.checkSubset Rounding.exact ms c := by
  apply checkSubset_ieee_grid ms c 0 (by norm_num) (by norm_num)
  intro i _
  by_cases hi : i < ms.length
  · rw [List.getD_eq_getElem _ _ hi]
    obtain ⟨nx, ny, h1, h2, h3, h4⟩ := h _ (List.getElem_mem hi)
    exact ⟨nx, ny, h1, h2, by rw [h3]; simp, by rw [h4]; simp⟩
  · rw [List.getD_eq_default _ _ (not_lt.mp hi)]
    exact ⟨0, 0, by norm_num, by norm_num, by simp, by simp⟩

/-- A call of `getSubset` with the default degeneracy test: five correspondences in the
plane, three model points and the generator yielding `0, 1, 2, 3`.  The third draw, the point
`(2,0)` on the line through `(0,0)` and `(1,0)`, is rejected and the fourth, `(0,1)`, is
accepted. -/
theorem exampleSubset_planar :
    CvModelEstimator2.getSubset planarKernel 6 (fun n => n) 0
        [⟨0, 0⟩, ⟨1, 0⟩, ⟨2, 0⟩, ⟨0, 1⟩, ⟨1, 1⟩] [⟨0, 0⟩, ⟨1, 0⟩, ⟨0, 1⟩, ⟨5, 1⟩, ⟨1, 1⟩]
        [⟨0, 0⟩, ⟨0, 0⟩, ⟨0, 0⟩] [⟨0, 0⟩, ⟨0, 0⟩, ⟨0, 0⟩] 300 =
      some (true, ⟨3, 1, [0, 1, 3], [⟨0, 0⟩, ⟨1, 0⟩, ⟨0, 1⟩], [⟨0, 0⟩, ⟨1, 0⟩, ⟨5, 1⟩], 4,
        [1, 1, 2, 2, 3, 3, 3]⟩) := by
  have hexact : CvModelEstimator2.getSubset
      ({ planarKernel with checkSubset := CvModelEstimator2.checkSubset Rounding.exact } :
        Kernel (CvPoint2D64f ℚ) ℕ) 6 (fun n => n) 0
        [⟨0, 0⟩, ⟨1, 0⟩, ⟨2, 0⟩, ⟨0, 1⟩, ⟨1, 1⟩] [⟨0, 0⟩, ⟨1, 0⟩, ⟨0, 1⟩, ⟨5, 1⟩, ⟨1, 1⟩]
        [⟨0, 0⟩, ⟨0, 0⟩, ⟨0, 0⟩] [⟨0, 0⟩, ⟨0, 0⟩, ⟨0, 0⟩] 300 =
      some (true, ⟨3, 1, [0, 1, 3], [⟨0, 0⟩, ⟨1, 0⟩, ⟨0, 1⟩], [⟨0, 0⟩, ⟨1, 0⟩, ⟨5, 1⟩], 4,
        [1, 1, 2, 2, 3, 3, 3]⟩) := by
    with_unfolding_all rfl
  have hS : ∀ (ms : List (CvPoint2D64f ℚ)) (c : ℤ),
      (∀ p ∈ ms, ∃ nx ny : ℤ, |nx| ≤ 2 ^ 24 ∧ |ny| ≤ 2 ^ 24 ∧ p.x = nx ∧ p.y = ny) →
      planarKernel.checkSubset ms c =
        ({ planarKernel with checkSubset := CvModelEstimator2.checkSubset Rounding.exact } :
          Kernel (CvPoint2D64f ℚ) ℕ).checkSubset ms c :=
    fun ms c h => checkSubset_ieee_of_int ms c h
  have h1 : ∀ p ∈ ([⟨0, 0⟩, ⟨1, 0⟩, ⟨2, 0⟩, ⟨0, 1⟩, ⟨1, 1⟩] : List (CvPoint2D64f ℚ)),
      ∃ nx ny : ℤ, |nx| ≤ 2 ^ 24 ∧ |ny| ≤ 2 ^ 24 ∧ p.x = nx ∧ p.y = ny := by
    intro p hp
    simp only [List.mem_cons, List.mem_singleton, List.not_mem_nil, or_false] at hp
    rcases hp with h | h | h | h | h <;> rw [h]
    · exact ⟨0, 0, by norm_num, by norm_num, by simp, by simp⟩
    · exact ⟨1, 0, by norm_num, by norm_num, by simp, by simp⟩
    · exact ⟨2, 0, by norm_num, by norm_num, by simp, by simp⟩
    · exact ⟨0, 1, by norm_num, by norm_num, by simp, by simp⟩
    · exact ⟨1, 1, by norm_num, by norm_num, by simp, by simp⟩
  have h2 : ∀ p ∈ ([⟨0, 0⟩, ⟨1, 0⟩, ⟨0, 1⟩, ⟨5, 1⟩, ⟨1, 1⟩] : List (CvPoint2D64f ℚ)),
      ∃ nx ny : ℤ, |nx| ≤ 2 ^ 24 ∧ |ny| ≤ 2 ^ 24 ∧ p.x = nx ∧ p.y = ny := by
    intro p hp
    simp only [List.mem_cons, List.mem_singleton, List.not_mem_nil, or_false] at hp
    rcases hp with h | h | h | h | h <;> rw [h]
    · exact ⟨0, 0, by norm_num, by norm_num, by simp, by simp⟩
    · exact ⟨1, 0, by norm_num, by norm_num, by simp, by simp⟩
    · exact ⟨0, 1, by norm_num, by norm_num, by simp, by simp⟩
    · exact ⟨5, 1, by norm_num, by norm_num, by simp, by simp⟩
    · exact ⟨1, 1, by norm_num, by norm_num, by simp, by simp⟩
  have h3 : ∀ p ∈ ([⟨0, 0⟩, ⟨0, 0⟩, ⟨0, 0⟩] : List (CvPoint2D64f ℚ)),
      ∃ nx ny : ℤ, |nx| ≤ 2 ^ 24 ∧ |ny| ≤ 2 ^ 24 ∧ p.x = nx ∧ p.y = ny := by
    intro p hp
    simp only [List.mem_cons, List.mem_singleton, List.not_mem_nil, or_false] at hp
    rcases hp with h | h | h <;> rw [h] <;>
      exact ⟨0, 0, by norm_num, by norm_num, by simp, by simp⟩
  have hc := getSubset_congr planarKernel
    ({ planarKernel with checkSubset := CvModelEstimator2.checkSubset Rounding.exact } :
      Kernel (CvPoint2D64f ℚ) ℕ)
    (fun p => ∃ nx ny : ℤ, |nx| ≤ 2 ^ 24 ∧ |ny| ≤ 2 ^ 24 ∧ p.x = nx ∧ p.y = ny) rfl rfl hS
    6 (fun n => n) 0 _ _ _ _ h1 h2 ⟨0, 0, by norm_num, by norm_num, rfl, rfl⟩ h3 h3 300
  exact hc.trans hexact

/-- Witness for C16: the call `exampleSubset_planar`; the prefixes of the samples
`(0,0), (1,0), (0,1)` and `(0,0), (1,0), (5,1)` pass the default test. -/
theorem getSubset_prefixes_valid_witness :
    (planarKernel.checkSubset [⟨0, 0⟩, ⟨1, 0⟩, ⟨0, 1⟩] ((1 : ℕ) : ℤ) = true ∧
      planarKernel.checkSubset [⟨0, 0⟩, ⟨1, 0⟩, ⟨5, 1⟩] ((1 : ℕ) : ℤ) = true) ∧
    (planarKernel.checkSubset [⟨0, 0⟩, ⟨1, 0⟩, ⟨0, 1⟩] ((2 : ℕ) : ℤ) = true ∧
      planarKernel.checkSubset [⟨0, 0⟩, ⟨1, 0⟩, ⟨5, 1⟩] ((2 : ℕ) : ℤ) = true) ∧
    (planarKernel.checkSubset [⟨0, 0⟩, ⟨1, 0⟩, ⟨0, 1⟩] ((3 : ℕ) : ℤ) = true ∧
      planarKernel.checkSubset [⟨0, 0⟩, ⟨1, 0⟩, ⟨5, 1⟩] ((3 : ℕ) : ℤ) = true) :=
  have h := getSubset_prefixes_valid planarKernel 6 (fun n => n) 0
    [⟨0, 0⟩, ⟨1, 0⟩, ⟨2, 0⟩, ⟨0, 1⟩, ⟨1, 1⟩] [⟨0, 0⟩, ⟨1, 0⟩, ⟨0, 1⟩, ⟨5, 1⟩, ⟨1, 1⟩]
    [⟨0, 0⟩, ⟨0, 0⟩, ⟨0, 0⟩] [⟨0, 0⟩, ⟨0, 0⟩, ⟨0, 0⟩] 300
    ⟨3, 1, [0, 1, 3], [⟨0, 0⟩, ⟨1, 0⟩, ⟨0, 1⟩], [⟨0, 0⟩, ⟨1, 0⟩, ⟨5, 1⟩], 4,
      [1, 1, 2, 2, 3, 3, 3]⟩ rfl
    (fun ms ms' c h => checkSubset_take Rounding.ieee ms ms' c h) exampleSubset_planar
  ⟨h 1 (by decide) (by decide), h 2 (by decide) (by decide), h 3 (by decide) (by decide)⟩

section WholeSampleLemmas

variable {P M : Type} [Inhabited P]

omit [Inhabited P] in
theorem checkBoth_log (k : Kernel P M) (ms1 ms2 : List P) (count : ℤ) :
    ∀ c ∈ (CvModelEstimator2.checkBoth k ms1 ms2 count).2, c = count := by
  unfold CvModelEstimator2.checkBoth
  split_ifs <;> simp

theorem getSubsetStep_checks_whole (k : Kernel P M) (rng : ℕ → ℕ) (m1 m2 : List P)
    (s : CvModelEstimator2.SubsetState P) (hwhole : k.checkPartialSubsets = false) :
    (CvModelEstimator2.getSubsetStep k rng m1 m2 s).checks = s.checks := by
  unfold CvModelEstimator2.getSubsetStep
  simp only [hwhole]
  split_ifs <;> simp_all

theorem getSubsetInner_checks_whole (k : Kernel P M) (rng : ℕ → ℕ) (m1 m2 : List P)
    (maxAttempts : ℤ) (hwhole : k.checkPartialSubsets = false) (fuel : ℕ)
    (s s' : CvModelEstimator2.SubsetState P)
    (hrun : CvModelEstimator2.getSubsetInner k rng m1 m2 maxAttempts fuel s = some s') :
    s'.checks = s.checks := by
  induction fuel generalizing s with
  | zero => simp [CvModelEstimator2.getSubsetInner] at hrun
  | succ fuel ih =>
    unfold CvModelEstimator2.getSubsetInner at hrun
    split_ifs at hrun with hcond
    · rw [ih _ hrun, getSubsetStep_checks_whole k rng m1 m2 s hwhole]
    · cases hrun
      rfl

/-- With `checkPartialSubsets` off, every call of `checkSubset` made by `getSubset` passes the
count `modelPoints + 1`. -/
theorem getSubsetOuter_checks_whole (k : Kernel P M) (rng : ℕ → ℕ) (m1 m2 : List P)
    (maxAttempts : ℤ) (hwhole : k.checkPartialSubsets = false) (fuel : ℕ)
    (s s' : CvModelEstimator2.SubsetState P)
    (hinv : ∀ c ∈ s.checks, c = k.modelPoints + 1)
    (hrun : CvModelEstimator2.getSubsetOuter k rng m1 m2 maxAttempts fuel s = some s') :
    ∀ c ∈ s'.checks, c = k.modelPoints + 1 := by
  induction fuel generalizing s with
  | zero => simp [CvModelEstimator2.getSubsetOuter] at hrun
  | succ fuel ih =>
    unfold CvModelEstimator2.getSubsetOuter at hrun
    split at hrun
    · cases hrun
    · rename_i s1 hinner
      have hch : s1.checks = s.checks := by
        have h := getSubsetInner_checks_whole k rng m1 m2 maxAttempts hwhole fuel _ s1 hinner
        exact h
      simp only [hwhole, Bool.not_false, Bool.true_and, decide_eq_true_eq] at hrun
      by_cases hi : (s1.i : ℤ) = k.modelPoints
      · rw [if_pos hi] at hrun
        have hnew : ∀ c ∈ s1.checks ++ (CvModelEstimator2.checkBoth k s1.ms1 s1.ms2
            (s1.i + 1)).2, c = k.modelPoints + 1 := by
          intro c hc
          rcases List.mem_append.mp hc with h | h
          · exact hinv c (hch ▸ h)
          · rw [checkBoth_log k _ _ _ c h, hi]
        split_ifs at hrun
        · exact ih _ hnew hrun
        · cases hrun
          exact hnew
      · rw [if_neg hi] at hrun
        cases hrun
        intro c hc
        exact hinv c (hch ▸ hc)

end WholeSampleLemmas

/-- C17 fails on the code: with `checkPartialSubsets` off, four model points, five
correspondences and the generator yielding `0, 1, 2, 3`, the completed sample is validated by
`checkSubset( ms1, 5 )` and `checkSubset( ms2, 5 )`: the count passed is `modelPoints + 1`. -/
theorem getSubset_whole_sample_count :
    CvModelEstimator2.getSubset exampleKernelWhole 10 (fun n => n) 0 [0, 1, 2, 3, 4]
        [0, 1, 2, 3, 4] [0, 0, 0, 0] [0, 0, 0, 0] 300 =
      some (true, ⟨4, 1, [0, 1, 2, 3], [0, 1, 2, 3], [0, 1, 2, 3], 4, [5, 5]⟩) ∧
    exampleKernelWhole.modelPoints = 4 ∧ exampleKernelWhole.checkPartialSubsets = false :=
  ⟨rfl, rfl, rfl⟩

/-! ## Claim on the number of random draws of `getSubset` -/

section DrawLemmas

variable {P M : Type} [Inhabited P]

/-- One round of the inner loop makes one draw and either counts a failed attempt or accepts
the slot and sets the attempt counter to `1`. -/
theorem getSubsetStep_shape (k : Kernel P M) (rng : ℕ → ℕ) (m1 m2 : List P)
    (s : CvModelEstimator2.SubsetState P) :
    ((CvModelEstimator2.getSubsetStep k rng m1 m2 s).i = s.i ∧
      (CvModelEstimator2.getSubsetStep k rng m1 m2 s).iters = s.iters + 1 ∧
      (CvModelEstimator2.getSubsetStep k rng m1 m2 s).pos = s.pos + 1) ∨
    ((CvModelEstimator2.getSubsetStep k rng m1 m2 s).i = s.i + 1 ∧
      (CvModelEstimator2.getSubsetStep k rng m1 m2 s).iters = 1 ∧
      (CvModelEstimator2.getSubsetStep k rng m1 m2 s).pos = s.pos + 1) := by
  unfold CvModelEstimator2.getSubsetStep
  simp only
  split_ifs <;> first | exact Or.inl ⟨rfl, rfl, rfl⟩ | exact Or.inr ⟨rfl, rfl, rfl⟩

theorem getSubsetStep_draws (k : Kernel P M) (rng : ℕ → ℕ) (m1 m2 : List P)
    (maxAttempts : ℤ) (pos0 : ℕ) (s : CvModelEstimator2.SubsetState P)
    (hcond : (s.i : ℤ) < k.modelPoints ∧ s.iters < maxAttempts)
    (hinv : CvModelEstimator2.DrawInv k maxAttempts pos0 s) :
    CvModelEstimator2.DrawInv k maxAttempts pos0
        (CvModelEstimator2.getSubsetStep k rng m1 m2 s) ∧
      (k.modelPoints - (CvModelEstimator2.getSubsetStep k rng m1 m2 s).i) * maxAttempts +
          (maxAttempts - (CvModelEstimator2.getSubsetStep k rng m1 m2 s).iters) <
        (k.modelPoints - s.i) * maxAttempts + (maxAttempts - s.iters) := by
  obtain ⟨h0, hle, hi, -, hpos⟩ := hinv
  obtain ⟨hc1, hc2⟩ := hcond
  unfold CvModelEstimator2.DrawInv
  rcases getSubsetStep_shape k rng m1 m2 s with ⟨e1, e2, e3⟩ | ⟨e1, e2, e3⟩
  · rw [e1, e2, e3]
    refine ⟨⟨by omega, by omega, hi, fun h => absurd h (by omega), ?_⟩, by linarith⟩
    push_cast
    linarith
  · rw [e1, e2, e3]
    refine ⟨⟨by omega, by omega, by push_cast; omega, fun _ => le_rfl, ?_⟩, ?_⟩
    · push_cast
      have : ((s.i : ℤ) + 1) * (maxAttempts - 1) = s.i * (maxAttempts - 1) + (maxAttempts - 1) := by
        ring
      rw [this]
      linarith
    · push_cast
      have : (k.modelPoints - ((s.i : ℤ) + 1)) * maxAttempts =
          (k.modelPoints - s.i) * maxAttempts - maxAttempts := by ring
      rw [this]
      linarith

/-- The inner loop ends when it is given more fuel than
`(modelPoints - i) * maxAttempts + (maxAttempts - iters)`. -/
theorem getSubsetInner_terminates (k : Kernel P M) (rng : ℕ → ℕ) (m1 m2 : List P)
    (maxAttempts : ℤ) (pos0 : ℕ) (fuel : ℕ) (s : CvModelEstimator2.SubsetState P)
    (hinv : CvModelEstimator2.DrawInv k maxAttempts pos0 s)
    (hfuel : (k.modelPoints - s.i) * maxAttempts + (maxAttempts - s.iters) < fuel) :
    ∃ s', CvModelEstimator2.getSubsetInner k rng m1 m2 maxAttempts fuel s = some s' ∧
      CvModelEstimator2.DrawInv k maxAttempts pos0 s' ∧
      ¬((s'.i : ℤ) < k.modelPoints ∧ s'.iters < maxAttempts) := by
  induction fuel generalizing s with
  | zero =>
    exfalso
    obtain ⟨h0, hle, hi, -, -⟩ := hinv
    have h1 : 0 ≤ (k.modelPoints - s.i) * maxAttempts :=
      mul_nonneg (by omega) (by omega)
    simp only [Nat.cast_zero] at hfuel
    omega
  | succ fuel ih =>
    unfold CvModelEstimator2.getSubsetInner
    by_cases hcond : (s.i : ℤ) < k.modelPoints ∧ s.iters < maxAttempts
    · rw [if_pos hcond]
      have hstep := getSubsetStep_draws k rng m1 m2 maxAttempts pos0 s hcond hinv
      apply ih _ hstep.1
      push_cast at hfuel
      linarith [hstep.2]
    · rw [if_neg hcond]
      exact ⟨s, rfl, hinv, hcond⟩

end DrawLemmas

/-- A call of `getSubset` with `maxAttempts = 300`: four slots, each accepted index being drawn
200 times in a row by the generator.  The call makes 601 draws. -/
theorem exampleSubset_repeats :
    CvModelEstimator2.getSubset exampleKernel 700 (fun n => n / 200) 0 [0, 1, 2, 3, 4]
        [0, 1, 2, 3, 4] [0, 0, 0, 0] [0, 0, 0, 0] 300 =
      some (true, ⟨4, 1, [0, 1, 2, 3], [0, 1, 2, 3], [0, 1, 2, 3], 601,
        [1, 1, 2, 2, 3, 3, 4, 4]⟩) := by
  set_option maxRecDepth 100000 in
  rfl

/-- C18, as stated, fails: the call `exampleSubset_repeats` with `maxAttempts = 300` makes
601 draws and returns true. -/
theorem getSubset_draws_exceed_maxAttempts :
    CvModelEstimator2.getSubset exampleKernel 700 (fun n => n / 200) 0 [0, 1, 2, 3, 4]
        [0, 1, 2, 3, 4] [0, 0, 0, 0] [0, 0, 0, 0] 300 =
      some (true, ⟨4, 1, [0, 1, 2, 3], [0, 1, 2, 3], [0, 1, 2, 3], 601,
        [1, 1, 2, 2, 3, 3, 4, 4]⟩) ∧
    ¬((601 : ℤ) - 0 ≤ 300) :=
  ⟨exampleSubset_repeats, by decide⟩

/-- With `checkPartialSubsets` off and a degeneracy test that rejects the completed sample,
`getSubset` restarts the sampling for ever: no amount of fuel yields a result. -/
theorem getSubset_rejecting_diverges (fuel : ℕ) (rng : ℕ → ℕ) (pos : ℕ)
    (m1 m2 ms1 ms2 : List ℕ) :
    CvModelEstimator2.getSubset rejectingKernel fuel rng pos m1 m2 ms1 ms2 300 = none := by
  have houter : ∀ (fuel : ℕ) (s : CvModelEstimator2.SubsetState ℕ), s.iters < 300 →
      CvModelEstimator2.getSubsetOuter rejectingKernel rng m1 m2 300 fuel s = none := by
    intro fuel
    induction fuel with
    | zero => intro s _; rfl
    | succ fuel ih =>
      intro s hs
      unfold CvModelEstimator2.getSubsetOuter
      cases fuel with
      | zero => rfl
      | succ fuel =>
        have hstep : CvModelEstimator2.getSubsetInner rejectingKernel rng m1 m2 300 (fuel + 1)
            { s with i := 0 } =
            CvModelEstimator2.getSubsetInner rejectingKernel rng m1 m2 300 fuel
              (CvModelEstimator2.getSubsetStep rejectingKernel rng m1 m2 { s with i := 0 }) := by
          conv_lhs => unfold CvModelEstimator2.getSubsetInner
          rw [if_pos ⟨by simp [rejectingKernel], hs⟩]
        have hshape : (CvModelEstimator2.getSubsetStep rejectingKernel rng m1 m2
            { s with i := 0 }).i = 1 ∧
            (CvModelEstimator2.getSubsetStep rejectingKernel rng m1 m2
              { s with i := 0 }).iters = 1 := by
          simp [CvModelEstimator2.getSubsetStep, rejectingKernel, forBreak, forBreakAux]
        rw [hstep]
        cases fuel with
        | zero => rfl
        | succ fuel =>
          have hdone : CvModelEstimator2.getSubsetInner rejectingKernel rng m1 m2 300 (fuel + 1)
              (CvModelEstimator2.getSubsetStep rejectingKernel rng m1 m2 { s with i := 0 }) =
              some (CvModelEstimator2.getSubsetStep rejectingKernel rng m1 m2
                { s with i := 0 }) := by
            conv_lhs => unfold CvModelEstimator2.getSubsetInner
            rw [if_neg]
            rw [hshape.1]
            simp [rejectingKernel]
          rw [hdone]
          simp only [hshape.1]
          have hk : rejectingKernel.checkPartialSubsets = false := rfl
          have hm : rejectingKernel.modelPoints = 1 := rfl
          simp only [hk, hm, Bool.not_false, Bool.true_and, Nat.cast_one, decide_True,
            if_true]
          have hc : (CvModelEstimator2.checkBoth rejectingKernel
              (CvModelEstimator2.getSubsetStep rejectingKernel rng m1 m2 { s with i := 0 }).ms1
              (CvModelEstimator2.getSubsetStep rejectingKernel rng m1 m2 { s with i := 0 }).ms2
              (1 + 1)).1 = false := rfl
          rw [hc]
          simp only [Bool.not_false, if_true]
          apply ih
          show (CvModelEstimator2.getSubsetStep rejectingKernel rng m1 m2
            { s with i := 0 }).iters < 300
          rw [hshape.2]
          decide
  unfold CvModelEstimator2.getSubset
  rw [houter fuel _ (by simp)]

/-- C18, amended: the attempt counter of `getSubset` counts the attempts for the current
slot and is set back when an index is accepted.  With `checkPartialSubsets` on,
`modelPoints >= 0` and `maxAttempts >= 1`, one call of `getSubset` returns (given fuel for
`(modelPoints + 1) * maxAttempts + 2` rounds) after at most
`modelPoints * (maxAttempts - 1) + 1` draws, and when it returns false the attempts for a slot
below `modelPoints` are exhausted. -/
theorem getSubset_draws_bounded {P M : Type} [Inhabited P] (k : Kernel P M) (fuel : ℕ)
    (rng : ℕ → ℕ) (pos : ℕ) (m1 m2 ms1 ms2 : List P) (maxAttempts : ℤ)
    (hmode : k.checkPartialSubsets = true) (hmp : 0 ≤ k.modelPoints)
    (hmax : 1 ≤ maxAttempts)
    (hfuel : (k.modelPoints + 1) * maxAttempts + 2 ≤ fuel) :
    ∃ found s,
      CvModelEstimator2.getSubset k fuel rng pos m1 m2 ms1 ms2 maxAttempts = some (found, s) ∧
      (s.pos : ℤ) - pos ≤ k.modelPoints * (maxAttempts - 1) + 1 ∧
      (found = false → (s.i : ℤ) < k.modelPoints ∧ maxAttempts ≤ s.iters) := by
  obtain ⟨fuel, rfl⟩ : ∃ f, fuel = f + 1 := by
    have : 0 ≤ (k.modelPoints + 1) * maxAttempts := mul_nonneg (by omega) (by omega)
    exact ⟨fuel - 1, by omega⟩
  have hinv0 : CvModelEstimator2.DrawInv k maxAttempts pos
      (⟨0, 0, List.replicate k.modelPoints.toNat 0, ms1, ms2, pos, []⟩ :
        CvModelEstimator2.SubsetState P) := by
    unfold CvModelEstimator2.DrawInv
    simp only [Nat.cast_zero, zero_mul, zero_add, sub_self, le_refl, true_and, zero_le_one,
      implies_true]
    exact ⟨by omega, hmp, trivial⟩
  obtain ⟨s', hrun, hinv, hexit⟩ := getSubsetInner_terminates k rng m1 m2 maxAttempts pos fuel
    (⟨0, 0, List.replicate k.modelPoints.toNat 0, ms1, ms2, pos, []⟩ :
      CvModelEstimator2.SubsetState P) hinv0 (by
      push_cast at hfuel ⊢
      simp only [Nat.cast_zero, sub_zero]
      linarith)
  refine ⟨decide ((s'.i : ℤ) = k.modelPoints), s', ?_, ?_, ?_⟩
  · unfold CvModelEstimator2.getSubset
    rw [getSubsetOuter_partialMode k rng m1 m2 maxAttempts hmode, hrun]
  · obtain ⟨h0, hle, hi, hlast, hpos⟩ := hinv
    rcases lt_or_eq_of_le hi with hlt | heq
    · have h1 : (s'.i : ℤ) * (maxAttempts - 1) ≤ (k.modelPoints - 1) * (maxAttempts - 1) :=
        mul_le_mul_of_nonneg_right (by omega) (by omega)
      have h2 : (k.modelPoints - 1) * (maxAttempts - 1) =
          k.modelPoints * (maxAttempts - 1) - (maxAttempts - 1) := by ring
      linarith
    · have := hlast heq
      rw [heq] at hpos
      linarith
  · intro hfound
    have hne : (s'.i : ℤ) ≠ k.modelPoints := by simpa using hfound
    have hlt : (s'.i : ℤ) < k.modelPoints := lt_of_le_of_ne hinv.2.2.1 hne
    refine ⟨hlt, ?_⟩
    by_contra h
    exact hexit ⟨hlt, not_le.mp h⟩

/-- Witness for C18 (amended): `exampleKernel` (four model points) with `maxAttempts = 300`
and fuel for 1502 rounds. -/
theorem getSubset_draws_bounded_witness :
    ∃ found s,
      CvModelEstimator2.getSubset exampleKernel 1502 (fun n => n / 200) 0 [0, 1, 2, 3, 4]
        [0, 1, 2, 3, 4] [0, 0, 0, 0] [0, 0, 0, 0] 300 = some (found, s) ∧
      (s.pos : ℤ) - (0 : ℕ) ≤ exampleKernel.modelPoints * (300 - 1) + 1 ∧
      (found = false → (s.i : ℤ) < exampleKernel.modelPoints ∧ 300 ≤ s.iters) :=
  getSubset_draws_bounded exampleKernel 1502 (fun n => n / 200) 0 [0, 1, 2, 3, 4]
    [0, 1, 2, 3, 4] [0, 0, 0, 0] [0, 0, 0, 0] 300 rfl (by decide) (by decide) (by decide)

/-! ## The best candidate of `runRANSAC` -/

section TraceLemmas

variable {P M R : Type}

theorem append_singleton_split {α : Type} (t pre post : List α) (e x : α)
    (h : t ++ [e] = pre ++ x :: post) :
    (post = [] ∧ pre = t ∧ x = e) ∨ ∃ post', post = post' ++ [e] ∧ t = pre ++ x :: post' := by
  rcases List.eq_nil_or_concat post with hp | ⟨post', e', hp⟩
  · subst hp
    have h2 := List.append_inj' h rfl
    exact Or.inl ⟨rfl, h2.1.symm, (List.singleton_inj.mp h2.2).symm⟩
  · subst hp
    have h3 : t ++ [e] = (pre ++ x :: post') ++ [e'] := by
      rw [h]; simp
    have h2 := List.append_inj' h3 rfl
    have he : e = e' := List.singleton_inj.mp h2.2
    exact Or.inr ⟨post', by rw [he]; simp, h2.1⟩

theorem strictAdoptions_nil : StrictAdoptions ([] : List (Event P M R)) := by
  intro pre post m g n h
  exfalso
  cases pre <;> cases h

theorem strictAdoptions_append (t : List (Event P M R)) (e : Event P M R)
    (ht : StrictAdoptions t)
    (he : ∀ m g n, e = Event.scored m g true n →
      ∀ m' g' a' n', Event.scored m' g' a' n' ∈ t → g' < g) :
    StrictAdoptions (t ++ [e]) := by
  intro pre post m g n h
  rcases append_singleton_split t pre post e _ h with ⟨-, hpre, hx⟩ | ⟨post', -, ht'⟩
  · rw [hpre]
    exact he m g n hx.symm
  · exact ht pre post' m g n ht'

theorem budgets_append (t u : List (Event P M R)) : budgets (t ++ u) = budgets t ++ budgets u := by
  unfold budgets
  rw [List.filterMap_append]

theorem kernelCalls_append (t u : List (Event P M R)) :
    kernelCalls (t ++ u) = kernelCalls t + kernelCalls u := by
  unfold kernelCalls
  rw [List.countP_append]

end TraceLemmas

section BestLemmas

variable {P M R : Type} [LinearOrderedField R] [FloorRing R] {rd : Rounding R}

omit [LinearOrderedField R] [FloorRing R] in
theorem writeTmask_masks (s : CvModelEstimator2.RansacState P M R) (buf : List ℕ) :
    (s.writeTmask buf).bestMask = s.bestMask ∧ (s.writeTmask buf).tmask = buf := by
  unfold CvModelEstimator2.RansacState.writeTmask CvModelEstimator2.RansacState.bestMask
    CvModelEstimator2.RansacState.tmask
  cases hs : s.swapped <;> simp [hs]

omit [LinearOrderedField R] [FloorRing R] in
theorem swapped_masks (s : CvModelEstimator2.RansacState P M R) (buf : List ℕ) (m : M)
    (g n : ℤ) (tr : List (Event P M R)) :
    ({ (s.writeTmask buf) with swapped := !s.swapped, model := m, maxGoodCount := g,
                               niters := n, trace := tr } :
      CvModelEstimator2.RansacState P M R).bestMask = buf ∧
    ({ (s.writeTmask buf) with swapped := !s.swapped, model := m, maxGoodCount := g,
                               niters := n, trace := tr } :
      CvModelEstimator2.RansacState P M R).tmask =
      s.bestMask := by
  unfold CvModelEstimator2.RansacState.writeTmask CvModelEstimator2.RansacState.bestMask
    CvModelEstimator2.RansacState.tmask
  cases hs : s.swapped <;> simp [hs]

/-- The budget for the outlier ratio `0` is `0`. -/
theorem cvRANSACUpdateNumIters_zero_ratio (log : R → R) (p : R) (model_points max_iters : ℤ)
    (hm : 1 ≤ model_points) :
    cvRANSACUpdateNumIters log p 0 model_points max_iters = .ok 0 := by
  rw [cvRANSACUpdateNumIters_eq log p 0 max_iters hm]
  have h : denomArg (0 : R) model_points < DBL_MIN := by
    unfold denomArg
    simp only [max_self, zero_le_one, min_eq_left, sub_zero, one_zpow, sub_self]
    exact DBL_MIN_pos
  rw [if_pos h]

/-- Scoring a candidate keeps the invariant on the best candidate. -/
theorem ransacScore_best (k : Kernel P M) (log : R → R) (m1 m2 : List P)
    (reprojThreshold confidence : R) (s s' : CvModelEstimator2.RansacState P M R)
    (model_i : M) (hinv : CvModelEstimator2.BestInv rd k m1 m2 reprojThreshold s)
    (hrun : CvModelEstimator2.ransacScore rd k log m1 m2 reprojThreshold confidence s model_i =
      .ok s') :
    CvModelEstimator2.BestInv rd k m1 m2 reprojThreshold s' := by
  obtain ⟨hbl, htl, h0, hN, hall, hstrict, hbest⟩ := hinv
  have hflen : ((k.computeReprojError m1 m2 model_i).map (fun e =>
      if Dbl.le (Dbl.fin ((e.toRat : ℚ) : R))
          (rd.dbl (reprojThreshold * reprojThreshold)) then (1 : ℕ) else 0)).length =
      m1.length := by
    rw [List.length_map, k.computeReprojError_length]
  have hmask : (CvModelEstimator2.findInliers rd k m1 m2 model_i s.tmask (Dbl.fin reprojThreshold)).2.2 =
      (k.computeReprojError m1 m2 model_i).map (fun e =>
        if Dbl.le (Dbl.fin ((e.toRat : ℚ) : R))
          (rd.dbl (reprojThreshold * reprojThreshold)) then (1 : ℕ) else 0) := by
    rw [findInliers_mask, List.drop_of_length_le (by rw [htl]), List.append_nil]
    rfl
  have hcount := findInliers_count rd k m1 m2 model_i s.tmask (Dbl.fin reprojThreshold)
  have hle := findInliers_count_le rd k m1 m2 model_i s.tmask (Dbl.fin reprojThreshold)
  have hw := writeTmask_fields s ((k.computeReprojError m1 m2 model_i).map (fun e =>
        if Dbl.le (Dbl.fin ((e.toRat : ℚ) : R))
          (rd.dbl (reprojThreshold * reprojThreshold)) then (1 : ℕ) else 0))
  have hwm := writeTmask_masks s ((k.computeReprojError m1 m2 model_i).map (fun e =>
        if Dbl.le (Dbl.fin ((e.toRat : ℚ) : R))
          (rd.dbl (reprojThreshold * reprojThreshold)) then (1 : ℕ) else 0))
  unfold CvModelEstimator2.ransacScore at hrun
  simp only at hrun
  rw [hmask] at hrun
  generalize (CvModelEstimator2.findInliers rd k m1 m2 model_i s.tmask (Dbl.fin reprojThreshold)).1 = g
    at hrun hcount hle
  unfold CvModelEstimator2.BestInv
  by_cases hgood : g > max s.maxGoodCount (k.modelPoints - 1)
  · rw [if_pos hgood] at hrun
    have hgt : s.maxGoodCount < g := lt_of_le_of_lt (le_max_left _ _) hgood
    have hgm : k.modelPoints - 1 < g := lt_of_le_of_lt (le_max_right _ _) hgood
    split at hrun
    · cases hrun
    · rename_i n hup
      have hs' := Except.ok.inj hrun
      have hsm := swapped_masks s ((k.computeReprojError m1 m2 model_i).map (fun e =>
        if Dbl.le (Dbl.fin ((e.toRat : ℚ) : R))
          (rd.dbl (reprojThreshold * reprojThreshold)) then (1 : ℕ) else 0))
        model_i g n (s.trace ++ [.scored model_i g true n])
      have hb : s'.bestMask = (k.computeReprojError m1 m2 model_i).map (fun e =>
          if Dbl.le (Dbl.fin ((e.toRat : ℚ) : R))
          (rd.dbl (reprojThreshold * reprojThreshold)) then (1 : ℕ) else 0) := by
        rw [← hs']; exact hsm.1
      have ht : s'.tmask = s.bestMask := by
        rw [← hs']; exact hsm.2
      have hmg : s'.maxGoodCount = g := by rw [← hs']
      have hmo : s'.model = model_i := by rw [← hs']
      have hni : s'.niters = n := by rw [← hs']
      have htr : s'.trace = s.trace ++ [.scored model_i g true n] := by rw [← hs']
      have hold : ∀ m' g' a' n', Event.scored m' g' a' n' ∈ s.trace → g' < g :=
        fun m' g' a' n' hmem => lt_of_le_of_lt (hall m' g' a' n' hmem) hgood
      rw [hb, ht, hmg, hmo, hni, htr]
      refine ⟨hflen, hbl, by omega, hle, ?_, ?_, fun _ => ⟨by omega, rfl, ?_, ?_⟩⟩
      · intro m' g' a' n' hmem
        rcases List.mem_append.mp hmem with h | h
        · exact le_trans (hold m' g' a' n' h).le (le_max_left _ _)
        · simp only [List.mem_singleton, Event.scored.injEq] at h
          rw [h.2.1]
          exact le_max_left _ _
      · apply strictAdoptions_append _ _ hstrict
        intro m0 g0 n0 he
        simp only [Event.scored.injEq] at he
        rw [← he.2.1]
        exact hold
      · exact hcount
      · refine ⟨s.trace, [], n, rfl, hold, ?_, ?_⟩
        · intro m' g' a' n' hmem
          cases hmem
        · intro hperfect
          refine ⟨?_, ?_, fun e he => by cases he⟩ <;>
          · have hmp : 1 ≤ k.modelPoints := by
              by_contra hno
              unfold cvRANSACUpdateNumIters at hup
              rw [if_pos (by omega)] at hup
              cases hup
            have hz : ((((m1.length : ℤ) - g : ℤ) : R) / (((m1.length : ℤ) : ℤ) : R)) = 0 := by
              rw [hperfect]
              simp
            rw [hz, cvRANSACUpdateNumIters_zero_ratio log confidence _ _ hmp] at hup
            exact (Except.ok.inj hup).symm
  · rw [if_neg hgood] at hrun
    have hs' := Except.ok.inj hrun
    have hb : s'.bestMask = s.bestMask := by
      rw [← hs']; exact hwm.1
    have ht : s'.tmask = (k.computeReprojError m1 m2 model_i).map (fun e =>
        if Dbl.le (Dbl.fin ((e.toRat : ℚ) : R))
          (rd.dbl (reprojThreshold * reprojThreshold)) then (1 : ℕ) else 0) := by
      rw [← hs']; exact hwm.2
    have hmg : s'.maxGoodCount = s.maxGoodCount := by rw [← hs']; exact hw.2.1
    have hmo : s'.model = s.model := by rw [← hs']; exact hw.2.2.1
    have hni : s'.niters = s.niters := by rw [← hs']; exact hw.1
    have htr : s'.trace = s.trace ++ [.scored model_i g false s.niters] := by rw [← hs']
    rw [hb, ht, hmg, hmo, hni, htr]
    refine ⟨hbl, hflen, h0, hN, ?_, ?_, fun hpos => ?_⟩
    · intro m' g' a' n' hmem
      rcases List.mem_append.mp hmem with h | h
      · exact hall m' g' a' n' h
      · simp only [List.mem_singleton, Event.scored.injEq] at h
        rw [h.2.1]
        exact not_lt.mp hgood
    · apply strictAdoptions_append _ _ hstrict
      intro m0 g0 n0 he
      simp only [Event.scored.injEq, Bool.false_eq_true, false_and, and_false] at he
    · obtain ⟨hmp, hbm, hcnt, pre, post, n, hsplit, hpre, hpost, hperfect⟩ := hbest hpos
      refine ⟨hmp, hbm, hcnt, pre, post ++ [.scored model_i g false s.niters], n, ?_, hpre,
        ?_, ?_⟩
      · rw [hsplit]
        simp
      · intro m' g' a' n' hmem
        rcases List.mem_append.mp hmem with h | h
        · exact hpost m' g' a' n' h
        · simp only [List.mem_singleton, Event.scored.injEq] at h
          exact h.2.2.1
      · intro hp
        obtain ⟨hn0, hni0, hsc⟩ := hperfect hp
        refine ⟨hn0, hni0, fun e he => ?_⟩
        rcases List.mem_append.mp he with h | h
        · exact hsc e h
        · rw [List.mem_singleton.mp h]
          rfl

omit [LinearOrderedField R] [FloorRing R] in
/-- An event other than a scoring, recorded while `niters` is positive, keeps the invariant
on the best candidate. -/
theorem bestInv_other [LinearOrderedField R] (k : Kernel P M) (m1 m2 : List P)
    (reprojThreshold : R) (s s' : CvModelEstimator2.RansacState P M R) (e : Event P M R)
    (hinv : CvModelEstimator2.BestInv rd k m1 m2 reprojThreshold s) (hn : 0 < s.niters)
    (he : e.isScored = false) (hb : s'.bestMask = s.bestMask) (ht : s'.tmask = s.tmask)
    (hmg : s'.maxGoodCount = s.maxGoodCount) (hmo : s'.model = s.model)
    (hni : s'.niters = s.niters) (htr : s'.trace = s.trace ++ [e]) :
    CvModelEstimator2.BestInv rd k m1 m2 reprojThreshold s' := by
  obtain ⟨hbl, htl, h0, hN, hall, hstrict, hbest⟩ := hinv
  unfold CvModelEstimator2.BestInv
  rw [hb, ht, hmg, hmo, hni, htr]
  have hne : ∀ m g a n, e ≠ Event.scored m g a n := by
    intro m g a n h
    rw [h] at he
    cases he
  refine ⟨hbl, htl, h0, hN, ?_, ?_, fun hpos => ?_⟩
  · intro m' g' a' n' hmem
    rcases List.mem_append.mp hmem with h | h
    · exact hall m' g' a' n' h
    · exact absurd (List.mem_singleton.mp h).symm (hne _ _ _ _)
  · apply strictAdoptions_append _ _ hstrict
    intro m0 g0 n0 h
    exact absurd h (hne _ _ _ _)
  · obtain ⟨hmp, hbm, hcnt, pre, post, n, hsplit, hpre, hpost, hperfect⟩ := hbest hpos
    refine ⟨hmp, hbm, hcnt, pre, post ++ [e], n, ?_, hpre, ?_, ?_⟩
    · rw [hsplit]
      simp
    · intro m' g' a' n' hmem
      rcases List.mem_append.mp hmem with h | h
      · exact hpost m' g' a' n' h
      · exact absurd (List.mem_singleton.mp h).symm (hne _ _ _ _)
    · intro hp
      have := (hperfect hp).2.1
      omega

theorem ransacModels_best (k : Kernel P M) (log : R → R) (m1 m2 : List P)
    (reprojThreshold confidence : R) (models : ℕ → M) (todo i : ℕ)
    (s s' : CvModelEstimator2.RansacState P M R)
    (hinv : CvModelEstimator2.BestInv rd k m1 m2 reprojThreshold s)
    (hrun : CvModelEstimator2.ransacModels rd k log m1 m2 reprojThreshold confidence models
      todo i s = .ok s') :
    CvModelEstimator2.BestInv rd k m1 m2 reprojThreshold s' := by
  induction todo generalizing i s with
  | zero =>
    unfold CvModelEstimator2.ransacModels at hrun
    cases hrun
    exact hinv
  | succ todo ih =>
    unfold CvModelEstimator2.ransacModels at hrun
    split at hrun
    · cases hrun
    · rename_i s1 hscore
      exact ih _ _ (ransacScore_best k log m1 m2 reprojThreshold confidence s s1 _
        hinv hscore) hrun

theorem ransacTrial_best (k : Kernel P M) (log : R → R) (m1 m2 : List P)
    (reprojThreshold confidence : R) (s s' : CvModelEstimator2.RansacState P M R)
    (hinv : CvModelEstimator2.BestInv rd k m1 m2 reprojThreshold s) (hn : 0 < s.niters)
    (hrun : CvModelEstimator2.ransacTrial rd k log m1 m2 reprojThreshold confidence s = .ok s') :
    CvModelEstimator2.BestInv rd k m1 m2 reprojThreshold s' := by
  have h1 : CvModelEstimator2.BestInv rd k m1 m2 reprojThreshold
      ({ s with trace := s.trace ++ [.kernel s.ms1 s.ms2 (k.runKernel s.ms1 s.ms2).1] } :
        CvModelEstimator2.RansacState P M R) :=
    bestInv_other k m1 m2 reprojThreshold s _
      (.kernel s.ms1 s.ms2 (k.runKernel s.ms1 s.ms2).1) hinv hn rfl rfl rfl rfl rfl rfl rfl
  unfold CvModelEstimator2.ransacTrial at hrun
  simp only at hrun
  split_ifs at hrun
  · cases hrun
    exact h1
  · exact ransacModels_best k log m1 m2 reprojThreshold confidence _ _ _ _ s' h1 hrun

end BestLemmas

section RansacLoopLemmas

variable {P M R : Type} [LinearOrderedField R] [FloorRing R] [Inhabited P] {rd : Rounding R}

/-- Induction over the trials of `runRANSAC`: a property of the loop counter and the state
that is kept by the recording of a call of `getSubset` and by a trial, both entered with
`0 <= iter < niters`, holds when the loop is left. -/
theorem ransacLoop_induct (k : Kernel P M) (log : R → R) (rng : ℕ → ℕ) (m1 m2 : List P)
    (reprojThreshold confidence : R) (J : ℤ → CvModelEstimator2.RansacState P M R → Prop)
    (hsub : ∀ (iter : ℤ) (s : CvModelEstimator2.RansacState P M R) (found : Bool)
      (g : CvModelEstimator2.SubsetState P), 0 ≤ iter → iter < s.niters → J iter s →
      J iter { s with ms1 := g.ms1, ms2 := g.ms2, pos := g.pos,
                      trace := s.trace ++ [.subset found (g.pos - s.pos)] })
    (htrial : ∀ (iter : ℤ) (s s2 : CvModelEstimator2.RansacState P M R), 0 ≤ iter →
      iter < s.niters → J iter s →
      CvModelEstimator2.ransacTrial rd k log m1 m2 reprojThreshold confidence s = .ok s2 →
      J (iter + 1) s2)
    (fuel : ℕ) (iter : ℤ) (s s' : CvModelEstimator2.RansacState P M R) (exited : Bool)
    (hiter : 0 ≤ iter) (hinv : J iter s)
    (hrun : CvModelEstimator2.ransacLoop rd k log rng m1 m2 reprojThreshold confidence fuel iter s
      = .ok (s', exited)) :
    ∃ iter', 0 ≤ iter' ∧ J iter' s' := by
  induction fuel generalizing iter s with
  | zero =>
    unfold CvModelEstimator2.ransacLoop at hrun
    cases hrun
  | succ fuel ih =>
    unfold CvModelEstimator2.ransacLoop at hrun
    by_cases hlt : iter < s.niters
    · rw [if_pos hlt] at hrun
      by_cases hcount : (m1.length : ℤ) > k.modelPoints
      · rw [if_pos hcount] at hrun
        cases hsubset : CvModelEstimator2.getSubset k fuel rng s.pos m1 m2 s.ms1 s.ms2 300 with
        | none =>
          rw [hsubset] at hrun
          cases hrun
        | some r =>
          obtain ⟨found, g⟩ := r
          rw [hsubset] at hrun
          simp only at hrun
          have h1 := hsub iter s found g hiter hlt hinv
          cases found
          · simp only [Bool.not_false, if_true] at hrun
            by_cases h0 : iter = 0
            · rw [if_pos h0] at hrun
              cases hrun
              exact ⟨iter, hiter, h1⟩
            · rw [if_neg h0] at hrun
              cases hrun
              exact ⟨iter, hiter, h1⟩
          · simp only [Bool.not_true, Bool.false_eq_true, if_false] at hrun
            cases htr : CvModelEstimator2.ransacTrial rd k log m1 m2 reprojThreshold confidence
                { s with ms1 := g.ms1, ms2 := g.ms2, pos := g.pos,
                         trace := s.trace ++ [.subset true (g.pos - s.pos)] } with
            | error e =>
              rw [htr] at hrun
              cases hrun
            | ok s2 =>
              rw [htr] at hrun
              refine ih (iter + 1) s2 (by omega) ?_ hrun
              exact htrial iter _ s2 hiter (by exact hlt) h1 htr
      · rw [if_neg hcount] at hrun
        cases htr : CvModelEstimator2.ransacTrial rd k log m1 m2 reprojThreshold confidence s with
        | error e =>
          rw [htr] at hrun
          cases hrun
        | ok s2 =>
          rw [htr] at hrun
          exact ih (iter + 1) s2 (by omega) (htrial iter s s2 hiter hlt hinv htr) hrun
    · rw [if_neg hlt] at hrun
      cases hrun
      exact ⟨iter, hiter, hinv⟩

/-- The loop of `runRANSAC` is left through `EXIT` only in its first round, right after the
failed call of `getSubset`. -/
theorem ransacLoop_exited (k : Kernel P M) (log : R → R) (rng : ℕ → ℕ) (m1 m2 : List P)
    (reprojThreshold confidence : R) (fuel : ℕ) (iter : ℤ)
    (s s' : CvModelEstimator2.RansacState P M R) (hiter : 0 ≤ iter)
    (hrun : CvModelEstimator2.ransacLoop rd k log rng m1 m2 reprojThreshold confidence fuel iter s
      = .ok (s', true)) :
    iter = 0 ∧ ∃ d, s'.trace = s.trace ++ [.subset false d] := by
  induction fuel generalizing iter s with
  | zero =>
    unfold CvModelEstimator2.ransacLoop at hrun
    cases hrun
  | succ fuel ih =>
    unfold CvModelEstimator2.ransacLoop at hrun
    by_cases hlt : iter < s.niters
    · rw [if_pos hlt] at hrun
      by_cases hcount : (m1.length : ℤ) > k.modelPoints
      · rw [if_pos hcount] at hrun
        cases hsubset : CvModelEstimator2.getSubset k fuel rng s.pos m1 m2 s.ms1 s.ms2 300 with
        | none =>
          rw [hsubset] at hrun
          cases hrun
        | some r =>
          obtain ⟨found, g⟩ := r
          rw [hsubset] at hrun
          simp only at hrun
          cases found
          · simp only [Bool.not_false, if_true] at hrun
            by_cases h0 : iter = 0
            · rw [if_pos h0] at hrun
              cases hrun
              exact ⟨h0, _, rfl⟩
            · rw [if_neg h0] at hrun
              cases hrun
          · simp only [Bool.not_true, Bool.false_eq_true, if_false] at hrun
            cases htr : CvModelEstimator2.ransacTrial rd k log m1 m2 reprojThreshold confidence
                { s with ms1 := g.ms1, ms2 := g.ms2, pos := g.pos,
                         trace := s.trace ++ [.subset true (g.pos - s.pos)] } with
            | error e =>
              rw [htr] at hrun
              cases hrun
            | ok s2 =>
              rw [htr] at hrun
              have := (ih (iter + 1) s2 (by omega) hrun).1
              omega
      · rw [if_neg hcount] at hrun
        cases htr : CvModelEstimator2.ransacTrial rd k log m1 m2 reprojThreshold confidence s with
        | error e =>
          rw [htr] at hrun
          cases hrun
        | ok s2 =>
          rw [htr] at hrun
          have := (ih (iter + 1) s2 (by omega) hrun).1
          omega
    · rw [if_neg hlt] at hrun
      cases hrun

/-- The invariant on the best candidate holds when the loop of `runRANSAC` is left. -/
theorem ransacLoop_best (k : Kernel P M) (log : R → R) (rng : ℕ → ℕ) (m1 m2 : List P)
    (reprojThreshold confidence : R) (fuel : ℕ)
    (s s' : CvModelEstimator2.RansacState P M R) (exited : Bool)
    (hinv : CvModelEstimator2.BestInv rd k m1 m2 reprojThreshold s)
    (hrun : CvModelEstimator2.ransacLoop rd k log rng m1 m2 reprojThreshold confidence fuel 0 s
      = .ok (s', exited)) :
    CvModelEstimator2.BestInv rd k m1 m2 reprojThreshold s' := by
  obtain ⟨_, _, h⟩ := ransacLoop_induct k log rng m1 m2 reprojThreshold confidence
    (fun _ s => CvModelEstimator2.BestInv rd k m1 m2 reprojThreshold s)
    (fun iter s found g hiter hlt hi =>
      bestInv_other k m1 m2 reprojThreshold s _ (.subset found (g.pos - s.pos)) hi
        (by omega) rfl rfl rfl rfl rfl rfl rfl)
    (fun iter s s2 hiter hlt hi htr =>
      ransacTrial_best k log m1 m2 reprojThreshold confidence s s2 hi (by omega) htr)
    fuel 0 s s' exited le_rfl hinv hrun
  exact h

omit [FloorRing R] in
/-- The state in which `runRANSAC` enters its loop satisfies the invariant on the best
candidate. -/
theorem ransacInit_best (k : Kernel P M) (m1 m2 : List P) (model : M) (mask : List ℕ)
    (reprojThreshold : R) (maxIters : ℤ) (hsize : m1.length = mask.length) :
    CvModelEstimator2.BestInv rd k m1 m2 reprojThreshold
      (CvModelEstimator2.ransacInit k m1 m2 model mask maxIters :
        CvModelEstimator2.RansacState P M R) := by
  have hgen : ∀ (n : ℤ) (a b : List P),
      CvModelEstimator2.BestInv rd k m1 m2 reprojThreshold
        (⟨n, 0, model, mask, List.replicate m1.length 0, false, a, b, 0, []⟩ :
          CvModelEstimator2.RansacState P M R) := by
    intro n a b
    refine ⟨hsize.symm, List.length_replicate _ _, le_rfl, Int.natCast_nonneg _, ?_,
      strictAdoptions_nil, fun h => absurd h (lt_irrefl _)⟩
    intro m g a n h
    cases h
  unfold CvModelEstimator2.ransacInit
  split_ifs
  · exact hgen _ _ _
  · exact hgen _ _ _

/-- What the invariant on the best candidate says about a completed call of `runRANSAC`. -/
theorem runRANSAC_best (k : Kernel P M) (log : R → R) (fuel : ℕ) (rng : ℕ → ℕ)
    (m1 m2 : List P) (model : M) (mask : List ℕ) (reprojThreshold confidence : R)
    (maxIters : ℤ) (res : RunResult P M R)
    (hrun : CvModelEstimator2.runRANSAC rd k log fuel rng m1 m2 model mask reprojThreshold
      confidence maxIters = .ok res) :
    (res = ⟨false, model, mask, [], 0⟩) ∨
    ∃ (s : CvModelEstimator2.RansacState P M R) (exited : Bool),
      CvModelEstimator2.BestInv rd k m1 m2 reprojThreshold s ∧
      res = CvModelEstimator2.ransacFinish s exited ∧
      (exited = true → ∃ d, s.trace = [.subset false d]) := by
  unfold CvModelEstimator2.runRANSAC at hrun
  by_cases hsize : ¬(m1.length = m2.length ∧ m1.length = mask.length)
  · rw [if_pos hsize] at hrun
    cases hrun
  · rw [if_neg hsize] at hrun
    by_cases hshort : (m1.length : ℤ) < k.modelPoints
    · rw [if_pos hshort] at hrun
      cases hrun
      exact Or.inl rfl
    · rw [if_neg hshort] at hrun
      right
      have hinit_trace : (CvModelEstimator2.ransacInit k m1 m2 model mask maxIters :
          CvModelEstimator2.RansacState P M R).trace = [] := by
        unfold CvModelEstimator2.ransacInit
        split_ifs <;> rfl
      cases hloop : CvModelEstimator2.ransacLoop rd k log rng m1 m2 reprojThreshold confidence
          fuel 0 (CvModelEstimator2.ransacInit k m1 m2 model mask maxIters) with
      | error e =>
        rw [hloop] at hrun
        cases hrun
      | ok r =>
        obtain ⟨s, exited⟩ := r
        rw [hloop] at hrun
        simp only [Except.ok.injEq] at hrun
        refine ⟨s, exited, ?_, hrun.symm, ?_⟩
        · exact ransacLoop_best k log rng m1 m2 reprojThreshold confidence fuel _ s exited
            (ransacInit_best k m1 m2 model mask reprojThreshold maxIters
              (not_not.mp hsize).2) hloop
        · intro he
          rw [he] at hloop
          obtain ⟨-, d, hd⟩ := ransacLoop_exited k log rng m1 m2 reprojThreshold confidence
            fuel 0 _ s le_rfl hloop
          rw [hinit_trace] at hd
          exact ⟨d, hd⟩

end RansacLoopLemmas

/-! ## Fuel: a call that returns, returns the same with more fuel -/

section FuelLemmas

variable {P M : Type} [Inhabited P]

theorem getSubsetInner_mono (k : Kernel P M) (rng : ℕ → ℕ) (m1 m2 : List P)
    (maxAttempts : ℤ) (f f' : ℕ) (s r : CvModelEstimator2.SubsetState P) (hf : f ≤ f')
    (h : CvModelEstimator2.getSubsetInner k rng m1 m2 maxAttempts f s = some r) :
    CvModelEstimator2.getSubsetInner k rng m1 m2 maxAttempts f' s = some r := by
  induction f generalizing f' s with
  | zero => simp [CvModelEstimator2.getSubsetInner] at h
  | succ f ih =>
    obtain ⟨g, rfl⟩ : ∃ g, f' = g + 1 := ⟨f' - 1, by omega⟩
    unfold CvModelEstimator2.getSubsetInner at h ⊢
    split_ifs at h ⊢ with hc
    · exact ih g _ (by omega) h
    · exact h

theorem getSubsetOuter_mono (k : Kernel P M) (rng : ℕ → ℕ) (m1 m2 : List P)
    (maxAttempts : ℤ) (f f' : ℕ) (s r : CvModelEstimator2.SubsetState P) (hf : f ≤ f')
    (h : CvModelEstimator2.getSubsetOuter k rng m1 m2 maxAttempts f s = some r) :
    CvModelEstimator2.getSubsetOuter k rng m1 m2 maxAttempts f' s = some r := by
  induction f generalizing f' s with
  | zero => simp [CvModelEstimator2.getSubsetOuter] at h
  | succ f ih =>
    obtain ⟨g, rfl⟩ : ∃ g, f' = g + 1 := ⟨f' - 1, by omega⟩
    unfold CvModelEstimator2.getSubsetOuter at h ⊢
    cases hin : CvModelEstimator2.getSubsetInner k rng m1 m2 maxAttempts f
        { s with i := 0 } with
    | none =>
      rw [hin] at h
      cases h
    | some s1 =>
      rw [hin] at h
      rw [getSubsetInner_mono k rng m1 m2 maxAttempts f g _ s1 (by omega) hin]
      simp only at h ⊢
      split_ifs at h ⊢
      · exact ih g _ (by omega) h
      · exact h
      · exact h

theorem getSubset_mono (k : Kernel P M) (f f' : ℕ) (rng : ℕ → ℕ) (pos : ℕ)
    (m1 m2 ms1 ms2 : List P) (maxAttempts : ℤ) (r : Bool × CvModelEstimator2.SubsetState P)
    (hf : f ≤ f')
    (h : CvModelEstimator2.getSubset k f rng pos m1 m2 ms1 ms2 maxAttempts = some r) :
    CvModelEstimator2.getSubset k f' rng pos m1 m2 ms1 ms2 maxAttempts = some r := by
  unfold CvModelEstimator2.getSubset at h ⊢
  cases hout : CvModelEstimator2.getSubsetOuter k rng m1 m2 maxAttempts f
      ⟨0, 0, List.replicate k.modelPoints.toNat 0, ms1, ms2, pos, []⟩ with
  | none =>
    rw [hout] at h
    cases h
  | some s =>
    rw [hout] at h
    rw [getSubsetOuter_mono k rng m1 m2 maxAttempts f f' _ s hf hout]
    exact h

end FuelLemmas

/-! ## A run of `runRANSAC` that has scored a perfect candidate returns -/

section ReachedLemmas

variable {P M R : Type} [LinearOrderedField R] [FloorRing R] [Inhabited P] {rd : Rounding R}

omit [FloorRing R] [Inhabited P] in
/-- Once a candidate with all correspondences as inliers is in the trace, `niters` is `0`. -/
theorem niters_zero_of_perfect (k : Kernel P M) (m1 m2 : List P) (reprojThreshold : R)
    (s : CvModelEstimator2.RansacState P M R) (m : M) (a : Bool) (n : ℤ)
    (hmp : 1 ≤ k.modelPoints) (hN : k.modelPoints ≤ m1.length)
    (hinv : CvModelEstimator2.BestInv rd k m1 m2 reprojThreshold s)
    (hmem : Event.scored m (m1.length : ℤ) a n ∈ s.trace) : s.niters = 0 := by
  obtain ⟨-, -, -, hle, hall, -, hbest⟩ := hinv
  have hge := hall m _ a n hmem
  have hmax : s.maxGoodCount = m1.length := by
    rcases le_max_iff.mp hge with h | h
    · omega
    · omega
  obtain ⟨-, -, -, pre, post, n0, -, -, -, hperf⟩ := hbest (by omega)
  exact (hperf hmax).2.1

/-- The loop of `runRANSAC` returns the state it has reached. -/
theorem ransacReached_of_loop (k : Kernel P M) (log : R → R) (rng : ℕ → ℕ) (m1 m2 : List P)
    (reprojThreshold confidence : R) (f : ℕ) (iter : ℤ)
    (s s' : CvModelEstimator2.RansacState P M R) (exited : Bool)
    (h : CvModelEstimator2.ransacLoop rd k log rng m1 m2 reprojThreshold confidence f iter s =
      .ok (s', exited)) :
    CvModelEstimator2.ransacReached rd k log rng m1 m2 reprojThreshold confidence f iter s =
      s' := by
  induction f generalizing iter s with
  | zero =>
    unfold CvModelEstimator2.ransacLoop at h
    cases h
  | succ f ih =>
    unfold CvModelEstimator2.ransacLoop at h
    unfold CvModelEstimator2.ransacReached
    by_cases hlt : iter < s.niters
    · rw [if_pos hlt] at h ⊢
      by_cases hcount : (m1.length : ℤ) > k.modelPoints
      · rw [if_pos hcount] at h ⊢
        cases hsub : CvModelEstimator2.getSubset k f rng s.pos m1 m2 s.ms1 s.ms2 300 with
        | none =>
          rw [hsub] at h
          cases h
        | some r =>
          obtain ⟨found, g⟩ := r
          rw [hsub] at h
          simp only at h ⊢
          cases found
          · simp only [Bool.not_false, if_true] at h ⊢
            split_ifs at h <;> cases h <;> rfl
          · simp only [Bool.not_true, Bool.false_eq_true, if_false] at h ⊢
            split at h
            · cases h
            · rename_i s2 htr
              exact ih _ _ h
      · rw [if_neg hcount] at h ⊢
        split at h
        · cases h
        · rename_i s2 htr
          exact ih _ _ h
    · rw [if_neg hlt] at h ⊢
      cases h
      rfl

/-- If the loop of `runRANSAC`, run with fuel `f`, has scored a candidate with all `N`
correspondences as inliers, then with any larger fuel the loop returns, in a state whose trace
holds that scoring. -/
theorem ransacLoop_of_reached (k : Kernel P M) (log : R → R) (rng : ℕ → ℕ) (m1 m2 : List P)
    (reprojThreshold confidence : R) (m : M) (a : Bool) (n : ℤ)
    (hmp : 1 ≤ k.modelPoints) (hN : k.modelPoints ≤ m1.length) (f : ℕ) (iter : ℤ)
    (s : CvModelEstimator2.RansacState P M R) (hiter : 0 ≤ iter)
    (hinv : CvModelEstimator2.BestInv rd k m1 m2 reprojThreshold s)
    (hmem : Event.scored m (m1.length : ℤ) a n ∈
      (CvModelEstimator2.ransacReached rd k log rng m1 m2 reprojThreshold confidence
        f iter s).trace)
    (fuel : ℕ) (hfuel : f < fuel) :
    ∃ s' exited,
      CvModelEstimator2.ransacLoop rd k log rng m1 m2 reprojThreshold confidence fuel iter s =
        .ok (s', exited) ∧
      Event.scored m (m1.length : ℤ) a n ∈ s'.trace := by
  induction f generalizing iter s fuel with
  | zero =>
    obtain ⟨g, rfl⟩ : ∃ g, fuel = g + 1 := ⟨fuel - 1, by omega⟩
    have hmem' : Event.scored m (m1.length : ℤ) a n ∈ s.trace := hmem
    have h0 := niters_zero_of_perfect k m1 m2 reprojThreshold s m a n hmp hN hinv hmem'
    exact ⟨s, false, ransacLoop_done rd k log rng m1 m2 reprojThreshold confidence g iter s
      (by omega), hmem'⟩
  | succ f ih =>
    obtain ⟨g, rfl⟩ : ∃ g, fuel = g + 1 := ⟨fuel - 1, by omega⟩
    have hstuck : ∀ e : Event P M R, e.isScored = false →
        Event.scored m (m1.length : ℤ) a n ∈ s.trace ++ [e] → ¬ iter < s.niters := by
      intro e he h1
      have h2 : Event.scored m (m1.length : ℤ) a n ∈ s.trace := by
        rcases List.mem_append.mp h1 with h | h
        · exact h
        · rw [List.mem_singleton] at h
          rw [← h] at he
          cases he
      have h0 := niters_zero_of_perfect k m1 m2 reprojThreshold s m a n hmp hN hinv h2
      omega
    unfold CvModelEstimator2.ransacReached at hmem
    by_cases hlt : iter < s.niters
    · rw [if_pos hlt] at hmem
      by_cases hcount : (m1.length : ℤ) > k.modelPoints
      · rw [if_pos hcount] at hmem
        cases hsub : CvModelEstimator2.getSubset k f rng s.pos m1 m2 s.ms1 s.ms2 300 with
        | none =>
          rw [hsub] at hmem
          have h0 := niters_zero_of_perfect k m1 m2 reprojThreshold s m a n hmp hN hinv hmem
          omega
        | some r =>
          obtain ⟨found, sg⟩ := r
          rw [hsub] at hmem
          have hsub' := getSubset_mono k f g rng s.pos m1 m2 s.ms1 s.ms2 300 _ (by omega) hsub
          have hinv1 : CvModelEstimator2.BestInv rd k m1 m2 reprojThreshold
              ({ s with ms1 := sg.ms1, ms2 := sg.ms2, pos := sg.pos,
                        trace := s.trace ++ [.subset found (sg.pos - s.pos)] } :
                CvModelEstimator2.RansacState P M R) :=
            bestInv_other k m1 m2 reprojThreshold s _ (.subset found (sg.pos - s.pos)) hinv
              (by omega) rfl rfl rfl rfl rfl rfl rfl
          simp only at hmem
          cases found
          · simp only [Bool.not_false, if_true] at hmem
            exact absurd hlt (hstuck (.subset false (sg.pos - s.pos)) rfl hmem)
          · simp only [Bool.not_true, Bool.false_eq_true, if_false] at hmem
            cases htr : CvModelEstimator2.ransacTrial rd k log m1 m2 reprojThreshold confidence
                ({ s with ms1 := sg.ms1, ms2 := sg.ms2, pos := sg.pos,
                          trace := s.trace ++ [.subset true (sg.pos - s.pos)] } :
                  CvModelEstimator2.RansacState P M R) with
            | error e =>
              rw [htr] at hmem
              exact absurd hlt (hstuck (.subset true (sg.pos - s.pos)) rfl hmem)
            | ok s2 =>
              rw [htr] at hmem
              have hinv2 := ransacTrial_best k log m1 m2 reprojThreshold confidence _ s2 hinv1
                (by show 0 < s.niters; omega) htr
              obtain ⟨s', ex, hrun, hm⟩ := ih (iter + 1) s2 (by omega) hinv2 hmem g (by omega)
              refine ⟨s', ex, ?_, hm⟩
              rw [ransacLoop_sampled rd k log rng m1 m2 reprojThreshold confidence g iter s s2
                sg hlt hcount hsub' htr]
              exact hrun
      · rw [if_neg hcount] at hmem
        cases htr : CvModelEstimator2.ransacTrial rd k log m1 m2 reprojThreshold confidence s with
        | error e =>
          rw [htr] at hmem
          have h0 := niters_zero_of_perfect k m1 m2 reprojThreshold s m a n hmp hN hinv hmem
          omega
        | ok s2 =>
          rw [htr] at hmem
          have hinv2 := ransacTrial_best k log m1 m2 reprojThreshold confidence _ s2 hinv
            (by omega) htr
          obtain ⟨s', ex, hrun, hm⟩ := ih (iter + 1) s2 (by omega) hinv2 hmem g (by omega)
          refine ⟨s', ex, ?_, hm⟩
          rw [ransacLoop_whole rd k log rng m1 m2 reprojThreshold confidence g iter s s2 hlt
            hcount htr]
          exact hrun
    · rw [if_neg hlt] at hmem
      exact ⟨s, false, ransacLoop_done rd k log rng m1 m2 reprojThreshold confidence g iter s
        hlt, hmem⟩

end ReachedLemmas

section RansacFinishLemmas

variable {P M R : Type}

/-- A call of `runRANSAC` ends with the result true only when the loop was not left through
`EXIT` and a candidate was adopted; the outputs are then the best model and the contents of
the matrix `mask` points to. -/
theorem ransacFinish_true (s : CvModelEstimator2.RansacState P M R) (exited : Bool)
    (h : (CvModelEstimator2.ransacFinish s exited).result = true) :
    exited = false ∧ 0 < s.maxGoodCount ∧
    (CvModelEstimator2.ransacFinish s exited).model = s.model ∧
    (CvModelEstimator2.ransacFinish s exited).mask = s.bestMask ∧
    (CvModelEstimator2.ransacFinish s exited).trace = s.trace := by
  cases exited
  · by_cases hg : s.maxGoodCount > 0
    · have hfin : CvModelEstimator2.ransacFinish s false =
          ⟨true, s.model, s.bestMask, s.trace, s.pos⟩ := by
        unfold CvModelEstimator2.ransacFinish
        rw [if_neg (by decide), if_pos hg]
        rfl
      rw [hfin]
      exact ⟨rfl, hg, rfl, rfl, rfl⟩
    · unfold CvModelEstimator2.ransacFinish at h
      rw [if_neg (by decide), if_neg hg] at h
      cases h
  · unfold CvModelEstimator2.ransacFinish at h
    rw [if_pos rfl] at h
    cases h

theorem ransacFinish_trace (s : CvModelEstimator2.RansacState P M R) (exited : Bool) :
    (CvModelEstimator2.ransacFinish s exited).trace = s.trace := by
  unfold CvModelEstimator2.ransacFinish
  split_ifs <;> rfl

end RansacFinishLemmas

/-- C11, amended: when `runRANSAC` returns true, the caller's mask has one entry per
correspondence, entry `i` is `1` exactly when the error of the returned model at `i` is at
most the `double` product `reprojThreshold * reprojThreshold` that `findInliers` computes and
`0` otherwise, and at least `modelPoints` entries are `1`, however often the mask matrices
were swapped during the run; when the product is the finite number `sq` (the exact square if
the product does not round), entry `i` is `1` exactly when the value of the error is at most
`sq`. -/
theorem runRANSAC_true_mask {P M R : Type} [LinearOrderedField R] [FloorRing R]
    [Inhabited P] (rd : Rounding R) (k : Kernel P M) (log : R → R) (fuel : ℕ) (rng : ℕ → ℕ)
    (m1 m2 : List P) (model : M) (mask : List ℕ) (reprojThreshold confidence : R)
    (maxIters : ℤ) (res : RunResult P M R)
    (hrun : CvModelEstimator2.runRANSAC rd k log fuel rng m1 m2 model mask reprojThreshold
      confidence maxIters = .ok res)
    (htrue : res.result = true) :
    res.mask.length = m1.length ∧
    (∀ i, i < m1.length →
      (res.mask.getD i 0 = 1 ↔
        Dbl.le
          (Dbl.fin ((((k.computeReprojError m1 m2 res.model).getD i default).toRat : ℚ) : R))
          (rd.dbl (reprojThreshold * reprojThreshold)) = true) ∧
      (res.mask.getD i 0 = 0 ↔
        ¬ Dbl.le
          (Dbl.fin ((((k.computeReprojError m1 m2 res.model).getD i default).toRat : ℚ) : R))
          (rd.dbl (reprojThreshold * reprojThreshold)) = true)) ∧
    k.modelPoints ≤ ((res.mask.count 1 : ℕ) : ℤ) ∧
    (∀ sq : R, rd.dbl (reprojThreshold * reprojThreshold) = Dbl.fin sq →
      ∀ i, i < m1.length →
        (res.mask.getD i 0 = 1 ↔
          ((((k.computeReprojError m1 m2 res.model).getD i default).toRat : ℚ) : R) ≤ sq)) := by
  rcases runRANSAC_best k log fuel rng m1 m2 model mask reprojThreshold confidence maxIters
    res hrun with h | ⟨s, exited, hinv, hres, -⟩
  · rw [h] at htrue
    cases htrue
  · rw [hres] at htrue ⊢
    obtain ⟨-, hpos, hmodel, hmask, -⟩ := ransacFinish_true s exited htrue
    obtain ⟨hbl, -, -, -, -, -, hbest⟩ := hinv
    obtain ⟨hmp, hflags, hcnt, -⟩ := hbest hpos
    rw [hmask, hmodel]
    have hlen := k.computeReprojError_length m1 m2 s.model
    have hflag : ∀ i, i < m1.length →
        (s.bestMask.getD i 0 = 1 ↔
          Dbl.le
            (Dbl.fin ((((k.computeReprojError m1 m2 s.model).getD i default).toRat : ℚ) : R))
            (rd.dbl (reprojThreshold * reprojThreshold)) = true) ∧
        (s.bestMask.getD i 0 = 0 ↔
          ¬ Dbl.le
            (Dbl.fin ((((k.computeReprojError m1 m2 s.model).getD i default).toRat : ℚ) : R))
            (rd.dbl (reprojThreshold * reprojThreshold)) = true) := by
      intro i hi
      rw [hflags, getD_map_of_lt _ _ _ default 0 (by rw [hlen]; exact hi)]
      by_cases h : Dbl.le
          (Dbl.fin ((((k.computeReprojError m1 m2 s.model).getD i default).toRat : ℚ) : R))
          (rd.dbl (reprojThreshold * reprojThreshold)) = true
      · simp [h]
      · simp [h]
    refine ⟨hbl, hflag, by rw [← hcnt]; exact hmp, ?_⟩
    intro sq hsq i hi
    rw [(hflag i hi).1, hsq]
    simp [Dbl.le]

/-- C14: when `runRANSAC` returns true, its trace consists of candidates with fewer inliers
than the returned model, the scoring at which the returned model was adopted, and candidates
that have at most as many inliers and were not adopted; and every candidate adopted during the
run had more inliers than each candidate scored before it. -/
theorem runRANSAC_true_best {P M R : Type} [LinearOrderedField R] [FloorRing R]
    [Inhabited P] (rd : Rounding R) (k : Kernel P M) (log : R → R) (fuel : ℕ) (rng : ℕ → ℕ) (m1 m2 : List P)
    (model : M) (mask : List ℕ) (reprojThreshold confidence : R) (maxIters : ℤ)
    (res : RunResult P M R)
    (hrun : CvModelEstimator2.runRANSAC rd k log fuel rng m1 m2 model mask reprojThreshold
      confidence maxIters = .ok res)
    (htrue : res.result = true) :
    (∃ pre post g n, res.trace = pre ++ Event.scored res.model g true n :: post ∧
      (∀ m' g' a' n', Event.scored m' g' a' n' ∈ pre → g' < g) ∧
      (∀ m' g' a' n', Event.scored m' g' a' n' ∈ post → g' ≤ g ∧ a' = false)) ∧
    StrictAdoptions res.trace := by
  rcases runRANSAC_best k log fuel rng m1 m2 model mask reprojThreshold confidence maxIters
    res hrun with h | ⟨s, exited, hinv, hres, -⟩
  · rw [h] at htrue
    cases htrue
  · rw [hres] at htrue ⊢
    obtain ⟨-, hpos, hmodel, -, htrace⟩ := ransacFinish_true s exited htrue
    obtain ⟨-, -, -, -, hall, hstrict, hbest⟩ := hinv
    obtain ⟨hmp, -, -, pre, post, n, hsplit, hpre, hpost, -⟩ := hbest hpos
    rw [htrace, hmodel]
    refine ⟨⟨pre, post, s.maxGoodCount, n, hsplit, hpre, ?_⟩, hstrict⟩
    intro m' g' a' n' hmem
    refine ⟨?_, hpost m' g' a' n' hmem⟩
    have := hall m' g' a' n' (by
      rw [hsplit]
      exact List.mem_append_right _ (List.mem_cons_of_mem _ hmem))
    rw [max_eq_left (by omega)] at this
    exact this

/-- A run of `runRANSAC` that returns with the scoring of a candidate with all `N`
correspondences as inliers in its trace returns true with the mask all ones, and the trace
consists of candidates with fewer than `N` inliers, the adoption of the returned model with
`N` inliers and `niters = 0`, and nothing but scorings of the same trial. -/
theorem runRANSAC_perfect_of_ok {P M R : Type} [LinearOrderedField R] [FloorRing R]
    [Inhabited P] (rd : Rounding R) (k : Kernel P M) (log : R → R) (fuel : ℕ) (rng : ℕ → ℕ)
    (m1 m2 : List P) (model : M) (mask : List ℕ) (reprojThreshold confidence : R)
    (maxIters : ℤ) (res : RunResult P M R) (hN : k.modelPoints < m1.length)
    (hmp : 1 ≤ k.modelPoints)
    (hrun : CvModelEstimator2.runRANSAC rd k log fuel rng m1 m2 model mask reprojThreshold
      confidence maxIters = .ok res)
    (hperfect : ∃ m a n, Event.scored m (m1.length : ℤ) a n ∈ res.trace) :
    res.result = true ∧ res.mask = List.replicate m1.length 1 ∧
    ∃ pre post, res.trace = pre ++ Event.scored res.model (m1.length : ℤ) true 0 :: post ∧
      (∀ m' g' a' n', Event.scored m' g' a' n' ∈ pre → g' < (m1.length : ℤ)) ∧
      (∀ e ∈ post, e.isScored = true) ∧
      (∀ m' g' a' n', Event.scored m' g' a' n' ∈ post → a' = false) := by
  have _ := hmp
  obtain ⟨m, a, n, hmem⟩ := hperfect
  rcases runRANSAC_best k log fuel rng m1 m2 model mask reprojThreshold confidence maxIters
    res hrun with h | ⟨s, exited, hinv, hres, hexit⟩
  · rw [h] at hmem
    cases hmem
  · have htr := ransacFinish_trace s exited
    rw [← hres] at htr
    rw [htr] at hmem
    have hne : exited = false := by
      cases exited
      · rfl
      · obtain ⟨d, hd⟩ := hexit rfl
        rw [hd] at hmem
        simp at hmem
    obtain ⟨hbl, -, -, hle, hall, -, hbest⟩ := hinv
    have hge := hall m _ a n hmem
    have hmax : s.maxGoodCount = m1.length := by
      rcases le_max_iff.mp hge with h | h
      · omega
      · omega
    have hpos : 0 < s.maxGoodCount := by omega
    obtain ⟨-, hflags, hcnt, pre, post, n0, hsplit, hpre, hpost, hperf⟩ := hbest hpos
    obtain ⟨hn0, -, hsc⟩ := hperf hmax
    have hfin : (CvModelEstimator2.ransacFinish s exited) =
        ⟨true, s.model, s.bestMask, s.trace, s.pos⟩ := by
      rw [hne]
      unfold CvModelEstimator2.ransacFinish
      simp only [Bool.false_eq_true, if_false]
      rw [if_pos hpos]
      rfl
    rw [hres, hfin]
    refine ⟨rfl, ?_, pre, post, ?_, ?_, hsc, hpost⟩
    · show s.bestMask = _
      have hc : s.bestMask.count 1 = s.bestMask.length := by
        rw [hmax] at hcnt
        rw [hbl]
        exact_mod_cast hcnt.symm
      rw [List.eq_replicate_iff]
      refine ⟨hbl, fun b hb => ?_⟩
      exact ((List.count_eq_length.mp hc) b hb).symm
    · show s.trace = _
      rw [hsplit, hmax, hn0]
    · intro m' g' a' n' h
      have := hpre m' g' a' n' h
      omega

/-- C19: for `N > modelPoints >= 1`, the budget `cvRANSACUpdateNumIters` computes for the
outlier ratio `0` is `0`; and if a run of `runRANSAC` on inputs of equal sizes has, by the
time the fuel `f0` is used up, scored a candidate with all `N` correspondences as inliers,
then with any larger fuel the run returns, it returns true, the returned mask is all ones, and
the trace consists of candidates with fewer than `N` inliers, the adoption of the returned
model with `N` inliers and `niters = 0`, and nothing but scorings of the same trial: no call
of `getSubset` or `runKernel` follows. -/
theorem runRANSAC_perfect_consensus {P M R : Type} [LinearOrderedField R] [FloorRing R]
    [Inhabited P] (rd : Rounding R) (k : Kernel P M) (log : R → R) (rng : ℕ → ℕ)
    (m1 m2 : List P) (model : M) (mask : List ℕ) (reprojThreshold confidence : R)
    (maxIters : ℤ) (f0 : ℕ) (m : M) (a : Bool) (n : ℤ)
    (hsize : m1.length = m2.length ∧ m1.length = mask.length)
    (hN : k.modelPoints < m1.length) (hmp : 1 ≤ k.modelPoints)
    (hperfect : Event.scored m (m1.length : ℤ) a n ∈
      (CvModelEstimator2.ransacReached rd k log rng m1 m2 reprojThreshold confidence f0 0
        (CvModelEstimator2.ransacInit k m1 m2 model mask maxIters)).trace) :
    (∀ p : R, ∀ cap : ℤ, cvRANSACUpdateNumIters log p 0 k.modelPoints cap = .ok 0) ∧
    ∀ fuel, f0 < fuel →
      ∃ res, CvModelEstimator2.runRANSAC rd k log fuel rng m1 m2 model mask reprojThreshold
          confidence maxIters = .ok res ∧
        res.result = true ∧ res.mask = List.replicate m1.length 1 ∧
        ∃ pre post, res.trace = pre ++ Event.scored res.model (m1.length : ℤ) true 0 :: post ∧
          (∀ m' g' a' n', Event.scored m' g' a' n' ∈ pre → g' < (m1.length : ℤ)) ∧
          (∀ e ∈ post, e.isScored = true) ∧
          (∀ m' g' a' n', Event.scored m' g' a' n' ∈ post → a' = false) := by
  refine ⟨fun p cap => cvRANSACUpdateNumIters_zero_ratio log p _ cap hmp, ?_⟩
  intro fuel hfuel
  obtain ⟨s', ex, hloop, hmem⟩ := ransacLoop_of_reached k log rng m1 m2 reprojThreshold
    confidence m a n hmp hN.le f0 0 _ le_rfl
    (ransacInit_best k m1 m2 model mask reprojThreshold maxIters hsize.2) hperfect fuel hfuel
  have hrun : CvModelEstimator2.runRANSAC rd k log fuel rng m1 m2 model mask reprojThreshold
      confidence maxIters = .ok (CvModelEstimator2.ransacFinish s' ex) := by
    unfold CvModelEstimator2.runRANSAC
    rw [if_neg (not_not.mpr hsize), if_neg (by omega), hloop]
  refine ⟨_, hrun, ?_⟩
  exact runRANSAC_perfect_of_ok rd k log fuel rng m1 m2 model mask reprojThreshold confidence
    maxIters _ hN hmp hrun ⟨m, a, n, by rw [ransacFinish_trace]; exact hmem⟩
section ScoreSteps

variable {P M R : Type} [LinearOrderedField R] [FloorRing R]

/-- The scoring of a candidate with more inliers than the best one so far. -/
theorem ransacScore_adopt (rd : Rounding R) (k : Kernel P M) (log : R → R) (m1 m2 : List P)
    (reprojThreshold confidence : R) (s : CvModelEstimator2.RansacState P M R) (model_i : M)
    (g : ℤ) (errs : List CFloat) (flags : List ℕ) (nn : ℤ)
    (hin : CvModelEstimator2.findInliers rd k m1 m2 model_i s.tmask
      (Dbl.fin reprojThreshold) = (g, errs, flags))
    (hgood : g > max s.maxGoodCount (k.modelPoints - 1))
    (hupd : cvRANSACUpdateNumIters log confidence
      ((((m1.length : ℤ) - g : ℤ) : R) / ((m1.length : ℤ) : R)) k.modelPoints s.niters =
        .ok nn) :
    CvModelEstimator2.ransacScore rd k log m1 m2 reprojThreshold confidence s model_i =
      .ok { (s.writeTmask flags) with swapped := !s.swapped, model := model_i,
                                      maxGoodCount := g, niters := nn,
                                      trace := s.trace ++ [.scored model_i g true nn] } := by
  unfold CvModelEstimator2.ransacScore
  simp only [hin]
  rw [if_pos hgood, hupd]

/-- The scoring of a candidate with no more inliers than the best one so far. -/
theorem ransacScore_keep (rd : Rounding R) (k : Kernel P M) (log : R → R) (m1 m2 : List P)
    (reprojThreshold confidence : R) (s : CvModelEstimator2.RansacState P M R) (model_i : M)
    (g : ℤ) (errs : List CFloat) (flags : List ℕ)
    (hin : CvModelEstimator2.findInliers rd k m1 m2 model_i s.tmask
      (Dbl.fin reprojThreshold) = (g, errs, flags))
    (hbad : ¬ g > max s.maxGoodCount (k.modelPoints - 1)) :
    CvModelEstimator2.ransacScore rd k log m1 m2 reprojThreshold confidence s model_i =
      .ok { (s.writeTmask flags) with
              trace := s.trace ++ [.scored model_i g false s.niters] } := by
  unfold CvModelEstimator2.ransacScore
  simp only [hin]
  rw [if_neg hbad]

end ScoreSteps

theorem DBL_MIN_le_quarter : (DBL_MIN : ℝ) ≤ 1 / 4 := by
  unfold DBL_MIN
  apply one_div_le_one_div_of_le (by norm_num)
  have h : (2 : ℝ) ^ 2 ≤ 2 ^ 1022 := pow_le_pow_right₀ (by norm_num) (by norm_num)
  have h4 : (2 : ℝ) ^ 2 = 4 := by norm_num
  rw [h4] at h
  exact h

/-- With the cap `1`, the budget stays `1` when `1 - p` is at most
`1 - (1 - ep)^model_points`. -/
theorem cvRANSACUpdateNumIters_cap_one (p ep : ℝ) (mp : ℤ) (hmp : 1 ≤ mp)
    (hd : 1 / 4 ≤ denomArg ep mp) (hle : 1 - min (max p 0) 1 ≤ denomArg ep mp) :
    cvRANSACUpdateNumIters Real.log p ep mp 1 = .ok 1 := by
  have hd' : (DBL_MIN : ℝ) ≤ denomArg ep mp := le_trans DBL_MIN_le_quarter hd
  have hnum : numArg p ≤ denomArg ep mp := max_le hle hd'
  have hpos : 0 < numArg p := lt_of_lt_of_le DBL_MIN_pos (numArg_mem p).1
  have hlog := Real.log_le_log hpos hnum
  rw [cvRANSACUpdateNumIters_eq Real.log p ep 1 hmp, if_neg (not_lt.mpr hd'), if_pos]
  right
  push_cast
  linarith

theorem exampleKernel_zero_le_one : (((CFloat.zero.toRat : ℚ) : ℝ) ≤ 1) := by
  simp only [CFloat.toRat, CFloat.scaled, CFloat.zero]
  norm_num

theorem ieee_dbl_one_sq : (Rounding.ieee : Rounding ℝ).dbl ((1 : ℝ) * 1) = Dbl.fin 1 := by
  rw [mul_one]
  exact ieee_dbl_one

/-- The loop of `runRANSAC` over the reals with `maxIters = 5`: five correspondences whose
errors are all `0`, four model points.  The candidate of the first trial (the model `4`) has
five inliers, is adopted and sets `niters` to `0`; the loop ends after that trial. -/
theorem exampleLoop_ransac_perfect :
    CvModelEstimator2.ransacLoop Rounding.ieee exampleKernel Real.log (fun n => n)
        [0, 1, 2, 1, 0] [0, 1, 2, 1, 0] (1 : ℝ) (1 / 2) 10 0
        (CvModelEstimator2.ransacInit exampleKernel [0, 1, 2, 1, 0] [0, 1, 2, 1, 0] 77
          [9, 9, 9, 9, 9] 5) =
      .ok (⟨0, 5, 4, [9, 9, 9, 9, 9], [1, 1, 1, 1, 1], true, [0, 1, 2, 1], [0, 1, 2, 1], 4,
        [.subset true 4, .kernel [0, 1, 2, 1] [0, 1, 2, 1] 1, .scored 4 5 true 0]⟩,
        false) := by
  have hinit : (CvModelEstimator2.ransacInit exampleKernel [0, 1, 2, 1, 0] [0, 1, 2, 1, 0] 77
      [9, 9, 9, 9, 9] 5 : CvModelEstimator2.RansacState ℕ ℕ ℝ) =
      ⟨5, 0, 77, [9, 9, 9, 9, 9], [0, 0, 0, 0, 0], false, [0, 0, 0, 0], [0, 0, 0, 0], 0, []⟩ :=
    rfl
  have hsub : CvModelEstimator2.getSubset exampleKernel 9 (fun n => n) 0 [0, 1, 2, 1, 0]
      [0, 1, 2, 1, 0] [0, 0, 0, 0] [0, 0, 0, 0] 300 =
      some (true, ⟨4, 1, [0, 1, 2, 3], [0, 1, 2, 1], [0, 1, 2, 1], 4,
        [1, 1, 2, 2, 3, 3, 4, 4]⟩) := rfl
  have hin : CvModelEstimator2.findInliers Rounding.ieee exampleKernel [0, 1, 2, 1, 0]
      [0, 1, 2, 1, 0] 4 [0, 0, 0, 0, 0] (Dbl.fin (1 : ℝ)) =
      (5, exampleKernel.computeReprojError [0, 1, 2, 1, 0] [0, 1, 2, 1, 0] 4,
        [1, 1, 1, 1, 1]) := by
    have herr : exampleKernel.computeReprojError [0, 1, 2, 1, 0] [0, 1, 2, 1, 0] 4 =
        [CFloat.zero, CFloat.zero, CFloat.zero, CFloat.zero, CFloat.zero] := by decide
    rw [findInliers_of_sq _ _ _ _ _ _ 1 1 ieee_dbl_one_sq, herr]
    simp only [List.map, if_pos exampleKernel_zero_le_one]
    rfl
  have htrial : CvModelEstimator2.ransacTrial Rounding.ieee exampleKernel Real.log
      [0, 1, 2, 1, 0] [0, 1, 2, 1, 0] (1 : ℝ) (1 / 2)
      (⟨5, 0, 77, [9, 9, 9, 9, 9], [0, 0, 0, 0, 0], false, [0, 1, 2, 1], [0, 1, 2, 1], 4,
        [.subset true 4]⟩ : CvModelEstimator2.RansacState ℕ ℕ ℝ) =
      .ok ⟨0, 5, 4, [9, 9, 9, 9, 9], [1, 1, 1, 1, 1], true, [0, 1, 2, 1], [0, 1, 2, 1], 4,
        [.subset true 4, .kernel [0, 1, 2, 1] [0, 1, 2, 1] 1, .scored 4 5 true 0]⟩ := by
    have hk : exampleKernel.runKernel [0, 1, 2, 1] [0, 1, 2, 1] = (1, fun _ => 4) := rfl
    unfold CvModelEstimator2.ransacTrial
    simp only [hk]
    rw [if_neg (by decide)]
    show CvModelEstimator2.ransacModels Rounding.ieee exampleKernel Real.log [0, 1, 2, 1, 0]
      [0, 1, 2, 1, 0] 1 (1 / 2) (fun _ => 4) 1 0 _ = _
    unfold CvModelEstimator2.ransacModels CvModelEstimator2.ransacModels
    have hz : ((((([0, 1, 2, 1, 0] : List ℕ).length : ℤ) - 5 : ℤ) : ℝ) /
        (((([0, 1, 2, 1, 0] : List ℕ).length : ℤ) : ℤ) : ℝ)) = 0 := by norm_num
    have hupd : cvRANSACUpdateNumIters Real.log (1 / 2 : ℝ)
        ((((([0, 1, 2, 1, 0] : List ℕ).length : ℤ) - 5 : ℤ) : ℝ) /
          (((([0, 1, 2, 1, 0] : List ℕ).length : ℤ) : ℤ) : ℝ)) exampleKernel.modelPoints 5 =
        .ok 0 := by
      rw [hz]
      exact cvRANSACUpdateNumIters_zero_ratio Real.log (1 / 2) exampleKernel.modelPoints 5
        (by decide)
    rw [ransacScore_adopt Rounding.ieee exampleKernel Real.log _ _ 1 (1 / 2) _ 4 5 _
      [1, 1, 1, 1, 1] 0 hin (by decide) hupd]
    rfl
  rw [hinit, ransacLoop_sampled Rounding.ieee exampleKernel Real.log (fun n => n)
    [0, 1, 2, 1, 0] [0, 1, 2, 1, 0] (1 : ℝ) (1 / 2) 9 0
    (⟨5, 0, 77, [9, 9, 9, 9, 9], [0, 0, 0, 0, 0], false, [0, 0, 0, 0], [0, 0, 0, 0], 0, []⟩ :
      CvModelEstimator2.RansacState ℕ ℕ ℝ) _ _ (by decide) (by decide) hsub htrial]
  exact ransacLoop_done Rounding.ieee exampleKernel Real.log (fun n => n) [0, 1, 2, 1, 0]
    [0, 1, 2, 1, 0] (1 : ℝ) (1 / 2) 8 (0 + 1) _ (by decide)

/-- The run of `runRANSAC` whose loop is `exampleLoop_ransac_perfect`: it returns true after
the first trial. -/
theorem exampleRun_ransac_perfect :
    CvModelEstimator2.runRANSAC Rounding.ieee exampleKernel Real.log 10 (fun n => n)
        [0, 1, 2, 1, 0] [0, 1, 2, 1, 0] 77 [9, 9, 9, 9, 9] (1 : ℝ) (1 / 2) 5 =
      .ok ⟨true, 4, [1, 1, 1, 1, 1],
        [.subset true 4, .kernel [0, 1, 2, 1] [0, 1, 2, 1] 1, .scored 4 5 true 0], 4⟩ := by
  unfold CvModelEstimator2.runRANSAC
  rw [if_neg (by decide), if_neg (by decide), exampleLoop_ransac_perfect]
  rfl

theorem rankedKernel_three_not_le_one :
    ¬ ((((⟨false, 1077936128, by decide⟩ : CFloat).toRat : ℚ) : ℝ) ≤ 1) := by
  simp only [CFloat.toRat, CFloat.scaled]
  norm_num

/-- A run of `runRANSAC` over the reals in IEEE 754 arithmetic with `maxIters = 1`: the fit of
`rankedKernel` yields four candidates with `3, 4, 4, 2` inliers among the five
correspondences.  The first is adopted, the second replaces it, the third, which ties with the
second, and the fourth are not adopted; the mask matrices are swapped twice, and the run
returns true with the second candidate and its inlier flags. -/
theorem exampleRun_ransac_ranked :
    CvModelEstimator2.runRANSAC Rounding.ieee rankedKernel Real.log 10 (fun n => n)
        [0, 1, 2, 3, 4] [0, 1, 2, 3, 4] 77 [9, 9, 9, 9, 9] (1 : ℝ) (99 / 100) 1 =
      .ok ⟨true, 1, [1, 1, 1, 1, 0],
        [.subset true 2, .kernel [0, 1] [0, 1] 4, .scored 0 3 true 1, .scored 1 4 true 1,
          .scored 2 4 false 1, .scored 3 2 false 1], 2⟩ := by
  have hinit : (CvModelEstimator2.ransacInit rankedKernel [0, 1, 2, 3, 4] [0, 1, 2, 3, 4] 77
      [9, 9, 9, 9, 9] 1 : CvModelEstimator2.RansacState ℕ ℕ ℝ) =
      ⟨1, 0, 77, [9, 9, 9, 9, 9], [0, 0, 0, 0, 0], false, [0, 0], [0, 0], 0, []⟩ := rfl
  have hsub : CvModelEstimator2.getSubset rankedKernel 9 (fun n => n) 0 [0, 1, 2, 3, 4]
      [0, 1, 2, 3, 4] [0, 0] [0, 0] 300 =
      some (true, ⟨2, 1, [0, 1], [0, 1], [0, 1], 2, [1, 1, 2, 2]⟩) := rfl
  have hin : ∀ (model : ℕ) (flags : List ℕ) (buf : List ℕ) (g : ℤ),
      (rankedKernel.computeReprojError [0, 1, 2, 3, 4] [0, 1, 2, 3, 4] model).map
        (fun e => if ((e.toRat : ℚ) : ℝ) ≤ 1 then (1 : ℕ) else 0) = flags →
      ((flags.count 1 : ℕ) : ℤ) = g → buf.length = 5 →
      CvModelEstimator2.findInliers Rounding.ieee rankedKernel [0, 1, 2, 3, 4] [0, 1, 2, 3, 4]
        model buf (Dbl.fin (1 : ℝ)) =
      (g, rankedKernel.computeReprojError [0, 1, 2, 3, 4] [0, 1, 2, 3, 4] model, flags) := by
    intro model flags buf g hf hg hb
    rw [findInliers_of_sq _ _ _ _ _ _ 1 1 ieee_dbl_one_sq, hf, hg,
      List.drop_of_length_le (by rw [hb]; rfl), List.append_nil]
  have hf0 : (rankedKernel.computeReprojError [0, 1, 2, 3, 4] [0, 1, 2, 3, 4] 0).map
      (fun e => if ((e.toRat : ℚ) : ℝ) ≤ 1 then (1 : ℕ) else 0) = [1, 1, 1, 0, 0] := by
    have herr : rankedKernel.computeReprojError [0, 1, 2, 3, 4] [0, 1, 2, 3, 4] 0 =
        [CFloat.zero, CFloat.zero, CFloat.zero, ⟨false, 1077936128, by decide⟩,
          ⟨false, 1077936128, by decide⟩] := by decide
    rw [herr]
    simp only [List.map, if_pos exampleKernel_zero_le_one,
      if_neg rankedKernel_three_not_le_one]
  have hf1 : ∀ model : ℕ, model = 1 ∨ model = 2 →
      (rankedKernel.computeReprojError [0, 1, 2, 3, 4] [0, 1, 2, 3, 4] model).map
      (fun e => if ((e.toRat : ℚ) : ℝ) ≤ 1 then (1 : ℕ) else 0) = [1, 1, 1, 1, 0] := by
    intro model hm
    have herr : rankedKernel.computeReprojError [0, 1, 2, 3, 4] [0, 1, 2, 3, 4] model =
        [CFloat.zero, CFloat.zero, CFloat.zero, CFloat.zero,
          ⟨false, 1077936128, by decide⟩] := by
      rcases hm with h | h <;> subst h <;> decide
    rw [herr]
    simp only [List.map, if_pos exampleKernel_zero_le_one,
      if_neg rankedKernel_three_not_le_one]
  have hf3 : (rankedKernel.computeReprojError [0, 1, 2, 3, 4] [0, 1, 2, 3, 4] 3).map
      (fun e => if ((e.toRat : ℚ) : ℝ) ≤ 1 then (1 : ℕ) else 0) = [1, 1, 0, 0, 0] := by
    have herr : rankedKernel.computeReprojError [0, 1, 2, 3, 4] [0, 1, 2, 3, 4] 3 =
        [CFloat.zero, CFloat.zero, ⟨false, 1077936128, by decide⟩,
          ⟨false, 1077936128, by decide⟩, ⟨false, 1077936128, by decide⟩] := by decide
    rw [herr]
    simp only [List.map, if_pos exampleKernel_zero_le_one,
      if_neg rankedKernel_three_not_le_one]
  have hu0 : cvRANSACUpdateNumIters Real.log (99 / 100 : ℝ)
      (((((([0, 1, 2, 3, 4] : List ℕ).length : ℤ) - 3 : ℤ) : ℝ)) /
        (((([0, 1, 2, 3, 4] : List ℕ).length : ℤ)) : ℝ)) rankedKernel.modelPoints 1 =
      .ok 1 := by
    apply cvRANSACUpdateNumIters_cap_one _ _ _ (by decide)
    · unfold denomArg
      simp only [rankedKernel, List.length_cons, List.length_nil]
      norm_num
    · unfold denomArg
      simp only [rankedKernel, List.length_cons, List.length_nil]
      norm_num
  have hu1 : cvRANSACUpdateNumIters Real.log (99 / 100 : ℝ)
      (((((([0, 1, 2, 3, 4] : List ℕ).length : ℤ) - 4 : ℤ) : ℝ)) /
        (((([0, 1, 2, 3, 4] : List ℕ).length : ℤ)) : ℝ)) rankedKernel.modelPoints 1 =
      .ok 1 := by
    apply cvRANSACUpdateNumIters_cap_one _ _ _ (by decide)
    · unfold denomArg
      simp only [rankedKernel, List.length_cons, List.length_nil]
      norm_num
    · unfold denomArg
      simp only [rankedKernel, List.length_cons, List.length_nil]
      norm_num
  have hs0 : CvModelEstimator2.ransacScore Rounding.ieee rankedKernel Real.log
      [0, 1, 2, 3, 4] [0, 1, 2, 3, 4] (1 : ℝ) (99 / 100)
      (⟨1, 0, 77, [9, 9, 9, 9, 9], [0, 0, 0, 0, 0], false, [0, 1], [0, 1], 2,
        [.subset true 2, .kernel [0, 1] [0, 1] 4]⟩ : CvModelEstimator2.RansacState ℕ ℕ ℝ) 0 =
      .ok ⟨1, 3, 0, [9, 9, 9, 9, 9], [1, 1, 1, 0, 0], true, [0, 1], [0, 1], 2,
        [.subset true 2, .kernel [0, 1] [0, 1] 4, .scored 0 3 true 1]⟩ := by
    rw [ransacScore_adopt Rounding.ieee rankedKernel Real.log _ _ 1 (99 / 100) 
      (⟨1, 0, 77, [9, 9, 9, 9, 9], [0, 0, 0, 0, 0], false, [0, 1], [0, 1], 2,
        [.subset true 2, .kernel [0, 1] [0, 1] 4]⟩ : CvModelEstimator2.RansacState ℕ ℕ ℝ)
      0 3 _
      [1, 1, 1, 0, 0] 1 (hin 0 _ [0, 0, 0, 0, 0] 3 hf0 rfl rfl) (by decide) hu0]
    rfl
  have hs1 : CvModelEstimator2.ransacScore Rounding.ieee rankedKernel Real.log
      [0, 1, 2, 3, 4] [0, 1, 2, 3, 4] (1 : ℝ) (99 / 100)
      (⟨1, 3, 0, [9, 9, 9, 9, 9], [1, 1, 1, 0, 0], true, [0, 1], [0, 1], 2,
        [.subset true 2, .kernel [0, 1] [0, 1] 4, .scored 0 3 true 1]⟩ :
        CvModelEstimator2.RansacState ℕ ℕ ℝ) 1 =
      .ok ⟨1, 4, 1, [1, 1, 1, 1, 0], [1, 1, 1, 0, 0], false, [0, 1], [0, 1], 2,
        [.subset true 2, .kernel [0, 1] [0, 1] 4, .scored 0 3 true 1,
          .scored 1 4 true 1]⟩ := by
    rw [ransacScore_adopt Rounding.ieee rankedKernel Real.log _ _ 1 (99 / 100) 
      (⟨1, 3, 0, [9, 9, 9, 9, 9], [1, 1, 1, 0, 0], true, [0, 1], [0, 1], 2,
        [.subset true 2, .kernel [0, 1] [0, 1] 4, .scored 0 3 true 1]⟩ : CvModelEstimator2.RansacState ℕ ℕ ℝ)
      1 4 _
      [1, 1, 1, 1, 0] 1 (hin 1 _ [9, 9, 9, 9, 9] 4 (hf1 1 (Or.inl rfl)) rfl rfl) (by decide) hu1]
    rfl
  have hs2 : CvModelEstimator2.ransacScore Rounding.ieee rankedKernel Real.log
      [0, 1, 2, 3, 4] [0, 1, 2, 3, 4] (1 : ℝ) (99 / 100)
      (⟨1, 4, 1, [1, 1, 1, 1, 0], [1, 1, 1, 0, 0], false, [0, 1], [0, 1], 2,
        [.subset true 2, .kernel [0, 1] [0, 1] 4, .scored 0 3 true 1,
          .scored 1 4 true 1]⟩ : CvModelEstimator2.RansacState ℕ ℕ ℝ) 2 =
      .ok ⟨1, 4, 1, [1, 1, 1, 1, 0], [1, 1, 1, 1, 0], false, [0, 1], [0, 1], 2,
        [.subset true 2, .kernel [0, 1] [0, 1] 4, .scored 0 3 true 1, .scored 1 4 true 1,
          .scored 2 4 false 1]⟩ := by
    rw [ransacScore_keep Rounding.ieee rankedKernel Real.log _ _ 1 (99 / 100) 
      (⟨1, 4, 1, [1, 1, 1, 1, 0], [1, 1, 1, 0, 0], false, [0, 1], [0, 1], 2,
        [.subset true 2, .kernel [0, 1] [0, 1] 4, .scored 0 3 true 1,
          .scored 1 4 true 1]⟩ : CvModelEstimator2.RansacState ℕ ℕ ℝ)
      2 4 _
      [1, 1, 1, 1, 0] (hin 2 _ [1, 1, 1, 0, 0] 4 (hf1 2 (Or.inr rfl)) rfl rfl) (by decide)]
    rfl
  have hs3 : CvModelEstimator2.ransacScore Rounding.ieee rankedKernel Real.log
      [0, 1, 2, 3, 4] [0, 1, 2, 3, 4] (1 : ℝ) (99 / 100)
      (⟨1, 4, 1, [1, 1, 1, 1, 0], [1, 1, 1, 1, 0], false, [0, 1], [0, 1], 2,
        [.subset true 2, .kernel [0, 1] [0, 1] 4, .scored 0 3 true 1, .scored 1 4 true 1,
          .scored 2 4 false 1]⟩ : CvModelEstimator2.RansacState ℕ ℕ ℝ) 3 =
      .ok ⟨1, 4, 1, [1, 1, 1, 1, 0], [1, 1, 0, 0, 0], false, [0, 1], [0, 1], 2,
        [.subset true 2, .kernel [0, 1] [0, 1] 4, .scored 0 3 true 1, .scored 1 4 true 1,
          .scored 2 4 false 1, .scored 3 2 false 1]⟩ := by
    rw [ransacScore_keep Rounding.ieee rankedKernel Real.log _ _ 1 (99 / 100) 
      (⟨1, 4, 1, [1, 1, 1, 1, 0], [1, 1, 1, 1, 0], false, [0, 1], [0, 1], 2,
        [.subset true 2, .kernel [0, 1] [0, 1] 4, .scored 0 3 true 1, .scored 1 4 true 1,
          .scored 2 4 false 1]⟩ : CvModelEstimator2.RansacState ℕ ℕ ℝ)
      3 2 _
      [1, 1, 0, 0, 0] (hin 3 _ [1, 1, 1, 1, 0] 2 hf3 rfl rfl) (by decide)]
    rfl
  have htrial : CvModelEstimator2.ransacTrial Rounding.ieee rankedKernel Real.log
      [0, 1, 2, 3, 4] [0, 1, 2, 3, 4] (1 : ℝ) (99 / 100)
      (⟨1, 0, 77, [9, 9, 9, 9, 9], [0, 0, 0, 0, 0], false, [0, 1], [0, 1], 2,
        [.subset true 2]⟩ : CvModelEstimator2.RansacState ℕ ℕ ℝ) =
      .ok ⟨1, 4, 1, [1, 1, 1, 1, 0], [1, 1, 0, 0, 0], false, [0, 1], [0, 1], 2,
        [.subset true 2, .kernel [0, 1] [0, 1] 4, .scored 0 3 true 1, .scored 1 4 true 1,
          .scored 2 4 false 1, .scored 3 2 false 1]⟩ := by
    have hk : rankedKernel.runKernel [0, 1] [0, 1] = (4, fun i => i) := rfl
    unfold CvModelEstimator2.ransacTrial
    simp only [hk]
    rw [if_neg (by decide)]
    show CvModelEstimator2.ransacModels Rounding.ieee rankedKernel Real.log [0, 1, 2, 3, 4]
      [0, 1, 2, 3, 4] 1 (99 / 100) (fun i => i) 4 0
      (⟨1, 0, 77, [9, 9, 9, 9, 9], [0, 0, 0, 0, 0], false, [0, 1], [0, 1], 2,
        [.subset true 2, .kernel [0, 1] [0, 1] 4]⟩ : CvModelEstimator2.RansacState ℕ ℕ ℝ) = _
    unfold CvModelEstimator2.ransacModels
    simp only [hs0]
    unfold CvModelEstimator2.ransacModels
    simp only [Nat.zero_add, hs1]
    unfold CvModelEstimator2.ransacModels
    simp only [Nat.reduceAdd, hs2]
    unfold CvModelEstimator2.ransacModels
    simp only [Nat.reduceAdd, hs3]
    rfl
  unfold CvModelEstimator2.runRANSAC
  rw [if_neg (by decide), if_neg (by decide), hinit,
    ransacLoop_sampled Rounding.ieee rankedKernel Real.log (fun n => n)
      [0, 1, 2, 3, 4] [0, 1, 2, 3, 4] (1 : ℝ) (99 / 100) 9 0
      (⟨1, 0, 77, [9, 9, 9, 9, 9], [0, 0, 0, 0, 0], false, [0, 0], [0, 0], 0, []⟩ :
        CvModelEstimator2.RansacState ℕ ℕ ℝ) _ _ (by decide) (by decide) hsub htrial,
    ransacLoop_done Rounding.ieee rankedKernel Real.log (fun n => n) [0, 1, 2, 3, 4]
      [0, 1, 2, 3, 4] (1 : ℝ) (99 / 100) 8 (0 + 1) _ (by decide)]
  rfl


/-- A run of `runRANSAC` over the reals in IEEE 754 arithmetic with the threshold
`31.622776601683793`, whose `double` square is `1000`: the five errors `0, 0, 0, 1000, 1000`
of the candidate of the first trial (the model `6`) are all inliers, and the run returns true
with the mask all ones. -/
theorem exampleRun_ransac_rounded :
    CvModelEstimator2.runRANSAC Rounding.ieee exampleKernel Real.log 10 (fun n => n)
        [0, 1, 2, 3, 4] [0, 1, 2, 3, 4] 77 [9, 9, 9, 9, 9]
        (8901020307485223 / 281474976710656 : ℝ) (1 / 2) 5 =
      .ok ⟨true, 6, [1, 1, 1, 1, 1],
        [.subset true 4, .kernel [0, 1, 2, 3] [0, 1, 2, 3] 1, .scored 6 5 true 0], 4⟩ := by
  have hinit : (CvModelEstimator2.ransacInit exampleKernel [0, 1, 2, 3, 4] [0, 1, 2, 3, 4] 77
      [9, 9, 9, 9, 9] 5 : CvModelEstimator2.RansacState ℕ ℕ ℝ) =
      ⟨5, 0, 77, [9, 9, 9, 9, 9], [0, 0, 0, 0, 0], false, [0, 0, 0, 0], [0, 0, 0, 0], 0, []⟩ :=
    rfl
  have hsub : CvModelEstimator2.getSubset exampleKernel 9 (fun n => n) 0 [0, 1, 2, 3, 4]
      [0, 1, 2, 3, 4] [0, 0, 0, 0] [0, 0, 0, 0] 300 =
      some (true, ⟨4, 1, [0, 1, 2, 3], [0, 1, 2, 3], [0, 1, 2, 3], 4,
        [1, 1, 2, 2, 3, 3, 4, 4]⟩) := rfl
  have hin : CvModelEstimator2.findInliers Rounding.ieee exampleKernel [0, 1, 2, 3, 4]
      [0, 1, 2, 3, 4] 6 [0, 0, 0, 0, 0]
      (Dbl.fin (8901020307485223 / 281474976710656 : ℝ)) =
      (5, exampleKernel.computeReprojError [0, 1, 2, 3, 4] [0, 1, 2, 3, 4] 6,
        [1, 1, 1, 1, 1]) := by
    have herr : exampleKernel.computeReprojError [0, 1, 2, 3, 4] [0, 1, 2, 3, 4] 6 =
        [CFloat.zero, CFloat.zero, CFloat.zero, ⟨false, 1148846080, by decide⟩,
          ⟨false, 1148846080, by decide⟩] := by decide
    have hbig : ((((⟨false, 1148846080, by decide⟩ : CFloat).toRat : ℚ) : ℝ)) ≤ 1000 := by
      simp only [CFloat.toRat, CFloat.scaled]
      norm_num
    have hzero : ((CFloat.zero.toRat : ℚ) : ℝ) ≤ 1000 := by
      simp [CFloat.zero, CFloat.toRat, CFloat.scaled]
    rw [findInliers_of_sq _ _ _ _ _ _ _ 1000 ieee_dbl_sq_threshold.2, herr]
    simp only [List.map, if_pos hzero, if_pos hbig]
    rfl
  have htrial : CvModelEstimator2.ransacTrial Rounding.ieee exampleKernel Real.log
      [0, 1, 2, 3, 4] [0, 1, 2, 3, 4] (8901020307485223 / 281474976710656 : ℝ) (1 / 2)
      (⟨5, 0, 77, [9, 9, 9, 9, 9], [0, 0, 0, 0, 0], false, [0, 1, 2, 3], [0, 1, 2, 3], 4,
        [.subset true 4]⟩ : CvModelEstimator2.RansacState ℕ ℕ ℝ) =
      .ok ⟨0, 5, 6, [9, 9, 9, 9, 9], [1, 1, 1, 1, 1], true, [0, 1, 2, 3], [0, 1, 2, 3], 4,
        [.subset true 4, .kernel [0, 1, 2, 3] [0, 1, 2, 3] 1, .scored 6 5 true 0]⟩ := by
    have hk : exampleKernel.runKernel [0, 1, 2, 3] [0, 1, 2, 3] = (1, fun _ => 6) := rfl
    unfold CvModelEstimator2.ransacTrial
    simp only [hk]
    rw [if_neg (by decide)]
    show CvModelEstimator2.ransacModels Rounding.ieee exampleKernel Real.log [0, 1, 2, 3, 4]
      [0, 1, 2, 3, 4] (8901020307485223 / 281474976710656 : ℝ) (1 / 2) (fun _ => 6) 1 0 _ = _
    unfold CvModelEstimator2.ransacModels CvModelEstimator2.ransacModels
    have hz : ((((([0, 1, 2, 3, 4] : List ℕ).length : ℤ) - 5 : ℤ) : ℝ) /
        (((([0, 1, 2, 3, 4] : List ℕ).length : ℤ) : ℤ) : ℝ)) = 0 := by norm_num
    have hupd : cvRANSACUpdateNumIters Real.log (1 / 2 : ℝ)
        ((((([0, 1, 2, 3, 4] : List ℕ).length : ℤ) - 5 : ℤ) : ℝ) /
          (((([0, 1, 2, 3, 4] : List ℕ).length : ℤ) : ℤ) : ℝ)) exampleKernel.modelPoints 5 =
        .ok 0 := by
      rw [hz]
      exact cvRANSACUpdateNumIters_zero_ratio Real.log (1 / 2) exampleKernel.modelPoints 5
        (by decide)
    rw [ransacScore_adopt Rounding.ieee exampleKernel Real.log _ _
      (8901020307485223 / 281474976710656 : ℝ) (1 / 2) _ 6 5 _ [1, 1, 1, 1, 1] 0 hin
      (by decide) hupd]
    rfl
  unfold CvModelEstimator2.runRANSAC
  rw [if_neg (by decide), if_neg (by decide), hinit,
    ransacLoop_sampled Rounding.ieee exampleKernel Real.log (fun n => n)
      [0, 1, 2, 3, 4] [0, 1, 2, 3, 4] (8901020307485223 / 281474976710656 : ℝ) (1 / 2) 9 0
      (⟨5, 0, 77, [9, 9, 9, 9, 9], [0, 0, 0, 0, 0], false, [0, 0, 0, 0], [0, 0, 0, 0], 0,
        []⟩ : CvModelEstimator2.RansacState ℕ ℕ ℝ) _ _ (by decide) (by decide) hsub htrial,
    ransacLoop_done Rounding.ieee exampleKernel Real.log (fun n => n) [0, 1, 2, 3, 4]
      [0, 1, 2, 3, 4] (8901020307485223 / 281474976710656 : ℝ) (1 / 2) 8 (0 + 1) _
      (by decide)]
  rfl

/-- C11, as stated, fails: in the run `exampleRun_ransac_rounded` the threshold is
`31.622776601683793`, `runRANSAC` returns true with the model `6` and the mask all ones, and
the error `1000` of that model at the correspondence `3` is above the square of the
threshold: the flag is `1` because the `double` product `reprojThreshold * reprojThreshold`
is `1000`. -/
theorem runRANSAC_mask_rounds_square :
    CvModelEstimator2.runRANSAC Rounding.ieee exampleKernel Real.log 10 (fun n => n)
        [0, 1, 2, 3, 4] [0, 1, 2, 3, 4] 77 [9, 9, 9, 9, 9]
        (8901020307485223 / 281474976710656 : ℝ) (1 / 2) 5 =
      .ok ⟨true, 6, [1, 1, 1, 1, 1],
        [.subset true 4, .kernel [0, 1, 2, 3] [0, 1, 2, 3] 1, .scored 6 5 true 0], 4⟩ ∧
    ([1, 1, 1, 1, 1] : List ℕ).getD 3 0 = 1 ∧
    ¬ (((((exampleKernel.computeReprojError [0, 1, 2, 3, 4] [0, 1, 2, 3, 4] 6).getD 3
        default).toRat : ℚ) : ℝ) ≤
      (8901020307485223 / 281474976710656 : ℝ) * (8901020307485223 / 281474976710656)) := by
  refine ⟨exampleRun_ransac_rounded, rfl, ?_⟩
  have herr : exampleKernel.computeReprojError [0, 1, 2, 3, 4] [0, 1, 2, 3, 4] 6 =
      [CFloat.zero, CFloat.zero, CFloat.zero, ⟨false, 1148846080, by decide⟩,
        ⟨false, 1148846080, by decide⟩] := by decide
  have hbig : ((((⟨false, 1148846080, by decide⟩ : CFloat).toRat : ℚ) : ℝ)) = 1000 := by
    simp only [CFloat.toRat, CFloat.scaled]
    norm_num
  rw [herr]
  show ¬ ((((⟨false, 1148846080, by decide⟩ : CFloat).toRat : ℚ) : ℝ)) ≤ _
  rw [hbig]
  exact not_le.mpr ieee_dbl_sq_threshold.1

/-- Witness for C11 (amended): the run `exampleRun_ransac_ranked`, which scores four candidates, swaps
the mask matrices at the two adoptions and returns true with the mask `1,1,1,1,0` of the
candidate `1`: the error `3` of the last correspondence exceeds the product `1 * 1`, which the
`double` arithmetic computes exactly. -/
theorem runRANSAC_true_mask_witness :
    CvModelEstimator2.runRANSAC Rounding.ieee rankedKernel Real.log 10 (fun n => n)
        [0, 1, 2, 3, 4] [0, 1, 2, 3, 4] 77 [9, 9, 9, 9, 9] (1 : ℝ) (99 / 100) 1 =
      .ok ⟨true, 1, [1, 1, 1, 1, 0],
        [.subset true 2, .kernel [0, 1] [0, 1] 4, .scored 0 3 true 1, .scored 1 4 true 1,
          .scored 2 4 false 1, .scored 3 2 false 1], 2⟩ ∧
    (([1, 1, 1, 1, 0] : List ℕ).length = ([0, 1, 2, 3, 4] : List ℕ).length ∧
    (∀ i, i < ([0, 1, 2, 3, 4] : List ℕ).length →
      ((([1, 1, 1, 1, 0] : List ℕ).getD i 0 = 1 ↔
        Dbl.le
          (Dbl.fin ((((rankedKernel.computeReprojError [0, 1, 2, 3, 4] [0, 1, 2, 3, 4]
            1).getD i default).toRat : ℚ) : ℝ))
          (Rounding.ieee.dbl ((1 : ℝ) * 1)) = true) ∧
      (([1, 1, 1, 1, 0] : List ℕ).getD i 0 = 0 ↔
        ¬ Dbl.le
          (Dbl.fin ((((rankedKernel.computeReprojError [0, 1, 2, 3, 4] [0, 1, 2, 3, 4]
            1).getD i default).toRat : ℚ) : ℝ))
          (Rounding.ieee.dbl ((1 : ℝ) * 1)) = true))) ∧
    rankedKernel.modelPoints ≤ (((([1, 1, 1, 1, 0] : List ℕ).count 1 : ℕ)) : ℤ) ∧
    (∀ sq : ℝ, Rounding.ieee.dbl ((1 : ℝ) * 1) = Dbl.fin sq →
      ∀ i, i < ([0, 1, 2, 3, 4] : List ℕ).length →
        (([1, 1, 1, 1, 0] : List ℕ).getD i 0 = 1 ↔
          ((((rankedKernel.computeReprojError [0, 1, 2, 3, 4] [0, 1, 2, 3, 4]
            1).getD i default).toRat : ℚ) : ℝ) ≤ sq))) :=
  ⟨exampleRun_ransac_ranked,
    runRANSAC_true_mask Rounding.ieee rankedKernel Real.log 10 (fun n => n) [0, 1, 2, 3, 4]
      [0, 1, 2, 3, 4] 77 [9, 9, 9, 9, 9] (1 : ℝ) (99 / 100) 1 _ exampleRun_ransac_ranked rfl⟩

/-- Witness for C14: the run `exampleRun_ransac_ranked`, whose candidates have `3`, `4`, `4`
and `2` inliers; the first two are adopted, the third ties with the best and is not, and the
returned model is the candidate `1`. -/
theorem runRANSAC_true_best_witness :
    CvModelEstimator2.runRANSAC Rounding.ieee rankedKernel Real.log 10 (fun n => n)
        [0, 1, 2, 3, 4] [0, 1, 2, 3, 4] 77 [9, 9, 9, 9, 9] (1 : ℝ) (99 / 100) 1 =
      .ok ⟨true, 1, [1, 1, 1, 1, 0],
        [.subset true 2, .kernel [0, 1] [0, 1] 4, .scored 0 3 true 1, .scored 1 4 true 1,
          .scored 2 4 false 1, .scored 3 2 false 1], 2⟩ ∧
    ((∃ pre post g n,
      ([.subset true 2, .kernel [0, 1] [0, 1] 4, .scored 0 3 true 1, .scored 1 4 true 1,
          .scored 2 4 false 1, .scored 3 2 false 1] : List (Event ℕ ℕ ℝ)) =
        pre ++ Event.scored (1 : ℕ) g true n :: post ∧
      (∀ m' g' a' n', Event.scored m' g' a' n' ∈ pre → g' < g) ∧
      (∀ m' g' a' n', Event.scored m' g' a' n' ∈ post → g' ≤ g ∧ a' = false)) ∧
    StrictAdoptions
      ([.subset true 2, .kernel [0, 1] [0, 1] 4, .scored 0 3 true 1, .scored 1 4 true 1,
          .scored 2 4 false 1, .scored 3 2 false 1] : List (Event ℕ ℕ ℝ))) :=
  ⟨exampleRun_ransac_ranked,
    runRANSAC_true_best Rounding.ieee rankedKernel Real.log 10 (fun n => n) [0, 1, 2, 3, 4]
      [0, 1, 2, 3, 4] 77 [9, 9, 9, 9, 9] (1 : ℝ) (99 / 100) 1 _ exampleRun_ransac_ranked rfl⟩

/-- Witness for C19: the run of `exampleLoop_ransac_perfect` with `maxIters = 5`, whose first
candidate has all five correspondences as inliers by the time the fuel `10` is used up: with
every larger fuel the run returns true with the mask all ones. -/
theorem runRANSAC_perfect_consensus_witness :
    Event.scored (4 : ℕ) (([0, 1, 2, 1, 0] : List ℕ).length : ℤ) true 0 ∈
      (CvModelEstimator2.ransacReached Rounding.ieee exampleKernel Real.log (fun n => n)
        [0, 1, 2, 1, 0] [0, 1, 2, 1, 0] (1 : ℝ) (1 / 2) 10 0
        (CvModelEstimator2.ransacInit exampleKernel [0, 1, 2, 1, 0] [0, 1, 2, 1, 0] 77
          [9, 9, 9, 9, 9] 5)).trace ∧
    ((∀ p : ℝ, ∀ cap : ℤ,
      cvRANSACUpdateNumIters Real.log p 0 exampleKernel.modelPoints cap = .ok 0) ∧
    ∀ fuel, 10 < fuel →
      ∃ res, CvModelEstimator2.runRANSAC Rounding.ieee exampleKernel Real.log fuel (fun n => n)
          [0, 1, 2, 1, 0] [0, 1, 2, 1, 0] 77 [9, 9, 9, 9, 9] (1 : ℝ) (1 / 2) 5 = .ok res ∧
        res.result = true ∧ res.mask = List.replicate ([0, 1, 2, 1, 0] : List ℕ).length 1 ∧
        ∃ pre post, res.trace =
            pre ++ Event.scored res.model (([0, 1, 2, 1, 0] : List ℕ).length : ℤ) true 0 ::
              post ∧
          (∀ m' g' a' n', Event.scored m' g' a' n' ∈ pre →
            g' < (([0, 1, 2, 1, 0] : List ℕ).length : ℤ)) ∧
          (∀ e ∈ post, e.isScored = true) ∧
          (∀ m' g' a' n', Event.scored m' g' a' n' ∈ post → a' = false)) :=
  have hperf : Event.scored (4 : ℕ) (([0, 1, 2, 1, 0] : List ℕ).length : ℤ) true 0 ∈
      (CvModelEstimator2.ransacReached Rounding.ieee exampleKernel Real.log (fun n => n)
        [0, 1, 2, 1, 0] [0, 1, 2, 1, 0] (1 : ℝ) (1 / 2) 10 0
        (CvModelEstimator2.ransacInit exampleKernel [0, 1, 2, 1, 0] [0, 1, 2, 1, 0] 77
          [9, 9, 9, 9, 9] 5)).trace := by
    rw [ransacReached_of_loop exampleKernel Real.log (fun n => n) [0, 1, 2, 1, 0]
      [0, 1, 2, 1, 0] (1 : ℝ) (1 / 2) 10 0 _ _ _ exampleLoop_ransac_perfect]
    simp
  ⟨hperf, runRANSAC_perfect_consensus Rounding.ieee exampleKernel Real.log (fun n => n)
    [0, 1, 2, 1, 0] [0, 1, 2, 1, 0] 77 [9, 9, 9, 9, 9] (1 : ℝ) (1 / 2) 5 10 4 true 0
    ⟨rfl, rfl⟩ (by decide) (by decide) hperf⟩
/-! ## The number of kernel calls and the iteration budget -/

section CasesLemmas

variable {P M R : Type} [LinearOrderedField R] [FloorRing R] [Inhabited P] {rd : Rounding R}

/-- A completed call of `runRANSAC` either returned at once, because there are fewer
correspondences than model points, or ran its loop to the end. -/
theorem runRANSAC_cases (k : Kernel P M) (log : R → R) (fuel : ℕ) (rng : ℕ → ℕ)
    (m1 m2 : List P) (model : M) (mask : List ℕ) (reprojThreshold confidence : R)
    (maxIters : ℤ) (res : RunResult P M R)
    (hrun : CvModelEstimator2.runRANSAC rd k log fuel rng m1 m2 model mask reprojThreshold
      confidence maxIters = .ok res) :
    (res = ⟨false, model, mask, [], 0⟩) ∨
    ∃ (s : CvModelEstimator2.RansacState P M R) (exited : Bool),
      CvModelEstimator2.ransacLoop rd k log rng m1 m2 reprojThreshold confidence fuel 0
        (CvModelEstimator2.ransacInit k m1 m2 model mask maxIters) = .ok (s, exited) ∧
      res = CvModelEstimator2.ransacFinish s exited := by
  unfold CvModelEstimator2.runRANSAC at hrun
  by_cases hsize : ¬(m1.length = m2.length ∧ m1.length = mask.length)
  · rw [if_pos hsize] at hrun
    cases hrun
  · rw [if_neg hsize] at hrun
    by_cases hshort : (m1.length : ℤ) < k.modelPoints
    · rw [if_pos hshort] at hrun
      cases hrun
      exact Or.inl rfl
    · rw [if_neg hshort] at hrun
      right
      cases hloop : CvModelEstimator2.ransacLoop rd k log rng m1 m2 reprojThreshold confidence
          fuel 0 (CvModelEstimator2.ransacInit k m1 m2 model mask maxIters) with
      | error e =>
        rw [hloop] at hrun
        cases hrun
      | ok r =>
        obtain ⟨s, exited⟩ := r
        rw [hloop] at hrun
        simp only [Except.ok.injEq] at hrun
        exact ⟨s, exited, rfl, hrun.symm⟩

/-- A completed call of `runLMeDS` either returned at once, because there are fewer
correspondences than model points, or ran its loop to the end. -/
theorem runLMeDS_cases (k : Kernel P M) (log sqrt : R → R) (fuel : ℕ) (rng : ℕ → ℕ)
    (m1 m2 : List P) (model : M) (mask : List ℕ) (confidence : R) (maxIters : ℤ)
    (res : RunResult P M R)
    (hrun : CvModelEstimator2.runLMeDS rd k log sqrt fuel rng m1 m2 model mask confidence
      maxIters = .ok res) :
    ((m1.length : ℤ) < k.modelPoints ∧ res = ⟨false, model, mask, [], 0⟩) ∨
    ∃ (s : CvModelEstimator2.LmedsState P M R) (exited : Bool),
      CvModelEstimator2.lmedsLoop rd k rng m1 m2
        (CvModelEstimator2.lmedsNiters log confidence k.modelPoints maxIters) fuel 0
        (CvModelEstimator2.lmedsInit k m1 m2 model) = .ok (s, exited) ∧
      res = CvModelEstimator2.lmedsFinish rd k sqrt m1 m2 mask s exited := by
  unfold CvModelEstimator2.runLMeDS at hrun
  by_cases hsize : ¬(m1.length = m2.length ∧ m1.length = mask.length)
  · rw [if_pos hsize] at hrun
    cases hrun
  · rw [if_neg hsize] at hrun
    by_cases hshort : (m1.length : ℤ) < k.modelPoints
    · rw [if_pos hshort] at hrun
      cases hrun
      exact Or.inl ⟨hshort, rfl⟩
    · rw [if_neg hshort] at hrun
      right
      cases hloop : CvModelEstimator2.lmedsLoop rd k rng m1 m2
          (CvModelEstimator2.lmedsNiters log confidence k.modelPoints maxIters) fuel 0
          (CvModelEstimator2.lmedsInit k m1 m2 model : CvModelEstimator2.LmedsState P M R) with
      | error e =>
        rw [hloop] at hrun
        cases hrun
      | ok r =>
        obtain ⟨s, exited⟩ := r
        rw [hloop] at hrun
        simp only [Except.ok.injEq] at hrun
        exact ⟨s, exited, rfl, hrun.symm⟩

omit [FloorRing R] in
/-- Induction over the trials of `runLMeDS`: a property of the loop counter and the state
that is kept by the recording of a call of `getSubset` and by a trial, both entered with
`0 <= iter < niters`, holds when the loop is left. -/
theorem lmedsLoop_induct (k : Kernel P M) (rng : ℕ → ℕ) (m1 m2 : List P) (niters : ℤ)
    (J : ℤ → CvModelEstimator2.LmedsState P M R → Prop)
    (hsub : ∀ (iter : ℤ) (s : CvModelEstimator2.LmedsState P M R) (found : Bool)
      (g : CvModelEstimator2.SubsetState P), 0 ≤ iter → iter < niters → J iter s →
      J iter { s with ms1 := g.ms1, ms2 := g.ms2, pos := g.pos,
                      trace := s.trace ++ [.subset found (g.pos - s.pos)] })
    (htrial : ∀ (iter : ℤ) (s : CvModelEstimator2.LmedsState P M R), 0 ≤ iter →
      iter < niters → J iter s → J (iter + 1) (CvModelEstimator2.lmedsTrial rd k m1 m2 s))
    (fuel : ℕ) (iter : ℤ) (s s' : CvModelEstimator2.LmedsState P M R) (exited : Bool)
    (hiter : 0 ≤ iter) (hinv : J iter s)
    (hrun : CvModelEstimator2.lmedsLoop rd k rng m1 m2 niters fuel iter s = .ok (s', exited)) :
    ∃ iter', 0 ≤ iter' ∧ J iter' s' := by
  induction fuel generalizing iter s with
  | zero =>
    unfold CvModelEstimator2.lmedsLoop at hrun
    cases hrun
  | succ fuel ih =>
    unfold CvModelEstimator2.lmedsLoop at hrun
    by_cases hlt : iter < niters
    · rw [if_pos hlt] at hrun
      by_cases hcount : (m1.length : ℤ) > k.modelPoints
      · rw [if_pos hcount] at hrun
        cases hsubset : CvModelEstimator2.getSubset k fuel rng s.pos m1 m2 s.ms1 s.ms2 300 with
        | none =>
          rw [hsubset] at hrun
          cases hrun
        | some r =>
          obtain ⟨found, g⟩ := r
          rw [hsubset] at hrun
          simp only at hrun
          have h1 := hsub iter s found g hiter hlt hinv
          cases found
          · simp only [Bool.not_false, if_true] at hrun
            by_cases h0 : iter = 0
            · rw [if_pos h0] at hrun
              cases hrun
              exact ⟨iter, hiter, h1⟩
            · rw [if_neg h0] at hrun
              cases hrun
              exact ⟨iter, hiter, h1⟩
          · simp only [Bool.not_true, Bool.false_eq_true, if_false] at hrun
            refine ih (iter + 1) _ (by omega) ?_ hrun
            exact htrial iter _ hiter hlt h1
      · rw [if_neg hcount] at hrun
        exact ih (iter + 1) _ (by omega) (htrial iter s hiter hlt hinv) hrun
    · rw [if_neg hlt] at hrun
      cases hrun
      exact ⟨iter, hiter, hinv⟩

omit [FloorRing R] in
/-- The loop of `runLMeDS` is left through `EXIT` only in its first round, right after the
failed call of `getSubset`. -/
theorem lmedsLoop_exited (k : Kernel P M) (rng : ℕ → ℕ) (m1 m2 : List P) (niters : ℤ)
    (fuel : ℕ) (iter : ℤ) (s s' : CvModelEstimator2.LmedsState P M R) (hiter : 0 ≤ iter)
    (hrun : CvModelEstimator2.lmedsLoop rd k rng m1 m2 niters fuel iter s = .ok (s', true)) :
    iter = 0 ∧ ∃ d, s'.trace = s.trace ++ [.subset false d] := by
  induction fuel generalizing iter s with
  | zero =>
    unfold CvModelEstimator2.lmedsLoop at hrun
    cases hrun
  | succ fuel ih =>
    unfold CvModelEstimator2.lmedsLoop at hrun
    by_cases hlt : iter < niters
    · rw [if_pos hlt] at hrun
      by_cases hcount : (m1.length : ℤ) > k.modelPoints
      · rw [if_pos hcount] at hrun
        cases hsubset : CvModelEstimator2.getSubset k fuel rng s.pos m1 m2 s.ms1 s.ms2 300 with
        | none =>
          rw [hsubset] at hrun
          cases hrun
        | some r =>
          obtain ⟨found, g⟩ := r
          rw [hsubset] at hrun
          simp only at hrun
          cases found
          · simp only [Bool.not_false, if_true] at hrun
            by_cases h0 : iter = 0
            · rw [if_pos h0] at hrun
              cases hrun
              exact ⟨h0, _, rfl⟩
            · rw [if_neg h0] at hrun
              cases hrun
          · simp only [Bool.not_true, Bool.false_eq_true, if_false] at hrun
            have := (ih (iter + 1) _ (by omega) hrun).1
            omega
      · rw [if_neg hcount] at hrun
        have := (ih (iter + 1) _ (by omega) hrun).1
        omega
    · rw [if_neg hlt] at hrun
      cases hrun

end CasesLemmas

section BudgetLemmas

variable {P M : Type} {rd : Rounding ℝ}

theorem budgets_other {R : Type} (e : Event P M R) (he : e.isScored = false) :
    budgets [e] = [] := by
  cases e <;> first | rfl | cases he

theorem budgetInv_other (cap : ℤ) (s s' : CvModelEstimator2.RansacState P M ℝ)
    (e : Event P M ℝ) (hinv : CvModelEstimator2.BudgetInv cap s) (he : e.isScored = false)
    (hmg : s'.maxGoodCount = s.maxGoodCount) (hni : s'.niters = s.niters)
    (htr : s'.trace = s.trace ++ [e]) :
    CvModelEstimator2.BudgetInv cap s' := by
  unfold CvModelEstimator2.BudgetInv at hinv ⊢
  rw [hmg, hni, htr, budgets_append, budgets_other e he, List.append_nil]
  exact hinv

theorem ransacScore_budget (k : Kernel P M) (m1 m2 : List P) (reprojThreshold confidence : ℝ)
    (cap : ℤ) (s s' : CvModelEstimator2.RansacState P M ℝ) (model_i : M)
    (hmp : 1 ≤ k.modelPoints) (hinv : CvModelEstimator2.BudgetInv cap s)
    (hrun : CvModelEstimator2.ransacScore rd k Real.log m1 m2 reprojThreshold confidence s
      model_i = .ok s') :
    CvModelEstimator2.BudgetInv cap s' ∧ kernelCalls s'.trace = kernelCalls s.trace := by
  obtain ⟨hn, hg, hpw, hall⟩ := hinv
  obtain ⟨s'', h1, hn1, hle1, hg1, -, -, -, g, a, htr⟩ :=
    ransacScore_ok k m1 m2 reprojThreshold confidence s model_i (Or.inl hmp) hn hg
  rw [hrun] at h1
  have hs : s' = s'' := Except.ok.inj h1
  subst hs
  have hb : budgets s'.trace = budgets s.trace ++ [s'.niters] := by
    rw [htr, budgets_append]
    rfl
  refine ⟨⟨hn1, hg1, ?_, ?_⟩, ?_⟩
  · rw [hb, ← List.cons_append, List.pairwise_append]
    refine ⟨hpw, List.pairwise_singleton _ _, fun x hx y hy => ?_⟩
    rw [List.mem_singleton.mp hy]
    exact le_trans hle1 (hall x hx)
  · intro b hb'
    rw [hb, ← List.cons_append] at hb'
    rcases List.mem_append.mp hb' with h | h
    · exact le_trans hle1 (hall b h)
    · rw [List.mem_singleton.mp h]
  · rw [htr, kernelCalls_append]
    rfl

theorem ransacModels_budget (k : Kernel P M) (m1 m2 : List P)
    (reprojThreshold confidence : ℝ) (cap : ℤ) (models : ℕ → M) (todo i : ℕ)
    (s s' : CvModelEstimator2.RansacState P M ℝ)
    (hmp : 1 ≤ k.modelPoints) (hinv : CvModelEstimator2.BudgetInv cap s)
    (hrun : CvModelEstimator2.ransacModels rd k Real.log m1 m2 reprojThreshold confidence models
      todo i s = .ok s') :
    CvModelEstimator2.BudgetInv cap s' ∧ kernelCalls s'.trace = kernelCalls s.trace := by
  induction todo generalizing i s with
  | zero =>
    unfold CvModelEstimator2.ransacModels at hrun
    cases hrun
    exact ⟨hinv, rfl⟩
  | succ todo ih =>
    unfold CvModelEstimator2.ransacModels at hrun
    split at hrun
    · cases hrun
    · rename_i s1 hscore
      have h1 := ransacScore_budget k m1 m2 reprojThreshold confidence cap s s1 _ hmp hinv
        hscore
      have h2 := ih _ _ h1.1 hrun
      exact ⟨h2.1, h2.2.trans h1.2⟩

theorem ransacTrial_budget (k : Kernel P M) (m1 m2 : List P)
    (reprojThreshold confidence : ℝ) (cap : ℤ) (s s' : CvModelEstimator2.RansacState P M ℝ)
    (hmp : 1 ≤ k.modelPoints) (hinv : CvModelEstimator2.BudgetInv cap s)
    (hrun : CvModelEstimator2.ransacTrial rd k Real.log m1 m2 reprojThreshold confidence s =
      .ok s') :
    CvModelEstimator2.BudgetInv cap s' ∧ kernelCalls s'.trace = kernelCalls s.trace + 1 := by
  have h1 : CvModelEstimator2.BudgetInv cap
      ({ s with trace := s.trace ++ [.kernel s.ms1 s.ms2 (k.runKernel s.ms1 s.ms2).1] } :
        CvModelEstimator2.RansacState P M ℝ) :=
    budgetInv_other cap s _ (.kernel s.ms1 s.ms2 (k.runKernel s.ms1 s.ms2).1) hinv rfl rfl rfl
      rfl
  have hc : kernelCalls (s.trace ++
      [(.kernel s.ms1 s.ms2 (k.runKernel s.ms1 s.ms2).1 : Event P M ℝ)]) =
      kernelCalls s.trace + 1 := by
    rw [kernelCalls_append]
    rfl
  unfold CvModelEstimator2.ransacTrial at hrun
  simp only at hrun
  split_ifs at hrun
  · cases hrun
    exact ⟨h1, hc⟩
  · have h2 := ransacModels_budget k m1 m2 reprojThreshold confidence cap _ _ _ _ s' hmp h1
      hrun
    exact ⟨h2.1, h2.2.trans hc⟩

end BudgetLemmas

/-- C13: for `maxIters >= 1` and `modelPoints >= 1`, a call of `runRANSAC` makes at most
`maxIters` calls of `runKernel`, and the values that `niters` takes at the scorings of the run
never increase, starting from `maxIters`; a call of `runLMeDS` makes at most `maxIters` calls
of `runKernel`. -/
theorem kernel_calls_le_maxIters {P M : Type} [Inhabited P] (rd : Rounding ℝ)
    (k : Kernel P M) (sqrt : ℝ → ℝ) (fuel : ℕ) (rng : ℕ → ℕ) (m1 m2 : List P) (model : M) (mask : List ℕ)
    (reprojThreshold confidence : ℝ) (maxIters : ℤ)
    (hmax : 1 ≤ maxIters) (hmp : 1 ≤ k.modelPoints) :
    (∀ res, CvModelEstimator2.runRANSAC rd k Real.log fuel rng m1 m2 model mask reprojThreshold
        confidence maxIters = .ok res →
      (kernelCalls res.trace : ℤ) ≤ maxIters ∧
      (maxIters :: budgets res.trace).Pairwise (fun a b => b ≤ a)) ∧
    (∀ res, CvModelEstimator2.runLMeDS rd k Real.log sqrt fuel rng m1 m2 model mask confidence
        maxIters = .ok res →
      (kernelCalls res.trace : ℤ) ≤ maxIters) := by
  constructor
  · intro res hrun
    rcases runRANSAC_cases k Real.log fuel rng m1 m2 model mask reprojThreshold confidence
      maxIters res hrun with h | ⟨s, exited, hloop, hres⟩
    · rw [h]
      exact ⟨by simp [kernelCalls]; omega, by simp [budgets]⟩
    · have hinit : CvModelEstimator2.BudgetInv maxIters
          (CvModelEstimator2.ransacInit k m1 m2 model mask maxIters :
            CvModelEstimator2.RansacState P M ℝ) ∧
          (CvModelEstimator2.ransacInit k m1 m2 model mask maxIters :
            CvModelEstimator2.RansacState P M ℝ).trace = [] := by
        unfold CvModelEstimator2.ransacInit
        split_ifs
        · refine ⟨⟨by show 0 ≤ maxIters; omega, le_rfl, by simp [budgets], ?_⟩, rfl⟩
          intro b hb
          simp only [budgets, List.filterMap_nil, List.mem_singleton] at hb
          rw [hb]
        · refine ⟨⟨zero_le_one, le_rfl, by simp [budgets], ?_⟩, rfl⟩
          intro b hb
          simp only [budgets, List.filterMap_nil, List.mem_singleton] at hb
          rw [hb]
          exact hmax
      obtain ⟨iter', -, hB, -, hcap⟩ := ransacLoop_induct k Real.log rng m1 m2 reprojThreshold
        confidence
        (fun iter s => CvModelEstimator2.BudgetInv maxIters s ∧
          (kernelCalls s.trace : ℤ) ≤ iter ∧ (kernelCalls s.trace : ℤ) ≤ maxIters)
        (fun iter s found g hiter hlt hi => by
          refine ⟨budgetInv_other maxIters s _ (.subset found (g.pos - s.pos)) hi.1 rfl rfl
            rfl rfl, ?_⟩
          have hc : kernelCalls (s.trace ++
              [(.subset found (g.pos - s.pos) : Event P M ℝ)]) = kernelCalls s.trace := by
            rw [kernelCalls_append]
            rfl
          show (kernelCalls (s.trace ++ [_]) : ℤ) ≤ iter ∧
            (kernelCalls (s.trace ++ [_]) : ℤ) ≤ maxIters
          rw [hc]
          exact hi.2)
        (fun iter s s2 hiter hlt hi htr => by
          have h := ransacTrial_budget k m1 m2 reprojThreshold confidence maxIters s s2 hmp
            hi.1 htr
          have hle : s.niters ≤ maxIters := hi.1.2.2.2 maxIters (List.mem_cons_self _ _)
          refine ⟨h.1, ?_, ?_⟩
          · rw [h.2]
            push_cast
            omega
          · rw [h.2]
            push_cast
            omega)
        fuel 0 _ s exited le_rfl
        ⟨hinit.1, by rw [hinit.2]; simp [kernelCalls], by rw [hinit.2]; simp [kernelCalls]; omega⟩
        hloop
      rw [hres, ransacFinish_trace]
      exact ⟨hcap, hB.2.2.1⟩
  · intro res hrun
    rcases runLMeDS_cases k Real.log sqrt fuel rng m1 m2 model mask confidence maxIters res
      hrun with ⟨-, h⟩ | ⟨s, exited, hloop, hres⟩
    · rw [h]
      simp [kernelCalls]
      omega
    · have hinit : (CvModelEstimator2.lmedsInit k m1 m2 model :
            CvModelEstimator2.LmedsState P M ℝ).trace = [] := by
        unfold CvModelEstimator2.lmedsInit
        split_ifs <;> rfl
      have hni : CvModelEstimator2.lmedsNiters Real.log confidence k.modelPoints maxIters ≤
          maxIters := min_le_right _ _
      obtain ⟨iter', -, -, hcap⟩ := lmedsLoop_induct k rng m1 m2
        (CvModelEstimator2.lmedsNiters Real.log confidence k.modelPoints maxIters)
        (fun iter s => (kernelCalls s.trace : ℤ) ≤ iter ∧ (kernelCalls s.trace : ℤ) ≤ maxIters)
        (fun iter s found g hiter hlt hi => by
          have hc : kernelCalls (s.trace ++
              [(.subset found (g.pos - s.pos) : Event P M ℝ)]) = kernelCalls s.trace := by
            rw [kernelCalls_append]
            rfl
          show (kernelCalls (s.trace ++ [_]) : ℤ) ≤ iter ∧
            (kernelCalls (s.trace ++ [_]) : ℤ) ≤ maxIters
          rw [hc]
          exact hi)
        (fun iter s hiter hlt hi => by
          have h := (@lmedsTrial_calls P M ℝ _ rd k m1 m2 s).1
          refine ⟨?_, ?_⟩
          · rw [h]
            push_cast
            omega
          · rw [h]
            push_cast
            omega)
        fuel 0 _ s exited le_rfl
        ⟨by rw [hinit]; simp [kernelCalls], by rw [hinit]; simp [kernelCalls]; omega⟩
        hloop
      have htr : (CvModelEstimator2.lmedsFinish rd k sqrt m1 m2 mask s exited).trace =
          s.trace := by
        unfold CvModelEstimator2.lmedsFinish
        split_ifs <;> rfl
      rw [hres, htr]
      exact hcap

/-- Witness for C13: the runs `exampleRun_ransac` and `exampleRun_lmeds`, both with
`maxIters = 1`. -/
theorem kernel_calls_le_maxIters_witness :
    ((kernelCalls ([.subset true 4, .kernel [0, 1, 2, 3] [0, 1, 2, 3] 1,
        .scored 6 3 false 1] : List (Event ℕ ℕ ℝ)) : ℤ) ≤ 1 ∧
      ((1 : ℤ) :: budgets ([.subset true 4, .kernel [0, 1, 2, 3] [0, 1, 2, 3] 1,
        .scored 6 3 false 1] : List (Event ℕ ℕ ℝ))).Pairwise (fun a b => b ≤ a)) ∧
    (kernelCalls ([.subset true 4, .kernel [0, 1, 2, 3] [0, 1, 2, 3] 1,
        .median 6 (Dbl.fin 0) true] : List (Event ℕ ℕ ℝ)) : ℤ) ≤ 1 :=
  ⟨(kernel_calls_le_maxIters Rounding.ieee exampleKernel Real.sqrt 10 (fun n => n) [0, 1, 2, 3, 4]
      [0, 1, 2, 3, 4] 77 [9, 9, 9, 9, 9] 1 (1 / 2) 1 (by decide) (by decide)).1 _
      exampleRun_ransac,
    (kernel_calls_le_maxIters Rounding.ieee exampleKernel Real.sqrt 10 (fun n => n) [0, 1, 2, 3, 4]
      [0, 1, 2, 3, 4] 77 [9, 9, 9, 9, 9] 1 (1 / 2) 1 (by decide) (by decide)).2 _
      exampleRun_lmeds⟩

/-! ## The arguments `maxIters` and `reprojThreshold` -/

section ArgumentLemmas

variable {P M R : Type} [LinearOrderedField R] [FloorRing R] [Inhabited P] {rd : Rounding R}

omit [FloorRing R] [Inhabited P] in
theorem findInliers_neg (k : Kernel P M) (m1 m2 : List P) (model : M) (mask : List ℕ)
    (t : R) :
    CvModelEstimator2.findInliers rd k m1 m2 model mask (Dbl.fin (-t)) =
      CvModelEstimator2.findInliers rd k m1 m2 model mask (Dbl.fin t) := by
  unfold CvModelEstimator2.findInliers
  simp only [Dbl.mul, neg_mul_neg]

omit [Inhabited P] in
theorem ransacScore_neg (k : Kernel P M) (log : R → R) (m1 m2 : List P)
    (reprojThreshold confidence : R) (s : CvModelEstimator2.RansacState P M R) (model_i : M) :
    CvModelEstimator2.ransacScore rd k log m1 m2 (-reprojThreshold) confidence s model_i =
      CvModelEstimator2.ransacScore rd k log m1 m2 reprojThreshold confidence s model_i := by
  unfold CvModelEstimator2.ransacScore
  rw [findInliers_neg]

omit [Inhabited P] in
theorem ransacModels_neg (k : Kernel P M) (log : R → R) (m1 m2 : List P)
    (reprojThreshold confidence : R) (models : ℕ → M) (todo i : ℕ)
    (s : CvModelEstimator2.RansacState P M R) :
    CvModelEstimator2.ransacModels rd k log m1 m2 (-reprojThreshold) confidence models todo i s =
      CvModelEstimator2.ransacModels rd k log m1 m2 reprojThreshold confidence models todo i
        s := by
  induction todo generalizing i s with
  | zero => rfl
  | succ todo ih =>
    unfold CvModelEstimator2.ransacModels
    simp only [ransacScore_neg, ih]

omit [Inhabited P] in
theorem ransacTrial_neg (k : Kernel P M) (log : R → R) (m1 m2 : List P)
    (reprojThreshold confidence : R) (s : CvModelEstimator2.RansacState P M R) :
    CvModelEstimator2.ransacTrial rd k log m1 m2 (-reprojThreshold) confidence s =
      CvModelEstimator2.ransacTrial rd k log m1 m2 reprojThreshold confidence s := by
  unfold CvModelEstimator2.ransacTrial
  simp only [ransacModels_neg]

theorem ransacLoop_neg (k : Kernel P M) (log : R → R) (rng : ℕ → ℕ) (m1 m2 : List P)
    (reprojThreshold confidence : R) (fuel : ℕ) (iter : ℤ)
    (s : CvModelEstimator2.RansacState P M R) :
    CvModelEstimator2.ransacLoop rd k log rng m1 m2 (-reprojThreshold) confidence fuel iter s =
      CvModelEstimator2.ransacLoop rd k log rng m1 m2 reprojThreshold confidence fuel iter s := by
  induction fuel generalizing iter s with
  | zero => rfl
  | succ fuel ih =>
    unfold CvModelEstimator2.ransacLoop
    simp only [ransacTrial_neg, ih]

/-- The threshold of `runRANSAC` is used only through its square: the call with `-t` is the
call with `t`. -/
theorem runRANSAC_neg (k : Kernel P M) (log : R → R) (fuel : ℕ) (rng : ℕ → ℕ)
    (m1 m2 : List P) (model : M) (mask : List ℕ) (reprojThreshold confidence : R)
    (maxIters : ℤ) :
    CvModelEstimator2.runRANSAC rd k log fuel rng m1 m2 model mask (-reprojThreshold) confidence
        maxIters =
      CvModelEstimator2.runRANSAC rd k log fuel rng m1 m2 model mask reprojThreshold confidence
        maxIters := by
  unfold CvModelEstimator2.runRANSAC
  simp only [ransacLoop_neg]

/-- With more correspondences than model points and `maxIters <= 0`, `runRANSAC` returns
false without a trial. -/
theorem runRANSAC_no_trial (k : Kernel P M) (log : R → R) (fuel : ℕ) (rng : ℕ → ℕ)
    (m1 m2 : List P) (model : M) (mask : List ℕ) (reprojThreshold confidence : R)
    (maxIters : ℤ) (hsize : m1.length = m2.length ∧ m1.length = mask.length)
    (hmax : maxIters ≤ 0) (hfuel : 1 ≤ fuel) (hN : k.modelPoints < m1.length) :
    CvModelEstimator2.runRANSAC rd k log fuel rng m1 m2 model mask reprojThreshold confidence
      maxIters = .ok ⟨false, model, mask, [], 0⟩ := by
  obtain ⟨fuel, rfl⟩ : ∃ f, fuel = f + 1 := ⟨fuel - 1, by omega⟩
  have hinit : (CvModelEstimator2.ransacInit k m1 m2 model mask maxIters :
      CvModelEstimator2.RansacState P M R) =
      ⟨maxIters, 0, model, mask, List.replicate m1.length 0, false,
        List.replicate k.modelPoints.toNat default,
        List.replicate k.modelPoints.toNat default, 0, []⟩ := by
    unfold CvModelEstimator2.ransacInit
    rw [if_pos hN]
  unfold CvModelEstimator2.runRANSAC
  rw [if_neg (not_not.mpr hsize), if_neg (by omega), hinit,
    ransacLoop_done rd k log rng m1 m2 reprojThreshold confidence fuel 0 _
      (by show ¬ (0 : ℤ) < maxIters; omega)]
  rfl

/-- With `maxIters <= 0`, `runLMeDS` returns false without a trial. -/
theorem runLMeDS_no_trial (k : Kernel P M) (log sqrt : R → R) (fuel : ℕ) (rng : ℕ → ℕ)
    (m1 m2 : List P) (model : M) (mask : List ℕ) (confidence : R)
    (maxIters : ℤ) (hsize : m1.length = m2.length ∧ m1.length = mask.length)
    (hmax : maxIters ≤ 0) (hfuel : 1 ≤ fuel) :
    CvModelEstimator2.runLMeDS rd k log sqrt fuel rng m1 m2 model mask confidence maxIters =
      .ok ⟨false, model, mask, [], 0⟩ := by
  obtain ⟨fuel, rfl⟩ : ∃ f, fuel = f + 1 := ⟨fuel - 1, by omega⟩
  have hni : ¬ (0 : ℤ) <
      CvModelEstimator2.lmedsNiters log confidence k.modelPoints maxIters := by
    have : CvModelEstimator2.lmedsNiters log confidence k.modelPoints maxIters ≤ maxIters :=
      min_le_right _ _
    omega
  have hinit : (CvModelEstimator2.lmedsInit k m1 m2 model :
      CvModelEstimator2.LmedsState P M R).minMedian = Dbl.fin DBL_MAX ∧
      (CvModelEstimator2.lmedsInit k m1 m2 model :
        CvModelEstimator2.LmedsState P M R).model = model ∧
      (CvModelEstimator2.lmedsInit k m1 m2 model :
        CvModelEstimator2.LmedsState P M R).trace = [] ∧
      (CvModelEstimator2.lmedsInit k m1 m2 model :
        CvModelEstimator2.LmedsState P M R).pos = 0 := by
    unfold CvModelEstimator2.lmedsInit
    split_ifs <;> exact ⟨rfl, rfl, rfl, rfl⟩
  unfold CvModelEstimator2.runLMeDS
  rw [if_neg (not_not.mpr hsize)]
  by_cases hshort : (m1.length : ℤ) < k.modelPoints
  · rw [if_pos hshort]
  · rw [if_neg hshort, lmedsLoop_done rd k rng m1 m2 _ fuel 0 _ hni]
    simp only
    unfold CvModelEstimator2.lmedsFinish
    rw [if_neg (by decide), if_neg (by rw [hinit.1, dbl_lt_irrefl]; exact Bool.false_ne_true), hinit.2.1,
      hinit.2.2.1, hinit.2.2.2]

end ArgumentLemmas

/-- C12, as stated, fails: `runRANSAC` and `runLMeDS` called with `maxIters = 0` return false
as an ordinary result, and `runRANSAC` called with `reprojThreshold = -1` returns true with
the inliers of the threshold `1`. -/
theorem nonpositive_arguments_accepted :
    CvModelEstimator2.runRANSAC Rounding.ieee exampleKernel Real.log 10 (fun n => n)
        [0, 1, 2, 3, 4] [0, 1, 2, 3, 4] 77 [9, 9, 9, 9, 9] (1 : ℝ) (1 / 2) 0 =
      .ok ⟨false, 77, [9, 9, 9, 9, 9], [], 0⟩ ∧
    CvModelEstimator2.runLMeDS Rounding.ieee exampleKernel Real.log Real.sqrt 10 (fun n => n)
        [0, 1, 2, 3, 4] [0, 1, 2, 3, 4] 77 [9, 9, 9, 9, 9] (1 / 2 : ℝ) 0 =
      .ok ⟨false, 77, [9, 9, 9, 9, 9], [], 0⟩ ∧
    CvModelEstimator2.runRANSAC Rounding.ieee exampleKernel Real.log 10 (fun n => n)
        [0, 1, 2, 1, 0] [0, 1, 2, 1, 0] 77 [9, 9, 9, 9, 9] (-1 : ℝ) (1 / 2) 5 =
      .ok ⟨true, 4, [1, 1, 1, 1, 1],
        [.subset true 4, .kernel [0, 1, 2, 1] [0, 1, 2, 1] 1, .scored 4 5 true 0], 4⟩ :=
  ⟨@runRANSAC_no_trial ℕ ℕ ℝ _ _ _ Rounding.ieee exampleKernel Real.log 10 (fun n => n) [0, 1, 2, 3, 4] [0, 1, 2, 3, 4]
      77 [9, 9, 9, 9, 9] 1 (1 / 2) 0 ⟨rfl, rfl⟩ (by decide) (by decide) (by decide),
    @runLMeDS_no_trial ℕ ℕ ℝ _ _ _ Rounding.ieee exampleKernel Real.log Real.sqrt 10 (fun n => n) [0, 1, 2, 3, 4]
      [0, 1, 2, 3, 4] 77 [9, 9, 9, 9, 9] (1 / 2) 0 ⟨rfl, rfl⟩ (by decide) (by decide),
    (@runRANSAC_neg ℕ ℕ ℝ _ _ _ Rounding.ieee exampleKernel Real.log 10 (fun n => n) [0, 1, 2, 1, 0] [0, 1, 2, 1, 0] 77
      [9, 9, 9, 9, 9] 1 (1 / 2) 5).trans exampleRun_ransac_perfect⟩

/-- C12, amended: the only arguments `runRANSAC` and `runLMeDS` check are the sizes of `m1`,
`m2` and `mask`, whose mismatch ends the call with the error `CV_StsInternal` before any
sampling or kernel call.  For inputs of equal sizes and `maxIters <= 0` the call is not
rejected: `runLMeDS`, and `runRANSAC` when there are more correspondences than model points,
return false without any sampling or kernel call and leave the model and the mask as they
were.  The threshold of `runRANSAC` is not checked either and is used only through its
square: the call with `-reprojThreshold` is the call with `reprojThreshold`. -/
theorem nonpositive_arguments_unchecked {P M R : Type} [LinearOrderedField R] [FloorRing R]
    [Inhabited P] (rd : Rounding R) (k : Kernel P M) (log sqrt : R → R) (fuel : ℕ)
    (rng : ℕ → ℕ) (m1 m2 : List P) (model : M) (mask : List ℕ) (reprojThreshold confidence : R)
    (maxIters : ℤ) (hsize : m1.length = m2.length ∧ m1.length = mask.length)
    (hmax : maxIters ≤ 0) (hfuel : 1 ≤ fuel) :
    (k.modelPoints < m1.length →
      CvModelEstimator2.runRANSAC rd k log fuel rng m1 m2 model mask reprojThreshold confidence
        maxIters = .ok ⟨false, model, mask, [], 0⟩) ∧
    CvModelEstimator2.runLMeDS rd k log sqrt fuel rng m1 m2 model mask confidence maxIters =
      .ok ⟨false, model, mask, [], 0⟩ ∧
    (∀ n : ℤ, CvModelEstimator2.runRANSAC rd k log fuel rng m1 m2 model mask (-reprojThreshold)
        confidence n =
      CvModelEstimator2.runRANSAC rd k log fuel rng m1 m2 model mask reprojThreshold confidence
        n) ∧
    (∀ (m2' : List P) (mask' : List ℕ),
      ¬(m1.length = m2'.length ∧ m1.length = mask'.length) →
      CvModelEstimator2.runRANSAC rd k log fuel rng m1 m2' model mask' reprojThreshold confidence
        maxIters = .error .stsInternal ∧
      CvModelEstimator2.runLMeDS rd k log sqrt fuel rng m1 m2' model mask' confidence maxIters =
        .error .stsInternal) := by
  refine ⟨fun hN => runRANSAC_no_trial k log fuel rng m1 m2 model mask reprojThreshold
    confidence maxIters hsize hmax hfuel hN,
    runLMeDS_no_trial k log sqrt fuel rng m1 m2 model mask confidence maxIters hsize hmax
      hfuel,
    fun n => runRANSAC_neg k log fuel rng m1 m2 model mask reprojThreshold confidence n, ?_⟩
  intro m2' mask' hbad
  constructor
  · unfold CvModelEstimator2.runRANSAC
    rw [if_pos hbad]
  · unfold CvModelEstimator2.runLMeDS
    rw [if_pos hbad]

/-- Witness for C12 (amended): `exampleKernel` with five correspondences and
`maxIters = 0`. -/
theorem nonpositive_arguments_unchecked_witness :
    (exampleKernel.modelPoints < (([0, 1, 2, 3, 4] : List ℕ).length : ℤ) →
      CvModelEstimator2.runRANSAC Rounding.ieee exampleKernel Real.log 10 (fun n => n)
          [0, 1, 2, 3, 4] [0, 1, 2, 3, 4] 77 [9, 9, 9, 9, 9] (1 : ℝ) (1 / 2) 0 =
        .ok ⟨false, 77, [9, 9, 9, 9, 9], [], 0⟩) ∧
    CvModelEstimator2.runLMeDS Rounding.ieee exampleKernel Real.log Real.sqrt 10 (fun n => n)
        [0, 1, 2, 3, 4] [0, 1, 2, 3, 4] 77 [9, 9, 9, 9, 9] (1 / 2 : ℝ) 0 =
      .ok ⟨false, 77, [9, 9, 9, 9, 9], [], 0⟩ :=
  ⟨(nonpositive_arguments_unchecked Rounding.ieee exampleKernel Real.log Real.sqrt 10 (fun n => n)
      [0, 1, 2, 3, 4] [0, 1, 2, 3, 4] 77 [9, 9, 9, 9, 9] (1 : ℝ) (1 / 2) 0 ⟨rfl, rfl⟩
      (by decide) (by decide)).1,
    (nonpositive_arguments_unchecked Rounding.ieee exampleKernel Real.log Real.sqrt 10 (fun n => n)
      [0, 1, 2, 3, 4] [0, 1, 2, 3, 4] 77 [9, 9, 9, 9, 9] (1 : ℝ) (1 / 2) 0 ⟨rfl, rfl⟩
      (by decide) (by decide)).2.1⟩

/-! ## The best candidate of `runLMeDS` -/

section MedianBounds

variable {R : Type} [LinearOrderedField R]

end MedianBounds

section MedianLemmas2

variable {P M R : Type} [LinearOrderedField R] {rd : Rounding R}

/-- The median that `runLMeDS` computes is never a NaN: the two central errors are finite
`float` values, so their sum is a number or an infinity, and so is its half. -/
theorem lmedsMedian_ne_nan (rd : Rounding R) (err : List CFloat) (count : ℕ) :
    CvModelEstimator2.lmedsMedian rd err count ≠ Dbl.nan := by
  unfold CvModelEstimator2.lmedsMedian
  split_ifs
  · exact fun h => Dbl.noConfusion h
  · simp only [Dbl.add]
    rcases hf : rd.flt ((((err.getD (count / 2 - 1) default).toRat : ℚ) : R) +
        (((err.getD (count / 2) default).toRat : ℚ) : R)) with y | sg | _
    · simp only [Dbl.mul]
      exact rd.dbl_ne_nan _
    · simp only [Dbl.mul]
      rw [if_neg (by norm_num)]
      exact fun h => Dbl.noConfusion h
    · exact absurd hf (rd.flt_ne_nan _)

theorem lmedsScore_median (k : Kernel P M) (m1 m2 : List P)
    (s : CvModelEstimator2.LmedsState P M R) (model_i : M)
    (hinv : CvModelEstimator2.MedianInv rd k m1 m2 s) :
    CvModelEstimator2.MedianInv rd k m1 m2
      (CvModelEstimator2.lmedsScore rd k m1 m2 s model_i) := by
  obtain ⟨hnn, hle, hall, hbest⟩ := hinv
  have hmn := lmedsMedian_ne_nan rd
    (icvSortDistances (k.computeReprojError m1 m2 model_i) m1.length) m1.length
  unfold CvModelEstimator2.lmedsScore
  simp only
  by_cases hlt : Dbl.lt (CvModelEstimator2.lmedsMedian rd
      (icvSortDistances (k.computeReprojError m1 m2 model_i) m1.length) m1.length)
      s.minMedian = true
  · rw [if_pos hlt]
    have hmax := dbl_lt_of_lt_of_le hlt hle
    refine ⟨hmn, dbl_le_of_lt hmax, ?_, fun _ => ⟨rfl, s.trace, [], rfl, ?_, ?_⟩⟩
    · intro m med a hmem
      rcases List.mem_append.mp hmem with h | h
      · obtain ⟨h1, h2, h3, -⟩ := hall m med a h
        exact ⟨h1, dbl_le_trans (dbl_le_of_lt hlt) h2, h3, fun _ => hmax⟩
      · simp only [List.mem_singleton, Event.median.injEq] at h
        rw [h.2.1]
        exact ⟨hmn, dbl_le_refl hmn, fun _ => hmax, fun _ => hmax⟩
    · intro m med a hmem
      exact dbl_lt_of_lt_of_le hlt (hall m med a hmem).2.1
    · intro m med a hmem
      cases hmem
  · rw [if_neg hlt]
    have hge : Dbl.le s.minMedian (CvModelEstimator2.lmedsMedian rd
        (icvSortDistances (k.computeReprojError m1 m2 model_i) m1.length) m1.length) = true :=
      dbl_le_of_not_lt hmn hnn (by simpa using hlt)
    refine ⟨hnn, hle, ?_, fun hmin => ?_⟩
    · intro m med a hmem
      rcases List.mem_append.mp hmem with h | h
      · exact hall m med a h
      · simp only [List.mem_singleton, Event.median.injEq] at h
        rw [h.2.1, h.2.2]
        exact ⟨hmn, hge, fun hf => absurd hf (by decide), fun hm => dbl_lt_of_le_of_lt hge hm⟩
    · obtain ⟨hmed, pre, post, hsplit, hpre, hpost⟩ := hbest hmin
      refine ⟨hmed, pre, post ++ [.median model_i (CvModelEstimator2.lmedsMedian rd
        (icvSortDistances (k.computeReprojError m1 m2 model_i) m1.length) m1.length) false],
        ?_, hpre, ?_⟩
      · show s.trace ++ _ = _
        rw [hsplit]
        simp
      · intro m med a hmem
        rcases List.mem_append.mp hmem with h | h
        · exact hpost m med a h
        · simp only [List.mem_singleton, Event.median.injEq] at h
          exact h.2.2

/-- An event other than the scoring of a candidate keeps the invariant on the best candidate
of `runLMeDS`. -/
theorem medianInv_other (k : Kernel P M) (m1 m2 : List P)
    (s s' : CvModelEstimator2.LmedsState P M R) (e : Event P M R)
    (hinv : CvModelEstimator2.MedianInv rd k m1 m2 s) (he : e.isMedian = false)
    (hmin : s'.minMedian = s.minMedian) (hmo : s'.model = s.model)
    (htr : s'.trace = s.trace ++ [e]) :
    CvModelEstimator2.MedianInv rd k m1 m2 s' := by
  obtain ⟨hnn, hle, hall, hbest⟩ := hinv
  unfold CvModelEstimator2.MedianInv
  rw [hmin, hmo, htr]
  have hne : ∀ m med a, e ≠ Event.median m med a := by
    intro m med a h
    rw [h] at he
    cases he
  refine ⟨hnn, hle, ?_, fun hlt => ?_⟩
  · intro m med a hmem
    rcases List.mem_append.mp hmem with h | h
    · exact hall m med a h
    · exact absurd (List.mem_singleton.mp h).symm (hne _ _ _)
  · obtain ⟨hmed, pre, post, hsplit, hpre, hpost⟩ := hbest hlt
    refine ⟨hmed, pre, post ++ [e], ?_, hpre, ?_⟩
    · rw [hsplit]
      simp
    · intro m med a hmem
      rcases List.mem_append.mp hmem with h | h
      · exact hpost m med a h
      · exact absurd (List.mem_singleton.mp h).symm (hne _ _ _)

theorem lmedsModels_median (k : Kernel P M) (m1 m2 : List P) (models : ℕ → M) (todo i : ℕ)
    (s : CvModelEstimator2.LmedsState P M R)
    (hinv : CvModelEstimator2.MedianInv rd k m1 m2 s) :
    CvModelEstimator2.MedianInv rd k m1 m2
      (CvModelEstimator2.lmedsModels rd k m1 m2 models todo i s) := by
  induction todo generalizing i s with
  | zero => exact hinv
  | succ todo ih =>
    unfold CvModelEstimator2.lmedsModels
    exact ih _ _ (lmedsScore_median k m1 m2 s _ hinv)

theorem lmedsTrial_median (k : Kernel P M) (m1 m2 : List P)
    (s : CvModelEstimator2.LmedsState P M R)
    (hinv : CvModelEstimator2.MedianInv rd k m1 m2 s) :
    CvModelEstimator2.MedianInv rd k m1 m2 (CvModelEstimator2.lmedsTrial rd k m1 m2 s) := by
  have h1 : CvModelEstimator2.MedianInv rd k m1 m2
      ({ s with trace := s.trace ++ [.kernel s.ms1 s.ms2 (k.runKernel s.ms1 s.ms2).1] } :
        CvModelEstimator2.LmedsState P M R) :=
    medianInv_other k m1 m2 s _ (.kernel s.ms1 s.ms2 (k.runKernel s.ms1 s.ms2).1) hinv rfl rfl
      rfl rfl
  unfold CvModelEstimator2.lmedsTrial
  simp only
  split_ifs
  · exact h1
  · exact lmedsModels_median k m1 m2 _ _ _ _ h1

/-- The invariant on the best candidate holds when the loop of `runLMeDS` is left. -/
theorem lmedsLoop_median [Inhabited P] (k : Kernel P M) (rng : ℕ → ℕ) (m1 m2 : List P)
    (niters : ℤ) (model : M) (fuel : ℕ) (s : CvModelEstimator2.LmedsState P M R)
    (exited : Bool)
    (hrun : CvModelEstimator2.lmedsLoop rd k rng m1 m2 niters fuel 0
      (CvModelEstimator2.lmedsInit k m1 m2 model) = .ok (s, exited)) :
    CvModelEstimator2.MedianInv rd k m1 m2 s ∧
    (exited = true → ∃ d, s.trace = [.subset false d]) := by
  have hinit : CvModelEstimator2.MedianInv rd k m1 m2
      (CvModelEstimator2.lmedsInit k m1 m2 model : CvModelEstimator2.LmedsState P M R) ∧
      (CvModelEstimator2.lmedsInit k m1 m2 model :
        CvModelEstimator2.LmedsState P M R).trace = [] := by
    have hgen : ∀ a b : List P, CvModelEstimator2.MedianInv rd k m1 m2
        (⟨Dbl.fin DBL_MAX, model, a, b, 0, []⟩ : CvModelEstimator2.LmedsState P M R) := by
      intro a b
      refine ⟨fun h => Dbl.noConfusion h, dbl_le_refl (fun h => Dbl.noConfusion h), ?_,
        fun h => ?_⟩
      · intro m med a h
        cases h
      · rw [dbl_lt_irrefl] at h
        cases h
    unfold CvModelEstimator2.lmedsInit
    split_ifs
    · exact ⟨hgen _ _, rfl⟩
    · exact ⟨hgen _ _, rfl⟩
  constructor
  · obtain ⟨_, _, h⟩ := lmedsLoop_induct k rng m1 m2 niters
      (fun _ s => CvModelEstimator2.MedianInv rd k m1 m2 s)
      (fun iter s found g _ _ hi =>
        medianInv_other k m1 m2 s _ (.subset found (g.pos - s.pos)) hi rfl rfl rfl rfl)
      (fun iter s _ _ hi => lmedsTrial_median k m1 m2 s hi)
      fuel 0 _ s exited le_rfl hinit.1 hrun
    exact h
  · intro he
    rw [he] at hrun
    obtain ⟨-, d, hd⟩ := lmedsLoop_exited k rng m1 m2 niters fuel 0 _ s le_rfl hrun
    rw [hinit.2] at hd
    exact ⟨d, hd⟩

theorem lmedsFinish_fields (k : Kernel P M) (sqrt : R → R) (m1 m2 : List P) (mask : List ℕ)
    (s : CvModelEstimator2.LmedsState P M R) (exited : Bool) :
    (CvModelEstimator2.lmedsFinish rd k sqrt m1 m2 mask s exited).model = s.model ∧
    (CvModelEstimator2.lmedsFinish rd k sqrt m1 m2 mask s exited).trace = s.trace := by
  unfold CvModelEstimator2.lmedsFinish
  split_ifs <;> exact ⟨rfl, rfl⟩

end MedianLemmas2

/-- C15: if a run of `runLMeDS` scores a candidate whose median is below `DBL_MAX` (as every
median that is a number is, the errors being `float` values), then the model left in the
output is a candidate adopted during the run, the final `minMedian` is the median of its
errors as `runLMeDS` computes it, and the trace of the run consists of candidates with a
median above `minMedian`, the adoption of that model with the median `minMedian`, and
candidates whose median is at least `minMedian` and that were not adopted.  The medians are
`double` values, compared as the code compares them. -/
theorem runLMeDS_min_median {P M R : Type} [LinearOrderedField R] [FloorRing R]
    [Inhabited P] (rd : Rounding R) (k : Kernel P M) (log sqrt : R → R) (fuel : ℕ)
    (rng : ℕ → ℕ) (m1 m2 : List P) (model : M) (mask : List ℕ) (confidence : R)
    (maxIters : ℤ) (res : RunResult P M R)
    (hrun : CvModelEstimator2.runLMeDS rd k log sqrt fuel rng m1 m2 model mask confidence
      maxIters = .ok res)
    (hscored : ∃ m med a, Event.median m med a ∈ res.trace ∧
      Dbl.lt med (Dbl.fin DBL_MAX) = true) :
    ∃ (s : CvModelEstimator2.LmedsState P M R) (exited : Bool)
      (pre post : List (Event P M R)),
      CvModelEstimator2.lmedsLoop rd k rng m1 m2
        (CvModelEstimator2.lmedsNiters log confidence k.modelPoints maxIters) fuel 0
        (CvModelEstimator2.lmedsInit k m1 m2 model) = .ok (s, exited) ∧
      res.model = s.model ∧
      s.minMedian = CvModelEstimator2.lmedsMedian rd
        (icvSortDistances (k.computeReprojError m1 m2 res.model) m1.length) m1.length ∧
      res.trace = pre ++ Event.median res.model s.minMedian true :: post ∧
      (∀ m med a, Event.median m med a ∈ pre → Dbl.lt s.minMedian med = true) ∧
      (∀ m med a, Event.median m med a ∈ post →
        Dbl.le s.minMedian med = true ∧ a = false) := by
  obtain ⟨m, med, a, hmem, hmed⟩ := hscored
  rcases runLMeDS_cases k log sqrt fuel rng m1 m2 model mask confidence maxIters res hrun
    with ⟨-, h⟩ | ⟨s, exited, hloop, hres⟩
  · rw [h] at hmem
    cases hmem
  · obtain ⟨hinv, -⟩ := lmedsLoop_median k rng m1 m2 _ model fuel s exited hloop
    obtain ⟨-, hle, hall, hbest⟩ := hinv
    have hf := @lmedsFinish_fields P M R _ rd k sqrt m1 m2 mask s exited
    rw [← hres] at hf
    rw [hf.2] at hmem
    have hlt : Dbl.lt s.minMedian (Dbl.fin DBL_MAX) = true := (hall m med a hmem).2.2.2 hmed
    obtain ⟨hmedian, pre, post, hsplit, hpre, hpost⟩ := hbest hlt
    refine ⟨s, exited, pre, post, hloop, hf.1, ?_, ?_, hpre, ?_⟩
    · rw [hf.1]
      exact hmedian
    · rw [hf.2, hf.1]
      exact hsplit
    · intro m' med' a' h'
      refine ⟨(hall m' med' a' ?_).2.1, hpost m' med' a' h'⟩
      rw [hsplit]
      exact List.mem_append_right _ (List.mem_cons_of_mem _ h')
/-! ## The final threshold of `runLMeDS` -/

section MedianCount

variable {R : Type} [LinearOrderedField R]

end MedianCount

section ScoredMedians

variable {P M R : Type} [LinearOrderedField R] {rd : Rounding R}

end ScoredMedians

section FinishLemmas

variable {P M : Type}

end FinishLemmas

/-! ## A run of `runLMeDS` that never returns -/

section ReachedSteps

variable {P M R : Type} [LinearOrderedField R] [Inhabited P]

end ReachedSteps

/-- A run of `runLMeDS` over the reals with `maxIters = 1`: six correspondences, and the fit
of `rankedKernel` yields four candidates whose errors have the medians `2, 1, 1, 3`.  The
first is adopted, the second replaces it, the third, which ties with the second, and the
fourth are not adopted.  The errors of the second candidate are `1, 1, 1, 1, 65536, 65536`;
when `sigma` is finite and its `double` square lies between `1` and `65536`, four inliers are
found and the run returns true.  The arithmetic is any in which the three medians are
computed without rounding. -/
theorem rankedRun_lmeds (rd : Rounding ℝ) (sg sq : ℝ)
    (hmed : ∀ (err : List CFloat) (x : ℝ), (((err.getD 2 default).toRat : ℚ) : ℝ) = x →
      (((err.getD 3 default).toRat : ℚ) : ℝ) = x → (x = 1 ∨ x = 2 ∨ x = 3) →
      CvModelEstimator2.lmedsMedian rd err 6 = Dbl.fin x)
    (hsigma : CvModelEstimator2.lmedsSigma rd Real.sqrt 6 2 (Dbl.fin 1) = Dbl.fin sg)
    (hsq : rd.dbl (sg * sg) = Dbl.fin sq) (h1 : 1 ≤ sq) (h2 : sq < 65536) :
    CvModelEstimator2.runLMeDS rd rankedKernel Real.log Real.sqrt 10 (fun n => n)
        [5, 6, 7, 8, 9, 10] [5, 6, 7, 8, 9, 10] 77 [9, 9, 9, 9, 9, 9] (1 / 2 : ℝ) 1 =
      .ok ⟨true, 1, [1, 1, 1, 1, 0, 0],
        [.subset true 2, .kernel [5, 6] [5, 6] 4, .median 0 (Dbl.fin 2) true,
          .median 1 (Dbl.fin 1) true, .median 2 (Dbl.fin 1) false,
          .median 3 (Dbl.fin 3) false], 2⟩ := by
  have hinit : (CvModelEstimator2.lmedsInit rankedKernel [5, 6, 7, 8, 9, 10]
      [5, 6, 7, 8, 9, 10] 77 : CvModelEstimator2.LmedsState ℕ ℕ ℝ) =
      ⟨Dbl.fin DBL_MAX, 77, [0, 0], [0, 0], 0, []⟩ := rfl
  have hsub : CvModelEstimator2.getSubset rankedKernel 9 (fun n => n) 0 [5, 6, 7, 8, 9, 10]
      [5, 6, 7, 8, 9, 10] [0, 0] [0, 0] 300 =
      some (true, ⟨2, 1, [0, 1], [5, 6], [5, 6], 2, [1, 1, 2, 2]⟩) := rfl
  have hv1 : ((((⟨false, 1065353216, by decide⟩ : CFloat).toRat : ℚ) : ℝ)) = 1 := by
    simp only [CFloat.toRat, CFloat.scaled]
    norm_num
  have hv2 : ((((⟨false, 1073741824, by decide⟩ : CFloat).toRat : ℚ) : ℝ)) = 2 := by
    simp only [CFloat.toRat, CFloat.scaled]
    norm_num
  have hv3 : ((((⟨false, 1077936128, by decide⟩ : CFloat).toRat : ℚ) : ℝ)) = 3 := by
    simp only [CFloat.toRat, CFloat.scaled]
    norm_num
  have hvbig : ((((⟨false, 1199570944, by decide⟩ : CFloat).toRat : ℚ) : ℝ)) = 65536 := by
    simp only [CFloat.toRat, CFloat.scaled]
    norm_num
  have hsorted0 : icvSortDistances
      (rankedKernel.computeReprojError [5, 6, 7, 8, 9, 10] [5, 6, 7, 8, 9, 10] 0) 6 =
      [⟨false, 1073741824, by decide⟩, ⟨false, 1073741824, by decide⟩,
        ⟨false, 1073741824, by decide⟩, ⟨false, 1073741824, by decide⟩,
        ⟨false, 1073741824, by decide⟩, ⟨false, 1073741824, by decide⟩] := by decide
  have hsorted1 : ∀ model : ℕ, model = 1 ∨ model = 2 → icvSortDistances
      (rankedKernel.computeReprojError [5, 6, 7, 8, 9, 10] [5, 6, 7, 8, 9, 10] model) 6 =
      [⟨false, 1065353216, by decide⟩, ⟨false, 1065353216, by decide⟩,
        ⟨false, 1065353216, by decide⟩, ⟨false, 1065353216, by decide⟩,
        ⟨false, 1199570944, by decide⟩, ⟨false, 1199570944, by decide⟩] := by
    intro model hm
    rcases hm with h | h <;> subst h <;> decide
  have hsorted3 : icvSortDistances
      (rankedKernel.computeReprojError [5, 6, 7, 8, 9, 10] [5, 6, 7, 8, 9, 10] 3) 6 =
      [⟨false, 1077936128, by decide⟩, ⟨false, 1077936128, by decide⟩,
        ⟨false, 1077936128, by decide⟩, ⟨false, 1077936128, by decide⟩,
        ⟨false, 1077936128, by decide⟩, ⟨false, 1077936128, by decide⟩] := by decide
  have hm0 : CvModelEstimator2.lmedsMedian rd (icvSortDistances
      (rankedKernel.computeReprojError [5, 6, 7, 8, 9, 10] [5, 6, 7, 8, 9, 10] 0)
        ([5, 6, 7, 8, 9, 10] : List ℕ).length) ([5, 6, 7, 8, 9, 10] : List ℕ).length =
      Dbl.fin 2 := by
    show CvModelEstimator2.lmedsMedian rd (icvSortDistances
      (rankedKernel.computeReprojError [5, 6, 7, 8, 9, 10] [5, 6, 7, 8, 9, 10] 0) 6) 6 = _
    rw [hsorted0]
    exact hmed _ 2 hv2 hv2 (Or.inr (Or.inl rfl))
  have hm1 : ∀ model : ℕ, model = 1 ∨ model = 2 →
      CvModelEstimator2.lmedsMedian rd (icvSortDistances
        (rankedKernel.computeReprojError [5, 6, 7, 8, 9, 10] [5, 6, 7, 8, 9, 10] model)
          ([5, 6, 7, 8, 9, 10] : List ℕ).length) ([5, 6, 7, 8, 9, 10] : List ℕ).length =
      Dbl.fin 1 := by
    intro model hm
    show CvModelEstimator2.lmedsMedian rd (icvSortDistances
      (rankedKernel.computeReprojError [5, 6, 7, 8, 9, 10] [5, 6, 7, 8, 9, 10] model) 6) 6 = _
    rw [hsorted1 model hm]
    exact hmed _ 1 hv1 hv1 (Or.inl rfl)
  have hm3 : CvModelEstimator2.lmedsMedian rd (icvSortDistances
      (rankedKernel.computeReprojError [5, 6, 7, 8, 9, 10] [5, 6, 7, 8, 9, 10] 3)
        ([5, 6, 7, 8, 9, 10] : List ℕ).length) ([5, 6, 7, 8, 9, 10] : List ℕ).length =
      Dbl.fin 3 := by
    show CvModelEstimator2.lmedsMedian rd (icvSortDistances
      (rankedKernel.computeReprojError [5, 6, 7, 8, 9, 10] [5, 6, 7, 8, 9, 10] 3) 6) 6 = _
    rw [hsorted3]
    exact hmed _ 3 hv3 hv3 (Or.inr (Or.inr rfl))
  have hs0 : CvModelEstimator2.lmedsScore rd rankedKernel [5, 6, 7, 8, 9, 10]
      [5, 6, 7, 8, 9, 10]
      (⟨Dbl.fin DBL_MAX, 77, [5, 6], [5, 6], 2, [.subset true 2, .kernel [5, 6] [5, 6] 4]⟩ :
        CvModelEstimator2.LmedsState ℕ ℕ ℝ) 0 =
      ⟨Dbl.fin 2, 0, [5, 6], [5, 6], 2,
        [.subset true 2, .kernel [5, 6] [5, 6] 4, .median 0 (Dbl.fin 2) true]⟩ := by
    rw [lmedsScore_adopt rd rankedKernel _ _ _ 0 (Dbl.fin 2) hm0
      (dbl_lt_DBL_MAX_of_le 2 (by norm_num))]
    rfl
  have hs1 : CvModelEstimator2.lmedsScore rd rankedKernel [5, 6, 7, 8, 9, 10]
      [5, 6, 7, 8, 9, 10]
      (⟨Dbl.fin 2, 0, [5, 6], [5, 6], 2,
        [.subset true 2, .kernel [5, 6] [5, 6] 4, .median 0 (Dbl.fin 2) true]⟩ :
        CvModelEstimator2.LmedsState ℕ ℕ ℝ) 1 =
      ⟨Dbl.fin 1, 1, [5, 6], [5, 6], 2,
        [.subset true 2, .kernel [5, 6] [5, 6] 4, .median 0 (Dbl.fin 2) true,
          .median 1 (Dbl.fin 1) true]⟩ := by
    rw [lmedsScore_adopt rd rankedKernel _ _ _ 1 (Dbl.fin 1) (hm1 1 (Or.inl rfl))
      (by simp only [Dbl.lt, decide_eq_true_iff]; norm_num)]
    rfl
  have hs2 : CvModelEstimator2.lmedsScore rd rankedKernel [5, 6, 7, 8, 9, 10]
      [5, 6, 7, 8, 9, 10]
      (⟨Dbl.fin 1, 1, [5, 6], [5, 6], 2,
        [.subset true 2, .kernel [5, 6] [5, 6] 4, .median 0 (Dbl.fin 2) true,
          .median 1 (Dbl.fin 1) true]⟩ : CvModelEstimator2.LmedsState ℕ ℕ ℝ) 2 =
      ⟨Dbl.fin 1, 1, [5, 6], [5, 6], 2,
        [.subset true 2, .kernel [5, 6] [5, 6] 4, .median 0 (Dbl.fin 2) true,
          .median 1 (Dbl.fin 1) true, .median 2 (Dbl.fin 1) false]⟩ := by
    rw [lmedsScore_keep rd rankedKernel _ _ _ 2 (Dbl.fin 1) (hm1 2 (Or.inr rfl))
      (dbl_lt_irrefl _)]
    rfl
  have hs3 : CvModelEstimator2.lmedsScore rd rankedKernel [5, 6, 7, 8, 9, 10]
      [5, 6, 7, 8, 9, 10]
      (⟨Dbl.fin 1, 1, [5, 6], [5, 6], 2,
        [.subset true 2, .kernel [5, 6] [5, 6] 4, .median 0 (Dbl.fin 2) true,
          .median 1 (Dbl.fin 1) true, .median 2 (Dbl.fin 1) false]⟩ :
        CvModelEstimator2.LmedsState ℕ ℕ ℝ) 3 =
      ⟨Dbl.fin 1, 1, [5, 6], [5, 6], 2,
        [.subset true 2, .kernel [5, 6] [5, 6] 4, .median 0 (Dbl.fin 2) true,
          .median 1 (Dbl.fin 1) true, .median 2 (Dbl.fin 1) false,
          .median 3 (Dbl.fin 3) false]⟩ := by
    rw [lmedsScore_keep rd rankedKernel _ _ _ 3 (Dbl.fin 3) hm3
      (by simp only [Dbl.lt, decide_eq_false_iff_not]; norm_num)]
    rfl
  have htrial : CvModelEstimator2.lmedsTrial rd rankedKernel [5, 6, 7, 8, 9, 10]
      [5, 6, 7, 8, 9, 10]
      (⟨Dbl.fin DBL_MAX, 77, [5, 6], [5, 6], 2, [.subset true 2]⟩ :
        CvModelEstimator2.LmedsState ℕ ℕ ℝ) =
      ⟨Dbl.fin 1, 1, [5, 6], [5, 6], 2,
        [.subset true 2, .kernel [5, 6] [5, 6] 4, .median 0 (Dbl.fin 2) true,
          .median 1 (Dbl.fin 1) true, .median 2 (Dbl.fin 1) false,
          .median 3 (Dbl.fin 3) false]⟩ := by
    have hk : rankedKernel.runKernel [5, 6] [5, 6] = (4, fun i => i) := rfl
    unfold CvModelEstimator2.lmedsTrial
    simp only [hk]
    rw [if_neg (by decide)]
    show CvModelEstimator2.lmedsModels rd rankedKernel [5, 6, 7, 8, 9, 10]
      [5, 6, 7, 8, 9, 10] (fun i => i) 4 0
      (⟨Dbl.fin DBL_MAX, 77, [5, 6], [5, 6], 2, [.subset true 2, .kernel [5, 6] [5, 6] 4]⟩ :
        CvModelEstimator2.LmedsState ℕ ℕ ℝ) = _
    unfold CvModelEstimator2.lmedsModels
    simp only [hs0]
    unfold CvModelEstimator2.lmedsModels
    simp only [Nat.zero_add, hs1]
    unfold CvModelEstimator2.lmedsModels
    simp only [Nat.reduceAdd, hs2]
    unfold CvModelEstimator2.lmedsModels
    simp only [Nat.reduceAdd, hs3]
    rfl
  unfold CvModelEstimator2.runLMeDS
  rw [if_neg (by decide), if_neg (by decide), lmedsNiters_of_le_three _ _ _ _ (by decide),
    hinit, lmedsLoop_sampled rd rankedKernel _ _ _ 1 9 0 _ _ (by decide) (by decide) hsub]
  simp only [Nat.sub_zero, List.nil_append]
  rw [htrial, lmedsLoop_done _ _ _ _ _ _ 8 _ _ (by decide)]
  simp only
  rw [lmedsFinish_fin rd rankedKernel Real.sqrt [5, 6, 7, 8, 9, 10] [5, 6, 7, 8, 9, 10]
    [9, 9, 9, 9, 9, 9]
    (⟨Dbl.fin 1, 1, [5, 6], [5, 6], 2,
      [.subset true 2, .kernel [5, 6] [5, 6] 4, .median 0 (Dbl.fin 2) true,
        .median 1 (Dbl.fin 1) true, .median 2 (Dbl.fin 1) false,
        .median 3 (Dbl.fin 3) false]⟩ : CvModelEstimator2.LmedsState ℕ ℕ ℝ)
    sg sq rfl (dbl_lt_DBL_MAX_of_le 1 (by norm_num)) hsigma hsq]
  have herr : rankedKernel.computeReprojError [5, 6, 7, 8, 9, 10] [5, 6, 7, 8, 9, 10] 1 =
      [⟨false, 1065353216, by decide⟩, ⟨false, 1065353216, by decide⟩,
        ⟨false, 1065353216, by decide⟩, ⟨false, 1065353216, by decide⟩,
        ⟨false, 1199570944, by decide⟩, ⟨false, 1199570944, by decide⟩] := by decide
  have hone : ((((⟨false, 1065353216, by decide⟩ : CFloat).toRat : ℚ) : ℝ)) ≤ sq := by
    rw [hv1]
    exact h1
  have hbig : ¬ ((((⟨false, 1199570944, by decide⟩ : CFloat).toRat : ℚ) : ℝ)) ≤ sq := by
    rw [hvbig]
    exact not_le.mpr h2
  dsimp only
  rw [herr]
  simp only [List.map, if_pos hone, if_neg hbig]
  rfl

/-- The run `rankedRun_lmeds` in IEEE 754 arithmetic. -/
theorem exampleRun_lmeds_ranked :
    CvModelEstimator2.runLMeDS Rounding.ieee rankedKernel Real.log Real.sqrt 10 (fun n => n)
        [5, 6, 7, 8, 9, 10] [5, 6, 7, 8, 9, 10] 77 [9, 9, 9, 9, 9, 9] (1 / 2 : ℝ) 1 =
      .ok ⟨true, 1, [1, 1, 1, 1, 0, 0],
        [.subset true 2, .kernel [5, 6] [5, 6] 4, .median 0 (Dbl.fin 2) true,
          .median 1 (Dbl.fin 1) true, .median 2 (Dbl.fin 1) false,
          .median 3 (Dbl.fin 3) false], 2⟩ := by
  obtain ⟨sg, hsg, hsg1, hsg2⟩ := lmedsSigma_ieee_unit Real.sqrt 1 (by norm_num)
    Real.sqrt_one 6 2 (by decide)
  obtain ⟨sq, hsq, hsq1, hsq2⟩ := ieee_dbl_sq_bounds sg hsg1 hsg2
  refine rankedRun_lmeds Rounding.ieee sg sq ?_ hsg hsq (by linarith) (by linarith)
  intro err x ha hb hx
  have hint : ∀ n : ℤ, |n| < 4 → x = (n : ℝ) →
      CvModelEstimator2.lmedsMedian (Rounding.ieee : Rounding ℝ) err 6 = Dbl.fin x := by
    intro n hn hxn
    unfold CvModelEstimator2.lmedsMedian
    rw [if_neg (by decide)]
    have hidx : (6 / 2 - 1 = 2) ∧ (6 / 2 = 3) := ⟨rfl, rfl⟩
    rw [hidx.1, hidx.2, ha, hb]
    show Dbl.mul (Rounding.ieee : Rounding ℝ).dbl
      ((Rounding.ieee : Rounding ℝ).flt (x + x)) (Dbl.fin 0.5) = Dbl.fin x
    have hsum : x + x = ((2 * n : ℤ) : ℝ) := by
      rw [hxn]
      push_cast
      ring
    have h2n : |2 * n| < 2 ^ 24 := by
      rw [abs_mul]
      have : |(2 : ℤ)| = 2 := rfl
      rw [this]
      omega
    rw [hsum, ieee_flt_int (2 * n) h2n]
    show (Rounding.ieee : Rounding ℝ).dbl (((2 * n : ℤ) : ℝ) * 0.5) = Dbl.fin x
    have hhalf : ((2 * n : ℤ) : ℝ) * 0.5 = ((n : ℤ) : ℝ) := by
      push_cast
      ring
    rw [hhalf, ieee_dbl_int n (lt_trans hn (by norm_num)), hxn]
  rcases hx with h | h | h
  · exact hint 1 (by decide) (by rw [h]; norm_num)
  · exact hint 2 (by decide) (by rw [h]; norm_num)
  · exact hint 3 (by decide) (by rw [h]; norm_num)

/-- Witness for C15: the run `exampleRun_lmeds_ranked` in IEEE 754 arithmetic, whose four
candidates have the medians `2, 1, 1, 3`: the model left in the output is the candidate `1`,
the first with the least median; the candidate before it has a larger median, and the tying
candidate `2` and the candidate `3` after it were not adopted. -/
theorem runLMeDS_min_median_witness :
    CvModelEstimator2.runLMeDS Rounding.ieee rankedKernel Real.log Real.sqrt 10 (fun n => n)
        [5, 6, 7, 8, 9, 10] [5, 6, 7, 8, 9, 10] 77 [9, 9, 9, 9, 9, 9] (1 / 2 : ℝ) 1 =
      .ok ⟨true, 1, [1, 1, 1, 1, 0, 0],
        [.subset true 2, .kernel [5, 6] [5, 6] 4, .median 0 (Dbl.fin 2) true,
          .median 1 (Dbl.fin 1) true, .median 2 (Dbl.fin 1) false,
          .median 3 (Dbl.fin 3) false], 2⟩ ∧
    ∃ (s : CvModelEstimator2.LmedsState ℕ ℕ ℝ) (exited : Bool)
      (pre post : List (Event ℕ ℕ ℝ)),
      CvModelEstimator2.lmedsLoop Rounding.ieee rankedKernel (fun n => n) [5, 6, 7, 8, 9, 10]
        [5, 6, 7, 8, 9, 10]
        (CvModelEstimator2.lmedsNiters Real.log (1 / 2 : ℝ) rankedKernel.modelPoints 1) 10 0
        (CvModelEstimator2.lmedsInit rankedKernel [5, 6, 7, 8, 9, 10] [5, 6, 7, 8, 9, 10]
          77) = .ok (s, exited) ∧
      (1 : ℕ) = s.model ∧
      s.minMedian = CvModelEstimator2.lmedsMedian Rounding.ieee
        (icvSortDistances
          (rankedKernel.computeReprojError [5, 6, 7, 8, 9, 10] [5, 6, 7, 8, 9, 10] 1)
          ([5, 6, 7, 8, 9, 10] : List ℕ).length) ([5, 6, 7, 8, 9, 10] : List ℕ).length ∧
      ([.subset true 2, .kernel [5, 6] [5, 6] 4, .median 0 (Dbl.fin 2) true,
          .median 1 (Dbl.fin 1) true, .median 2 (Dbl.fin 1) false,
          .median 3 (Dbl.fin 3) false] : List (Event ℕ ℕ ℝ)) =
        pre ++ Event.median 1 s.minMedian true :: post ∧
      (∀ m med a, Event.median m med a ∈ pre → Dbl.lt s.minMedian med = true) ∧
      (∀ m med a, Event.median m med a ∈ post →
        Dbl.le s.minMedian med = true ∧ a = false) :=
  ⟨exampleRun_lmeds_ranked,
    runLMeDS_min_median Rounding.ieee rankedKernel Real.log Real.sqrt 10 (fun n => n)
      [5, 6, 7, 8, 9, 10] [5, 6, 7, 8, 9, 10] 77 [9, 9, 9, 9, 9, 9] (1 / 2 : ℝ) 1 _
      exampleRun_lmeds_ranked
      ⟨1, Dbl.fin 1, true, by simp, dbl_lt_DBL_MAX_of_le 1 (by norm_num)⟩⟩

end ModelEst
